import Mathlib

/-!
# BLE AoD positioning (locator): verification development

Shallow embedding of the locator firmware sources
(`iq_data_work_queue.c`, `locator.c`, `beacon_database.c`, `iq_data.c`,
`directional_statistics.c`, `ble_channel_constants.c`,
`chw1010_ant2_specs.c`) and the properties proved about them.  `beacon.c` is
not among the sources: what is needed of it is modelled from `beacon.h` and
marked as such.

Conventions of the embedding.

* A C `int` is a Lean `Int`; the C remainder operator is `Int.tmod`
  (truncation toward zero).  The counters modelled here stay far below
  `2^31`, so no wrap-around is modelled.
* A C array indexed by an `int` is a map from indices to elements; the
  bounds of every index that is used are proved separately.
* A pointer argument that the code tests against `NULL` is an `Option`.
  The pointer to the object a function works on (the queue, the locator)
  is taken to be non-`NULL`: with a `NULL` receiver there is no state.
* `float` arithmetic is embedded in an ordered field `K` (exact
  arithmetic); `sqrtf`, `atan2f`, ... are parameters of the definitions that
  use them and are instantiated with the real functions in the theorems.
* Every spinlock-protected section is one atomic step.  Where interleavings
  of the submit path and the drain handler are studied, the state of the
  `k_work` item (queued or not, handler running or not) is explicit in
  `dispatch_state`.
* Where a claim turns on the rounding of a `float` operation or on the sign
  of a zero, the computation is embedded a second time in binary32
  arithmetic (`binary32_round`, `binary32`), next to the exact one.
* File-scope variables that a function keeps between calls
  (`previous_iq_data`, `first_iteration`) are fields of an explicit state
  that the function takes and returns.
-/

namespace Datbac

/-! ## `iq_data_work_queue.h` / `iq_data_work_queue.c` -/

/-- IQ data work queue capacity (`#define IQ_DATA_WORK_QUEUE_CAPACITY 8`). -/
def IQ_DATA_WORK_QUEUE_CAPACITY : Int := 8

/-- IQ data work queue structure (`struct iq_data_work_queue`).  The frame
type `α` stands for `struct iq_raw_samples`.  `processor` and
`target_work_queue` record whether the respective pointer is non-`NULL`.
The spinlock and the `k_work` item carry no data of their own: every
function below is one critical section (or a sequence of them). -/
structure iq_data_work_queue (α : Type) where
  buffer : Int → α
  processor : Bool
  head : Int
  tail : Int
  count : Int
  target_work_queue : Bool

/-- Function `iq_data_work_queue_init`: returns the queue untouched when
`target_work_queue` or `processor` is `NULL`; otherwise resets `head`, `tail`
and `count` and installs both pointers.  The buffer is not cleared. -/
def iq_data_work_queue_init {α : Type} (q : iq_data_work_queue α)
    (target_work_queue processor : Bool) : iq_data_work_queue α :=
  if target_work_queue = false ∨ processor = false then q
  else
    { q with head := 0, tail := 0, count := 0,
             target_work_queue := target_work_queue, processor := processor }

/-- Function `iq_data_work_queue_submit`: the new queue and whether a dispatch of the
processor work was requested (`k_work_submit_to_queue`).  A `NULL` frame
pointer returns at once. -/
def iq_data_work_queue_submit {α : Type} (q : iq_data_work_queue α)
    (iq_raw_samples : Option α) : iq_data_work_queue α × Bool :=
  match iq_raw_samples with
  | none => (q, false)
  | some frame =>
    let q1 : iq_data_work_queue α :=
      if q.count = IQ_DATA_WORK_QUEUE_CAPACITY then
        { q with tail := Int.tmod (q.tail + 1) IQ_DATA_WORK_QUEUE_CAPACITY,
                 head := Int.tmod (q.head + 1) IQ_DATA_WORK_QUEUE_CAPACITY }
      else
        { q with head := Int.tmod (q.head + 1) IQ_DATA_WORK_QUEUE_CAPACITY,
                 count := q.count + 1 }
    let q2 : iq_data_work_queue α :=
      { q1 with buffer := fun i => if i = q1.head then frame else q1.buffer i }
    let start : Bool := decide (q2.count = 1)
    (q2, start && q2.target_work_queue)

/-- One locked extraction step of `iq_data_work_queue_handler` (the body of
the `while (true)` loop between `k_spin_lock` and `k_spin_unlock`): the
extracted item if any (`current_item_extracted`), `queue_exhausted`, and the
queue afterwards. -/
def iq_data_work_queue_handler_step {α : Type} (q : iq_data_work_queue α) :
    Option α × Bool × iq_data_work_queue α :=
  let r : Option α × iq_data_work_queue α :=
    if q.count > 0 then
      let current_item := q.buffer q.head
      let head := if q.head = 0 then IQ_DATA_WORK_QUEUE_CAPACITY - 1 else q.head - 1
      (some current_item, { q with head := head, count := q.count - 1 })
    else (none, q)
  let queue_exhausted : Bool := decide (r.2.count = 0)
  (r.1, queue_exhausted, r.2)

/-- The `while (true)` loop of `iq_data_work_queue_handler` when no submit
interleaves: the frames handed to the processor, in call order, and the
queue at loop exit.  The loop has no bound in the source, so the model takes
fuel and yields `none` when the fuel runs out before the loop exits. -/
def iq_data_work_queue_handler_loop {α : Type} :
    Nat → iq_data_work_queue α → Option (List α × iq_data_work_queue α)
  | 0, _ => none
  | fuel + 1, q =>
    let r := iq_data_work_queue_handler_step q
    let processed : List α :=
      match r.1 with
      | some current_item => if q.processor then [current_item] else []
      | none => []
    if r.2.1 then some (processed, r.2.2)
    else
      match iq_data_work_queue_handler_loop fuel r.2.2 with
      | some (rest, q1) => some (processed ++ rest, q1)
      | none => none

/-- Function `iq_data_work_queue_handler` when no submit interleaves: the frames
handed to the processor, the queue afterwards, and whether the handler
re-dispatched itself after its final check of `count`. -/
def iq_data_work_queue_handler {α : Type} (fuel : Nat) (q : iq_data_work_queue α) :
    Option (List α × iq_data_work_queue α × Bool) :=
  match iq_data_work_queue_handler_loop fuel q with
  | none => none
  | some (processed, q1) =>
    let start : Bool := decide (q1.count > 0)
    some (processed, q1, start && q1.target_work_queue)

/-- An operation on the queue: a submit of a frame, or one locked extraction
step of the drain handler. -/
inductive QueueOp (α : Type) where
  | submit : α → QueueOp α
  | pop : QueueOp α

/-- Apply one operation; the result of a `pop` is the extracted frame, a
`submit` reports `none`. -/
def QueueOp.apply {α : Type} (q : iq_data_work_queue α) :
    QueueOp α → Option α × iq_data_work_queue α
  | QueueOp.submit f => (none, (iq_data_work_queue_submit q (some f)).1)
  | QueueOp.pop =>
    ((iq_data_work_queue_handler_step q).1, (iq_data_work_queue_handler_step q).2.2)

/-- Run a sequence of operations, collecting the result of every operation. -/
def runQueueOps {α : Type} :
    List (QueueOp α) → iq_data_work_queue α → List (Option α) × iq_data_work_queue α
  | [], q => ([], q)
  | op :: ops, q =>
    let r := QueueOp.apply q op
    let rs := runQueueOps ops r.2
    (r.1 :: rs.1, rs.2)

/-- Submit the frames of a list in order with no drain in between. -/
def submitAll {α : Type} (q : iq_data_work_queue α) : List α → iq_data_work_queue α
  | [] => q
  | f :: fs => submitAll (iq_data_work_queue_submit q (some f)).1 fs

/-- The frames logically held by the queue, newest first: the `count` slots
`head`, `head - 1`, ... read backwards modulo the capacity. -/
def queueContents {α : Type} (q : iq_data_work_queue α) : List α :=
  (List.range q.count.toNat).map (fun (k : Nat) => q.buffer ((q.head - (k : Int)) % 8))

/-! ### The specification: a stack bounded at 8 that drops its bottom -/

/-- Specification of submit, after the spec's words ("LIFO process, FIFO
evict"): push on top; beyond 8 elements the bottom (oldest) one is dropped. -/
def specSubmit {α : Type} (s : List α) (f : α) : List α := (f :: s).take 8

/-- Specification of pop: remove and return the top (newest) element. -/
def specPop {α : Type} (s : List α) : Option α × List α := (s.head?, s.tail)

/-- Run a sequence of operations on the specification stack. -/
def runSpecOps {α : Type} : List (QueueOp α) → List α → List (Option α) × List α
  | [], s => ([], s)
  | QueueOp.submit f :: ops, s =>
    let rs := runSpecOps ops (specSubmit s f)
    (none :: rs.1, rs.2)
  | QueueOp.pop :: ops, s =>
    let rs := runSpecOps ops (specPop s).2
    ((specPop s).1 :: rs.1, rs.2)

/-- A queue with every slot holding `0`, before initialisation. -/
def blankQueue : iq_data_work_queue Nat :=
  { buffer := fun _ => 0, processor := false, head := 0, tail := 0, count := 0,
    target_work_queue := false }

/-- The ring-buffer invariant of the work queue. -/
def QueueInv {α : Type} (q : iq_data_work_queue α) : Prop :=
  0 ≤ q.count ∧ q.count ≤ 8 ∧ 0 ≤ q.head ∧ q.head < 8 ∧ 0 ≤ q.tail ∧ q.tail < 8 ∧
    q.head = (q.tail + q.count) % 8

/-! ## `bt_addr_utils.h` / `bt_addr_utils.c` -/

/-- A Bluetooth device address: `uint8_t[BT_ADDR_SIZE]` with
`BT_ADDR_SIZE = 6`, one component per octet. -/
abbrev bt_addr : Type := Nat × Nat × Nat × Nat × Nat × Nat

/-- Function `bt_addr_mac_compare`: `-EINVAL` (-22) for a `NULL` argument, `1` when the
six octets are equal (`memcmp(...) == 0`), `0` otherwise. -/
def bt_addr_mac_compare (mac_1 mac_2 : Option bt_addr) : Int :=
  match mac_1, mac_2 with
  | some a, some b => if a = b then 1 else 0
  | _, _ => -22

/-! ## `beacon.h` -/

/-- Beacon structure (`struct beacon`): both MAC orderings, the global
position and the orientation basis vectors `i`, `j`, `k`. -/
structure beacon (K : Type) where
  mac_big_endian : bt_addr
  mac_little_endian : bt_addr
  x : K
  y : K
  z : K
  i_x : K
  i_y : K
  i_z : K
  j_x : K
  j_y : K
  j_z : K
  k_x : K
  k_y : K
  k_z : K

/-- Modelled from the spec: `beacon_get_global_direction_cosines` is defined
in `beacon.c`, which is not among the sources; only its declaration and
documentation in `beacon.h` are.  The spec (4.3, Transform) and the header
give `D_global = R D_local` with the basis vectors `i`, `j`, `k` as the
columns of `R`; no input validation. -/
def beacon_get_global_direction_cosines {K : Type} [Field K] (b : beacon K)
    (local_direction_cosine_x local_direction_cosine_y local_direction_cosine_z : K) :
    K × K × K :=
  (local_direction_cosine_x * b.i_x + local_direction_cosine_y * b.j_x
      + local_direction_cosine_z * b.k_x,
   local_direction_cosine_x * b.i_y + local_direction_cosine_y * b.j_y
      + local_direction_cosine_z * b.k_y,
   local_direction_cosine_x * b.i_z + local_direction_cosine_y * b.j_z
      + local_direction_cosine_z * b.k_z)

/-! ## `beacon_database.h` / `beacon_database.c` -/

/-- Constant `#define BEACON_DATABASE_CAPACITY 16`. -/
def BEACON_DATABASE_CAPACITY : Int := 16

/-- Beacon database structure (`struct beacon_database`): the slots of the
array `beacons[BEACON_DATABASE_CAPACITY]` by index, and `count`. -/
structure beacon_database (K : Type) where
  beacons : Nat → beacon K
  count : Int

/-- The `for (int i = 0; i < beacon_db->count; i++)` scan of
`beacon_database_get` over the indices still to visit: the first slot whose
little-endian MAC compares equal. -/
def beacon_database_get_scan {K : Type} (db : beacon_database K) (mac : bt_addr) :
    List Nat → Option (beacon K)
  | [] => none
  | i :: rest =>
    if bt_addr_mac_compare (some mac) (some (db.beacons i).mac_little_endian) = 1 then
      some (db.beacons i)
    else beacon_database_get_scan db mac rest

/-- Function `beacon_database_get`: `Except.ok b` stands for return value `0` with the
beacon copied out, `Except.error r` for the return value `r`: `-EINVAL` (-22)
for a `NULL` database or MAC pointer, `-ENOENT` (-2) when no slot matches. -/
def beacon_database_get {K : Type} (beacon_db : Option (beacon_database K))
    (mac_little_endian : Option bt_addr) : Except Int (beacon K) :=
  match beacon_db, mac_little_endian with
  | some db, some mac =>
    match beacon_database_get_scan db mac (List.range db.count.toNat) with
    | some b => Except.ok b
    | none => Except.error (-2)
  | _, _ => Except.error (-22)

/-- Function `beacon_database_init` on a non-`NULL` database (`NULL` returns `-EINVAL`
before anything is touched): the return value `0` and the database with
`count = 0`; the slots are left as they are. -/
def beacon_database_init {K : Type} (beacon_db : beacon_database K) :
    Int × beacon_database K :=
  (0, { beacon_db with count := 0 })

/-- The `for (int i = 0; i < beacon_db->count; i++)` scan of
`beacon_database_put` over the indices still to visit: the first index whose
little-endian MAC compares equal. -/
def beacon_database_put_scan {K : Type} (db : beacon_database K) (mac : bt_addr) :
    List Nat → Option Nat
  | [] => none
  | i :: rest =>
    if bt_addr_mac_compare (some mac) (some (db.beacons i).mac_little_endian) = 1 then some i
    else beacon_database_put_scan db mac rest

/-- Function `beacon_database_put` on a non-`NULL` database: the return value and the
database afterwards.  `-EINVAL` (-22) for a `NULL` beacon; `0` after
overwriting the first slot with an equal little-endian MAC; otherwise
`-ENOSPC` (-28) when `count >= BEACON_DATABASE_CAPACITY`, else `0` after
writing slot `count` and incrementing `count`. -/
def beacon_database_put {K : Type} (beacon_db : beacon_database K)
    (beacon : Option (beacon K)) : Int × beacon_database K :=
  match beacon with
  | none => (-22, beacon_db)
  | some b =>
    match beacon_database_put_scan beacon_db b.mac_little_endian
        (List.range beacon_db.count.toNat) with
    | some i =>
      (0, { beacon_db with beacons := fun j => if j = i then b else beacon_db.beacons j })
    | none =>
      if beacon_db.count ≥ BEACON_DATABASE_CAPACITY then (-28, beacon_db)
      else
        (0, { beacons := fun j => if j = beacon_db.count.toNat then b else beacon_db.beacons j,
              count := beacon_db.count + 1 })

/-- The database after a sequence of `beacon_database_put` calls, return values
dropped. -/
def runPuts {K : Type} (db : beacon_database K) (puts : List (Option (beacon K))) :
    beacon_database K :=
  puts.foldl (fun d b => (beacon_database_put d b).2) db

/-- Registry invariant: `count` within `[0, BEACON_DATABASE_CAPACITY]` and the
little-endian MACs of the slots below `count` pairwise distinct. -/
def RegistryInv {K : Type} (db : beacon_database K) : Prop :=
  0 ≤ db.count ∧ db.count ≤ BEACON_DATABASE_CAPACITY ∧
  ∀ i j : Nat, (i : Int) < db.count → (j : Int) < db.count → i ≠ j →
    (db.beacons i).mac_little_endian ≠ (db.beacons j).mac_little_endian

/-! ## `locator.h` / `locator.c` -/

/-- Constant `#define LOCATOR_ERROR_PARALLEL_LINES 92`. -/
def LOCATOR_ERROR_PARALLEL_LINES : Int := 92

/-- Constant `#define LOCATOR_POSITION_CAPACITY 256`. -/
def LOCATOR_POSITION_CAPACITY : Int := 256

/-- Locator position structure (`struct locator_position`). -/
structure locator_position (K : Type) where
  x : K
  y : K
  z : K
  error_radius : K

/-- Locator structure (`struct locator`).  `beacon_db` is the database the
pointer refers to (`none` for `NULL`); `position_history` maps a slot index to
its record. -/
structure locator (K : Type) where
  beacon_db : Option (beacon_database K)
  position_history : Int → locator_position K
  history_count : Int
  history_next : Int

/-- Function `locator_init`: `-EINVAL` (-22) for a `NULL` database; otherwise installs
the database and zeroes `history_count` and `history_next`.  The history
slots are not cleared. -/
def locator_init {K : Type} (l : locator K) (beacon_db : Option (beacon_database K)) :
    Int × locator K :=
  match beacon_db with
  | none => (-22, l)
  | some db => (0, { l with beacon_db := some db, history_count := 0, history_next := 0 })

/-- The `denominator` of `locator_estimate_position_from_skew_lines` (lines
193-196 and 215): `1 - (D1 . D2)^2` for the global directions. -/
def skew_lines_denominator {K : Type} [Field K] (D1 D2 : K × K × K) : K :=
  let D1_dot_D2 := D1.1 * D2.1 + D1.2.1 * D2.2.1 + D1.2.2 * D2.2.2
  1 - D1_dot_D2 * D1_dot_D2

/-- The line parameters `t1`, `t2` of
`locator_estimate_position_from_skew_lines` (lines 192-229). -/
def skew_lines_parameters {K : Type} [Field K] (P1 D1 P2 D2 : K × K × K) : K × K :=
  let D1_dot_D2 := D1.1 * D2.1 + D1.2.1 * D2.2.1 + D1.2.2 * D2.2.2
  let v21x := P2.1 - P1.1
  let v21y := P2.2.1 - P1.2.1
  let v21z := P2.2.2 - P1.2.2
  let D1_dot_V21 := D1.1 * v21x + D1.2.1 * v21y + D1.2.2 * v21z
  let D2_dot_V21 := D2.1 * v21x + D2.2.1 * v21y + D2.2.2 * v21z
  let denominator := 1 - D1_dot_D2 * D1_dot_D2
  let numerator1 := D1_dot_V21 - D2_dot_V21 * D1_dot_D2
  let numerator2 := D1_dot_V21 * D1_dot_D2 - D2_dot_V21
  (numerator1 / denominator, numerator2 / denominator)

/-- The closest points `Q1` on `L1` and `Q2` on `L2` of
`locator_estimate_position_from_skew_lines` (lines 231-239). -/
def skew_lines_closest_points {K : Type} [Field K] (P1 D1 P2 D2 : K × K × K) :
    (K × K × K) × (K × K × K) :=
  let t1 := (skew_lines_parameters P1 D1 P2 D2).1
  let t2 := (skew_lines_parameters P1 D1 P2 D2).2
  ((P1.1 + t1 * D1.1, P1.2.1 + t1 * D1.2.1, P1.2.2 + t1 * D1.2.2),
   (P2.1 + t2 * D2.1, P2.2.1 + t2 * D2.2.1, P2.2.2 + t2 * D2.2.2))

/-- The `struct locator_position position` built by
`locator_estimate_position_from_skew_lines` (lines 241-259): the midpoint of
`Q1` and `Q2` and half their distance. -/
def skew_lines_position {K : Type} [Field K] (sqrtf : K → K) (P1 D1 P2 D2 : K × K × K) :
    locator_position K :=
  let Q1 := (skew_lines_closest_points P1 D1 P2 D2).1
  let Q2 := (skew_lines_closest_points P1 D1 P2 D2).2
  let midpoint_x := (Q1.1 + Q2.1) / 2
  let midpoint_y := (Q1.2.1 + Q2.2.1) / 2
  let midpoint_z := (Q1.2.2 + Q2.2.2) / 2
  let distance_x := Q2.1 - Q1.1
  let distance_y := Q2.2.1 - Q1.2.1
  let distance_z := Q2.2.2 - Q1.2.2
  let distance_absolute :=
    sqrtf (distance_x * distance_x + distance_y * distance_y + distance_z * distance_z)
  { x := midpoint_x, y := midpoint_y, z := midpoint_z,
    error_radius := distance_absolute / 2 }

/-- Function `locator_estimate_position_from_skew_lines`: the return value and the
locator afterwards.  `-EINVAL` (-22) for a `NULL` database, the error of
`beacon_database_get` for a failed lookup, `-LOCATOR_ERROR_PARALLEL_LINES`
(-92) when `fabsf(denominator) < 0.001f`; otherwise the position is stored at
`history_next` and `0` is returned. -/
def locator_estimate_position_from_skew_lines {K : Type} [LinearOrderedField K]
    (sqrtf : K → K) (l : locator K)
    (beacon_1_mac_little_endian : Option bt_addr)
    (beacon_1_local_direction_cosine_x beacon_1_local_direction_cosine_y
      beacon_1_local_direction_cosine_z : K)
    (beacon_2_mac_little_endian : Option bt_addr)
    (beacon_2_local_direction_cosine_x beacon_2_local_direction_cosine_y
      beacon_2_local_direction_cosine_z : K) : Int × locator K :=
  match l.beacon_db with
  | none => (-22, l)
  | some db =>
    match beacon_database_get (some db) beacon_1_mac_little_endian with
    | Except.error ret => (ret, l)
    | Except.ok beacon_1 =>
      match beacon_database_get (some db) beacon_2_mac_little_endian with
      | Except.error ret => (ret, l)
      | Except.ok beacon_2 =>
        let P1 := (beacon_1.x, beacon_1.y, beacon_1.z)
        let P2 := (beacon_2.x, beacon_2.y, beacon_2.z)
        let D1 := beacon_get_global_direction_cosines beacon_1
          beacon_1_local_direction_cosine_x beacon_1_local_direction_cosine_y
          beacon_1_local_direction_cosine_z
        let D2 := beacon_get_global_direction_cosines beacon_2
          beacon_2_local_direction_cosine_x beacon_2_local_direction_cosine_y
          beacon_2_local_direction_cosine_z
        if |skew_lines_denominator D1 D2| < 0.001 then
          (-LOCATOR_ERROR_PARALLEL_LINES, l)
        else
          let position := skew_lines_position sqrtf P1 D1 P2 D2
          (0, { l with
                position_history := fun i =>
                  if i = l.history_next then position else l.position_history i,
                history_next := Int.tmod (l.history_next + 1) LOCATOR_POSITION_CAPACITY,
                history_count :=
                  if l.history_count < LOCATOR_POSITION_CAPACITY then l.history_count + 1
                  else l.history_count })

/-- The arguments of one call of `locator_estimate_position_from_skew_lines`. -/
structure estimate_call (K : Type) where
  mac_1 : Option bt_addr
  x_1 : K
  y_1 : K
  z_1 : K
  mac_2 : Option bt_addr
  x_2 : K
  y_2 : K
  z_2 : K

/-- One call of the solver with the arguments of an `estimate_call`. -/
def estimate_call.run {K : Type} [LinearOrderedField K] (sqrtf : K → K) (l : locator K)
    (c : estimate_call K) : Int × locator K :=
  locator_estimate_position_from_skew_lines sqrtf l c.mac_1 c.x_1 c.y_1 c.z_1
    c.mac_2 c.x_2 c.y_2 c.z_2

/-- A sequence of solver calls, each on the locator left by the one before. -/
def runEstimates {K : Type} [LinearOrderedField K] (sqrtf : K → K) :
    List (estimate_call K) → locator K → locator K
  | [], l => l
  | c :: cs, l => runEstimates sqrtf cs (estimate_call.run sqrtf l c).2

/-- Dot product of two triples. -/
def dot3 {K : Type} [Field K] (a b : K × K × K) : K :=
  a.1 * b.1 + a.2.1 * b.2.1 + a.2.2 * b.2.2

/-- Difference of two triples. -/
def sub3 {K : Type} [Field K] (a b : K × K × K) : K × K × K :=
  (a.1 - b.1, a.2.1 - b.2.1, a.2.2 - b.2.2)

/-- The point `P + t D` of the line through `P` with direction `D`. -/
def linePoint {K : Type} [Field K] (P D : K × K × K) (t : K) : K × K × K :=
  (P.1 + t * D.1, P.2.1 + t * D.2.1, P.2.2 + t * D.2.2)

/-- Euclidean length of a triple, for a given square-root function. -/
def norm3 {K : Type} [Field K] (sqrtf : K → K) (a : K × K × K) : K :=
  sqrtf (a.1 * a.1 + a.2.1 * a.2.1 + a.2.2 * a.2.2)

/-- A beacon at `(x, y, z)` with identity orientation (`i`, `j`, `k` the
coordinate axes) and little-endian MAC `mac`. -/
def identityBeacon {K : Type} [Field K] (mac : bt_addr) (x y z : K) : beacon K :=
  { mac_big_endian := (mac.2.2.2.2.2, mac.2.2.2.2.1, mac.2.2.2.1, mac.2.2.1, mac.2.1, mac.1),
    mac_little_endian := mac,
    x := x, y := y, z := z,
    i_x := 1, i_y := 0, i_z := 0,
    j_x := 0, j_y := 1, j_z := 0,
    k_x := 0, k_y := 0, k_z := 1 }

/-- A database holding two beacons in slots 0 and 1. -/
def twoBeaconDatabase {K : Type} (b1 b2 : beacon K) : beacon_database K :=
  { beacons := fun i => if i = 0 then b1 else b2, count := 2 }

/-- A locator over the database `db` with an empty history whose slots all
hold the zero record. -/
def freshLocator {K : Type} [Field K] (db : beacon_database K) : locator K :=
  { beacon_db := some db,
    position_history := fun _ => { x := 0, y := 0, z := 0, error_radius := 0 },
    history_count := 0, history_next := 0 }

/-- The first example MAC (little-endian octets of `F6:66:CD:FD:DC:EB`). -/
def macA : bt_addr := (0xEB, 0xDC, 0xFD, 0xCD, 0x66, 0xF6)

/-- A second example MAC. -/
def macB : bt_addr := (0x01, 0x02, 0x03, 0x04, 0x05, 0x06)

/-- A stand-in for an uninitialised `struct beacon_database`: every slot holds
the same beacon and `count` holds 5. -/
def staleDatabase {K : Type} [Field K] : beacon_database K :=
  { beacons := fun _ => identityBeacon (0, 0, 0, 0, 0, 0) 0 0 0, count := 5 }

/-- Sixteen beacons with the pairwise distinct MACs `(i, 0, 0, 0, 0, 0)`,
`i = 0, ..., 15`. -/
def sixteenBeacons {K : Type} [Field K] : List (Option (beacon K)) :=
  (List.range 16).map (fun i => some (identityBeacon (i, 0, 0, 0, 0, 0) 0 0 0))

/-- A full registry: `sixteenBeacons` put into an initialised database. -/
def fullDatabase {K : Type} [Field K] : beacon_database K :=
  runPuts (beacon_database_init staleDatabase).2 sixteenBeacons

/-- Bounds of the position-history indices. -/
def HistoryInv {K : Type} (l : locator K) : Prop :=
  0 ≤ l.history_next ∧ l.history_next < 256 ∧ 0 ≤ l.history_count ∧ l.history_count ≤ 256

/-! ## `ble_channel_constants.c`, `chw1010_ant2_specs.c` -/

/-- Table `ble_channel_wavenumbers[40]`, in radians per millimetre. -/
def ble_channel_wavenumbers {K : Type} [Field K] : List K :=
  [0.050384, 0.050426, 0.050468, 0.050510, 0.050552,
   0.050594, 0.050636, 0.050678, 0.050719, 0.050761,
   0.050803, 0.050887, 0.050929, 0.050971, 0.051013,
   0.051055, 0.051097, 0.051139, 0.051181, 0.051222,
   0.051264, 0.051306, 0.051348, 0.051390, 0.051432,
   0.051474, 0.051516, 0.051558, 0.051600, 0.051642,
   0.051684, 0.051725, 0.051767, 0.051809, 0.051851,
   0.051893, 0.051935, 0.050342, 0.050845, 0.051977]

/-- Function `ble_channel_get_wavenumber`: the table entry for an index below 40,
`0.0f` otherwise. -/
def ble_channel_get_wavenumber {K : Type} [Field K] (ble_channel_index : Nat) : K :=
  if ble_channel_index < 40 then ble_channel_wavenumbers.getD ble_channel_index 0
  else 0

/-- Constant `antenna_spacing_orthogonal = 37.5f`, in millimetres. -/
def antenna_spacing_orthogonal {K : Type} [Field K] : K := 37.5

/-- Table `antenna_positions_xy[16][2]` of `chw1010_ant2_specs.c`: antenna centre
positions `(x, y)` in millimetres, by antenna number. -/
def antenna_positions_xy {K : Type} [Field K] : List (K × K) :=
  [(-18.75, -18.75), (-56.25, -18.75), (-56.25, -56.25), (-18.75, -56.25),
   (18.75, -56.25), (18.75, -18.75), (56.25, -56.25), (56.25, -18.75),
   (56.25, 18.75), (56.25, 56.25), (18.75, 18.75), (18.75, 56.25),
   (-18.75, 56.25), (-56.25, 56.25), (-56.25, 18.75), (-18.75, 18.75)]

/-- Table `antenna_switching_sequence[37]` of `iq_data_aod_interferometry`: the
antenna number sampled in each measurement slot. -/
def antenna_switching_sequence : List Nat :=
  [1, 2, 3, 4, 5, 6, 7, 8, 9, 10,
   11, 12, 13, 14, 15, 0, 1, 2, 3, 4,
   5, 6, 7, 8, 9, 10, 11, 12, 13, 14,
   15, 0, 1, 2, 3, 4, 5]

/-- The position of the antenna sampled in measurement slot `i`:
`antenna_positions_xy[antenna_switching_sequence[i]]`. -/
def slot_antenna_position {K : Type} [Field K] (i : Nat) : K × K :=
  antenna_positions_xy.getD (antenna_switching_sequence.getD i 0) (0, 0)

/-- Antenna `b` lies one `antenna_spacing_orthogonal` from antenna `a` in
the direction encoded by `direction`: 0 = `b` to the right of `a` (`x`
larger, same `y`), 1 = `b` to the left, 2 = `b` above (`y` larger, same `x`),
3 = `b` below. -/
def AdjacentInDirection {K : Type} [Field K] (a b : K × K) (direction : Nat) : Prop :=
  (direction = 0 ∧ b.1 - a.1 = antenna_spacing_orthogonal ∧ b.2 = a.2) ∨
  (direction = 1 ∧ a.1 - b.1 = antenna_spacing_orthogonal ∧ b.2 = a.2) ∨
  (direction = 2 ∧ b.2 - a.2 = antenna_spacing_orthogonal ∧ b.1 = a.1) ∨
  (direction = 3 ∧ a.2 - b.2 = antenna_spacing_orthogonal ∧ b.1 = a.1)

/-- Antennas `a` and `b` are orthogonally adjacent: one
`antenna_spacing_orthogonal` apart along one axis, equal along the other. -/
def OrthogonallyAdjacent {K : Type} [LinearOrderedField K] (a b : K × K) : Prop :=
  (|b.1 - a.1| = antenna_spacing_orthogonal ∧ b.2 = a.2) ∨
  (|b.2 - a.2| = antenna_spacing_orthogonal ∧ b.1 = a.1)

/-! ## `<math.h>` -/

/-- The math-library functions the pipeline calls, and the constant `M_PI`. -/
structure libm (K : Type) where
  atan2f : K → K → K
  cosf : K → K
  sinf : K → K
  sqrtf : K → K
  asinf : K → K
  M_PI : K

/-! ## `beacon.h`: global orientation -/

/-- Modelled from the spec: the basis vectors `(i, j, k)` that
`beacon_set_global_orientation` computes from Yaw, Pitch and Roll.  The function
is defined in `beacon.c`, which is not among the sources; the formulas are
those of its documentation in `beacon.h` (lines 124-138) and of the spec
(4.3, Construction): the columns of `R = Rz(yaw) Ry(pitch) Rx(roll)`. -/
def orientation_basis {K : Type} [Field K] (cosf sinf : K → K) (yaw pitch roll : K) :
    (K × K × K) × (K × K × K) × (K × K × K) :=
  ((cosf yaw * cosf pitch, sinf yaw * cosf pitch, -sinf pitch),
   (cosf yaw * sinf pitch * sinf roll - sinf yaw * cosf roll,
    sinf yaw * sinf pitch * sinf roll + cosf yaw * cosf roll,
    cosf pitch * sinf roll),
   (cosf yaw * sinf pitch * cosf roll + sinf yaw * sinf roll,
    sinf yaw * sinf pitch * cosf roll - cosf yaw * sinf roll,
    cosf pitch * cosf roll))

/-- Modelled from the spec: `beacon_set_global_orientation` is defined in
`beacon.c`, which is not among the sources; only its declaration and
documentation in `beacon.h` are.  On a non-`NULL` beacon it returns `-EINVAL`
(-22), leaving the beacon as it is, when Yaw or Roll is outside `[-pi, pi]` or
Pitch is outside `[-pi/2, pi/2]` (spec 3 and 4.3); otherwise it stores
`orientation_basis` and returns `0`. -/
def beacon_set_global_orientation {K : Type} [LinearOrderedField K] (m : libm K)
    (b : beacon K) (yaw pitch roll : K) : Int × beacon K :=
  if yaw < -m.M_PI ∨ yaw > m.M_PI ∨ pitch < -(m.M_PI / 2) ∨ pitch > m.M_PI / 2 ∨
      roll < -m.M_PI ∨ roll > m.M_PI then (-22, b)
  else
    (0, { b with
      i_x := (orientation_basis m.cosf m.sinf yaw pitch roll).1.1,
      i_y := (orientation_basis m.cosf m.sinf yaw pitch roll).1.2.1,
      i_z := (orientation_basis m.cosf m.sinf yaw pitch roll).1.2.2,
      j_x := (orientation_basis m.cosf m.sinf yaw pitch roll).2.1.1,
      j_y := (orientation_basis m.cosf m.sinf yaw pitch roll).2.1.2.1,
      j_z := (orientation_basis m.cosf m.sinf yaw pitch roll).2.1.2.2,
      k_x := (orientation_basis m.cosf m.sinf yaw pitch roll).2.2.1,
      k_y := (orientation_basis m.cosf m.sinf yaw pitch roll).2.2.2.1,
      k_z := (orientation_basis m.cosf m.sinf yaw pitch roll).2.2.2.2 })

/-! ## Checked array access -/

/-- Read slot `i` of an array declared with `size` elements; `none` when the
index is out of range. -/
def aget {α : Type} (size : Nat) (a : Nat → α) (i : Nat) : Option α :=
  if i < size then some (a i) else none

/-- Write slot `i` of an array declared with `size` elements; `none` when the
index is out of range. -/
def aset {α : Type} (size : Nat) (a : Nat → α) (i : Nat) (v : α) : Option (Nat → α) :=
  if i < size then some (fun j => if j = i then v else a j) else none

/-- Float division; `none` for a zero divisor (no value in exact arithmetic). -/
def fdiv {K : Type} [Field K] [DecidableEq K] (a b : K) : Option K :=
  if b = 0 then none else some (a / b)

/-! ## `directional_statistics.c` -/

/-- The inner `for` loop of the intrinsic refinement: the sums of
`cosf(epsilon)` and `sinf(epsilon)` over the angles, with
`epsilon = angles[i] - intrinsic_mean` unwrapped once on each side. -/
def circular_mean_epsilon_sums {K : Type} [LinearOrderedField K] (m : libm K)
    (angles : Nat → K) (angles_count : Nat) (intrinsic_mean : K) : K × K :=
  (List.range angles_count).foldl
    (fun (acc : K × K) i =>
      let epsilon := angles i - intrinsic_mean
      let epsilon := if epsilon > m.M_PI then epsilon - 2 * m.M_PI else epsilon
      let epsilon := if epsilon < -m.M_PI then epsilon + 2 * m.M_PI else epsilon
      (acc.1 + m.cosf epsilon, acc.2 + m.sinf epsilon))
    (0, 0)

/-- The outer `for` loop of the intrinsic refinement, with `iterations`
iterations left: returns the intrinsic mean at either convergence test or
when the iterations are used up. -/
def circular_mean_intrinsic_loop {K : Type} [LinearOrderedField K] (m : libm K)
    (angles : Nat → K) (angles_count : Nat) (tolerance : K) :
    Nat → K → K → K
  | 0, intrinsic_mean, _ => intrinsic_mean
  | iterations + 1, intrinsic_mean, previous_intrinsic_mean =>
    let sums := circular_mean_epsilon_sums m angles angles_count intrinsic_mean
    let sum_cos_epsilon := sums.1
    let sum_sin_epsilon := sums.2
    let intrinsic_mean := intrinsic_mean + m.atan2f sum_sin_epsilon sum_cos_epsilon
    let intrinsic_mean :=
      if intrinsic_mean > m.M_PI then intrinsic_mean - 2 * m.M_PI else intrinsic_mean
    let intrinsic_mean :=
      if intrinsic_mean < -m.M_PI then intrinsic_mean + 2 * m.M_PI else intrinsic_mean
    if |sum_sin_epsilon| < tolerance then intrinsic_mean
    else if |intrinsic_mean - previous_intrinsic_mean| < tolerance then intrinsic_mean
    else
      circular_mean_intrinsic_loop m angles angles_count tolerance iterations
        intrinsic_mean intrinsic_mean

/-- Function `directional_statistics_circular_mean`.  `angles` is the array the pointer
refers to; the caller guarantees `angles_count` valid elements. -/
def directional_statistics_circular_mean {K : Type} [LinearOrderedField K] (m : libm K)
    (angles : Nat → K) (angles_count : Int) (max_intrinsic_iterations : Int)
    (tolerance : K) : K :=
  let TOLERANCE_MININUM : K := 0.000001
  if angles_count < 2 then
    if angles_count = 1 then angles 0 else 0
  else
    let sums := (List.range angles_count.toNat).foldl
      (fun (acc : K × K) i => (acc.1 + m.cosf (angles i), acc.2 + m.sinf (angles i)))
      (0, 0)
    let sum_cos_phi := sums.1
    let sum_sin_phi := sums.2
    let extrinsic_mean := m.atan2f sum_sin_phi sum_cos_phi
    if max_intrinsic_iterations < 1 then extrinsic_mean
    else
      let tolerance := if tolerance < TOLERANCE_MININUM then TOLERANCE_MININUM else tolerance
      circular_mean_intrinsic_loop m angles angles_count.toNat tolerance
        max_intrinsic_iterations.toNat extrinsic_mean extrinsic_mean

/-- Function `directional_statistics_circular_mean_extrinsic`. -/
def directional_statistics_circular_mean_extrinsic {K : Type} [LinearOrderedField K]
    (m : libm K) (angles : Nat → K) (angles_count : Int) : K :=
  directional_statistics_circular_mean m angles angles_count 0 0

/-- The two-sided unwrap that `directional_statistics_circular_mean` applies
to `epsilon` and to the intrinsic mean: subtract `2 P` once when above `P`,
then add `2 P` once when below `-P`. -/
def wrapOnce {K : Type} [LinearOrderedField K] (P x : K) : K :=
  if (if x > P then x - 2 * P else x) < -P then (if x > P then x - 2 * P else x) + 2 * P
  else (if x > P then x - 2 * P else x)

/-- The four-angle seam scenario `[3.04, -3.04, 3.10, -3.10]` (radians) as an
angle array; indices past the fourth repeat the last angle. -/
def seamScenarioAngles {K : Type} [LinearOrderedField K] : Nat → K :=
  fun i => if i = 0 then 3.04 else if i = 1 then -3.04 else if i = 2 then 3.10 else -3.10

/-! ## `iq_data.h` / `iq_data.c` -/

/-- Constant `#define IQ_REFERENCE_SPACING 1`. -/
def IQ_REFERENCE_SPACING : Nat := 1

/-- Constant `#define IQ_MEASUREMENT_SPACING 4`. -/
def IQ_MEASUREMENT_SPACING : Nat := 4

/-- Constant `#define IQ_REFERENCE_MAX 8`. -/
def IQ_REFERENCE_MAX : Nat := 8

/-- Constant `#define IQ_MEASUREMENT_MAX 37`. -/
def IQ_MEASUREMENT_MAX : Nat := 37

/-- Raw IQ samples structure (`struct iq_raw_samples`); `i` and `q` are the
arrays of `IQ_REFERENCE_MAX + IQ_MEASUREMENT_MAX = 45` signed bytes. -/
structure iq_raw_samples where
  report_timestamp : Int
  channel_index : Nat
  beacon_mac : bt_addr
  sample_count : Nat
  i : Nat → Int
  q : Nat → Int

/-- IQ data structure (`struct iq_data`).  The reference arrays have
`IQ_REFERENCE_MAX = 8` slots, the measurement arrays `IQ_MEASUREMENT_MAX = 37`. -/
structure iq_data (K : Type) where
  initialized : Bool
  report_timestamp : Int
  channel_index : Nat
  beacon_mac : bt_addr
  reference_sample_count : Nat
  measurement_sample_count : Nat
  reference_i : Nat → Int
  reference_q : Nat → Int
  measurement_i : Nat → Int
  measurement_q : Nat → Int
  reference_phases : Nat → K
  measurement_phases : Nat → K
  reference_phases_unwrapped : Nat → K
  linear_phase_drift_rate : K
  measurement_i_compensated : Nat → K
  measurement_q_compensated : Nat → K
  measurement_phases_compensated : Nat → K
  local_direction_cosine_x : K
  local_direction_cosine_y : K
  local_direction_cosine_z : K
  global_direction_cosine_x : K
  global_direction_cosine_y : K
  global_direction_cosine_z : K
  aod_azimuth : K
  aod_elevation : K

/-- Body of the first loop of `iq_data_init`: copy raw sample `i` to
reference slot `i`. -/
def iq_data_init_reference_step {K : Type} (raw : iq_raw_samples) (d : iq_data K)
    (i : Nat) : Option (iq_data K) := do
  let vi ← aget 45 raw.i i
  let ri ← aset 8 d.reference_i i vi
  let vq ← aget 45 raw.q i
  let rq ← aset 8 d.reference_q i vq
  pure { d with reference_i := ri, reference_q := rq }

/-- Body of the second loop of `iq_data_init`: copy raw sample
`i + reference_sample_count` to measurement slot `i`. -/
def iq_data_init_measurement_step {K : Type} (raw : iq_raw_samples) (d : iq_data K)
    (i : Nat) : Option (iq_data K) := do
  let vi ← aget 45 raw.i (i + d.reference_sample_count)
  let mi ← aset 37 d.measurement_i i vi
  let vq ← aget 45 raw.q (i + d.reference_sample_count)
  let mq ← aset 37 d.measurement_q i vq
  pure { d with measurement_i := mi, measurement_q := mq }

/-- Function `iq_data_init`, on the (uninitialised) structure `d`. -/
def iq_data_init {K : Type} (d : iq_data K) (raw : iq_raw_samples) : Option (iq_data K) :=
  let MAXIMUM_SAMPLES := IQ_REFERENCE_MAX + IQ_MEASUREMENT_MAX
  let sample_count :=
    if raw.sample_count > MAXIMUM_SAMPLES then MAXIMUM_SAMPLES else raw.sample_count
  let reference_sample_count :=
    if sample_count ≥ IQ_REFERENCE_MAX then IQ_REFERENCE_MAX else sample_count
  let d1 : iq_data K :=
    { d with report_timestamp := raw.report_timestamp,
             channel_index := raw.channel_index,
             beacon_mac := raw.beacon_mac,
             reference_sample_count := reference_sample_count,
             measurement_sample_count := sample_count - reference_sample_count }
  do
    let d2 ← (List.range d1.reference_sample_count).foldlM
      (iq_data_init_reference_step raw) d1
    let d3 ← (List.range d2.measurement_sample_count).foldlM
      (iq_data_init_measurement_step raw) d2
    pure { d3 with initialized := true }

/-- Negation of a signed byte as `iq_data_temp_fix_ref_samples` does it:
`-128` becomes `127`. -/
def negate_int8 (v : Int) : Int := if v = -128 then 127 else -v

/-- Body of the loop of `iq_data_temp_fix_ref_samples`. -/
def iq_data_temp_fix_ref_samples_step {K : Type} (d : iq_data K) (i : Nat) :
    Option (iq_data K) := do
  let vi ← aget 8 d.reference_i i
  let ri ← aset 8 d.reference_i i (negate_int8 vi)
  let vq ← aget 8 d.reference_q i
  let rq ← aset 8 d.reference_q i (negate_int8 vq)
  pure { d with reference_i := ri, reference_q := rq }

/-- Function `iq_data_temp_fix_ref_samples`: the loop visits `i = 1, 3, 5, ...` below
`reference_sample_count`. -/
def iq_data_temp_fix_ref_samples {K : Type} (d : iq_data K) : Option (iq_data K) :=
  if d.initialized = false then some d
  else
    ((List.range d.reference_sample_count).filter (fun i => i % 2 = 1)).foldlM
      iq_data_temp_fix_ref_samples_step d

/-- Body of the loop of `calculate_reference_phases`. -/
def calculate_reference_phases_step {K : Type} [Field K] (m : libm K) (d : iq_data K)
    (i : Nat) : Option (iq_data K) := do
  let vq ← aget 8 d.reference_q i
  let vi ← aget 8 d.reference_i i
  let p ← aset 8 d.reference_phases i (m.atan2f (vq : K) (vi : K))
  pure { d with reference_phases := p }

/-- Function `calculate_reference_phases`. -/
def calculate_reference_phases {K : Type} [Field K] (m : libm K) (d : iq_data K) :
    Option (iq_data K) :=
  if d.initialized = false then some d
  else (List.range d.reference_sample_count).foldlM (calculate_reference_phases_step m) d

/-- Body of the loop of `unwrap_reference_phases` (`i >= 1`). -/
def unwrap_reference_phases_step {K : Type} [LinearOrderedField K] (m : libm K)
    (d : iq_data K) (i : Nat) : Option (iq_data K) := do
  let p ← aget 8 d.reference_phases i
  let u ← aget 8 d.reference_phases_unwrapped (i - 1)
  let phase_difference := p - u
  let v :=
    if phase_difference > m.M_PI then p - 2 * m.M_PI
    else if phase_difference < -m.M_PI then p + 2 * m.M_PI
    else p
  let w ← aset 8 d.reference_phases_unwrapped i v
  pure { d with reference_phases_unwrapped := w }

/-- Function `unwrap_reference_phases`. -/
def unwrap_reference_phases {K : Type} [LinearOrderedField K] (m : libm K)
    (d : iq_data K) : Option (iq_data K) :=
  if d.initialized = false then some d
  else if d.reference_sample_count = 0 then some d
  else do
    let p0 ← aget 8 d.reference_phases 0
    let w ← aset 8 d.reference_phases_unwrapped 0 p0
    (List.range' 1 (d.reference_sample_count - 1)).foldlM
      (unwrap_reference_phases_step m) { d with reference_phases_unwrapped := w }

/-- The sums `(sum_x, sum_y, sum_xy, sum_xx)` of the regression loop of
`estimate_linear_phase_drift_rate` after visiting `x`. -/
def drift_sums_step {K : Type} [Field K] (d : iq_data K) (acc : K × K × K × K) (x : Nat) :
    Option (K × K × K × K) := do
  let y ← aget 8 d.reference_phases_unwrapped x
  pure (acc.1 + (x : K), acc.2.1 + y, acc.2.2.1 + (x : K) * y,
    acc.2.2.2 + ((x * x : Nat) : K))

/-- Function `estimate_linear_phase_drift_rate`. -/
def estimate_linear_phase_drift_rate {K : Type} [LinearOrderedField K] (m : libm K)
    (d : iq_data K) : Option (iq_data K) :=
  if d.initialized = false then some d
  else if d.reference_sample_count = 0 then some { d with linear_phase_drift_rate := 0 }
  else do
    let d1 ← calculate_reference_phases m d
    let d2 ← unwrap_reference_phases m d1
    if d2.reference_sample_count = 1 then pure { d2 with linear_phase_drift_rate := 0 }
    else
      let n : Nat := d2.reference_sample_count
      let sums ← (List.range n).foldlM (drift_sums_step d2) (0, 0, 0, 0)
      let sum_x := sums.1
      let sum_y := sums.2.1
      let sum_xy := sums.2.2.1
      let sum_xx := sums.2.2.2
      let slope ← fdiv ((n : K) * sum_xy - sum_x * sum_y) ((n : K) * sum_xx - sum_x * sum_x)
      let rate ← fdiv slope (IQ_REFERENCE_SPACING : K)
      pure { d2 with linear_phase_drift_rate := rate }

/-- Body of the loop of `compensate_measurement_samples`. -/
def compensate_measurement_samples_step {K : Type} [Field K] (m : libm K) (rate : K)
    (d : iq_data K) (i : Nat) : Option (iq_data K) := do
  let theta := rate * (i : K)
  let cos_theta := m.cosf theta
  let sin_theta := m.sinf theta
  let vi ← aget 37 d.measurement_i i
  let vq ← aget 37 d.measurement_q i
  let ci ← aset 37 d.measurement_i_compensated i ((vi : K) * cos_theta - (vq : K) * sin_theta)
  let cq ← aset 37 d.measurement_q_compensated i ((vi : K) * sin_theta + (vq : K) * cos_theta)
  pure { d with measurement_i_compensated := ci, measurement_q_compensated := cq }

/-- Function `compensate_measurement_samples`. -/
def compensate_measurement_samples {K : Type} [Field K] (m : libm K) (d : iq_data K) :
    Option (iq_data K) :=
  if d.initialized = false then some d
  else
    let rate := -d.linear_phase_drift_rate * (IQ_MEASUREMENT_SPACING : K)
    (List.range d.measurement_sample_count).foldlM
      (compensate_measurement_samples_step m rate) d

/-- The pair table `measurement_pairs[32]` of `iq_data_aod_interferometry`:
`(index_1, index_2, direction)`. -/
def measurement_pairs : List (Nat × Nat × Nat) :=
  [(0, 1, 3), (1, 2, 0), (2, 3, 0), (3, 4, 2), (5, 6, 2), (6, 7, 2), (7, 8, 2), (9, 10, 2),
   (10, 11, 1), (11, 12, 1), (12, 13, 3), (13, 14, 0), (14, 15, 3), (15, 16, 1),
   (16, 17, 3), (17, 18, 0), (18, 19, 0), (19, 20, 2), (21, 22, 2), (22, 23, 2),
   (23, 24, 2), (25, 26, 2), (26, 27, 1), (27, 28, 1), (28, 29, 3), (29, 30, 0),
   (30, 31, 3), (31, 32, 1), (32, 33, 3), (33, 34, 0), (34, 35, 0), (35, 36, 2)]

/-- The local arrays and counters filled by the pair loop of
`iq_data_aod_interferometry`; both arrays have `measurement_pairs_length = 32`
slots. -/
structure interferometry_deltas (K : Type) where
  horizontal_deltas : Nat → K
  horizontal_count : Nat
  vertical_deltas : Nat → K
  vertical_count : Nat

/-- The phase difference computed for one antenna pair in the loop of
`iq_data_aod_interferometry` (lines 1063-1071), before it is clamped:
`real_part = i1*i2 + q1*q2`, `imag_part = q1*i2 - i1*q2`,
`delta = atan2f(imag_part, real_part)`. -/
def interferometry_delta {K : Type} [Field K] (m : libm K) (i1 q1 i2 q2 : K) : K :=
  let real_part := i1 * i2 + q1 * q2
  let imag_part := q1 * i2 - i1 * q2
  m.atan2f imag_part real_part

/-- Body of the pair loop of `iq_data_aod_interferometry`. -/
def iq_data_aod_interferometry_step {K : Type} [LinearOrderedField K] (m : libm K)
    (d : iq_data K) (d_orth_rad : K) (acc : interferometry_deltas K)
    (pair : Nat × Nat × Nat) : Option (interferometry_deltas K) :=
  let index_1 := pair.1
  let index_2 := pair.2.1
  let direction := pair.2.2
  if index_1 ≥ d.measurement_sample_count ∨ index_2 ≥ d.measurement_sample_count then
    some acc
  else do
    let i1 ← aget 37 d.measurement_i_compensated index_1
    let q1 ← aget 37 d.measurement_q_compensated index_1
    let i2 ← aget 37 d.measurement_i_compensated index_2
    let q2 ← aget 37 d.measurement_q_compensated index_2
    let real_part := i1 * i2 + q1 * q2
    let imag_part := q1 * i2 - i1 * q2
    let delta := m.atan2f imag_part real_part
    let delta :=
      if delta > d_orth_rad then d_orth_rad
      else if delta < -d_orth_rad then -d_orth_rad
      else delta
    match direction with
    | 0 => do
      let h ← aset 32 acc.horizontal_deltas acc.horizontal_count delta
      pure { acc with horizontal_deltas := h, horizontal_count := acc.horizontal_count + 1 }
    | 1 => do
      let h ← aset 32 acc.horizontal_deltas acc.horizontal_count (-delta)
      pure { acc with horizontal_deltas := h, horizontal_count := acc.horizontal_count + 1 }
    | 2 => do
      let v ← aset 32 acc.vertical_deltas acc.vertical_count delta
      pure { acc with vertical_deltas := v, vertical_count := acc.vertical_count + 1 }
    | 3 => do
      let v ← aset 32 acc.vertical_deltas acc.vertical_count (-delta)
      pure { acc with vertical_deltas := v, vertical_count := acc.vertical_count + 1 }
    | _ => pure acc

/-- Function `iq_data_aod_interferometry` (full antenna pattern).  `deltas0` is the
uninitialised content of the two local delta arrays. -/
def iq_data_aod_interferometry {K : Type} [LinearOrderedField K] (m : libm K)
    (deltas0 : Nat → K) (d : iq_data K) : Option (iq_data K) :=
  if d.initialized = false then some d
  else if d.measurement_sample_count < 3 then
    some { d with local_direction_cosine_x := 0, local_direction_cosine_y := 0,
                  local_direction_cosine_z := 1, aod_azimuth := 0, aod_elevation := 0 }
  else
    let channel_wavenumber : K := ble_channel_get_wavenumber d.channel_index
    let d_orth_rad := channel_wavenumber * antenna_spacing_orthogonal
    do
      let acc ← measurement_pairs.foldlM (iq_data_aod_interferometry_step m d d_orth_rad)
        { horizontal_deltas := deltas0, horizontal_count := 0,
          vertical_deltas := deltas0, vertical_count := 0 }
      let horizontal_mean :=
        if acc.horizontal_count > 0 then
          directional_statistics_circular_mean m acc.horizontal_deltas acc.horizontal_count
            5 0.01
        else 0
      let vertical_mean :=
        if acc.vertical_count > 0 then
          directional_statistics_circular_mean m acc.vertical_deltas acc.vertical_count
            5 0.01
        else 0
      let direction_cosine_x ←
        if acc.horizontal_count > 0 then do
          let c ← fdiv (-horizontal_mean) d_orth_rad
          let c := if c > 1 then 1 else c
          let c := if c < -1 then -1 else c
          pure c
        else pure 0
      let direction_cosine_y ←
        if acc.vertical_count > 0 then do
          let c ← fdiv (-vertical_mean) d_orth_rad
          let c := if c > 1 then 1 else c
          let c := if c < -1 then -1 else c
          pure c
        else pure 0
      let direction_cosine_z_squared :=
        1 - (direction_cosine_x * direction_cosine_x + direction_cosine_y * direction_cosine_y)
      let direction_cosine_z_squared :=
        if direction_cosine_z_squared < 0 then 0 else direction_cosine_z_squared
      let direction_cosine_z := m.sqrtf direction_cosine_z_squared
      pure { d with local_direction_cosine_x := direction_cosine_x,
                    local_direction_cosine_y := direction_cosine_y,
                    local_direction_cosine_z := direction_cosine_z,
                    aod_azimuth := m.atan2f direction_cosine_x direction_cosine_z,
                    aod_elevation := m.asinf direction_cosine_y }

/-- The signal-processing part of `iq_data_process` (lines 1278-1325): the
IQ data structure after `iq_data_init`, `iq_data_temp_fix_ref_samples`,
`estimate_linear_phase_drift_rate`, `compensate_measurement_samples` and
`iq_data_aod_interferometry`.  `d` is the uninitialised local structure and
`deltas0` the uninitialised local arrays of the interferometry step; `none`
stands for an out-of-range array access or a division by zero. -/
def iq_data_process_pipeline {K : Type} [LinearOrderedField K] (m : libm K)
    (d : iq_data K) (deltas0 : Nat → K) (raw : iq_raw_samples) : Option (iq_data K) := do
  let d1 ← iq_data_init d raw
  let d2 ← iq_data_temp_fix_ref_samples d1
  let d3 ← estimate_linear_phase_drift_rate m d2
  let d4 ← compensate_measurement_samples m d3
  iq_data_aod_interferometry m deltas0 d4

/-- A structure whose every field is zero: a stand-in for the uninitialised
local `struct iq_data` of `iq_data_process`. -/
def blankIqData {K : Type} [Field K] : iq_data K :=
  { initialized := false, report_timestamp := 0, channel_index := 0,
    beacon_mac := (0, 0, 0, 0, 0, 0),
    reference_sample_count := 0, measurement_sample_count := 0,
    reference_i := fun _ => 0, reference_q := fun _ => 0,
    measurement_i := fun _ => 0, measurement_q := fun _ => 0,
    reference_phases := fun _ => 0, measurement_phases := fun _ => 0,
    reference_phases_unwrapped := fun _ => 0, linear_phase_drift_rate := 0,
    measurement_i_compensated := fun _ => 0, measurement_q_compensated := fun _ => 0,
    measurement_phases_compensated := fun _ => 0,
    local_direction_cosine_x := 0, local_direction_cosine_y := 0,
    local_direction_cosine_z := 0,
    global_direction_cosine_x := 0, global_direction_cosine_y := 0,
    global_direction_cosine_z := 0, aod_azimuth := 0, aod_elevation := 0 }

/-- A math library over the rationals with constant functions, for
evaluating code paths whose result does not depend on the library. -/
def constantLibm : libm ℚ :=
  { atan2f := fun _ _ => 0, cosf := fun _ => 1, sinf := fun _ => 0,
    sqrtf := fun _ => 0, asinf := fun _ => 0, M_PI := 3 }

/-- A raw frame with `sample_count = 2` and all-zero samples. -/
def shortFrame : iq_raw_samples :=
  { report_timestamp := 0, channel_index := 18, beacon_mac := macA, sample_count := 2,
    i := fun _ => 0, q := fun _ => 0 }

/-- A raw frame on channel 18 with 8 reference and 3 measurement samples:
the reference samples alternate `(1, 0)`, `(-1, 0)` (constant phase after the
sign fix), the measurement samples are `(-1, 0)`, `(1, 0)`, `(-1, 0)`. -/
def alternatingFrame : iq_raw_samples :=
  { report_timestamp := 0, channel_index := 18, beacon_mac := macA, sample_count := 11,
    i := fun k => [1, -1, 1, -1, 1, -1, 1, -1, -1, 1, -1].getD k 0,
    q := fun _ => 0 }

/-- The fields that fix the control flow of the pipeline stages. -/
def HasCounts {K : Type} (d : iq_data K) (ini : Bool) (nr nm : Nat) : Prop :=
  d.initialized = ini ∧ d.reference_sample_count = nr ∧ d.measurement_sample_count = nm

/-- The part of an IQ data structure that the stages after `iq_data_init`
leave alone, at the values it has for `alternatingFrame`. -/
def AlternatingMeasurement {K : Type} (d : iq_data K) : Prop :=
  (d.initialized = true ∧ d.reference_sample_count = 8 ∧ d.measurement_sample_count = 3) ∧
  d.channel_index = 18 ∧
  (d.measurement_i 0 = -1 ∧ d.measurement_i 1 = 1 ∧ d.measurement_i 2 = -1) ∧
  (∀ j, j < 3 → d.measurement_q j = 0)

/-- The raw samples, sample counts and initialisation flag of `s` are those
of `d`: the part of an IQ data structure that the drift estimation and
compensation stages read but never write. -/
def SameSamples {K : Type} (d s : iq_data K) : Prop :=
  s.initialized = d.initialized ∧
  s.reference_sample_count = d.reference_sample_count ∧
  s.measurement_sample_count = d.measurement_sample_count ∧
  s.reference_i = d.reference_i ∧ s.reference_q = d.reference_q ∧
  s.measurement_i = d.measurement_i ∧ s.measurement_q = d.measurement_q

/-- An initialised IQ data structure with 8 reference samples `(1, 0)` and
the 3 measurement samples `(-1, 0)`, `(1, 0)`, `(-1, 0)`. -/
def constantPhaseData {K : Type} [Field K] : iq_data K :=
  { (blankIqData : iq_data K) with
    initialized := true, reference_sample_count := 8, measurement_sample_count := 3,
    reference_i := fun _ => 1,
    measurement_i := fun k => [-1, 1, -1].getD k 0 }

/-! ## `iq_data.c`: `iq_data_process` -/

/-- The header of an IQ data structure: the fields that only `iq_data_init`
writes. -/
def iq_data_header {K : Type} (d : iq_data K) : Int × Nat × bt_addr :=
  (d.report_timestamp, d.channel_index, d.beacon_mac)

/-- The state that `iq_data_process` keeps between calls: the file-scope
variables `static struct iq_data previous_iq_data` and
`static bool first_iteration = true` of `iq_data.c`, and the global locator
`g_locator`. -/
structure process_state (K : Type) where
  previous_iq_data : iq_data K
  first_iteration : Bool
  g_locator : locator K

/-- One call of `iq_data_process`: the frame passed in, the content that the
uninitialised locals (`struct iq_data iq_data` and the delta arrays of the
interferometry step) happen to have at that call, and `no_value`: the content
of the local structure at the end of the pipeline when one of its divisions
has a zero divisor.  In C such a division stores an infinity or a NaN and the
function goes on; neither has a value in `K`, so the call carries that content
the way it carries the uninitialised locals.  Only the header of the
structure is known then: `iq_data_init` has copied it from the frame. -/
structure process_frame (K : Type) where
  no_value : iq_data K
  iq_data : iq_data K
  deltas : Nat → K
  iq_raw_samples : iq_raw_samples

/-- The pairing part of `iq_data_process` (lines 1327-1360), on the processed
structure `iq_data`: the solver call made, if any, and the state afterwards. -/
def iq_data_process_pair {K : Type} [LinearOrderedField K] (sqrtf : K → K)
    (st : process_state K) (iq_data : iq_data K) :
    Option (estimate_call K) × process_state K :=
  if st.first_iteration then
    (none, { st with previous_iq_data := iq_data, first_iteration := false })
  else
    let ret := bt_addr_mac_compare (some iq_data.beacon_mac)
      (some st.previous_iq_data.beacon_mac)
    if ret = 1 then (none, st)
    else
      let call : estimate_call K :=
        { mac_1 := some st.previous_iq_data.beacon_mac,
          x_1 := st.previous_iq_data.local_direction_cosine_x,
          y_1 := st.previous_iq_data.local_direction_cosine_y,
          z_1 := st.previous_iq_data.local_direction_cosine_z,
          mac_2 := some iq_data.beacon_mac,
          x_2 := iq_data.local_direction_cosine_x,
          y_2 := iq_data.local_direction_cosine_y,
          z_2 := iq_data.local_direction_cosine_z }
      (some call,
        { st with g_locator := (estimate_call.run sqrtf st.g_locator call).2,
                  previous_iq_data := iq_data })

/-- The local structure `iq_data` of `iq_data_process` when its pairing part
starts (line 1327): the result of the pipeline, and where the pipeline model
has no value (a division by zero) the content `no_value` of the call with the
header of the frame.  The function has no early return before the pairing
part. -/
def iq_data_process_result {K : Type} [LinearOrderedField K] (m : libm K)
    (f : process_frame K) : iq_data K :=
  match iq_data_process_pipeline m f.iq_data f.deltas f.iq_raw_samples with
  | some iq_data => iq_data
  | none =>
    { f.no_value with
      report_timestamp := f.iq_raw_samples.report_timestamp,
      channel_index := f.iq_raw_samples.channel_index,
      beacon_mac := f.iq_raw_samples.beacon_mac }

/-- Function `iq_data_process` (lines 1273-1361): the signal-processing pipeline
on the frame, then the pairing with the held structure.  The result is the
solver call made, if any, and the state afterwards. -/
def iq_data_process {K : Type} [LinearOrderedField K] (m : libm K) (st : process_state K)
    (f : process_frame K) : Option (estimate_call K) × process_state K :=
  iq_data_process_pair m.sqrtf st (iq_data_process_result m f)

/-- A sequence of `iq_data_process` calls: the solver call of each frame (if
any), in order, and the final state. -/
def runProcess {K : Type} [LinearOrderedField K] (m : libm K) :
    List (process_frame K) → process_state K →
      List (Option (estimate_call K)) × process_state K
  | [], st => ([], st)
  | f :: fs, st =>
    ((iq_data_process m st f).1 :: (runProcess m fs (iq_data_process m st f).2).1,
      (runProcess m fs (iq_data_process m st f).2).2)

/-- The state before the first call of `iq_data_process`: `first_iteration` is
`true`, `previous_iq_data` is zero-initialised, and the locator is fresh over
a database with beacon A at the origin and beacon B at `(10, 0, 0)`. -/
def initialProcessState {K : Type} [Field K] : process_state K :=
  { previous_iq_data := blankIqData, first_iteration := true,
    g_locator := freshLocator (twoBeaconDatabase (identityBeacon macA 0 0 0)
      (identityBeacon macB 10 0 0)) }

/-- A call of `iq_data_process` on the frame `raw` with zeroed locals. -/
def frameCall {K : Type} [Field K] (raw : iq_raw_samples) : process_frame K :=
  { iq_data := blankIqData, deltas := fun _ => 0, no_value := blankIqData,
    iq_raw_samples := raw }

/-- The frame `shortFrame` sent by the beacon with MAC `macB`. -/
def shortFrameB : iq_raw_samples := { shortFrame with beacon_mac := macB }

/-! ## `iq_data_work_queue.c`: dispatch of the processor work -/

/-- The final critical section of `iq_data_work_queue_handler` (lines 72-89) and
the test that follows it: whether the handler re-dispatches the processor
work (`start && queue->target_work_queue != NULL`). -/
def iq_data_work_queue_handler_check {α : Type} (q : iq_data_work_queue α) : Bool :=
  let start : Bool := decide (q.count > 0)
  start && q.target_work_queue

/-- Where a call of `iq_data_work_queue_handler` stands between two of its
critical sections: not running, inside the `while (true)` loop (the next
critical section is an extraction step), or past the loop with the final
check of `count` still to come. -/
inductive handler_phase where
  | idle : handler_phase
  | draining : handler_phase
  | checking : handler_phase
  deriving DecidableEq

/-- The queue together with the state of its `processor_work` item: `pending`
records that `k_work_submit_to_queue` has queued the item on the target work
queue and the work-queue thread has not yet taken it; `phase` is where the
handler stands. -/
structure dispatch_state (α : Type) where
  queue : iq_data_work_queue α
  pending : Bool
  phase : handler_phase

/-- The steps that interleave: a call of `iq_data_work_queue_submit`, the
work-queue thread taking the pending item and entering the handler, one
extraction step of the handler loop, and the final check of the handler. -/
inductive dispatch_event (α : Type) where
  | submit : α → dispatch_event α
  | handler_entry : dispatch_event α
  | handler_step : dispatch_event α
  | handler_check : dispatch_event α

/-- One step of the interleaving.  A submit runs `iq_data_work_queue_submit`
and queues the work item when it asks for a dispatch (queueing an item that is
already queued changes nothing; an item may be queued while its handler
runs).  The handler is entered only from a pending item and when it is not
already running; it leaves the loop after the extraction step that reports
`queue_exhausted`, and returns after its final check.  An event that is not
enabled leaves the state as it is. -/
def dispatch_step {α : Type} (s : dispatch_state α) : dispatch_event α → dispatch_state α
  | dispatch_event.submit f =>
    { s with queue := (iq_data_work_queue_submit s.queue (some f)).1,
             pending := s.pending || (iq_data_work_queue_submit s.queue (some f)).2 }
  | dispatch_event.handler_entry =>
    if s.pending = true ∧ s.phase = handler_phase.idle then
      { s with pending := false, phase := handler_phase.draining }
    else s
  | dispatch_event.handler_step =>
    if s.phase = handler_phase.draining then
      { s with queue := (iq_data_work_queue_handler_step s.queue).2.2,
               phase := if (iq_data_work_queue_handler_step s.queue).2.1
                        then handler_phase.checking else handler_phase.draining }
    else s
  | dispatch_event.handler_check =>
    if s.phase = handler_phase.checking then
      { s with pending := s.pending || iq_data_work_queue_handler_check s.queue,
               phase := handler_phase.idle }
    else s

/-- Run a sequence of interleaved steps. -/
def runDispatch {α : Type} (events : List (dispatch_event α)) (s : dispatch_state α) :
    dispatch_state α :=
  events.foldl dispatch_step s

/-- The state after `iq_data_work_queue_init` with non-`NULL` arguments:
nothing is queued and the handler is not running. -/
def initialDispatchState {α : Type} (q : iq_data_work_queue α) : dispatch_state α :=
  { queue := iq_data_work_queue_init q true true, pending := false,
    phase := handler_phase.idle }

/-- The invariant of the interleaving: the ring-buffer invariant, a target
work queue, and a frame in the queue only while a dispatch is pending or the
handler is running before its final check. -/
def DispatchInv {α : Type} (s : dispatch_state α) : Prop :=
  QueueInv s.queue ∧ s.queue.target_work_queue = true ∧
    (0 < s.queue.count → s.pending = true ∨ s.phase = handler_phase.draining ∨
      s.phase = handler_phase.checking)

/-! ## `ble_channel_constants.c`: channel frequencies -/

/-- Table `ble_channel_frequencies[40]` of `ble_channel_constants.c`: the centre
frequency of each BLE channel index, in MHz. -/
def ble_channel_frequencies : List Nat :=
  [2404, 2406, 2408, 2410, 2412, 2414, 2416, 2418, 2420, 2422,
   2424, 2428, 2430, 2432, 2434, 2436, 2438, 2440, 2442, 2444,
   2446, 2448, 2450, 2452, 2454, 2456, 2458, 2460, 2462, 2464,
   2466, 2468, 2470, 2472, 2474, 2476, 2478, 2402, 2426, 2480]

/-! ## Inputs for the drift, divisor, pair and unwrapping theorems -/

/-- A math library over the rationals whose `atan2f(y, x)` is `y`, for
evaluating the drift estimate on phases chosen through the Q samples. -/
def linearLibm : libm ℚ :=
  { atan2f := fun y _ => y, cosf := fun _ => 1, sinf := fun _ => 0,
    sqrtf := fun _ => 0, asinf := fun _ => 0, M_PI := 3 }

/-- An initialised IQ data structure with the 3 reference samples `(1, 0)`,
`(1, 1)`, `(1, 2)` and no measurement samples. -/
def rampData : iq_data ℚ :=
  { (blankIqData : iq_data ℚ) with
    initialized := true, reference_sample_count := 3,
    reference_i := fun _ => 1,
    reference_q := fun k => (k : Int) }

/-- The frame `alternatingFrame` (8 reference and 3 measurement samples) with the
channel index 40, one past the channel tables. -/
def outOfRangeFrame : iq_raw_samples := { alternatingFrame with channel_index := 40 }

/-- An initialised IQ data structure whose 8 reference samples turn by a
quarter of a circle per sample, clockwise: `(1, 0)`, `(0, -1)`, `(-1, 0)`,
`(0, 1)`, twice.  Their phases are `0, -pi/2, pi, pi/2, 0, -pi/2, pi, pi/2`. -/
def quarterTurnData {K : Type} [Field K] : iq_data K :=
  { (blankIqData : iq_data K) with
    initialized := true, reference_sample_count := 8,
    reference_i := fun k => [1, 0, -1, 0, 1, 0, -1, 0].getD k 0,
    reference_q := fun k => [0, -1, 0, 1, 0, -1, 0, 1].getD k 0 }

/-! ## binary32 arithmetic

The theorems about the code's arithmetic are proved in exact arithmetic over
an ordered field.  Where a claim turns on the rounding of `float` operations
or on the sign of a zero, the code's computation is embedded a second time
with the definitions of this section. -/

/-- Round to the nearest binary32 value, ties to even: the value is scaled by
its unit in the last place (24 significant bits), rounded to an integer and
scaled back.  The exponent range is not modelled: the result is that of the
`float` operation for every value whose magnitude is in the normal range
`[2^-126, 2^128)`, and for zero. -/
def binary32_round {K : Type} [LinearOrderedField K] [FloorRing K] (x : K) : K :=
  if x = 0 then 0
  else
    let ulp : K := (2 : K) ^ (Int.log 2 |x| - 23)
    let scaled : K := x / ulp
    let below : Int := ⌊scaled⌋
    let nearest : Int :=
      if scaled - (below : K) < 1 / 2 then below
      else if scaled - (below : K) > 1 / 2 then below + 1
      else if below % 2 = 0 then below
      else below + 1
    (nearest : K) * ulp

/-- The test for parallel lines of `locator_estimate_position_from_skew_lines`
(`locator.c` lines 192-195 and 213-223) as the code computes it, in binary32
arithmetic: `D1_dot_D2` and `denominator` with every product, sum and
difference rounded, and the threshold the binary32 constant `0.001f`.  The
arguments are the global direction cosines, binary32 values; `true` stands for
the return of `-LOCATOR_ERROR_PARALLEL_LINES`. -/
def parallel_lines_test_binary32 {K : Type} [LinearOrderedField K] [FloorRing K]
    (d1x d1y d1z d2x d2y d2z : K) : Bool :=
  let D1_dot_D2 : K :=
    binary32_round
      (binary32_round (binary32_round (d1x * d2x) + binary32_round (d1y * d2y))
        + binary32_round (d1z * d2z))
  let denominator : K := binary32_round (1 - binary32_round (D1_dot_D2 * D1_dot_D2))
  decide (|denominator| < binary32_round 0.001)

/-- A finite `float` with its sign bit: `magnitude` is a binary32 value, and
zero has both signs.  Infinities and NaN are not modelled. -/
structure binary32 (K : Type) where
  negative : Bool
  magnitude : K

/-- The number that a signed binary32 value stands for. -/
def binary32_value {K : Type} [LinearOrderedField K] (x : binary32 K) : K :=
  if x.negative = true then -x.magnitude else x.magnitude

/-- The `float` product: the sign is the exclusive or of the signs, also for a
zero product. -/
def binary32_mul {K : Type} [LinearOrderedField K] [FloorRing K] (x y : binary32 K) :
    binary32 K :=
  { negative := xor x.negative y.negative,
    magnitude := binary32_round (x.magnitude * y.magnitude) }

/-- The `float` sum in round-to-nearest: operands of one sign keep it (so
`-0 + -0` is `-0`), and an exact zero sum of operands of opposite signs is
`+0`. -/
def binary32_add {K : Type} [LinearOrderedField K] [FloorRing K] (x y : binary32 K) :
    binary32 K :=
  if x.negative = y.negative then
    { negative := x.negative, magnitude := binary32_round (x.magnitude + y.magnitude) }
  else if x.magnitude = y.magnitude then { negative := false, magnitude := 0 }
  else if y.magnitude < x.magnitude then
    { negative := x.negative, magnitude := binary32_round (x.magnitude - y.magnitude) }
  else
    { negative := y.negative, magnitude := binary32_round (y.magnitude - x.magnitude) }

/-- The `float` difference `x - y`, which is `x + (-y)`. -/
def binary32_sub {K : Type} [LinearOrderedField K] [FloorRing K] (x y : binary32 K) :
    binary32 K :=
  binary32_add x { negative := !y.negative, magnitude := y.magnitude }

/-- A correctly rounded `atan2f` on signed binary32 values, from the real
function `atan2` (the principal argument).  The result carries the sign of
`y`, as C Annex F.10.1.4 has it: `atan2f(-0, x)` is `-pi` for a negative `x`
and `-0` for a positive `x`, and `atan2f(+-0, -0)` is `+-pi`. -/
def atan2f_binary32 {K : Type} [LinearOrderedField K] [FloorRing K] (atan2 : K → K → K)
    (y x : binary32 K) : binary32 K :=
  { negative := y.negative,
    magnitude :=
      binary32_round
        (if y.magnitude = 0 ∧ x.magnitude = 0 ∧ x.negative = true then atan2 0 (-1)
         else atan2 y.magnitude (binary32_value x)) }

/-- The phase difference of the pair loop of `iq_data_aod_interferometry`
(lines 1063-1071) in binary32 arithmetic, signed zeros included. -/
def interferometry_delta_binary32 {K : Type} [LinearOrderedField K] [FloorRing K]
    (atan2f : binary32 K → binary32 K → binary32 K) (i1 q1 i2 q2 : binary32 K) :
    binary32 K :=
  let real_part := binary32_add (binary32_mul i1 i2) (binary32_mul q1 q2)
  let imag_part := binary32_sub (binary32_mul q1 i2) (binary32_mul i1 q2)
  atan2f imag_part real_part

/-! ## Theorems: IQ data work queue -/

theorem queueInv_init {α : Type} (q : iq_data_work_queue α) :
    QueueInv (iq_data_work_queue_init q true true) := by
  simp [iq_data_work_queue_init, QueueInv]

theorem queueInv_submit {α : Type} (q : iq_data_work_queue α) (f : α)
    (h : QueueInv q) : QueueInv (iq_data_work_queue_submit q (some f)).1 := by
  obtain ⟨h1, h2, h3, h4, h5, h6, h7⟩ := h
  have e1 : Int.tmod (q.head + 1) 8 = (q.head + 1) % 8 :=
    Int.tmod_eq_emod (by omega) (by omega)
  have e2 : Int.tmod (q.tail + 1) 8 = (q.tail + 1) % 8 :=
    Int.tmod_eq_emod (by omega) (by omega)
  unfold iq_data_work_queue_submit QueueInv
  simp only [IQ_DATA_WORK_QUEUE_CAPACITY]
  by_cases hc : q.count = 8
  · simp only [hc, if_true, e1, e2]
    omega
  · simp only [hc, if_false, e1]
    omega

theorem queueInv_step {α : Type} (q : iq_data_work_queue α)
    (h : QueueInv q) : QueueInv (iq_data_work_queue_handler_step q).2.2 := by
  obtain ⟨h1, h2, h3, h4, h5, h6, h7⟩ := h
  unfold iq_data_work_queue_handler_step QueueInv
  simp only [IQ_DATA_WORK_QUEUE_CAPACITY]
  by_cases hc : q.count > 0
  · simp only [hc, if_true]
    by_cases hh : q.head = 0
    · simp only [hh, if_true]
      omega
    · simp only [hh, if_false]
      omega
  · simp only [hc, if_false]
    omega

theorem queueInv_apply {α : Type} (q : iq_data_work_queue α) (op : QueueOp α)
    (h : QueueInv q) : QueueInv (QueueOp.apply q op).2 := by
  cases op with
  | submit f => exact queueInv_submit q f h
  | pop => exact queueInv_step q h

theorem queueInv_run {α : Type} (ops : List (QueueOp α)) :
    ∀ q : iq_data_work_queue α, QueueInv q → QueueInv (runQueueOps ops q).2 := by
  induction ops with
  | nil => intro q h; exact h
  | cons op ops ih =>
    intro q h
    exact ih _ (queueInv_apply q op h)

theorem queueContents_length {α : Type} (q : iq_data_work_queue α) :
    (queueContents q).length = q.count.toNat := by
  simp [queueContents]

theorem range_succ_map {β : Type} (n : Nat) (g : Nat → β) :
    (List.range (n + 1)).map g = g 0 :: (List.range n).map (fun k => g (k + 1)) := by
  rw [List.range_succ_eq_map]
  simp [List.map_map, Function.comp_def]

theorem queueContents_submit {α : Type} (q : iq_data_work_queue α) (f : α)
    (h : QueueInv q) :
    queueContents (iq_data_work_queue_submit q (some f)).1
      = specSubmit (queueContents q) f := by
  obtain ⟨h1, h2, h3, h4, h5, h6, h7⟩ := h
  have e1 : Int.tmod (q.head + 1) 8 = (q.head + 1) % 8 :=
    Int.tmod_eq_emod (by omega) (by omega)
  unfold iq_data_work_queue_submit queueContents specSubmit
  simp only [IQ_DATA_WORK_QUEUE_CAPACITY]
  by_cases hc : q.count = 8
  · simp only [hc, if_true, e1]
    have h8 : (8 : Int).toNat = 7 + 1 := by decide
    rw [h8, range_succ_map, List.take_succ_cons, ← List.map_take, List.take_range]
    congr 1
    · have : ((q.head + 1) % 8 - ((0 : Nat) : Int)) % 8 = (q.head + 1) % 8 := by omega
      rw [this]; simp
    · apply List.map_congr_left
      intro k hk
      simp at hk
      have hne : (q.head + 1) % 8 ≠ ((q.head + 1) % 8 - ((k + 1 : Nat) : Int)) % 8 := by
        omega
      have heq : ((q.head + 1) % 8 - ((k + 1 : Nat) : Int)) % 8 = (q.head - (k : Int)) % 8 := by
        omega
      rw [if_neg (Ne.symm hne), heq]
  · simp only [hc, if_false, e1]
    have hn : (q.count + 1).toNat = q.count.toNat + 1 := by omega
    rw [hn, range_succ_map]
    have hlen : ((List.range q.count.toNat).map
        (fun (k : Nat) => q.buffer ((q.head - (k : Int)) % 8))).length + 1 ≤ 8 := by
      simp; omega
    rw [List.take_of_length_le (by simpa using hlen)]
    congr 1
    · have : ((q.head + 1) % 8 - ((0 : Nat) : Int)) % 8 = (q.head + 1) % 8 := by omega
      rw [this]; simp
    · apply List.map_congr_left
      intro k hk
      simp at hk
      have hne : (q.head + 1) % 8 ≠ ((q.head + 1) % 8 - ((k + 1 : Nat) : Int)) % 8 := by
        omega
      have heq : ((q.head + 1) % 8 - ((k + 1 : Nat) : Int)) % 8 = (q.head - (k : Int)) % 8 := by
        omega
      rw [if_neg (Ne.symm hne), heq]

theorem queueContents_step {α : Type} (q : iq_data_work_queue α) (h : QueueInv q) :
    (iq_data_work_queue_handler_step q).1 = (specPop (queueContents q)).1 ∧
    queueContents (iq_data_work_queue_handler_step q).2.2 = (specPop (queueContents q)).2 := by
  obtain ⟨h1, h2, h3, h4, h5, h6, h7⟩ := h
  unfold iq_data_work_queue_handler_step queueContents specPop
  simp only [IQ_DATA_WORK_QUEUE_CAPACITY]
  by_cases hc : q.count > 0
  · simp only [hc, if_true]
    obtain ⟨n, hn⟩ : ∃ n : Nat, q.count.toNat = n + 1 := ⟨q.count.toNat - 1, by omega⟩
    have hn2 : (q.count - 1).toNat = n := by omega
    rw [hn, hn2, range_succ_map]
    refine ⟨?_, ?_⟩
    · simp
      have : q.head % 8 = q.head := by omega
      rw [this]
    · simp only [List.tail_cons]
      apply List.map_congr_left
      intro k hk
      have heq : ((if q.head = 0 then (8 : Int) - 1 else q.head - 1) - (k : Int)) % 8
          = (q.head - ((k + 1 : Nat) : Int)) % 8 := by
        split <;> omega
      rw [heq]
  · simp only [hc, if_false]
    have h0 : q.count.toNat = 0 := by omega
    simp [h0]

theorem run_refines {α : Type} (ops : List (QueueOp α)) :
    ∀ q : iq_data_work_queue α, QueueInv q →
      (runQueueOps ops q).1 = (runSpecOps ops (queueContents q)).1 ∧
      queueContents (runQueueOps ops q).2 = (runSpecOps ops (queueContents q)).2 := by
  induction ops with
  | nil => intro q _; exact ⟨rfl, rfl⟩
  | cons op ops ih =>
    intro q h
    cases op with
    | submit f =>
      have ih1 := ih _ (queueInv_submit q f h)
      rw [queueContents_submit q f h] at ih1
      simp only [runQueueOps, runSpecOps, QueueOp.apply]
      exact ⟨by rw [ih1.1], ih1.2⟩
    | pop =>
      have ih1 := ih _ (queueInv_step q h)
      have hs := queueContents_step q h
      rw [hs.2] at ih1
      simp only [runQueueOps, runSpecOps, QueueOp.apply]
      exact ⟨by rw [ih1.1, hs.1], ih1.2⟩

theorem queueContents_init {α : Type} (q : iq_data_work_queue α) :
    queueContents (iq_data_work_queue_init q true true) = [] := by
  simp [iq_data_work_queue_init, queueContents]

theorem submit_processor {α : Type} (q : iq_data_work_queue α) (f : α) :
    (iq_data_work_queue_submit q (some f)).1.processor = q.processor := by
  unfold iq_data_work_queue_submit
  simp only
  split <;> rfl

theorem step_processor {α : Type} (q : iq_data_work_queue α) :
    (iq_data_work_queue_handler_step q).2.2.processor = q.processor := by
  unfold iq_data_work_queue_handler_step
  simp only
  split <;> rfl

theorem step_exhausted {α : Type} (q : iq_data_work_queue α) :
    (iq_data_work_queue_handler_step q).2.1
      = decide ((iq_data_work_queue_handler_step q).2.2.count = 0) := rfl

theorem handler_loop_drains {α : Type} (fuel : Nat) :
    ∀ q : iq_data_work_queue α, QueueInv q → q.processor = true →
      q.count.toNat ≤ fuel + 1 →
      ∃ q1, iq_data_work_queue_handler_loop (fuel + 1) q = some (queueContents q, q1) ∧
        q1.count = 0 := by
  induction fuel with
  | zero =>
    intro q h hp hc
    have hs := queueContents_step q h
    have hl := queueContents_length q
    have hl2 := queueContents_length (iq_data_work_queue_handler_step q).2.2
    have hi := queueInv_step q h
    obtain ⟨h1, h2, -⟩ := h
    obtain ⟨i1, i2, -⟩ := hi
    rw [hs.2] at hl2
    simp only [specPop, List.length_tail] at hl2 hs
    have hz : (iq_data_work_queue_handler_step q).2.2.count = 0 := by omega
    refine ⟨(iq_data_work_queue_handler_step q).2.2, ?_, hz⟩
    simp only [iq_data_work_queue_handler_loop, step_exhausted, hz, decide_True, if_true, hs.1, hp]
    cases hq : queueContents q with
    | nil => simp
    | cons a l =>
      have : l = [] := by
        rw [hq] at hl
        simp at hl
        apply List.eq_nil_of_length_eq_zero
        omega
      simp [this]
  | succ n ih =>
    intro q h hp hc
    have hs := queueContents_step q h
    have hl := queueContents_length q
    have hl2 := queueContents_length (iq_data_work_queue_handler_step q).2.2
    have hi := queueInv_step q h
    have hp2 := step_processor q
    rw [hs.2] at hl2
    simp only [specPop, List.length_tail] at hl2 hs
    by_cases hz : (iq_data_work_queue_handler_step q).2.2.count = 0
    · refine ⟨(iq_data_work_queue_handler_step q).2.2, ?_, hz⟩
      obtain ⟨h1, h2, -⟩ := h
      obtain ⟨i1, i2, -⟩ := hi
      rw [iq_data_work_queue_handler_loop]
      simp only [step_exhausted, hz, decide_True, if_true, hs.1, hp]
      cases hq : queueContents q with
      | nil => simp
      | cons a l =>
        have : l = [] := by
          rw [hq] at hl hl2
          simp at hl hl2
          apply List.eq_nil_of_length_eq_zero
          omega
        simp [this]
    · have hc2 : (iq_data_work_queue_handler_step q).2.2.count.toNat ≤ n + 1 := by
        obtain ⟨h1, h2, -⟩ := h
        obtain ⟨i1, i2, -⟩ := hi
        omega
      obtain ⟨q1, hq1, hq0⟩ := ih _ hi (by rw [hp2]; exact hp) hc2
      refine ⟨q1, ?_, hq0⟩
      rw [iq_data_work_queue_handler_loop]
      simp only [step_exhausted, hz, decide_False, hs.1, hp, hq1, hs.2]
      cases hq : queueContents q with
      | nil =>
        exfalso
        rw [hq] at hl hl2
        obtain ⟨h1, h2, -⟩ := h
        obtain ⟨i1, i2, -⟩ := hi
        simp at hl hl2
        omega
      | cons a l => simp

theorem take_append_take {α : Type} (n : Nat) (a l : List α) :
    (a ++ l.take n).take n = (a ++ l).take n := by
  rw [List.take_append_eq_append_take, List.take_append_eq_append_take, List.take_take]
  congr 2
  omega

theorem submitAll_spec {α : Type} (fs : List α) :
    ∀ q : iq_data_work_queue α, QueueInv q →
      QueueInv (submitAll q fs) ∧ (submitAll q fs).processor = q.processor ∧
      queueContents (submitAll q fs) = (fs.reverse ++ queueContents q).take 8 := by
  induction fs with
  | nil =>
    intro q h
    refine ⟨h, rfl, ?_⟩
    simp only [submitAll, List.reverse_nil, List.nil_append]
    rw [List.take_of_length_le]
    rw [queueContents_length]
    obtain ⟨h1, h2, -⟩ := h
    omega
  | cons f fs ih =>
    intro q h
    obtain ⟨i1, i2, i3⟩ := ih _ (queueInv_submit q f h)
    refine ⟨i1, by rw [submitAll, i2, submit_processor], ?_⟩
    rw [submitAll, i3, queueContents_submit q f h, specSubmit, take_append_take]
    simp

/-- C3: after `iq_data_work_queue_init` and any sequence of submits and pops
the queue state satisfies `0 <= count <= 8`, `0 <= head < 8`, `0 <= tail < 8`
and `head = (tail + count) mod 8`. -/
theorem work_queue_ring_bounds {α : Type} (q0 : iq_data_work_queue α)
    (ops : List (QueueOp α)) :
    0 ≤ (runQueueOps ops (iq_data_work_queue_init q0 true true)).2.count ∧
    (runQueueOps ops (iq_data_work_queue_init q0 true true)).2.count ≤ 8 ∧
    0 ≤ (runQueueOps ops (iq_data_work_queue_init q0 true true)).2.head ∧
    (runQueueOps ops (iq_data_work_queue_init q0 true true)).2.head < 8 ∧
    0 ≤ (runQueueOps ops (iq_data_work_queue_init q0 true true)).2.tail ∧
    (runQueueOps ops (iq_data_work_queue_init q0 true true)).2.tail < 8 ∧
    (runQueueOps ops (iq_data_work_queue_init q0 true true)).2.head
      = ((runQueueOps ops (iq_data_work_queue_init q0 true true)).2.tail
          + (runQueueOps ops (iq_data_work_queue_init q0 true true)).2.count) % 8 :=
  queueInv_run ops _ (queueInv_init q0)

/-- C1: for every sequence of submit and pop operations applied to a freshly
initialised work queue, the ring buffer refines a stack bounded at 8 that
drops its bottom element on overflow: every pop returns what the stack pops
(the newest frame neither popped nor evicted, nothing when empty), the frames
held are those of the stack (so a submit on a full queue evicts exactly the
oldest one), and `count` is the number of frames held. -/
theorem work_queue_refines_bounded_stack {α : Type} (q0 : iq_data_work_queue α)
    (ops : List (QueueOp α)) :
    (runQueueOps ops (iq_data_work_queue_init q0 true true)).1 = (runSpecOps ops []).1 ∧
    queueContents (runQueueOps ops (iq_data_work_queue_init q0 true true)).2
      = (runSpecOps ops []).2 ∧
    (runQueueOps ops (iq_data_work_queue_init q0 true true)).2.count
      = (((runSpecOps ops []).2.length : Nat) : Int) := by
  have h := run_refines ops _ (queueInv_init q0)
  rw [queueContents_init] at h
  refine ⟨h.1, h.2, ?_⟩
  rw [← h.2, queueContents_length]
  have hi := queueInv_run ops _ (queueInv_init q0)
  obtain ⟨h1, -⟩ := hi
  omega

/-- C2: for frames `f1..fn` submitted in order to a freshly initialised queue
with no drain in between, one run of the drain handler with no concurrent
submit terminates (any fuel of at least 8 loop iterations suffices), hands the
processor exactly `f_n, f_(n-1), ..., f_(max(1, n-7))` in that order, leaves
`count = 0` and does not re-dispatch; frames `1..12` give `12, 11, ..., 5`. -/
theorem handler_drains_newest_first {α : Type} (q0 : iq_data_work_queue α)
    (fs : List α) (fuel : Nat) :
    (∃ q1, iq_data_work_queue_handler (fuel + 8)
        (submitAll (iq_data_work_queue_init q0 true true) fs)
          = some (fs.reverse.take 8, q1, false) ∧ q1.count = 0) ∧
    (iq_data_work_queue_handler 8
        (submitAll (iq_data_work_queue_init blankQueue true true)
          [1, 2, 3, 4, 5, 6, 7, 8, 9, 10, 11, 12])).map (fun r => r.1)
      = some [12, 11, 10, 9, 8, 7, 6, 5] := by
  refine ⟨?_, by decide⟩
  obtain ⟨i1, i2, i3⟩ := submitAll_spec fs _ (queueInv_init q0)
  have hp : (submitAll (iq_data_work_queue_init q0 true true) fs).processor = true := by
    rw [i2]; simp [iq_data_work_queue_init]
  have hc : (submitAll (iq_data_work_queue_init q0 true true) fs).count.toNat
      ≤ (fuel + 7) + 1 := by
    obtain ⟨h1, h2, -⟩ := i1
    omega
  obtain ⟨q1, hq1, hq0⟩ := handler_loop_drains (fuel + 7) _ i1 hp hc
  refine ⟨q1, ?_, hq0⟩
  rw [queueContents_init, List.append_nil] at i3
  unfold iq_data_work_queue_handler
  rw [show fuel + 8 = fuel + 7 + 1 from rfl, hq1, i3]
  simp [hq0]

/-! ## Theorems: locator solver -/

theorem skew_lines_perpendicular {K : Type} [Field K] (P1 D1 P2 D2 : K × K × K)
    (hu1 : dot3 D1 D1 = 1) (hu2 : dot3 D2 D2 = 1)
    (hd : skew_lines_denominator D1 D2 ≠ 0) :
    dot3 (sub3 (skew_lines_closest_points P1 D1 P2 D2).2
        (skew_lines_closest_points P1 D1 P2 D2).1) D1 = 0 ∧
    dot3 (sub3 (skew_lines_closest_points P1 D1 P2 D2).2
        (skew_lines_closest_points P1 D1 P2 D2).1) D2 = 0 := by
  obtain ⟨p1x, p1y, p1z⟩ := P1
  obtain ⟨p2x, p2y, p2z⟩ := P2
  obtain ⟨d1x, d1y, d1z⟩ := D1
  obtain ⟨d2x, d2y, d2z⟩ := D2
  simp only [dot3, sub3, skew_lines_closest_points, skew_lines_parameters,
    skew_lines_denominator] at *
  constructor
  · field_simp
    linear_combination
      (-((d1x * (p2x - p1x) + d1y * (p2y - p1y) + d1z * (p2z - p1z))
          - (d2x * (p2x - p1x) + d2y * (p2y - p1y) + d2z * (p2z - p1z))
            * (d1x * d2x + d1y * d2y + d1z * d2z))) * hu1
  · field_simp
    linear_combination
      (((d1x * (p2x - p1x) + d1y * (p2y - p1y) + d1z * (p2z - p1z))
            * (d1x * d2x + d1y * d2y + d1z * d2z)
          - (d2x * (p2x - p1x) + d2y * (p2y - p1y) + d2z * (p2z - p1z)))) * hu2

theorem common_perpendicular_minimal (P1 D1 P2 D2 Q1 Q2 : ℝ × ℝ × ℝ) (t1 t2 : ℝ)
    (hq1 : Q1 = linePoint P1 D1 t1) (hq2 : Q2 = linePoint P2 D2 t2)
    (hp1 : dot3 (sub3 Q2 Q1) D1 = 0) (hp2 : dot3 (sub3 Q2 Q1) D2 = 0) (s t : ℝ) :
    norm3 Real.sqrt (sub3 Q2 Q1)
      ≤ norm3 Real.sqrt (sub3 (linePoint P1 D1 s) (linePoint P2 D2 t)) := by
  subst hq1 hq2
  obtain ⟨p1x, p1y, p1z⟩ := P1
  obtain ⟨p2x, p2y, p2z⟩ := P2
  obtain ⟨d1x, d1y, d1z⟩ := D1
  obtain ⟨d2x, d2y, d2z⟩ := D2
  simp only [dot3, sub3, linePoint, norm3] at *
  apply Real.sqrt_le_sqrt
  have key :
      (p1x + s * d1x - (p2x + t * d2x)) * (p1x + s * d1x - (p2x + t * d2x))
        + (p1y + s * d1y - (p2y + t * d2y)) * (p1y + s * d1y - (p2y + t * d2y))
        + (p1z + s * d1z - (p2z + t * d2z)) * (p1z + s * d1z - (p2z + t * d2z))
      = ((p2x + t2 * d2x - (p1x + t1 * d1x)) * (p2x + t2 * d2x - (p1x + t1 * d1x))
        + (p2y + t2 * d2y - (p1y + t1 * d1y)) * (p2y + t2 * d2y - (p1y + t1 * d1y))
        + (p2z + t2 * d2z - (p1z + t1 * d1z)) * (p2z + t2 * d2z - (p1z + t1 * d1z)))
        + (((s - t1) * d1x - (t - t2) * d2x) ^ 2 + ((s - t1) * d1y - (t - t2) * d2y) ^ 2
          + ((s - t1) * d1z - (t - t2) * d2z) ^ 2) := by
    linear_combination (-2 * (s - t1)) * hp1 + (2 * (t - t2)) * hp2
  rw [key]
  have h := add_nonneg (add_nonneg (sq_nonneg ((s - t1) * d1x - (t - t2) * d2x))
    (sq_nonneg ((s - t1) * d1y - (t - t2) * d2y)))
    (sq_nonneg ((s - t1) * d1z - (t - t2) * d2z))
  linarith

theorem estimate_eval {K : Type} [LinearOrderedField K] (sqrtf : K → K) (l : locator K)
    (db : beacon_database K) (mac1 mac2 : Option bt_addr) (b1 b2 : beacon K)
    (x1 y1 z1 x2 y2 z2 : K)
    (hdb : l.beacon_db = some db)
    (h1 : beacon_database_get (some db) mac1 = Except.ok b1)
    (h2 : beacon_database_get (some db) mac2 = Except.ok b2) :
    locator_estimate_position_from_skew_lines sqrtf l mac1 x1 y1 z1 mac2 x2 y2 z2
      = if |skew_lines_denominator (beacon_get_global_direction_cosines b1 x1 y1 z1)
              (beacon_get_global_direction_cosines b2 x2 y2 z2)| < 0.001 then
          (-92, l)
        else
          (0, { l with
                position_history := fun i =>
                  if i = l.history_next then
                    skew_lines_position sqrtf (b1.x, b1.y, b1.z)
                      (beacon_get_global_direction_cosines b1 x1 y1 z1) (b2.x, b2.y, b2.z)
                      (beacon_get_global_direction_cosines b2 x2 y2 z2)
                  else l.position_history i,
                history_next := Int.tmod (l.history_next + 1) 256,
                history_count :=
                  if l.history_count < 256 then l.history_count + 1
                  else l.history_count }) := by
  unfold locator_estimate_position_from_skew_lines
  simp only [hdb, h1, h2, LOCATOR_ERROR_PARALLEL_LINES, LOCATOR_POSITION_CAPACITY]

theorem skew_lines_denominator_eq {K : Type} [Field K] (D1 D2 : K × K × K) :
    skew_lines_denominator D1 D2 = 1 - dot3 D1 D2 * dot3 D1 D2 := rfl

theorem skew_lines_denominator_comm {K : Type} [Field K] (D1 D2 : K × K × K) :
    skew_lines_denominator D2 D1 = skew_lines_denominator D1 D2 := by
  simp only [skew_lines_denominator]
  ring

theorem skew_lines_parameters_swap {K : Type} [Field K] (P1 D1 P2 D2 : K × K × K) :
    skew_lines_parameters P2 D2 P1 D1
      = ((skew_lines_parameters P1 D1 P2 D2).2, (skew_lines_parameters P1 D1 P2 D2).1) := by
  simp only [skew_lines_parameters]
  refine Prod.ext ?_ ?_
  · simp only
    congr 1 <;> ring
  · simp only
    congr 1 <;> ring

theorem skew_lines_closest_points_swap {K : Type} [Field K] (P1 D1 P2 D2 : K × K × K) :
    skew_lines_closest_points P2 D2 P1 D1
      = ((skew_lines_closest_points P1 D1 P2 D2).2,
          (skew_lines_closest_points P1 D1 P2 D2).1) := by
  simp only [skew_lines_closest_points]
  rw [skew_lines_parameters_swap P1 D1 P2 D2]

theorem skew_lines_position_swap {K : Type} [Field K] (sqrtf : K → K)
    (P1 D1 P2 D2 : K × K × K) :
    skew_lines_position sqrtf P2 D2 P1 D1 = skew_lines_position sqrtf P1 D1 P2 D2 := by
  simp only [skew_lines_position]
  rw [skew_lines_closest_points_swap P1 D1 P2 D2]
  simp only
  congr 1
  · ring
  · ring
  · ring
  · congr 2
    ring

/-- C4: in exact real arithmetic, for registered beacons whose global
directions `D1`, `D2` are unit vectors with `|1 - (D1.D2)^2| >= 0.001`, the
points `Q1 = P1 + t1 D1` and `Q2 = P2 + t2 D2` computed by the solver satisfy
`(Q2 - Q1).D1 = 0`, `(Q2 - Q1).D2 = 0` and
`|Q2 - Q1| <= |(P1 + s D1) - (P2 + t D2)|` for all `s`, `t`; the call succeeds
and stores `(Q1 + Q2)/2` with `error_radius = |Q2 - Q1| / 2`, half the minimum
distance between the lines, at `history_next`. -/
theorem skew_lines_common_perpendicular (l : locator ℝ) (db : beacon_database ℝ)
    (mac1 mac2 : Option bt_addr) (b1 b2 : beacon ℝ) (x1 y1 z1 x2 y2 z2 : ℝ)
    (D1 D2 : ℝ × ℝ × ℝ)
    (hdb : l.beacon_db = some db)
    (h1 : beacon_database_get (some db) mac1 = Except.ok b1)
    (h2 : beacon_database_get (some db) mac2 = Except.ok b2)
    (hD1 : beacon_get_global_direction_cosines b1 x1 y1 z1 = D1)
    (hD2 : beacon_get_global_direction_cosines b2 x2 y2 z2 = D2)
    (hu1 : dot3 D1 D1 = 1) (hu2 : dot3 D2 D2 = 1)
    (hpar : 0.001 ≤ |1 - dot3 D1 D2 * dot3 D1 D2|) :
    (skew_lines_closest_points (b1.x, b1.y, b1.z) D1 (b2.x, b2.y, b2.z) D2).1
      = linePoint (b1.x, b1.y, b1.z) D1
          (skew_lines_parameters (b1.x, b1.y, b1.z) D1 (b2.x, b2.y, b2.z) D2).1 ∧
    (skew_lines_closest_points (b1.x, b1.y, b1.z) D1 (b2.x, b2.y, b2.z) D2).2
      = linePoint (b2.x, b2.y, b2.z) D2
          (skew_lines_parameters (b1.x, b1.y, b1.z) D1 (b2.x, b2.y, b2.z) D2).2 ∧
    dot3 (sub3 (skew_lines_closest_points (b1.x, b1.y, b1.z) D1 (b2.x, b2.y, b2.z) D2).2
      (skew_lines_closest_points (b1.x, b1.y, b1.z) D1 (b2.x, b2.y, b2.z) D2).1) D1 = 0 ∧
    dot3 (sub3 (skew_lines_closest_points (b1.x, b1.y, b1.z) D1 (b2.x, b2.y, b2.z) D2).2
      (skew_lines_closest_points (b1.x, b1.y, b1.z) D1 (b2.x, b2.y, b2.z) D2).1) D2 = 0 ∧
    (∀ s t : ℝ,
      norm3 Real.sqrt
          (sub3 (skew_lines_closest_points (b1.x, b1.y, b1.z) D1 (b2.x, b2.y, b2.z) D2).2
            (skew_lines_closest_points (b1.x, b1.y, b1.z) D1 (b2.x, b2.y, b2.z) D2).1)
        ≤ norm3 Real.sqrt
            (sub3 (linePoint (b1.x, b1.y, b1.z) D1 s) (linePoint (b2.x, b2.y, b2.z) D2 t))) ∧
    (locator_estimate_position_from_skew_lines Real.sqrt l mac1 x1 y1 z1 mac2 x2 y2 z2).1
      = 0 ∧
    (locator_estimate_position_from_skew_lines Real.sqrt l mac1 x1 y1 z1
        mac2 x2 y2 z2).2.position_history l.history_next
      = { x := ((skew_lines_closest_points (b1.x, b1.y, b1.z) D1 (b2.x, b2.y, b2.z) D2).1.1
              + (skew_lines_closest_points (b1.x, b1.y, b1.z) D1
                  (b2.x, b2.y, b2.z) D2).2.1) / 2,
          y := ((skew_lines_closest_points (b1.x, b1.y, b1.z) D1 (b2.x, b2.y, b2.z) D2).1.2.1
              + (skew_lines_closest_points (b1.x, b1.y, b1.z) D1
                  (b2.x, b2.y, b2.z) D2).2.2.1) / 2,
          z := ((skew_lines_closest_points (b1.x, b1.y, b1.z) D1 (b2.x, b2.y, b2.z) D2).1.2.2
              + (skew_lines_closest_points (b1.x, b1.y, b1.z) D1
                  (b2.x, b2.y, b2.z) D2).2.2.2) / 2,
          error_radius :=
            norm3 Real.sqrt
              (sub3 (skew_lines_closest_points (b1.x, b1.y, b1.z) D1 (b2.x, b2.y, b2.z) D2).2
                (skew_lines_closest_points (b1.x, b1.y, b1.z) D1
                  (b2.x, b2.y, b2.z) D2).1) / 2 } := by
  have hd : skew_lines_denominator D1 D2 ≠ 0 := by
    rw [skew_lines_denominator_eq]
    intro h0
    rw [h0, abs_zero] at hpar
    norm_num at hpar
  have hnp : ¬ |skew_lines_denominator D1 D2| < 0.001 := by
    rw [skew_lines_denominator_eq]
    exact not_lt.mpr hpar
  have hperp := skew_lines_perpendicular (b1.x, b1.y, b1.z) D1 (b2.x, b2.y, b2.z) D2 hu1 hu2 hd
  have hev := estimate_eval Real.sqrt l db mac1 mac2 b1 b2 x1 y1 z1 x2 y2 z2 hdb h1 h2
  rw [hD1, hD2, if_neg hnp] at hev
  refine ⟨rfl, rfl, hperp.1, hperp.2, ?_, ?_, ?_⟩
  · intro s t
    exact common_perpendicular_minimal _ _ _ _ _ _ _ _ rfl rfl hperp.1 hperp.2 s t
  · rw [hev]
  · rw [hev]
    simp only [if_true]
    rfl

theorem get_two_first {K : Type} [Field K] (x1 y1 z1 x2 y2 z2 : K) :
    beacon_database_get
        (some (twoBeaconDatabase (identityBeacon macA x1 y1 z1) (identityBeacon macB x2 y2 z2)))
        (some macA) = Except.ok (identityBeacon macA x1 y1 z1) := by
  simp [beacon_database_get, beacon_database_get_scan, twoBeaconDatabase,
    bt_addr_mac_compare, identityBeacon, macA, List.range_succ]

theorem get_two_second {K : Type} [Field K] (x1 y1 z1 x2 y2 z2 : K) :
    beacon_database_get
        (some (twoBeaconDatabase (identityBeacon macA x1 y1 z1) (identityBeacon macB x2 y2 z2)))
        (some macB) = Except.ok (identityBeacon macB x2 y2 z2) := by
  simp [beacon_database_get, beacon_database_get_scan, twoBeaconDatabase,
    bt_addr_mac_compare, identityBeacon, macA, macB, List.range_succ]

theorem identity_global {K : Type} [Field K] (mac : bt_addr) (x y z a b c : K) :
    beacon_get_global_direction_cosines (identityBeacon mac x y z) a b c = (a, b, c) := by
  simp [beacon_get_global_direction_cosines, identityBeacon]

/-- Witness for C4: beacon A at the origin looking along `z`, beacon B at
`(10, 0, 0)` looking along `y`; the call succeeds. -/
theorem skew_lines_common_perpendicular_witness :
    (locator_estimate_position_from_skew_lines Real.sqrt
      (freshLocator (twoBeaconDatabase (identityBeacon macA (0 : ℝ) 0 0)
        (identityBeacon macB 10 0 0)))
      (some macA) 0 0 1 (some macB) 0 1 0).1 = 0 :=
  (skew_lines_common_perpendicular
    (freshLocator (twoBeaconDatabase (identityBeacon macA (0 : ℝ) 0 0)
      (identityBeacon macB 10 0 0)))
    (twoBeaconDatabase (identityBeacon macA (0 : ℝ) 0 0) (identityBeacon macB 10 0 0))
    (some macA) (some macB) (identityBeacon macA 0 0 0) (identityBeacon macB 10 0 0)
    0 0 1 0 1 0 (0, 0, 1) (0, 1, 0) rfl
    (get_two_first 0 0 0 10 0 0) (get_two_second 0 0 0 10 0 0)
    (identity_global macA 0 0 0 0 0 1) (identity_global macB 10 0 0 0 1 0)
    (by norm_num [dot3]) (by norm_num [dot3]) (by norm_num [dot3])).2.2.2.2.2.1

/-- C5: in exact real arithmetic, for two registered beacons and any two
local direction triples, the solver called with the two fixes in either order
returns the same status and leaves the same locator state; on success the
position recorded at `history_next` (coordinates and `error_radius`) is the
same. -/
theorem estimate_symmetric (l : locator ℝ) (db : beacon_database ℝ)
    (mac1 mac2 : Option bt_addr) (b1 b2 : beacon ℝ) (x1 y1 z1 x2 y2 z2 : ℝ)
    (hdb : l.beacon_db = some db)
    (h1 : beacon_database_get (some db) mac1 = Except.ok b1)
    (h2 : beacon_database_get (some db) mac2 = Except.ok b2) :
    (locator_estimate_position_from_skew_lines Real.sqrt l mac1 x1 y1 z1 mac2 x2 y2 z2).1
      = (locator_estimate_position_from_skew_lines Real.sqrt l mac2 x2 y2 z2
          mac1 x1 y1 z1).1 ∧
    (locator_estimate_position_from_skew_lines Real.sqrt l mac1 x1 y1 z1 mac2 x2 y2 z2).2
      = (locator_estimate_position_from_skew_lines Real.sqrt l mac2 x2 y2 z2
          mac1 x1 y1 z1).2 ∧
    ((locator_estimate_position_from_skew_lines Real.sqrt l mac1 x1 y1 z1
          mac2 x2 y2 z2).1 = 0 →
      (locator_estimate_position_from_skew_lines Real.sqrt l mac1 x1 y1 z1
          mac2 x2 y2 z2).2.position_history l.history_next
        = (locator_estimate_position_from_skew_lines Real.sqrt l mac2 x2 y2 z2
          mac1 x1 y1 z1).2.position_history l.history_next) := by
  have e : locator_estimate_position_from_skew_lines Real.sqrt l mac1 x1 y1 z1 mac2 x2 y2 z2
      = locator_estimate_position_from_skew_lines Real.sqrt l mac2 x2 y2 z2 mac1 x1 y1 z1 := by
    rw [estimate_eval Real.sqrt l db mac1 mac2 b1 b2 x1 y1 z1 x2 y2 z2 hdb h1 h2,
      estimate_eval Real.sqrt l db mac2 mac1 b2 b1 x2 y2 z2 x1 y1 z1 hdb h2 h1,
      skew_lines_denominator_comm
        (beacon_get_global_direction_cosines b1 x1 y1 z1)
        (beacon_get_global_direction_cosines b2 x2 y2 z2),
      skew_lines_position_swap Real.sqrt (b1.x, b1.y, b1.z)
        (beacon_get_global_direction_cosines b1 x1 y1 z1) (b2.x, b2.y, b2.z)
        (beacon_get_global_direction_cosines b2 x2 y2 z2)]
  refine ⟨by rw [e], by rw [e], fun _ => by rw [e]⟩

/-- Witness for C5: the two beacons of the C4 witness, in both orders. -/
theorem estimate_symmetric_witness :
    (locator_estimate_position_from_skew_lines Real.sqrt
      (freshLocator (twoBeaconDatabase (identityBeacon macA (0 : ℝ) 0 0)
        (identityBeacon macB 10 0 0)))
      (some macA) 0 0 1 (some macB) 0 1 0).1
    = (locator_estimate_position_from_skew_lines Real.sqrt
      (freshLocator (twoBeaconDatabase (identityBeacon macA (0 : ℝ) 0 0)
        (identityBeacon macB 10 0 0)))
      (some macB) 0 1 0 (some macA) 0 0 1).1 :=
  (estimate_symmetric
    (freshLocator (twoBeaconDatabase (identityBeacon macA (0 : ℝ) 0 0)
      (identityBeacon macB 10 0 0)))
    (twoBeaconDatabase (identityBeacon macA (0 : ℝ) 0 0) (identityBeacon macB 10 0 0))
    (some macA) (some macB) (identityBeacon macA 0 0 0) (identityBeacon macB 10 0 0)
    0 0 1 0 1 0 rfl
    (get_two_first 0 0 0 10 0 0) (get_two_second 0 0 0 10 0 0)).1

theorem scenario_parallel_denominator :
    |skew_lines_denominator ((0.001 : ℝ), (0 : ℝ), (0.9999995 : ℝ))
        ((0.001 : ℝ), (0 : ℝ), (0.9999995 : ℝ))| < 0.001 := by
  rw [skew_lines_denominator_eq, abs_lt]
  constructor <;> norm_num [dot3]

theorem scenario_parallel :
    (locator_estimate_position_from_skew_lines Real.sqrt
      (freshLocator (twoBeaconDatabase (identityBeacon macA (0 : ℝ) 0 0)
        (identityBeacon macB 0 1 0)))
      (some macA) 0.001 0 0.9999995 (some macB) 0.001 0 0.9999995).1 = -92 := by
  rw [estimate_eval Real.sqrt _ _ (some macA) (some macB) _ _ _ _ _ _ _ _ rfl
    (get_two_first 0 0 0 0 1 0) (get_two_second 0 0 0 0 1 0),
    identity_global, identity_global, if_pos scenario_parallel_denominator]

/-- C6 (amended): in exact real arithmetic, when both beacons are found in the
registry, the solver returns `ParallelLines` (-92) if and only if
`|1 - (D1.D2)^2| < 0.001` for the global directions; in particular it does
whenever `D1.D2` is `1` or `-1`, and for two identity-orientation beacons whose
positions differ by `(0, 1, 0)` with both local cosines
`(0.001, 0, 0.9999995)`. -/
theorem parallel_lines_iff (l : locator ℝ) (db : beacon_database ℝ)
    (mac1 mac2 : Option bt_addr) (b1 b2 : beacon ℝ) (x1 y1 z1 x2 y2 z2 : ℝ)
    (D1 D2 : ℝ × ℝ × ℝ)
    (hdb : l.beacon_db = some db)
    (h1 : beacon_database_get (some db) mac1 = Except.ok b1)
    (h2 : beacon_database_get (some db) mac2 = Except.ok b2)
    (hD1 : beacon_get_global_direction_cosines b1 x1 y1 z1 = D1)
    (hD2 : beacon_get_global_direction_cosines b2 x2 y2 z2 = D2) :
    ((locator_estimate_position_from_skew_lines Real.sqrt l mac1 x1 y1 z1
          mac2 x2 y2 z2).1 = -LOCATOR_ERROR_PARALLEL_LINES
        ↔ |1 - dot3 D1 D2 * dot3 D1 D2| < 0.001) ∧
    (dot3 D1 D2 = 1 ∨ dot3 D1 D2 = -1 →
      (locator_estimate_position_from_skew_lines Real.sqrt l mac1 x1 y1 z1
          mac2 x2 y2 z2).1 = -LOCATOR_ERROR_PARALLEL_LINES) ∧
    (locator_estimate_position_from_skew_lines Real.sqrt
      (freshLocator (twoBeaconDatabase (identityBeacon macA (0 : ℝ) 0 0)
        (identityBeacon macB 0 1 0)))
      (some macA) 0.001 0 0.9999995 (some macB) 0.001 0 0.9999995).1
        = -LOCATOR_ERROR_PARALLEL_LINES := by
  have hev := estimate_eval Real.sqrt l db mac1 mac2 b1 b2 x1 y1 z1 x2 y2 z2 hdb h1 h2
  rw [hD1, hD2, skew_lines_denominator_eq] at hev
  have hiff : (locator_estimate_position_from_skew_lines Real.sqrt l mac1 x1 y1 z1
          mac2 x2 y2 z2).1 = -LOCATOR_ERROR_PARALLEL_LINES
        ↔ |1 - dot3 D1 D2 * dot3 D1 D2| < 0.001 := by
    rw [hev]
    by_cases hp : |1 - dot3 D1 D2 * dot3 D1 D2| < 0.001
    · simp [hp, LOCATOR_ERROR_PARALLEL_LINES]
    · simp [hp, LOCATOR_ERROR_PARALLEL_LINES]
  refine ⟨hiff, ?_, scenario_parallel⟩
  intro h
  apply hiff.mpr
  rcases h with h | h <;> rw [h] <;> norm_num

/-- Witness for C6 (amended): the near-parallel scenario, through the equivalence. -/
theorem parallel_lines_iff_witness :
    (locator_estimate_position_from_skew_lines Real.sqrt
      (freshLocator (twoBeaconDatabase (identityBeacon macA (0 : ℝ) 0 0)
        (identityBeacon macB 0 1 0)))
      (some macA) 0.001 0 0.9999995 (some macB) 0.001 0 0.9999995).1 = -92 :=
  (parallel_lines_iff
    (freshLocator (twoBeaconDatabase (identityBeacon macA (0 : ℝ) 0 0)
      (identityBeacon macB 0 1 0)))
    (twoBeaconDatabase (identityBeacon macA (0 : ℝ) 0 0) (identityBeacon macB 0 1 0))
    (some macA) (some macB) (identityBeacon macA 0 0 0) (identityBeacon macB 0 1 0)
    0.001 0 0.9999995 0.001 0 0.9999995 (0.001, 0, 0.9999995) (0.001, 0, 0.9999995) rfl
    (get_two_first 0 0 0 0 1 0) (get_two_second 0 0 0 0 1 0)
    (identity_global macA 0 0 0 0.001 0 0.9999995)
    (identity_global macB 0 1 0 0.001 0 0.9999995)).1.mpr
    (by
      have h := scenario_parallel_denominator
      rw [skew_lines_denominator_eq] at h
      exact h)

theorem scenario_b_parameters (s : ℝ) (hs : s * s = 1 / 2) :
    skew_lines_parameters ((0 : ℝ), (0 : ℝ), (0 : ℝ)) (0, 0, 1) (10, 0, 0) (-s, 0, s)
      = (10, 20 * s) := by
  have hden : (1 : ℝ) - (0 * -s + 0 * 0 + 1 * s) * (0 * -s + 0 * 0 + 1 * s) = 1 / 2 := by
    linear_combination -hs
  simp only [skew_lines_parameters, hden]
  refine Prod.ext ?_ ?_
  · simp only
    rw [div_eq_iff (by norm_num)]
    linear_combination 10 * hs
  · simp only
    rw [div_eq_iff (by norm_num)]
    ring

theorem scenario_b_position (s : ℝ) (hs : s * s = 1 / 2) :
    skew_lines_position Real.sqrt ((0 : ℝ), (0 : ℝ), (0 : ℝ)) (0, 0, 1) (10, 0, 0) (-s, 0, s)
      = { x := 0, y := 0, z := 10, error_radius := 0 } := by
  have hq : skew_lines_closest_points ((0 : ℝ), (0 : ℝ), (0 : ℝ)) (0, 0, 1) (10, 0, 0) (-s, 0, s)
      = ((0, 0, 10), (0, 0, 10)) := by
    simp only [skew_lines_closest_points, scenario_b_parameters s hs]
    refine Prod.ext (Prod.ext ?_ (Prod.ext ?_ ?_)) (Prod.ext ?_ (Prod.ext ?_ ?_)) <;> simp only
    · ring
    · ring
    · ring
    · linear_combination (-20) * hs
    · ring
    · linear_combination 20 * hs
  simp only [skew_lines_position, hq]
  norm_num

theorem scenario_b_eval :
    locator_estimate_position_from_skew_lines Real.sqrt
      (freshLocator (twoBeaconDatabase (identityBeacon macA (0 : ℝ) 0 0)
        (identityBeacon macB 10 0 0)))
      (some macA) 0 0 1 (some macB) (-Real.sqrt (1 / 2)) 0 (Real.sqrt (1 / 2))
    = (0, { (freshLocator (twoBeaconDatabase (identityBeacon macA (0 : ℝ) 0 0)
              (identityBeacon macB 10 0 0))) with
            position_history := fun i =>
              if i = 0 then { x := 0, y := 0, z := 10, error_radius := 0 }
              else { x := 0, y := 0, z := 0, error_radius := 0 },
            history_next := 1,
            history_count := 1 }) := by
  have hs : Real.sqrt (1 / 2) * Real.sqrt (1 / 2) = 1 / 2 :=
    Real.mul_self_sqrt (by norm_num)
  have hnp : ¬ |skew_lines_denominator ((0 : ℝ), (0 : ℝ), (1 : ℝ))
      (-Real.sqrt (1 / 2), 0, Real.sqrt (1 / 2))| < 0.001 := by
    have hden : skew_lines_denominator ((0 : ℝ), (0 : ℝ), (1 : ℝ))
        (-Real.sqrt (1 / 2), 0, Real.sqrt (1 / 2)) = 1 / 2 := by
      simp only [skew_lines_denominator]
      linear_combination -hs
    rw [hden, abs_of_pos (by norm_num : (0 : ℝ) < 1 / 2)]
    norm_num
  rw [estimate_eval Real.sqrt _ _ (some macA) (some macB) _ _ _ _ _ _ _ _ rfl
    (get_two_first 0 0 0 10 0 0) (get_two_second 0 0 0 10 0 0),
    identity_global, identity_global, if_neg hnp]
  have hp := scenario_b_position (Real.sqrt (1 / 2)) hs
  simp only [identityBeacon, freshLocator] at hp ⊢
  rw [hp]
  simp
  decide

/-- C7 as stated fails: for beacon 1 at `(0,0,0)` with local cosines
`(0,0,1)` and beacon 2 at `(10,0,0)` with local cosines
`(-sqrt(1/2), 0, sqrt(1/2))`, both of identity orientation, the solver does
not record the position `(5, 0, 5)`. -/
theorem scenario_b_not_five_zero_five :
    ¬ ((locator_estimate_position_from_skew_lines Real.sqrt
        (freshLocator (twoBeaconDatabase (identityBeacon macA (0 : ℝ) 0 0)
          (identityBeacon macB 10 0 0)))
        (some macA) 0 0 1 (some macB) (-Real.sqrt (1 / 2)) 0 (Real.sqrt (1 / 2))).1 = 0 ∧
      (locator_estimate_position_from_skew_lines Real.sqrt
        (freshLocator (twoBeaconDatabase (identityBeacon macA (0 : ℝ) 0 0)
          (identityBeacon macB 10 0 0)))
        (some macA) 0 0 1 (some macB) (-Real.sqrt (1 / 2)) 0
          (Real.sqrt (1 / 2))).2.position_history 0
        = { x := 5, y := 0, z := 5, error_radius := 0 }) := by
  rw [scenario_b_eval]
  simp

/-- C7 (amended): for beacon 1 at `(0,0,0)` with local cosines `(0,0,1)` and
beacon 2 at `(10,0,0)` with local cosines `(-sqrt(1/2), 0, sqrt(1/2))`, both
of identity orientation, the solver succeeds and records the position
`(0, 0, 10)`, the point where the two lines meet, with `error_radius` 0. -/
theorem scenario_b_records_zero_zero_ten :
    (locator_estimate_position_from_skew_lines Real.sqrt
        (freshLocator (twoBeaconDatabase (identityBeacon macA (0 : ℝ) 0 0)
          (identityBeacon macB 10 0 0)))
        (some macA) 0 0 1 (some macB) (-Real.sqrt (1 / 2)) 0 (Real.sqrt (1 / 2))).1 = 0 ∧
    (locator_estimate_position_from_skew_lines Real.sqrt
        (freshLocator (twoBeaconDatabase (identityBeacon macA (0 : ℝ) 0 0)
          (identityBeacon macB 10 0 0)))
        (some macA) 0 0 1 (some macB) (-Real.sqrt (1 / 2)) 0
          (Real.sqrt (1 / 2))).2.position_history 0
        = { x := 0, y := 0, z := 10, error_radius := 0 } := by
  rw [scenario_b_eval]
  simp

theorem beacon_database_get_error {K : Type} (db : Option (beacon_database K))
    (mac : Option bt_addr) (r : Int) (h : beacon_database_get db mac = Except.error r) :
    r = -22 ∨ r = -2 := by
  unfold beacon_database_get at h
  split at h
  · split at h
    · cases h
    · injection h with h; exact Or.inr h.symm
  · injection h with h; exact Or.inl h.symm

theorem estimate_cases {K : Type} [LinearOrderedField K] (sqrtf : K → K) (l : locator K)
    (mac1 mac2 : Option bt_addr) (x1 y1 z1 x2 y2 z2 : K) :
    (((locator_estimate_position_from_skew_lines sqrtf l mac1 x1 y1 z1 mac2 x2 y2 z2).1 = -22 ∨
        (locator_estimate_position_from_skew_lines sqrtf l mac1 x1 y1 z1 mac2 x2 y2 z2).1 = -2 ∨
        (locator_estimate_position_from_skew_lines sqrtf l mac1 x1 y1 z1 mac2 x2 y2 z2).1 = -92) ∧
      (locator_estimate_position_from_skew_lines sqrtf l mac1 x1 y1 z1 mac2 x2 y2 z2).2 = l) ∨
    (∃ db b1 b2, l.beacon_db = some db ∧
      beacon_database_get (some db) mac1 = Except.ok b1 ∧
      beacon_database_get (some db) mac2 = Except.ok b2 ∧
      locator_estimate_position_from_skew_lines sqrtf l mac1 x1 y1 z1 mac2 x2 y2 z2
        = (0, { l with
                position_history := fun i =>
                  if i = l.history_next then
                    skew_lines_position sqrtf (b1.x, b1.y, b1.z)
                      (beacon_get_global_direction_cosines b1 x1 y1 z1) (b2.x, b2.y, b2.z)
                      (beacon_get_global_direction_cosines b2 x2 y2 z2)
                  else l.position_history i,
                history_next := Int.tmod (l.history_next + 1) 256,
                history_count :=
                  if l.history_count < 256 then l.history_count + 1
                  else l.history_count })) := by
  cases hdb : l.beacon_db with
  | none =>
    left
    unfold locator_estimate_position_from_skew_lines
    simp [hdb]
  | some db =>
    cases hg1 : beacon_database_get (some db) mac1 with
    | error r =>
      left
      unfold locator_estimate_position_from_skew_lines
      simp only [hdb, hg1, and_true]
      rcases beacon_database_get_error _ _ _ hg1 with h | h
      · exact Or.inl h
      · exact Or.inr (Or.inl h)
    | ok b1 =>
      cases hg2 : beacon_database_get (some db) mac2 with
      | error r =>
        left
        unfold locator_estimate_position_from_skew_lines
        simp only [hdb, hg1, hg2, and_true]
        rcases beacon_database_get_error _ _ _ hg2 with h | h
        · exact Or.inl h
        · exact Or.inr (Or.inl h)
      | ok b2 =>
        have hev := estimate_eval sqrtf l db mac1 mac2 b1 b2 x1 y1 z1 x2 y2 z2 hdb hg1 hg2
        by_cases hp : |skew_lines_denominator (beacon_get_global_direction_cosines b1 x1 y1 z1)
              (beacon_get_global_direction_cosines b2 x2 y2 z2)| < 0.001
        · left
          rw [hev, if_pos hp]
          simp
        · right
          rw [if_neg hp] at hev
          exact ⟨db, b1, b2, rfl, hg1, hg2, by rw [hev, hdb]⟩

theorem historyInv_estimate {K : Type} [LinearOrderedField K] (sqrtf : K → K) (l : locator K)
    (c : estimate_call K) (h : HistoryInv l) : HistoryInv (estimate_call.run sqrtf l c).2 := by
  unfold estimate_call.run
  rcases estimate_cases sqrtf l c.mac_1 c.mac_2 c.x_1 c.y_1 c.z_1 c.x_2 c.y_2 c.z_2 with
    ⟨-, h2⟩ | ⟨db, b1, b2, -, -, -, hev⟩
  · rw [h2]; exact h
  · rw [hev]
    obtain ⟨h1, h2, h3, h4⟩ := h
    have e1 : Int.tmod (l.history_next + 1) 256 = (l.history_next + 1) % 256 :=
      Int.tmod_eq_emod (by omega) (by omega)
    unfold HistoryInv
    simp only [e1]
    refine ⟨by omega, by omega, ?_, ?_⟩
    · split <;> omega
    · split <;> omega

theorem historyInv_run {K : Type} [LinearOrderedField K] (sqrtf : K → K)
    (calls : List (estimate_call K)) :
    ∀ l : locator K, HistoryInv l → HistoryInv (runEstimates sqrtf calls l) := by
  induction calls with
  | nil => intro l h; exact h
  | cons c cs ih =>
    intro l h
    exact ih _ (historyInv_estimate sqrtf l c h)

/-- C8: on a locator reached from `locator_init` by any sequence of solver
calls, `history_next` is in `[0, 256)` and `history_count` in `[0, 256]`; a
further call returns `0`, `-22`, `-2` or `-92`; when it returns `0` it writes
the new fix at index `history_next`, leaves every other slot unchanged, sets
`history_next` to `(history_next + 1) mod 256` and `history_count` to
`min(history_count + 1, 256)`; when it fails the locator (history, next and
count) is unchanged. -/
theorem position_history_frame {K : Type} [LinearOrderedField K] (sqrtf : K → K)
    (l0 : locator K) (db : beacon_database K) (calls : List (estimate_call K))
    (c : estimate_call K) :
    (0 ≤ (runEstimates sqrtf calls (locator_init l0 (some db)).2).history_next ∧
      (runEstimates sqrtf calls (locator_init l0 (some db)).2).history_next < 256 ∧
      0 ≤ (runEstimates sqrtf calls (locator_init l0 (some db)).2).history_count ∧
      (runEstimates sqrtf calls (locator_init l0 (some db)).2).history_count ≤ 256) ∧
    ((estimate_call.run sqrtf (runEstimates sqrtf calls (locator_init l0 (some db)).2) c).1 = 0 ∨
      (estimate_call.run sqrtf (runEstimates sqrtf calls (locator_init l0 (some db)).2) c).1 = -22 ∨
      (estimate_call.run sqrtf (runEstimates sqrtf calls (locator_init l0 (some db)).2) c).1 = -2 ∨
      (estimate_call.run sqrtf (runEstimates sqrtf calls (locator_init l0 (some db)).2) c).1
        = -92) ∧
    ((estimate_call.run sqrtf (runEstimates sqrtf calls (locator_init l0 (some db)).2) c).1 = 0 →
      (∃ b1 b2,
        beacon_database_get (runEstimates sqrtf calls (locator_init l0 (some db)).2).beacon_db
          c.mac_1 = Except.ok b1 ∧
        beacon_database_get (runEstimates sqrtf calls (locator_init l0 (some db)).2).beacon_db
          c.mac_2 = Except.ok b2 ∧
        (estimate_call.run sqrtf (runEstimates sqrtf calls (locator_init l0 (some db)).2)
            c).2.position_history
            (runEstimates sqrtf calls (locator_init l0 (some db)).2).history_next
          = skew_lines_position sqrtf (b1.x, b1.y, b1.z)
              (beacon_get_global_direction_cosines b1 c.x_1 c.y_1 c.z_1) (b2.x, b2.y, b2.z)
              (beacon_get_global_direction_cosines b2 c.x_2 c.y_2 c.z_2)) ∧
      (∀ i, i ≠ (runEstimates sqrtf calls (locator_init l0 (some db)).2).history_next →
        (estimate_call.run sqrtf (runEstimates sqrtf calls (locator_init l0 (some db)).2)
            c).2.position_history i
          = (runEstimates sqrtf calls (locator_init l0 (some db)).2).position_history i) ∧
      (estimate_call.run sqrtf (runEstimates sqrtf calls (locator_init l0 (some db)).2)
          c).2.history_next
        = ((runEstimates sqrtf calls (locator_init l0 (some db)).2).history_next + 1) % 256 ∧
      (estimate_call.run sqrtf (runEstimates sqrtf calls (locator_init l0 (some db)).2)
          c).2.history_count
        = min ((runEstimates sqrtf calls (locator_init l0 (some db)).2).history_count + 1) 256) ∧
    ((estimate_call.run sqrtf (runEstimates sqrtf calls (locator_init l0 (some db)).2) c).1 ≠ 0 →
      (estimate_call.run sqrtf (runEstimates sqrtf calls (locator_init l0 (some db)).2) c).2
        = runEstimates sqrtf calls (locator_init l0 (some db)).2) := by
  have hinv : HistoryInv (runEstimates sqrtf calls (locator_init l0 (some db)).2) := by
    apply historyInv_run
    simp [locator_init, HistoryInv]
  generalize runEstimates sqrtf calls (locator_init l0 (some db)).2 = l at hinv ⊢
  obtain ⟨h1, h2, h3, h4⟩ := hinv
  refine ⟨⟨h1, h2, h3, h4⟩, ?_⟩
  unfold estimate_call.run
  rcases estimate_cases sqrtf l c.mac_1 c.mac_2 c.x_1 c.y_1 c.z_1 c.x_2 c.y_2 c.z_2 with
    ⟨hr, hl⟩ | ⟨db1, b1, b2, hdb, hg1, hg2, hev⟩
  · refine ⟨Or.inr hr, ?_, fun _ => hl⟩
    intro h0
    rcases hr with h | h | h <;> rw [h0] at h <;> omega
  · rw [hev]
    refine ⟨Or.inl rfl, fun _ => ?_, fun h => absurd rfl h⟩
    have e1 : Int.tmod (l.history_next + 1) 256 = (l.history_next + 1) % 256 :=
      Int.tmod_eq_emod (by omega) (by omega)
    refine ⟨⟨b1, b2, by rw [hdb]; exact hg1, by rw [hdb]; exact hg2, by simp⟩, ?_, e1, ?_⟩
    · intro i hi
      simp [hi]
    · simp only
      split <;> omega

/-! ## Theorems: IQ pipeline -/

theorem aget_lt {α : Type} (size : Nat) (a : Nat → α) (i : Nat) (h : i < size) :
    aget size a i = some (a i) := by
  simp [aget, h]

theorem aset_lt {α : Type} (size : Nat) (a : Nat → α) (i : Nat) (v : α) (h : i < size) :
    aset size a i v = some (fun j => if j = i then v else a j) := by
  simp [aset, h]

theorem foldlM_option_inv {σ β : Type} (P : σ → Prop) (f : σ → β → Option σ) (l : List β) :
    ∀ s : σ, P s → (∀ s b, b ∈ l → P s → ∃ s1, f s b = some s1 ∧ P s1) →
      ∃ s1, l.foldlM f s = some s1 ∧ P s1 := by
  induction l with
  | nil => intro s h _; exact ⟨s, rfl, h⟩
  | cons b l ih =>
    intro s h hstep
    obtain ⟨s1, h1, hp1⟩ := hstep s b (List.mem_cons_self b l) h
    obtain ⟨s2, h2, hp2⟩ := ih s1 hp1 (fun s b hb hp => hstep s b (List.mem_cons_of_mem _ hb) hp)
    refine ⟨s2, ?_, hp2⟩
    rw [List.foldlM_cons, h1]
    exact h2

theorem iq_data_init_reference_step_eq {K : Type} (raw : iq_raw_samples) (d : iq_data K)
    (i : Nat) (h : i < 8) :
    iq_data_init_reference_step raw d i
      = some { d with
          reference_i := fun j => if j = i then raw.i i else d.reference_i j,
          reference_q := fun j => if j = i then raw.q i else d.reference_q j } := by
  simp only [iq_data_init_reference_step, aget_lt 45 _ i (by omega), aset_lt 8 _ i _ h]
  rfl

theorem iq_data_init_measurement_step_eq {K : Type} (raw : iq_raw_samples) (d : iq_data K)
    (i : Nat) (h : i < 37) (h45 : i + d.reference_sample_count < 45) :
    iq_data_init_measurement_step raw d i
      = some { d with
          measurement_i := fun j =>
            if j = i then raw.i (i + d.reference_sample_count) else d.measurement_i j,
          measurement_q := fun j =>
            if j = i then raw.q (i + d.reference_sample_count) else d.measurement_q j } := by
  simp only [iq_data_init_measurement_step, aget_lt 45 _ _ h45, aset_lt 37 _ i _ h]
  rfl

theorem iq_data_temp_fix_ref_samples_step_eq {K : Type} (d : iq_data K) (i : Nat) (h : i < 8) :
    iq_data_temp_fix_ref_samples_step d i
      = some { d with
          reference_i := fun j =>
            if j = i then negate_int8 (d.reference_i i) else d.reference_i j,
          reference_q := fun j =>
            if j = i then negate_int8 (d.reference_q i) else d.reference_q j } := by
  simp only [iq_data_temp_fix_ref_samples_step, aget_lt 8 _ i h, aset_lt 8 _ i _ h]
  rfl

theorem calculate_reference_phases_step_eq {K : Type} [Field K] (m : libm K) (d : iq_data K)
    (i : Nat) (h : i < 8) :
    calculate_reference_phases_step m d i
      = some { d with
          reference_phases := fun j =>
            if j = i then m.atan2f (d.reference_q i : K) (d.reference_i i : K)
            else d.reference_phases j } := by
  simp only [calculate_reference_phases_step, aget_lt 8 _ i h, aset_lt 8 _ i _ h]
  rfl

theorem unwrap_reference_phases_step_eq {K : Type} [LinearOrderedField K] (m : libm K)
    (d : iq_data K) (i : Nat) (h : i < 8) :
    unwrap_reference_phases_step m d i
      = some { d with
          reference_phases_unwrapped := fun j =>
            if j = i then
              (if d.reference_phases i - d.reference_phases_unwrapped (i - 1) > m.M_PI then
                d.reference_phases i - 2 * m.M_PI
              else if d.reference_phases i - d.reference_phases_unwrapped (i - 1) < -m.M_PI then
                d.reference_phases i + 2 * m.M_PI
              else d.reference_phases i)
            else d.reference_phases_unwrapped j } := by
  simp only [unwrap_reference_phases_step, aget_lt 8 _ i h, aget_lt 8 _ (i - 1) (by omega),
    aset_lt 8 _ i _ h]
  rfl

theorem compensate_measurement_samples_step_eq {K : Type} [Field K] (m : libm K) (rate : K)
    (d : iq_data K) (i : Nat) (h : i < 37) :
    compensate_measurement_samples_step m rate d i
      = some { d with
          measurement_i_compensated := fun j =>
            if j = i then
              (d.measurement_i i : K) * m.cosf (rate * (i : K))
                - (d.measurement_q i : K) * m.sinf (rate * (i : K))
            else d.measurement_i_compensated j,
          measurement_q_compensated := fun j =>
            if j = i then
              (d.measurement_i i : K) * m.sinf (rate * (i : K))
                + (d.measurement_q i : K) * m.cosf (rate * (i : K))
            else d.measurement_q_compensated j } := by
  simp only [compensate_measurement_samples_step, aget_lt 37 _ i h, aset_lt 37 _ i _ h]
  rfl

theorem iq_data_init_counts {K : Type} (d : iq_data K) (raw : iq_raw_samples) :
    ∃ d1, iq_data_init d raw = some d1 ∧
      HasCounts d1 true (min (min raw.sample_count 45) 8)
        (min raw.sample_count 45 - min (min raw.sample_count 45) 8) := by
  unfold iq_data_init
  simp only [IQ_REFERENCE_MAX, IQ_MEASUREMENT_MAX]
  have hsc : (if raw.sample_count > 8 + 37 then 8 + 37 else raw.sample_count)
      = min raw.sample_count 45 := by
    split <;> omega
  have hrc : (if min raw.sample_count 45 ≥ 8 then 8 else min raw.sample_count 45)
      = min (min raw.sample_count 45) 8 := by
    split <;> omega
  rw [hsc, hrc]
  generalize hnr : min (min raw.sample_count 45) 8 = nr
  generalize hnm : min raw.sample_count 45 - nr = nm
  have hnr8 : nr ≤ 8 := by omega
  have hsum : nr + nm ≤ 45 := by omega
  have hnm37 : nm ≤ 37 := by omega
  obtain ⟨d2, h2, hp2⟩ := foldlM_option_inv
    (fun x : iq_data K => x.reference_sample_count = nr ∧ x.measurement_sample_count = nm)
    (iq_data_init_reference_step raw) (List.range nr)
    { d with report_timestamp := raw.report_timestamp, channel_index := raw.channel_index,
             beacon_mac := raw.beacon_mac, reference_sample_count := nr,
             measurement_sample_count := nm }
    ⟨rfl, rfl⟩
    (fun s b hb hs =>
      ⟨_, iq_data_init_reference_step_eq raw s b (by have := List.mem_range.mp hb; omega), hs⟩)
  obtain ⟨d3, h3, hp3⟩ := foldlM_option_inv
    (fun x : iq_data K => x.reference_sample_count = nr ∧ x.measurement_sample_count = nm)
    (iq_data_init_measurement_step raw) (List.range nm) d2 hp2
    (fun s b hb hs =>
      ⟨_, iq_data_init_measurement_step_eq raw s b (by have := List.mem_range.mp hb; omega)
        (by have := List.mem_range.mp hb; have := hs.1; omega), hs⟩)
  refine ⟨{ d3 with initialized := true }, ?_, ⟨rfl, hp3.1, hp3.2⟩⟩
  simp only [h2, Option.bind_eq_bind, Option.some_bind, hp2.2, h3]
  rfl

theorem iq_data_temp_fix_ref_samples_counts {K : Type} (d : iq_data K) (ini : Bool)
    (nr nm : Nat) (h : HasCounts d ini nr nm) (hnr : nr ≤ 8) :
    ∃ d1, iq_data_temp_fix_ref_samples d = some d1 ∧ HasCounts d1 ini nr nm := by
  unfold iq_data_temp_fix_ref_samples
  by_cases hi : d.initialized = false
  · rw [if_pos hi]; exact ⟨d, rfl, h⟩
  · rw [if_neg hi]
    exact foldlM_option_inv (fun x : iq_data K => HasCounts x ini nr nm)
      iq_data_temp_fix_ref_samples_step _ d h
      (fun s b hb hs =>
        ⟨_, iq_data_temp_fix_ref_samples_step_eq s b (by
          have := List.mem_range.mp (List.mem_filter.mp hb).1
          have := h.2.1
          omega), hs⟩)

theorem calculate_reference_phases_counts {K : Type} [Field K] (m : libm K) (d : iq_data K)
    (ini : Bool) (nr nm : Nat) (h : HasCounts d ini nr nm) (hnr : nr ≤ 8) :
    ∃ d1, calculate_reference_phases m d = some d1 ∧ HasCounts d1 ini nr nm := by
  unfold calculate_reference_phases
  by_cases hi : d.initialized = false
  · rw [if_pos hi]; exact ⟨d, rfl, h⟩
  · rw [if_neg hi]
    exact foldlM_option_inv (fun x : iq_data K => HasCounts x ini nr nm)
      (calculate_reference_phases_step m) _ d h
      (fun s b hb hs =>
        ⟨_, calculate_reference_phases_step_eq m s b (by
          have := List.mem_range.mp hb
          have := h.2.1
          omega), hs⟩)

theorem unwrap_reference_phases_counts {K : Type} [LinearOrderedField K] (m : libm K)
    (d : iq_data K) (ini : Bool) (nr nm : Nat) (h : HasCounts d ini nr nm) (hnr : nr ≤ 8) :
    ∃ d1, unwrap_reference_phases m d = some d1 ∧ HasCounts d1 ini nr nm := by
  unfold unwrap_reference_phases
  by_cases hi : d.initialized = false
  · rw [if_pos hi]; exact ⟨d, rfl, h⟩
  · rw [if_neg hi]
    by_cases h0 : d.reference_sample_count = 0
    · rw [if_pos h0]; exact ⟨d, rfl, h⟩
    · rw [if_neg h0]
      simp only [aget_lt 8 _ 0 (by omega), aset_lt 8 _ 0 _ (by omega), Option.bind_eq_bind,
        Option.some_bind]
      exact foldlM_option_inv (fun x : iq_data K => HasCounts x ini nr nm)
        (unwrap_reference_phases_step m) _ _ h
        (fun s b hb hs =>
          ⟨_, unwrap_reference_phases_step_eq m s b (by
            have := (List.mem_range'_1.mp hb).2
            have := h.2.1
            omega), hs⟩)

theorem compensate_measurement_samples_counts {K : Type} [Field K] (m : libm K)
    (d : iq_data K) (ini : Bool) (nr nm : Nat) (h : HasCounts d ini nr nm) (hnm : nm ≤ 37) :
    ∃ d1, compensate_measurement_samples m d = some d1 ∧ HasCounts d1 ini nr nm := by
  unfold compensate_measurement_samples
  by_cases hi : d.initialized = false
  · rw [if_pos hi]; exact ⟨d, rfl, h⟩
  · rw [if_neg hi]
    exact foldlM_option_inv (fun x : iq_data K => HasCounts x ini nr nm)
      (compensate_measurement_samples_step m _) _ d h
      (fun s b hb hs =>
        ⟨_, compensate_measurement_samples_step_eq m _ s b (by
          have := List.mem_range.mp hb
          have := h.2.2
          omega), hs⟩)

theorem drift_sums_step_eq {K : Type} [Field K] (d : iq_data K) (acc : K × K × K × K)
    (x : Nat) (h : x < 8) :
    drift_sums_step d acc x
      = some (acc.1 + (x : K), acc.2.1 + d.reference_phases_unwrapped x,
          acc.2.2.1 + (x : K) * d.reference_phases_unwrapped x,
          acc.2.2.2 + ((x * x : Nat) : K)) := by
  simp only [drift_sums_step, aget_lt 8 _ x h]
  rfl

theorem drift_sums_defined {K : Type} [LinearOrderedField K] (d : iq_data K) (n : Nat)
    (h8 : n ≤ 8) :
    ∃ sums, (List.range n).foldlM (drift_sums_step d) (0, 0, 0, 0) = some sums ∧
      (2 ≤ n → 0 < (n : K) * sums.2.2.2 - sums.1 * sums.1) := by
  interval_cases n
  all_goals
    simp only [List.range_succ, List.range_zero, List.nil_append, List.cons_append,
      List.foldlM_cons, List.foldlM_nil, drift_sums_step_eq d _ _ (by norm_num : (0 : Nat) < 8),
      drift_sums_step_eq d _ _ (by norm_num : (1 : Nat) < 8),
      drift_sums_step_eq d _ _ (by norm_num : (2 : Nat) < 8),
      drift_sums_step_eq d _ _ (by norm_num : (3 : Nat) < 8),
      drift_sums_step_eq d _ _ (by norm_num : (4 : Nat) < 8),
      drift_sums_step_eq d _ _ (by norm_num : (5 : Nat) < 8),
      drift_sums_step_eq d _ _ (by norm_num : (6 : Nat) < 8),
      drift_sums_step_eq d _ _ (by norm_num : (7 : Nat) < 8),
      Option.bind_eq_bind, Option.some_bind, Option.pure_def]
    refine ⟨_, rfl, ?_⟩
    intro h2
    norm_num at h2 ⊢

theorem fdiv_ne {K : Type} [Field K] [DecidableEq K] (a b : K) (h : b ≠ 0) :
    fdiv a b = some (a / b) := by
  simp [fdiv, h]

theorem estimate_linear_phase_drift_rate_counts {K : Type} [LinearOrderedField K]
    (m : libm K) (d : iq_data K) (ini : Bool) (nr nm : Nat) (h : HasCounts d ini nr nm)
    (hnr : nr ≤ 8) :
    ∃ d1, estimate_linear_phase_drift_rate m d = some d1 ∧ HasCounts d1 ini nr nm := by
  unfold estimate_linear_phase_drift_rate
  by_cases hi : d.initialized = false
  · rw [if_pos hi]; exact ⟨d, rfl, h⟩
  · rw [if_neg hi]
    by_cases h0 : d.reference_sample_count = 0
    · rw [if_pos h0]; exact ⟨_, rfl, h⟩
    · rw [if_neg h0]
      obtain ⟨d1, e1, c1⟩ := calculate_reference_phases_counts m d ini nr nm h hnr
      obtain ⟨d2, e2, c2⟩ := unwrap_reference_phases_counts m d1 ini nr nm c1 hnr
      simp only [e1, e2, Option.bind_eq_bind, Option.some_bind]
      by_cases h1 : d2.reference_sample_count = 1
      · rw [if_pos h1]; exact ⟨_, rfl, c2⟩
      · rw [if_neg h1]
        have hn : d2.reference_sample_count ≤ 8 := by rw [c2.2.1]; exact hnr
        have hn2 : 2 ≤ d2.reference_sample_count := by
          have := c2.2.1
          have := h.2.1
          omega
        obtain ⟨sums, es, hpos⟩ := drift_sums_defined (K := K) d2 d2.reference_sample_count hn
        have hne := ne_of_gt (hpos hn2)
        have hone : ((IQ_REFERENCE_SPACING : Nat) : K) ≠ 0 := by
          simp [IQ_REFERENCE_SPACING]
        simp only [es, Option.some_bind, fdiv_ne _ _ hne, fdiv_ne _ _ hone]
        exact ⟨_, rfl, c2⟩

theorem iq_data_aod_interferometry_short {K : Type} [LinearOrderedField K] (m : libm K)
    (deltas0 : Nat → K) (d : iq_data K) (nr nm : Nat) (h : HasCounts d true nr nm)
    (hnm : nm < 3) :
    iq_data_aod_interferometry m deltas0 d
      = some { d with local_direction_cosine_x := 0, local_direction_cosine_y := 0,
                      local_direction_cosine_z := 1, aod_azimuth := 0, aod_elevation := 0 } := by
  unfold iq_data_aod_interferometry
  have hi : ¬ d.initialized = false := by rw [h.1]; simp
  have hm : d.measurement_sample_count < 3 := by rw [h.2.2]; exact hnm
  rw [if_neg hi, if_pos hm]

/-- C10: for every raw IQ frame with `sample_count <= 10` (fewer than 3
measurement samples; in particular every count below 8, and 2), whatever the
samples, the channel, the math library and the uninitialised content of the
local structure, the pipeline runs to its end (no out-of-range array access,
no division by zero in the drift estimate) and sets the local direction
cosines to `(0, 0, 1)` and azimuth and elevation to `0`. -/
theorem short_frame_direction_cosines {K : Type} [LinearOrderedField K] (m : libm K)
    (d : iq_data K) (deltas0 : Nat → K) (raw : iq_raw_samples)
    (h : raw.sample_count ≤ 10) :
    ∃ r, iq_data_process_pipeline m d deltas0 raw = some r ∧
      r.reference_sample_count = min raw.sample_count 8 ∧
      r.measurement_sample_count = raw.sample_count - 8 ∧
      r.local_direction_cosine_x = 0 ∧ r.local_direction_cosine_y = 0 ∧
      r.local_direction_cosine_z = 1 ∧ r.aod_azimuth = 0 ∧ r.aod_elevation = 0 := by
  obtain ⟨d1, e1, c1⟩ := iq_data_init_counts d raw
  have hnr : min (min raw.sample_count 45) 8 = min raw.sample_count 8 := by omega
  have hnm : min raw.sample_count 45 - min (min raw.sample_count 45) 8
      = raw.sample_count - 8 := by omega
  rw [hnm, hnr] at c1
  have hr8 : min raw.sample_count 8 ≤ 8 := by omega
  have hm37 : raw.sample_count - 8 ≤ 37 := by omega
  have hm3 : raw.sample_count - 8 < 3 := by omega
  obtain ⟨d2, e2, c2⟩ := iq_data_temp_fix_ref_samples_counts d1 true _ _ c1 hr8
  obtain ⟨d3, e3, c3⟩ := estimate_linear_phase_drift_rate_counts m d2 true _ _ c2 hr8
  obtain ⟨d4, e4, c4⟩ := compensate_measurement_samples_counts m d3 true _ _ c3 hm37
  have e5 := iq_data_aod_interferometry_short m deltas0 d4 _ _ c4 hm3
  refine ⟨{ d4 with local_direction_cosine_x := 0, local_direction_cosine_y := 0,
                     local_direction_cosine_z := 1, aod_azimuth := 0, aod_elevation := 0 },
    ?_, c4.2.1, c4.2.2, rfl, rfl, rfl, rfl, rfl⟩
  unfold iq_data_process_pipeline
  simp only [e1, e2, e3, e4, e5, Option.bind_eq_bind, Option.some_bind]

/-- Witness for C10: the all-zero frame with `sample_count = 2`. -/
theorem short_frame_direction_cosines_witness :
    ∃ r, iq_data_process_pipeline constantLibm blankIqData (fun _ => 0) shortFrame = some r ∧
      r.local_direction_cosine_x = 0 ∧ r.local_direction_cosine_y = 0 ∧
      r.local_direction_cosine_z = 1 := by
  obtain ⟨r, h1, -, -, h2, h3, h4, -⟩ :=
    short_frame_direction_cosines constantLibm blankIqData (fun _ => 0) shortFrame (by decide)
  exact ⟨r, h1, h2, h3, h4⟩

theorem alternating_init {K : Type} [Field K] (d : iq_data K) :
    ∃ dA, iq_data_init d alternatingFrame = some dA ∧ HasCounts dA true 8 3 ∧
      dA.channel_index = 18 ∧
      (∀ j, j < 8 → dA.reference_i j = if j % 2 = 0 then 1 else -1) ∧
      (∀ j, j < 8 → dA.reference_q j = 0) ∧
      (dA.measurement_i 0 = -1 ∧ dA.measurement_i 1 = 1 ∧ dA.measurement_i 2 = -1) ∧
      (∀ j, j < 3 → dA.measurement_q j = 0) := by
  simp only [iq_data_init, IQ_REFERENCE_MAX, IQ_MEASUREMENT_MAX, alternatingFrame]
  simp only [show ¬ (11 > 8 + 37) by decide, if_false, show (11 ≥ 8) by decide, if_true,
    show (11 - 8 = 3) by decide, List.range_succ, List.range_zero, List.nil_append,
    List.cons_append, List.foldlM_cons, List.foldlM_nil]
  simp only [iq_data_init_reference_step_eq _ _ _ (by norm_num : (0 : Nat) < 8),
    iq_data_init_reference_step_eq _ _ _ (by norm_num : (1 : Nat) < 8),
    iq_data_init_reference_step_eq _ _ _ (by norm_num : (2 : Nat) < 8),
    iq_data_init_reference_step_eq _ _ _ (by norm_num : (3 : Nat) < 8),
    iq_data_init_reference_step_eq _ _ _ (by norm_num : (4 : Nat) < 8),
    iq_data_init_reference_step_eq _ _ _ (by norm_num : (5 : Nat) < 8),
    iq_data_init_reference_step_eq _ _ _ (by norm_num : (6 : Nat) < 8),
    iq_data_init_reference_step_eq _ _ _ (by norm_num : (7 : Nat) < 8),
    Option.bind_eq_bind, Option.some_bind, Option.pure_def,
    List.range_succ, List.range_zero, List.nil_append,
    List.cons_append, List.foldlM_cons, List.foldlM_nil,
    iq_data_init_measurement_step, aget_lt 45 _ (0 + 8) (by norm_num),
    aget_lt 45 _ (1 + 8) (by norm_num), aget_lt 45 _ (2 + 8) (by norm_num),
    aset_lt 37 _ 0 _ (by norm_num), aset_lt 37 _ 1 _ (by norm_num),
    aset_lt 37 _ 2 _ (by norm_num), Option.bind_eq_bind, Option.some_bind, Option.pure_def]
  refine ⟨_, rfl, ⟨rfl, rfl, rfl⟩, rfl, ?_, ?_, ⟨?_, ?_, ?_⟩, ?_⟩
  · intro j hj
    interval_cases j <;> simp
  · intro j hj
    interval_cases j <;> simp
  · simp
  · simp
  · simp
  · intro j hj
    interval_cases j <;> simp

theorem alternating_fix {K : Type} (dA : iq_data K) (hA : AlternatingMeasurement dA)
    (hri : ∀ j, j < 8 → dA.reference_i j = if j % 2 = 0 then 1 else -1)
    (hrq : ∀ j, j < 8 → dA.reference_q j = 0) :
    ∃ dB, iq_data_temp_fix_ref_samples dA = some dB ∧ AlternatingMeasurement dB ∧
      (∀ j, j < 8 → dB.reference_i j = 1) ∧ (∀ j, j < 8 → dB.reference_q j = 0) := by
  have hl : (List.range 8).filter (fun i => i % 2 = 1) = [1, 3, 5, 7] := by decide
  unfold iq_data_temp_fix_ref_samples
  rw [if_neg (by rw [hA.1.1]; simp), hA.1.2.1, hl]
  simp only [List.foldlM_cons, List.foldlM_nil,
    iq_data_temp_fix_ref_samples_step_eq _ _ (by norm_num : (1 : Nat) < 8),
    iq_data_temp_fix_ref_samples_step_eq _ _ (by norm_num : (3 : Nat) < 8),
    iq_data_temp_fix_ref_samples_step_eq _ _ (by norm_num : (5 : Nat) < 8),
    iq_data_temp_fix_ref_samples_step_eq _ _ (by norm_num : (7 : Nat) < 8),
    Option.bind_eq_bind, Option.some_bind, Option.pure_def]
  refine ⟨_, rfl, hA, ?_, ?_⟩
  · intro j hj
    interval_cases j <;> simp [hri, negate_int8]
  · intro j hj
    interval_cases j <;> simp [hrq, negate_int8]

theorem alternating_phases {K : Type} [LinearOrderedField K] (m : libm K)
    (hat : m.atan2f 0 1 = 0) (dB : iq_data K) (hB : AlternatingMeasurement dB)
    (hri : ∀ j, j < 8 → dB.reference_i j = 1) (hrq : ∀ j, j < 8 → dB.reference_q j = 0) :
    ∃ d1, calculate_reference_phases m dB = some d1 ∧ AlternatingMeasurement d1 ∧
      (∀ j, j < 8 → d1.reference_phases j = 0) := by
  unfold calculate_reference_phases
  rw [if_neg (by rw [hB.1.1]; simp), hB.1.2.1]
  simp only [List.range_succ, List.range_zero, List.nil_append, List.cons_append,
    List.foldlM_cons, List.foldlM_nil,
    calculate_reference_phases_step_eq _ _ _ (by norm_num : (0 : Nat) < 8),
    calculate_reference_phases_step_eq _ _ _ (by norm_num : (1 : Nat) < 8),
    calculate_reference_phases_step_eq _ _ _ (by norm_num : (2 : Nat) < 8),
    calculate_reference_phases_step_eq _ _ _ (by norm_num : (3 : Nat) < 8),
    calculate_reference_phases_step_eq _ _ _ (by norm_num : (4 : Nat) < 8),
    calculate_reference_phases_step_eq _ _ _ (by norm_num : (5 : Nat) < 8),
    calculate_reference_phases_step_eq _ _ _ (by norm_num : (6 : Nat) < 8),
    calculate_reference_phases_step_eq _ _ _ (by norm_num : (7 : Nat) < 8),
    Option.bind_eq_bind, Option.some_bind, Option.pure_def]
  refine ⟨_, rfl, hB, ?_⟩
  intro j hj
  interval_cases j <;> simp [hri, hrq, hat]

theorem foldlM_option_indexed {σ β : Type} (f : σ → β → Option σ) (l : List β) :
    ∀ (P : Nat → σ → Prop) (s : σ), P 0 s →
      (∀ k (hk : k < l.length) s, P k s → ∃ s1, f s (l.get ⟨k, hk⟩) = some s1 ∧ P (k + 1) s1) →
      ∃ s1, l.foldlM f s = some s1 ∧ P l.length s1 := by
  induction l with
  | nil => intro P s h _; exact ⟨s, rfl, h⟩
  | cons b l ih =>
    intro P s h hstep
    obtain ⟨s1, h1, hp1⟩ := hstep 0 (by simp) s h
    obtain ⟨s2, h2, hp2⟩ := ih (fun k => P (k + 1)) s1 hp1
      (fun k hk s hp => hstep (k + 1) (by simp; omega) s hp)
    refine ⟨s2, ?_, hp2⟩
    rw [List.foldlM_cons]
    simp only [List.get_eq_getElem, List.getElem_cons_zero] at h1
    rw [h1]
    exact h2

theorem alternating_unwrap {K : Type} [LinearOrderedField K] (m : libm K)
    (hpi : 0 < m.M_PI) (d1 : iq_data K) (h1 : AlternatingMeasurement d1)
    (hph : ∀ j, j < 8 → d1.reference_phases j = 0) :
    ∃ d2, unwrap_reference_phases m d1 = some d2 ∧ AlternatingMeasurement d2 ∧
      (∀ j, j < 8 → d2.reference_phases_unwrapped j = 0) := by
  have hn1 : ¬ ((0 : K) - 0 > m.M_PI) := by simp [hpi.le]
  have hn2 : ¬ ((0 : K) - 0 < -m.M_PI) := by simp [hpi.le]
  have hlist : List.range' 1 (d1.reference_sample_count - 1) = List.range' 1 7 := by
    rw [h1.1.2.1]
  unfold unwrap_reference_phases
  rw [if_neg (by rw [h1.1.1]; simp), if_neg (by rw [h1.1.2.1]; simp), hlist]
  simp only [aget_lt 8 _ 0 (by norm_num), aset_lt 8 _ 0 _ (by norm_num),
    Option.bind_eq_bind, Option.some_bind]
  obtain ⟨d2, e2, hA2, hph2, hun2⟩ := foldlM_option_indexed (unwrap_reference_phases_step m)
    (List.range' 1 7)
    (fun k s => AlternatingMeasurement s ∧ (∀ j, j < 8 → s.reference_phases j = 0) ∧
      (∀ j, j < k + 1 → s.reference_phases_unwrapped j = 0))
    { d1 with reference_phases_unwrapped := fun j =>
        if j = 0 then d1.reference_phases 0 else d1.reference_phases_unwrapped j }
    ⟨h1, hph, by
      intro j hj
      have : j = 0 := by omega
      subst this
      simp [hph 0 (by norm_num)]⟩
    (by
      intro k hk s hs
      obtain ⟨hs1, hs2, hs3⟩ := hs
      have hk7 : k < 7 := by simpa using hk
      have hget : (List.range' 1 7).get ⟨k, hk⟩ = k + 1 := by
        simp [List.getElem_range']
        omega
      rw [hget]
      refine ⟨_, unwrap_reference_phases_step_eq m s (k + 1) (by omega), hs1, hs2, ?_⟩
      intro j hj
      by_cases hjk : j = k + 1
      · subst hjk
        simp only [if_true, hs2 (k + 1) (by omega), Nat.add_sub_cancel, hs3 k (by omega),
          hn1, hn2, if_false]
      · simp only [hjk, if_false]
        exact hs3 j (by omega))
  exact ⟨d2, e2, hA2, by simpa using hun2⟩

theorem alternating_drift {K : Type} [LinearOrderedField K] (m : libm K)
    (hat : m.atan2f 0 1 = 0) (hpi : 0 < m.M_PI) (dB : iq_data K)
    (hB : AlternatingMeasurement dB)
    (hri : ∀ j, j < 8 → dB.reference_i j = 1) (hrq : ∀ j, j < 8 → dB.reference_q j = 0) :
    ∃ dC, estimate_linear_phase_drift_rate m dB = some dC ∧ AlternatingMeasurement dC ∧
      dC.linear_phase_drift_rate = 0 := by
  obtain ⟨d1, e1, h1, hph⟩ := alternating_phases m hat dB hB hri hrq
  obtain ⟨d2, e2, h2, hun⟩ := alternating_unwrap m hpi d1 h1 hph
  obtain ⟨sums, es, hpos⟩ := drift_sums_defined (K := K) d2 d2.reference_sample_count
    (by rw [h2.1.2.1])
  obtain ⟨sums1, es1, hz⟩ := foldlM_option_inv
    (fun acc : K × K × K × K => acc.2.1 = 0 ∧ acc.2.2.1 = 0) (drift_sums_step d2)
    (List.range d2.reference_sample_count) (0, 0, 0, 0) ⟨rfl, rfl⟩
    (by
      intro acc x hx hacc
      have hx8 : x < 8 := by
        have := List.mem_range.mp hx
        have := h2.1.2.1
        omega
      refine ⟨_, drift_sums_step_eq d2 acc x hx8, ?_, ?_⟩
      · simp [hacc.1, hun x hx8]
      · simp [hacc.2, hun x hx8])
  have hsame : sums = sums1 := Option.some.inj (es.symm.trans es1)
  subst hsame
  have hne := ne_of_gt (hpos (by rw [h2.1.2.1]; norm_num))
  have hone : ((IQ_REFERENCE_SPACING : Nat) : K) ≠ 0 := by simp [IQ_REFERENCE_SPACING]
  unfold estimate_linear_phase_drift_rate
  rw [if_neg (by rw [hB.1.1]; simp), if_neg (by rw [hB.1.2.1]; simp)]
  simp only [e1, e2, Option.bind_eq_bind, Option.some_bind]
  rw [if_neg (by rw [h2.1.2.1]; simp)]
  simp only [es, Option.some_bind, fdiv_ne _ _ hne, fdiv_ne _ _ hone, Option.pure_def]
  refine ⟨_, rfl, h2, ?_⟩
  simp [hz.1, hz.2]

theorem alternating_compensate {K : Type} [LinearOrderedField K] (m : libm K)
    (hcos : m.cosf 0 = 1) (hsin : m.sinf 0 = 0) (dC : iq_data K)
    (hC : AlternatingMeasurement dC) (hrate : dC.linear_phase_drift_rate = 0) :
    ∃ dD, compensate_measurement_samples m dC = some dD ∧ AlternatingMeasurement dD ∧
      (dD.measurement_i_compensated 0 = -1 ∧ dD.measurement_i_compensated 1 = 1 ∧
        dD.measurement_i_compensated 2 = -1) ∧
      (dD.measurement_q_compensated 0 = 0 ∧ dD.measurement_q_compensated 1 = 0 ∧
        dD.measurement_q_compensated 2 = 0) := by
  have hlist : List.range dC.measurement_sample_count = [0, 1, 2] := by
    rw [hC.1.2.2]; rfl
  unfold compensate_measurement_samples
  rw [if_neg (by rw [hC.1.1]; simp), hlist]
  simp only [List.foldlM_cons, List.foldlM_nil,
    compensate_measurement_samples_step_eq _ _ _ _ (by norm_num : (0 : Nat) < 37),
    compensate_measurement_samples_step_eq _ _ _ _ (by norm_num : (1 : Nat) < 37),
    compensate_measurement_samples_step_eq _ _ _ _ (by norm_num : (2 : Nat) < 37),
    Option.bind_eq_bind, Option.some_bind, Option.pure_def]
  obtain ⟨hc, hch, ⟨hi0, hi1, hi2⟩, hq⟩ := hC
  refine ⟨_, rfl, ⟨hc, hch, ⟨hi0, hi1, hi2⟩, hq⟩, ⟨?_, ?_, ?_⟩, ⟨?_, ?_, ?_⟩⟩ <;>
    simp [hrate, hcos, hsin, hi0, hi1, hi2, hq 0 (by norm_num), hq 1 (by norm_num),
      hq 2 (by norm_num)]

theorem wavenumber_18 {K : Type} [Field K] :
    (ble_channel_get_wavenumber 18 : K) = 0.051181 := by
  simp [ble_channel_get_wavenumber, ble_channel_wavenumbers]

theorem interferometry_step_skip {K : Type} [LinearOrderedField K] (m : libm K)
    (d : iq_data K) (D : K) (acc : interferometry_deltas K) (a b c : Nat)
    (h : d.measurement_sample_count ≤ a ∨ d.measurement_sample_count ≤ b) :
    iq_data_aod_interferometry_step m d D acc (a, b, c) = some acc := by
  unfold iq_data_aod_interferometry_step
  simp only
  rw [if_pos h]

theorem interferometry_skip_all {K : Type} [LinearOrderedField K] (m : libm K)
    (d : iq_data K) (D : K) (l : List (Nat × Nat × Nat)) :
    ∀ acc : interferometry_deltas K,
      (∀ p ∈ l, d.measurement_sample_count ≤ p.1 ∨ d.measurement_sample_count ≤ p.2.1) →
      l.foldlM (iq_data_aod_interferometry_step m d D) acc = some acc := by
  induction l with
  | nil => intro acc _; rfl
  | cons p l ih =>
    intro acc h
    obtain ⟨a, b, c⟩ := p
    rw [List.foldlM_cons,
      interferometry_step_skip m d D acc a b c (h (a, b, c) (List.mem_cons_self _ _))]
    exact ih acc (fun p hp => h p (List.mem_cons_of_mem _ hp))

theorem alternating_interferometry {K : Type} [LinearOrderedField K] (m : libm K)
    (hatm : m.atan2f 0 (-1) = m.M_PI) (hsqrt : m.sqrtf 0 = 0)
    (hpi : (0.051181 : K) * 37.5 < m.M_PI) (deltas0 : Nat → K) (dD : iq_data K)
    (hD : AlternatingMeasurement dD)
    (hi : dD.measurement_i_compensated 0 = -1 ∧ dD.measurement_i_compensated 1 = 1 ∧
        dD.measurement_i_compensated 2 = -1)
    (hq : dD.measurement_q_compensated 0 = 0 ∧ dD.measurement_q_compensated 1 = 0 ∧
        dD.measurement_q_compensated 2 = 0) :
    ∃ r, iq_data_aod_interferometry m deltas0 dD = some r ∧
      r.local_direction_cosine_x = -1 ∧ r.local_direction_cosine_y = 1 ∧
      r.local_direction_cosine_z = 0 := by
  have hDpos : (0 : K) < 0.051181 * 37.5 := by norm_num
  have hDne : (0.051181 : K) * 37.5 ≠ 0 := ne_of_gt hDpos
  have hloop : measurement_pairs.foldlM
      (iq_data_aod_interferometry_step m dD ((0.051181 : K) * 37.5))
      { horizontal_deltas := deltas0, horizontal_count := 0,
        vertical_deltas := deltas0, vertical_count := 0 }
      = some
        { horizontal_deltas := fun j => if j = 0 then (0.051181 : K) * 37.5 else deltas0 j,
          horizontal_count := 1,
          vertical_deltas := fun j => if j = 0 then -((0.051181 : K) * 37.5) else deltas0 j,
          vertical_count := 1 } := by
    have h01 : iq_data_aod_interferometry_step m dD ((0.051181 : K) * 37.5)
        { horizontal_deltas := deltas0, horizontal_count := 0,
          vertical_deltas := deltas0, vertical_count := 0 } (0, 1, 3)
        = some { horizontal_deltas := deltas0, horizontal_count := 0,
                 vertical_deltas := fun j =>
                   if j = 0 then -((0.051181 : K) * 37.5) else deltas0 j,
                 vertical_count := 1 } := by
      unfold iq_data_aod_interferometry_step
      simp only [hD.1.2.2]
      rw [if_neg (by decide)]
      simp only [aget_lt 37 _ 0 (by norm_num), aget_lt 37 _ 1 (by norm_num), hi.1, hi.2.1,
        hq.1, hq.2.1, Option.bind_eq_bind, Option.some_bind]
      have e1 : (0 : K) * 1 - -1 * 0 = 0 := by ring
      have e2 : (-1 : K) * 1 + 0 * 0 = -1 := by ring
      simp only [e1, e2, hatm, if_pos hpi, aset_lt 32 _ 0 _ (by norm_num), Option.some_bind,
        Option.pure_def, Nat.zero_add]
    have h12 : iq_data_aod_interferometry_step m dD ((0.051181 : K) * 37.5)
        { horizontal_deltas := deltas0, horizontal_count := 0,
          vertical_deltas := fun j =>
            if j = 0 then -((0.051181 : K) * 37.5) else deltas0 j,
          vertical_count := 1 } (1, 2, 0)
        = some { horizontal_deltas := fun j =>
                   if j = 0 then (0.051181 : K) * 37.5 else deltas0 j,
                 horizontal_count := 1,
                 vertical_deltas := fun j =>
                   if j = 0 then -((0.051181 : K) * 37.5) else deltas0 j,
                 vertical_count := 1 } := by
      unfold iq_data_aod_interferometry_step
      simp only [hD.1.2.2]
      rw [if_neg (by decide)]
      simp only [aget_lt 37 _ 1 (by norm_num), aget_lt 37 _ 2 (by norm_num), hi.2.1, hi.2.2,
        hq.2.1, hq.2.2, Option.bind_eq_bind, Option.some_bind]
      have e1 : (0 : K) * -1 - 1 * 0 = 0 := by ring
      have e2 : (1 : K) * -1 + 0 * 0 = -1 := by ring
      simp only [e1, e2, hatm, if_pos hpi, aset_lt 32 _ 0 _ (by norm_num), Option.some_bind,
        Option.pure_def, Nat.zero_add]
    have hsplit : measurement_pairs = (0, 1, 3) :: (1, 2, 0) :: measurement_pairs.drop 2 := rfl
    rw [hsplit, List.foldlM_cons, h01]
    simp only [Option.bind_eq_bind, Option.some_bind]
    rw [List.foldlM_cons, h12]
    simp only [Option.bind_eq_bind, Option.some_bind]
    apply interferometry_skip_all
    rw [hD.1.2.2]
    decide
  unfold iq_data_aod_interferometry
  rw [if_neg (by rw [hD.1.1]; simp), if_neg (by rw [hD.1.2.2]; decide)]
  simp only [hD.2.1, wavenumber_18, antenna_spacing_orthogonal, hloop, Option.bind_eq_bind,
    Option.some_bind]
  have hm1 : directional_statistics_circular_mean m
      (fun j => if j = 0 then (0.051181 : K) * 37.5 else deltas0 j) ((1 : Nat) : Int) 5 0.01
      = 0.051181 * 37.5 := by
    simp [directional_statistics_circular_mean]
  have hm2 : directional_statistics_circular_mean m
      (fun j => if j = 0 then -((0.051181 : K) * 37.5) else deltas0 j) ((1 : Nat) : Int) 5 0.01
      = -(0.051181 * 37.5) := by
    simp [directional_statistics_circular_mean]
  have hx : -((0.051181 : K) * 37.5) / (0.051181 * 37.5) = -1 := by
    rw [neg_div, div_self hDne]
  have hy : - -((0.051181 : K) * 37.5) / (0.051181 * 37.5) = 1 := by
    rw [neg_neg, div_self hDne]
  simp only [show (1 : Nat) > 0 by decide, if_true, hm1, hm2, fdiv_ne _ _ hDne, hx, hy,
    Option.some_bind, Option.pure_def]
  refine ⟨_, rfl, ?_, ?_, ?_⟩
  · norm_num
  · norm_num
  · norm_num [hsqrt]

theorem alternating_pipeline {K : Type} [LinearOrderedField K] (m : libm K)
    (hat : m.atan2f 0 1 = 0) (hatm : m.atan2f 0 (-1) = m.M_PI)
    (hcos : m.cosf 0 = 1) (hsin : m.sinf 0 = 0) (hsqrt : m.sqrtf 0 = 0)
    (hpi : (0.051181 : K) * 37.5 < m.M_PI) (d : iq_data K) (deltas0 : Nat → K) :
    ∃ r, iq_data_process_pipeline m d deltas0 alternatingFrame = some r ∧
      r.local_direction_cosine_x = -1 ∧ r.local_direction_cosine_y = 1 ∧
      r.local_direction_cosine_z = 0 := by
  have hpos : 0 < m.M_PI := lt_trans (by norm_num) hpi
  obtain ⟨dA, eA, cA, hch, hri, hrq, hmi, hmq⟩ := alternating_init d
  have hA : AlternatingMeasurement dA := ⟨cA, hch, hmi, hmq⟩
  obtain ⟨dB, eB, hB, hri1, hrq1⟩ := alternating_fix dA hA hri hrq
  obtain ⟨dC, eC, hC, hrate⟩ := alternating_drift m hat hpos dB hB hri1 hrq1
  obtain ⟨dD, eD, hD, hci, hcq⟩ := alternating_compensate m hcos hsin dC hC hrate
  obtain ⟨r, eR, hx, hy, hz⟩ := alternating_interferometry m hatm hsqrt hpi deltas0 dD hD hci hcq
  refine ⟨r, ?_, hx, hy, hz⟩
  unfold iq_data_process_pipeline
  simp only [eA, eB, eC, eD, eR, Option.bind_eq_bind, Option.some_bind]

/-- C9 fails on the code: the frame `alternatingFrame` (channel 18, 8 reference
samples of constant phase after the sign fix, 3 measurement samples
`(-1, 0)`, `(1, 0)`, `(-1, 0)`) runs through the full-mode pipeline, with the
real `atan2`, `cos`, `sin`, `sqrt` and `asin`, to the local direction cosines
`(-1, 1, 0)`, whose squares sum to `2 > 1`. -/
theorem direction_cosine_norm_exceeds_one (d : iq_data ℝ) (deltas0 : Nat → ℝ) :
    ∃ r, iq_data_process_pipeline
        { atan2f := fun y x => Complex.arg ⟨x, y⟩, cosf := Real.cos, sinf := Real.sin,
          sqrtf := Real.sqrt, asinf := Real.arcsin, M_PI := Real.pi }
        d deltas0 alternatingFrame = some r ∧
      r.local_direction_cosine_x = -1 ∧ r.local_direction_cosine_y = 1 ∧
      r.local_direction_cosine_z = 0 ∧
      ¬ (r.local_direction_cosine_x ^ 2 + r.local_direction_cosine_y ^ 2
          + r.local_direction_cosine_z ^ 2 ≤ 1) := by
  have harg1 : Complex.arg ⟨1, 0⟩ = 0 := by
    have : (⟨1, 0⟩ : ℂ) = 1 := rfl
    rw [this, Complex.arg_one]
  have hargm1 : Complex.arg ⟨-1, 0⟩ = Real.pi := by
    have : (⟨-1, 0⟩ : ℂ) = -1 := by apply Complex.ext <;> simp
    rw [this, Complex.arg_neg_one]
  have hpi : (0.051181 : ℝ) * 37.5 < Real.pi :=
    lt_trans (by norm_num) Real.pi_gt_three
  obtain ⟨r, e, hx, hy, hz⟩ := alternating_pipeline
    { atan2f := fun y x => Complex.arg ⟨x, y⟩, cosf := Real.cos, sinf := Real.sin,
      sqrtf := Real.sqrt, asinf := Real.arcsin, M_PI := Real.pi }
    harg1 hargm1 Real.cos_zero Real.sin_zero Real.sqrt_zero hpi d deltas0
  refine ⟨r, e, hx, hy, hz, ?_⟩
  rw [hx, hy, hz]
  norm_num

/-! ## Theorems: circular mean -/

theorem wrapOnce_range {K : Type} [LinearOrderedField K] (P mu delta : K)
    (h1 : -P ≤ mu) (h2 : mu ≤ P) (h3 : -P ≤ delta) (h4 : delta ≤ P) :
    -P ≤ wrapOnce P (mu + delta) ∧ wrapOnce P (mu + delta) ≤ P := by
  unfold wrapOnce
  by_cases ha : mu + delta > P
  · simp only [ha, if_true]
    have hn : ¬ (mu + delta - 2 * P < -P) := by
      rw [not_lt]; linarith
    simp only [hn, if_false]
    constructor <;> linarith
  · simp only [ha, if_false]
    by_cases hb : mu + delta < -P
    · simp only [hb, if_true]
      constructor <;> linarith
    · simp only [hb, if_false]
      constructor
      · exact not_lt.mp hb
      · exact not_lt.mp ha

theorem wrapOnce_of_mem {K : Type} [LinearOrderedField K] (P x : K)
    (h1 : -P ≤ x) (h2 : x ≤ P) : wrapOnce P x = x := by
  unfold wrapOnce
  rw [if_neg (not_lt.mpr h2), if_neg (not_lt.mpr h1)]

theorem circular_mean_epsilon_sums_eq {K : Type} [LinearOrderedField K] (m : libm K)
    (angles : Nat → K) (angles_count : Nat) (intrinsic_mean : K) :
    circular_mean_epsilon_sums m angles angles_count intrinsic_mean
      = (List.range angles_count).foldl
          (fun (acc : K × K) i =>
            (acc.1 + m.cosf (wrapOnce m.M_PI (angles i - intrinsic_mean)),
              acc.2 + m.sinf (wrapOnce m.M_PI (angles i - intrinsic_mean))))
          (0, 0) := rfl

theorem circular_mean_intrinsic_loop_succ {K : Type} [LinearOrderedField K] (m : libm K)
    (angles : Nat → K) (angles_count : Nat) (tolerance : K) (iterations : Nat)
    (mu prev : K) :
    circular_mean_intrinsic_loop m angles angles_count tolerance (iterations + 1) mu prev
      = if |(circular_mean_epsilon_sums m angles angles_count mu).2| < tolerance then
          wrapOnce m.M_PI (mu + m.atan2f (circular_mean_epsilon_sums m angles angles_count mu).2
            (circular_mean_epsilon_sums m angles angles_count mu).1)
        else if |wrapOnce m.M_PI (mu + m.atan2f
            (circular_mean_epsilon_sums m angles angles_count mu).2
            (circular_mean_epsilon_sums m angles angles_count mu).1) - prev| < tolerance then
          wrapOnce m.M_PI (mu + m.atan2f (circular_mean_epsilon_sums m angles angles_count mu).2
            (circular_mean_epsilon_sums m angles angles_count mu).1)
        else
          circular_mean_intrinsic_loop m angles angles_count tolerance iterations
            (wrapOnce m.M_PI (mu + m.atan2f
              (circular_mean_epsilon_sums m angles angles_count mu).2
              (circular_mean_epsilon_sums m angles angles_count mu).1))
            (wrapOnce m.M_PI (mu + m.atan2f
              (circular_mean_epsilon_sums m angles angles_count mu).2
              (circular_mean_epsilon_sums m angles angles_count mu).1)) := rfl

theorem circular_mean_intrinsic_loop_range {K : Type} [LinearOrderedField K] (m : libm K)
    (hat : ∀ y x, -m.M_PI ≤ m.atan2f y x ∧ m.atan2f y x ≤ m.M_PI)
    (angles : Nat → K) (angles_count : Nat) (tolerance : K) (iterations : Nat) :
    ∀ mu prev : K, -m.M_PI ≤ mu → mu ≤ m.M_PI →
      -m.M_PI ≤ circular_mean_intrinsic_loop m angles angles_count tolerance iterations mu prev ∧
      circular_mean_intrinsic_loop m angles angles_count tolerance iterations mu prev
        ≤ m.M_PI := by
  induction iterations with
  | zero => intro mu prev h1 h2; exact ⟨h1, h2⟩
  | succ n ih =>
    intro mu prev h1 h2
    have hw := wrapOnce_range m.M_PI mu
      (m.atan2f (circular_mean_epsilon_sums m angles angles_count mu).2
        (circular_mean_epsilon_sums m angles angles_count mu).1) h1 h2
      (hat _ _).1 (hat _ _).2
    rw [circular_mean_intrinsic_loop_succ]
    split
    · exact hw
    · split
      · exact hw
      · exact ih _ _ hw.1 hw.2

theorem mean_in_range_of_atan2_range {K : Type} [LinearOrderedField K] (m : libm K)
    (hat : ∀ y x, -m.M_PI ≤ m.atan2f y x ∧ m.atan2f y x ≤ m.M_PI)
    (angles : Nat → K) (angles_count max_intrinsic_iterations : Int) (tolerance : K)
    (h1 : angles_count ≠ 1) :
    -m.M_PI ≤ directional_statistics_circular_mean m angles angles_count
        max_intrinsic_iterations tolerance ∧
    directional_statistics_circular_mean m angles angles_count
        max_intrinsic_iterations tolerance ≤ m.M_PI := by
  have hP : 0 ≤ m.M_PI := by
    have := hat 0 0
    linarith [this.1, this.2]
  unfold directional_statistics_circular_mean
  simp only
  split
  · constructor <;> linarith
  · split
    · exact hat _ _
    · exact circular_mean_intrinsic_loop_range m hat _ _ _ _ _ _ (hat _ _).1 (hat _ _).2

/-- C14: `directional_statistics_circular_mean` returns `0` for an empty
input (`angles_count = 0`) and the single angle `angles[0]` unchanged for an
input of length 1, for every iteration cap, tolerance and math library. -/
theorem circular_mean_empty_and_single {K : Type} [LinearOrderedField K] (m : libm K)
    (angles : Nat → K) (max_intrinsic_iterations : Int) (tolerance : K) :
    directional_statistics_circular_mean m angles 0 max_intrinsic_iterations tolerance = 0 ∧
    directional_statistics_circular_mean m angles 1 max_intrinsic_iterations tolerance
      = angles 0 := by
  constructor <;> simp [directional_statistics_circular_mean]

/-- C11 as stated fails: for the one-element input `[4]` (iteration cap 5,
tolerance 0.01, the real `atan2`, `cos`, `sin`) the function returns `4`,
which is not in `[-pi, pi]`. -/
theorem circular_mean_single_out_of_range :
    ¬ (-Real.pi ≤ directional_statistics_circular_mean
          { atan2f := fun y x => Complex.arg ⟨x, y⟩, cosf := Real.cos, sinf := Real.sin,
            sqrtf := Real.sqrt, asinf := Real.arcsin, M_PI := Real.pi }
          (fun _ => 4) 1 5 0.01 ∧
       directional_statistics_circular_mean
          { atan2f := fun y x => Complex.arg ⟨x, y⟩, cosf := Real.cos, sinf := Real.sin,
            sqrtf := Real.sqrt, asinf := Real.arcsin, M_PI := Real.pi }
          (fun _ => 4) 1 5 0.01 ≤ Real.pi) := by
  have h : directional_statistics_circular_mean
      { atan2f := fun y x => Complex.arg ⟨x, y⟩, cosf := Real.cos, sinf := Real.sin,
        sqrtf := Real.sqrt, asinf := Real.arcsin, M_PI := Real.pi }
      (fun _ => (4 : ℝ)) 1 5 0.01 = 4 := by
    simp [directional_statistics_circular_mean]
  rw [h]
  intro hc
  have := Real.pi_lt_d2
  linarith [hc.2]

/-- C11 (amended): in exact real arithmetic, for every array of angles, every
length `angles_count` other than 1, every iteration cap and every tolerance,
`directional_statistics_circular_mean` returns a value in `[-pi, pi]`. -/
theorem circular_mean_range (angles : Nat → ℝ)
    (angles_count max_intrinsic_iterations : Int) (tolerance : ℝ)
    (h1 : angles_count ≠ 1) :
    -Real.pi ≤ directional_statistics_circular_mean
        { atan2f := fun y x => Complex.arg ⟨x, y⟩, cosf := Real.cos, sinf := Real.sin,
          sqrtf := Real.sqrt, asinf := Real.arcsin, M_PI := Real.pi }
        angles angles_count max_intrinsic_iterations tolerance ∧
    directional_statistics_circular_mean
        { atan2f := fun y x => Complex.arg ⟨x, y⟩, cosf := Real.cos, sinf := Real.sin,
          sqrtf := Real.sqrt, asinf := Real.arcsin, M_PI := Real.pi }
        angles angles_count max_intrinsic_iterations tolerance ≤ Real.pi :=
  mean_in_range_of_atan2_range
    { atan2f := fun y x => Complex.arg ⟨x, y⟩, cosf := Real.cos, sinf := Real.sin,
      sqrtf := Real.sqrt, asinf := Real.arcsin, M_PI := Real.pi }
    (fun _ _ => ⟨le_of_lt (Complex.neg_pi_lt_arg _), Complex.arg_le_pi _⟩)
    angles angles_count max_intrinsic_iterations tolerance h1

/-- Witness for C11 (amended): the four angles `4, 4, 4, 4`, cap 5,
tolerance 0.01. -/
theorem circular_mean_range_witness :
    -Real.pi ≤ directional_statistics_circular_mean
        { atan2f := fun y x => Complex.arg ⟨x, y⟩, cosf := Real.cos, sinf := Real.sin,
          sqrtf := Real.sqrt, asinf := Real.arcsin, M_PI := Real.pi }
        (fun _ => 4) 4 5 0.01 ∧
    directional_statistics_circular_mean
        { atan2f := fun y x => Complex.arg ⟨x, y⟩, cosf := Real.cos, sinf := Real.sin,
          sqrtf := Real.sqrt, asinf := Real.arcsin, M_PI := Real.pi }
        (fun _ => 4) 4 5 0.01 ≤ Real.pi :=
  circular_mean_range (fun _ => 4) 4 5 0.01 (by decide)

theorem foldl_constant_sums {K : Type} [Field K] (c s : K) (n : Nat) :
    (List.range n).foldl (fun (acc : K × K) (_ : Nat) => (acc.1 + c, acc.2 + s)) (0, 0)
      = ((n : K) * c, (n : K) * s) := by
  induction n with
  | zero => simp
  | succ k ih =>
    rw [List.range_succ, List.foldl_append, ih]
    simp only [List.foldl_cons, List.foldl_nil, Nat.cast_succ]
    refine Prod.ext ?_ ?_ <;> simp only <;> ring

theorem extrinsic_sums_constant {K : Type} [LinearOrderedField K] (m : libm K)
    (angles : Nat → K) (phi : K) (n : Nat) (h : ∀ i, i < n → angles i = phi) :
    (List.range n).foldl
        (fun (acc : K × K) i => (acc.1 + m.cosf (angles i), acc.2 + m.sinf (angles i))) (0, 0)
      = ((n : K) * m.cosf phi, (n : K) * m.sinf phi) := by
  rw [← foldl_constant_sums]
  apply List.foldl_ext
  intro acc i hi
  rw [h i (List.mem_range.mp hi)]

theorem epsilon_sums_constant {K : Type} [LinearOrderedField K] (m : libm K)
    (angles : Nat → K) (phi mu : K) (n : Nat) (h : ∀ i, i < n → angles i = phi) :
    circular_mean_epsilon_sums m angles n mu
      = ((n : K) * m.cosf (wrapOnce m.M_PI (phi - mu)),
          (n : K) * m.sinf (wrapOnce m.M_PI (phi - mu))) := by
  rw [circular_mean_epsilon_sums_eq, ← foldl_constant_sums]
  apply List.foldl_ext
  intro acc i hi
  rw [h i (List.mem_range.mp hi)]

theorem wrapOnce_int_mul_two_pi (x : ℝ) (h : ∃ k : ℤ, x = (k : ℝ) * (2 * Real.pi)) :
    ∃ k : ℤ, wrapOnce Real.pi x = (k : ℝ) * (2 * Real.pi) := by
  obtain ⟨k, hk⟩ := h
  unfold wrapOnce
  by_cases h1 : x > Real.pi
  · simp only [h1, if_true]
    by_cases h2 : x - 2 * Real.pi < -Real.pi
    · simp only [h2, if_true]
      exact ⟨k, by rw [hk]; ring⟩
    · simp only [h2, if_false]
      exact ⟨k - 1, by rw [hk]; push_cast; ring⟩
  · simp only [h1, if_false]
    by_cases h2 : x < -Real.pi
    · simp only [h2, if_true]
      exact ⟨k + 1, by rw [hk]; push_cast; ring⟩
    · simp only [h2, if_false]
      exact ⟨k, hk⟩

theorem arg_scaled_unit (n : Nat) (hn : 0 < n) (phi : ℝ) :
    Complex.arg ⟨(n : ℝ) * Real.cos phi, (n : ℝ) * Real.sin phi⟩
      = toIocMod Real.two_pi_pos (-Real.pi) phi := by
  have hz : (⟨(n : ℝ) * Real.cos phi, (n : ℝ) * Real.sin phi⟩ : ℂ)
      = ((n : ℝ) : ℂ) * Complex.exp ((phi : ℂ) * Complex.I) := by
    rw [Complex.exp_mul_I]
    apply Complex.ext
    · simp [← Complex.ofReal_cos, ← Complex.ofReal_sin]
    · simp [← Complex.ofReal_cos, ← Complex.ofReal_sin]
  rw [hz, Complex.arg_real_mul _ (by exact_mod_cast hn), Complex.arg_exp_mul_I]

theorem arg_pos_real (n : Nat) :
    Complex.arg ⟨(n : ℝ) * 1, (n : ℝ) * 0⟩ = 0 := by
  have hz : (⟨(n : ℝ) * 1, (n : ℝ) * 0⟩ : ℂ) = ((n : ℝ) : ℂ) := by
    apply Complex.ext <;> simp
  rw [hz, Complex.arg_ofReal_of_nonneg (by positivity)]

theorem clamped_tolerance_pos {K : Type} [LinearOrderedField K] (tolerance : K) :
    0 < (if tolerance < 0.000001 then (0.000001 : K) else tolerance) := by
  split
  · norm_num
  · rename_i h
    exact lt_of_lt_of_le (by norm_num) (not_lt.mp h)

theorem constant_sequence_mean_eq (m : libm ℝ)
    (hat : ∀ y x, m.atan2f y x = Complex.arg ⟨x, y⟩)
    (hcos : ∀ x, m.cosf x = Real.cos x) (hsin : ∀ x, m.sinf x = Real.sin x)
    (hpi : m.M_PI = Real.pi)
    (angles : Nat → ℝ) (phi : ℝ) (n : Nat) (hn : 2 ≤ n)
    (h : ∀ i, i < n → angles i = phi) (max_intrinsic_iterations : Int) (tolerance : ℝ) :
    directional_statistics_circular_mean m angles (n : Int) max_intrinsic_iterations tolerance
      = toIocMod Real.two_pi_pos (-Real.pi) phi := by
  have hmem := toIocMod_mem_Ioc Real.two_pi_pos (-Real.pi) phi
  have hlo : -Real.pi ≤ toIocMod Real.two_pi_pos (-Real.pi) phi := le_of_lt hmem.1
  have hhi : toIocMod Real.two_pi_pos (-Real.pi) phi ≤ Real.pi := by
    have := hmem.2
    linarith
  unfold directional_statistics_circular_mean
  simp only
  rw [if_neg (by omega), Int.toNat_natCast, extrinsic_sums_constant m angles phi n h]
  simp only
  rw [hat, hcos, hsin, arg_scaled_unit n (by omega) phi]
  by_cases hK : max_intrinsic_iterations < 1
  · rw [if_pos hK]
  · rw [if_neg hK]
    obtain ⟨its, hits⟩ : ∃ its : Nat, max_intrinsic_iterations.toNat = its + 1 :=
      ⟨max_intrinsic_iterations.toNat - 1, by omega⟩
    rw [hits, circular_mean_intrinsic_loop_succ, epsilon_sums_constant m angles phi _ n h]
    simp only
    rw [hat, hcos, hsin, hpi]
    obtain ⟨k, hk⟩ := wrapOnce_int_mul_two_pi
      (phi - toIocMod Real.two_pi_pos (-Real.pi) phi)
      ⟨toIocDiv Real.two_pi_pos (-Real.pi) phi, by
        rw [self_sub_toIocMod]; simp [zsmul_eq_mul]⟩
    have hcos1 : Real.cos (wrapOnce Real.pi (phi - toIocMod Real.two_pi_pos (-Real.pi) phi))
        = 1 := by
      rw [hk, Real.cos_int_mul_two_pi]
    have hsin0 : Real.sin (wrapOnce Real.pi (phi - toIocMod Real.two_pi_pos (-Real.pi) phi))
        = 0 := by
      rw [hk]
      have : (k : ℝ) * (2 * Real.pi) = ((2 * k : ℤ) : ℝ) * Real.pi := by push_cast; ring
      rw [this, Real.sin_int_mul_pi]
    rw [hcos1, hsin0, mul_zero, abs_zero, if_pos (clamped_tolerance_pos tolerance)]
    have h0 := arg_pos_real n
    rw [mul_zero] at h0
    rw [h0, add_zero, wrapOnce_of_mem _ _ hlo hhi]

theorem circular_mean_at_seam (m : libm ℝ)
    (hat : ∀ y x, m.atan2f y x = Complex.arg ⟨x, y⟩) (hpi : m.M_PI = Real.pi)
    (angles : Nat → ℝ) (n : Nat) (hn : 2 ≤ n) (C E : ℝ) (hC : C < 0) (hE : 0 < E)
    (hS : (List.range n).foldl
        (fun (acc : ℝ × ℝ) i => (acc.1 + m.cosf (angles i), acc.2 + m.sinf (angles i))) (0, 0)
      = (C, 0))
    (hEps : circular_mean_epsilon_sums m angles n Real.pi = (E, 0))
    (max_intrinsic_iterations : Int) (tolerance : ℝ) :
    directional_statistics_circular_mean m angles (n : Int) max_intrinsic_iterations tolerance
      = Real.pi := by
  have hneg : Complex.arg ⟨C, 0⟩ = Real.pi := by
    have hz : (⟨C, 0⟩ : ℂ) = ((C : ℝ) : ℂ) := by apply Complex.ext <;> simp
    rw [hz, Complex.arg_ofReal_of_neg hC]
  have hpos : Complex.arg ⟨E, 0⟩ = 0 := by
    have hz : (⟨E, 0⟩ : ℂ) = ((E : ℝ) : ℂ) := by apply Complex.ext <;> simp
    rw [hz, Complex.arg_ofReal_of_nonneg hE.le]
  unfold directional_statistics_circular_mean
  simp only
  rw [if_neg (by omega), Int.toNat_natCast, hS]
  simp only
  rw [hat, hneg]
  by_cases hK : max_intrinsic_iterations < 1
  · rw [if_pos hK]
  · rw [if_neg hK]
    obtain ⟨its, hits⟩ : ∃ its : Nat, max_intrinsic_iterations.toNat = its + 1 :=
      ⟨max_intrinsic_iterations.toNat - 1, by omega⟩
    rw [hits, circular_mean_intrinsic_loop_succ, hEps]
    simp only
    rw [abs_zero, if_pos (clamped_tolerance_pos tolerance), hat, hpos, add_zero, hpi,
      wrapOnce_of_mem _ _ (by linarith [Real.pi_pos]) le_rfl]

theorem wrapOnce_seam_pair (a : ℝ) (h1 : Real.pi / 2 < a) (h2 : a ≤ Real.pi) :
    wrapOnce Real.pi (a - Real.pi) = a - Real.pi ∧
    wrapOnce Real.pi (-a - Real.pi) = Real.pi - a := by
  have hp := Real.pi_pos
  constructor
  · exact wrapOnce_of_mem _ _ (by linarith) (by linarith)
  · have hx : ¬ (-a - Real.pi > Real.pi) := by linarith
    unfold wrapOnce
    simp only [if_neg hx]
    rw [if_pos (by linarith)]
    ring

theorem seam_pair_trig (a : ℝ) :
    Real.cos (a - Real.pi) = -Real.cos a ∧ Real.cos (Real.pi - a) = -Real.cos a ∧
    Real.sin (a - Real.pi) = -Real.sin a ∧ Real.sin (Real.pi - a) = Real.sin a := by
  refine ⟨?_, Real.cos_pi_sub a, ?_, Real.sin_pi_sub a⟩
  · rw [Real.cos_sub, Real.cos_pi, Real.sin_pi]; ring
  · rw [Real.sin_sub, Real.cos_pi, Real.sin_pi]; ring

theorem seam_pair_mean (m : libm ℝ)
    (hat : ∀ y x, m.atan2f y x = Complex.arg ⟨x, y⟩)
    (hcos : ∀ x, m.cosf x = Real.cos x) (hsin : ∀ x, m.sinf x = Real.sin x)
    (hpi : m.M_PI = Real.pi)
    (angles : Nat → ℝ) (a : ℝ) (h1 : Real.pi / 2 < a) (h2 : a ≤ Real.pi)
    (h0 : angles 0 = a) (h1a : angles 1 = -a)
    (max_intrinsic_iterations : Int) (tolerance : ℝ) :
    directional_statistics_circular_mean m angles 2 max_intrinsic_iterations tolerance
      = Real.pi := by
  have hca : Real.cos a < 0 :=
    Real.cos_neg_of_pi_div_two_lt_of_lt h1 (by linarith [Real.pi_pos])
  obtain ⟨w1, w2⟩ := wrapOnce_seam_pair a h1 h2
  obtain ⟨t1, t2, t3, t4⟩ := seam_pair_trig a
  refine circular_mean_at_seam m hat hpi angles 2 (by norm_num) (2 * Real.cos a)
    (-(2 * Real.cos a)) (by linarith) (by linarith) ?_ ?_ max_intrinsic_iterations tolerance
  · simp only [List.range_succ, List.range_zero, List.nil_append, List.cons_append,
      List.foldl_cons, List.foldl_nil, h0, h1a, hcos, hsin, Real.cos_neg, Real.sin_neg]
    refine Prod.ext ?_ ?_ <;> simp only <;> ring
  · rw [circular_mean_epsilon_sums_eq]
    simp only [List.range_succ, List.range_zero, List.nil_append, List.cons_append,
      List.foldl_cons, List.foldl_nil, h0, h1a, hcos, hsin, hpi, w1, w2, t1, t2, t3, t4]
    refine Prod.ext ?_ ?_ <;> simp only <;> ring

theorem seam_quad_mean (m : libm ℝ)
    (hat : ∀ y x, m.atan2f y x = Complex.arg ⟨x, y⟩)
    (hcos : ∀ x, m.cosf x = Real.cos x) (hsin : ∀ x, m.sinf x = Real.sin x)
    (hpi : m.M_PI = Real.pi)
    (angles : Nat → ℝ) (a b : ℝ) (ha1 : Real.pi / 2 < a) (ha2 : a ≤ Real.pi)
    (hb1 : Real.pi / 2 < b) (hb2 : b ≤ Real.pi)
    (h0 : angles 0 = a) (h1 : angles 1 = -a) (h2 : angles 2 = b) (h3 : angles 3 = -b)
    (max_intrinsic_iterations : Int) (tolerance : ℝ) :
    directional_statistics_circular_mean m angles 4 max_intrinsic_iterations tolerance
      = Real.pi := by
  have hca : Real.cos a < 0 :=
    Real.cos_neg_of_pi_div_two_lt_of_lt ha1 (by linarith [Real.pi_pos])
  have hcb : Real.cos b < 0 :=
    Real.cos_neg_of_pi_div_two_lt_of_lt hb1 (by linarith [Real.pi_pos])
  obtain ⟨w1, w2⟩ := wrapOnce_seam_pair a ha1 ha2
  obtain ⟨w3, w4⟩ := wrapOnce_seam_pair b hb1 hb2
  obtain ⟨t1, t2, t3, t4⟩ := seam_pair_trig a
  obtain ⟨u1, u2, u3, u4⟩ := seam_pair_trig b
  refine circular_mean_at_seam m hat hpi angles 4 (by norm_num)
    (2 * Real.cos a + 2 * Real.cos b) (-(2 * Real.cos a + 2 * Real.cos b))
    (by linarith) (by linarith) ?_ ?_ max_intrinsic_iterations tolerance
  · simp only [List.range_succ, List.range_zero, List.nil_append, List.cons_append,
      List.foldl_cons, List.foldl_nil, h0, h1, h2, h3, hcos, hsin, Real.cos_neg, Real.sin_neg]
    refine Prod.ext ?_ ?_ <;> simp only <;> ring
  · rw [circular_mean_epsilon_sums_eq]
    simp only [List.range_succ, List.range_zero, List.nil_append, List.cons_append,
      List.foldl_cons, List.foldl_nil, h0, h1, h2, h3, hcos, hsin, hpi, w1, w2, w3, w4,
      t1, t2, t3, t4, u1, u2, u3, u4]
    refine Prod.ext ?_ ?_ <;> simp only <;> ring

/-- C12 as stated fails: the constant sequence `[5]` of length 1 with `K = 0`
and tolerance `0` is returned as `5`, which is above `pi`, so the result is
not `phi` wrapped to `[-pi, pi]`. -/
theorem circular_mean_constant_single_not_wrapped :
    ¬ ((-Real.pi ≤ directional_statistics_circular_mean
          { atan2f := fun y x => Complex.arg ⟨x, y⟩, cosf := Real.cos, sinf := Real.sin,
            sqrtf := Real.sqrt, asinf := Real.arcsin, M_PI := Real.pi }
          (fun _ => 5) 1 0 0 ∧
        directional_statistics_circular_mean
          { atan2f := fun y x => Complex.arg ⟨x, y⟩, cosf := Real.cos, sinf := Real.sin,
            sqrtf := Real.sqrt, asinf := Real.arcsin, M_PI := Real.pi }
          (fun _ => 5) 1 0 0 ≤ Real.pi) ∧
       ∃ k : ℤ, (5 : ℝ) - directional_statistics_circular_mean
          { atan2f := fun y x => Complex.arg ⟨x, y⟩, cosf := Real.cos, sinf := Real.sin,
            sqrtf := Real.sqrt, asinf := Real.arcsin, M_PI := Real.pi }
          (fun _ => 5) 1 0 0 = 2 * Real.pi * k) := by
  have hv : directional_statistics_circular_mean
      { atan2f := fun y x => Complex.arg ⟨x, y⟩, cosf := Real.cos, sinf := Real.sin,
        sqrtf := Real.sqrt, asinf := Real.arcsin, M_PI := Real.pi }
      (fun _ => (5 : ℝ)) 1 0 0 = 5 := by
    simp [directional_statistics_circular_mean]
  rw [hv]
  rintro ⟨⟨_, h⟩, _⟩
  linarith [Real.pi_lt_d2]

/-- C12 (amended): over the reals, for a constant sequence of `n >= 1` copies of
`phi` the circular mean differs from `phi` by an integer multiple of `2 pi` for
every iteration cap and tolerance; it lies in `(-pi, pi]` when `n >= 2`, and for
`n = 1` it is `phi` itself, unwrapped. -/
theorem circular_mean_constant (angles : Nat → ℝ) (phi : ℝ) (n : Nat) (hn : 1 ≤ n)
    (h : ∀ i, i < n → angles i = phi) (max_intrinsic_iterations : Int) (tolerance : ℝ) :
    (∃ k : ℤ, phi - directional_statistics_circular_mean
        { atan2f := fun y x => Complex.arg ⟨x, y⟩, cosf := Real.cos, sinf := Real.sin,
          sqrtf := Real.sqrt, asinf := Real.arcsin, M_PI := Real.pi }
        angles (n : Int) max_intrinsic_iterations tolerance = 2 * Real.pi * k) ∧
    (2 ≤ n → -Real.pi < directional_statistics_circular_mean
        { atan2f := fun y x => Complex.arg ⟨x, y⟩, cosf := Real.cos, sinf := Real.sin,
          sqrtf := Real.sqrt, asinf := Real.arcsin, M_PI := Real.pi }
        angles (n : Int) max_intrinsic_iterations tolerance ∧
      directional_statistics_circular_mean
        { atan2f := fun y x => Complex.arg ⟨x, y⟩, cosf := Real.cos, sinf := Real.sin,
          sqrtf := Real.sqrt, asinf := Real.arcsin, M_PI := Real.pi }
        angles (n : Int) max_intrinsic_iterations tolerance ≤ Real.pi) ∧
    (n = 1 → directional_statistics_circular_mean
        { atan2f := fun y x => Complex.arg ⟨x, y⟩, cosf := Real.cos, sinf := Real.sin,
          sqrtf := Real.sqrt, asinf := Real.arcsin, M_PI := Real.pi }
        angles (n : Int) max_intrinsic_iterations tolerance = phi) := by
  have hone : n = 1 → directional_statistics_circular_mean
        { atan2f := fun y x => Complex.arg ⟨x, y⟩, cosf := Real.cos, sinf := Real.sin,
          sqrtf := Real.sqrt, asinf := Real.arcsin, M_PI := Real.pi }
        angles (n : Int) max_intrinsic_iterations tolerance = phi := by
    intro h1
    subst h1
    rw [← h 0 (by norm_num)]
    simp [directional_statistics_circular_mean]
  have htwo : 2 ≤ n → directional_statistics_circular_mean
        { atan2f := fun y x => Complex.arg ⟨x, y⟩, cosf := Real.cos, sinf := Real.sin,
          sqrtf := Real.sqrt, asinf := Real.arcsin, M_PI := Real.pi }
        angles (n : Int) max_intrinsic_iterations tolerance
        = toIocMod Real.two_pi_pos (-Real.pi) phi := fun h2 =>
    constant_sequence_mean_eq _ (fun _ _ => rfl) (fun _ => rfl) (fun _ => rfl) rfl
      angles phi n h2 h max_intrinsic_iterations tolerance
  refine ⟨?_, ?_, hone⟩
  · rcases Nat.lt_or_ge n 2 with hlt | hge
    · rw [hone (by omega)]
      exact ⟨0, by simp⟩
    · rw [htwo hge]
      refine ⟨toIocDiv Real.two_pi_pos (-Real.pi) phi, ?_⟩
      rw [self_sub_toIocMod, zsmul_eq_mul]
      ring
  · intro h2
    rw [htwo h2]
    have hm := toIocMod_mem_Ioc Real.two_pi_pos (-Real.pi) phi
    refine ⟨hm.1, ?_⟩
    have := hm.2
    linarith

/-- Witness for C12 (amended): three copies of the angle `4`, with iteration
cap `5` and tolerance `0.01`. -/
theorem circular_mean_constant_witness :
    (∃ k : ℤ, (4 : ℝ) - directional_statistics_circular_mean
        { atan2f := fun y x => Complex.arg ⟨x, y⟩, cosf := Real.cos, sinf := Real.sin,
          sqrtf := Real.sqrt, asinf := Real.arcsin, M_PI := Real.pi }
        (fun _ => 4) ((3 : Nat) : Int) 5 0.01 = 2 * Real.pi * k) ∧
    (2 ≤ 3 → -Real.pi < directional_statistics_circular_mean
        { atan2f := fun y x => Complex.arg ⟨x, y⟩, cosf := Real.cos, sinf := Real.sin,
          sqrtf := Real.sqrt, asinf := Real.arcsin, M_PI := Real.pi }
        (fun _ => 4) ((3 : Nat) : Int) 5 0.01 ∧
      directional_statistics_circular_mean
        { atan2f := fun y x => Complex.arg ⟨x, y⟩, cosf := Real.cos, sinf := Real.sin,
          sqrtf := Real.sqrt, asinf := Real.arcsin, M_PI := Real.pi }
        (fun _ => 4) ((3 : Nat) : Int) 5 0.01 ≤ Real.pi) ∧
    (3 = 1 → directional_statistics_circular_mean
        { atan2f := fun y x => Complex.arg ⟨x, y⟩, cosf := Real.cos, sinf := Real.sin,
          sqrtf := Real.sqrt, asinf := Real.arcsin, M_PI := Real.pi }
        (fun _ => 4) ((3 : Nat) : Int) 5 0.01 = 4) :=
  circular_mean_constant (fun _ => 4) 4 3 (by decide) (fun _ _ => rfl) 5 0.01

/-- C13: over the reals, for every `a` with `pi/2 < a <= pi`, every iteration
cap and every tolerance, the circular mean of `[a, -a]` has absolute value `pi`;
the mean of `[0.9 pi, -0.9 pi]` is within `0.001` of `pi` in absolute value; and
for `[3.04, -3.04, 3.10, -3.10]` with cap `5` and tolerance `0.01` the result
`mu` satisfies `3.10 < |mu| <= pi`. -/
theorem circular_mean_seam (angles : Nat → ℝ) (a : ℝ) (h1 : Real.pi / 2 < a)
    (h2 : a ≤ Real.pi) (h0 : angles 0 = a) (h1a : angles 1 = -a)
    (max_intrinsic_iterations : Int) (tolerance : ℝ) :
    |directional_statistics_circular_mean
        { atan2f := fun y x => Complex.arg ⟨x, y⟩, cosf := Real.cos, sinf := Real.sin,
          sqrtf := Real.sqrt, asinf := Real.arcsin, M_PI := Real.pi }
        angles 2 max_intrinsic_iterations tolerance| = Real.pi ∧
    abs (|directional_statistics_circular_mean
        { atan2f := fun y x => Complex.arg ⟨x, y⟩, cosf := Real.cos, sinf := Real.sin,
          sqrtf := Real.sqrt, asinf := Real.arcsin, M_PI := Real.pi }
        (fun i => if i = 0 then 0.9 * Real.pi else -(0.9 * Real.pi)) 2
        max_intrinsic_iterations tolerance| - Real.pi) < 0.001 ∧
    3.10 < |directional_statistics_circular_mean
        { atan2f := fun y x => Complex.arg ⟨x, y⟩, cosf := Real.cos, sinf := Real.sin,
          sqrtf := Real.sqrt, asinf := Real.arcsin, M_PI := Real.pi }
        seamScenarioAngles 4 5 0.01| ∧
    |directional_statistics_circular_mean
        { atan2f := fun y x => Complex.arg ⟨x, y⟩, cosf := Real.cos, sinf := Real.sin,
          sqrtf := Real.sqrt, asinf := Real.arcsin, M_PI := Real.pi }
        seamScenarioAngles 4 5 0.01| ≤ Real.pi := by
  have hp := Real.pi_pos
  have hlo := Real.pi_gt_d2
  have hhi := Real.pi_lt_d2
  rw [seam_pair_mean _ (fun _ _ => rfl) (fun _ => rfl) (fun _ => rfl) rfl
      angles a h1 h2 h0 h1a,
    seam_pair_mean _ (fun _ _ => rfl) (fun _ => rfl) (fun _ => rfl) rfl
      (fun i => if i = 0 then 0.9 * Real.pi else -(0.9 * Real.pi)) (0.9 * Real.pi)
      (by linarith) (by linarith) (by simp) (by simp),
    seam_quad_mean _ (fun _ _ => rfl) (fun _ => rfl) (fun _ => rfl) rfl
      seamScenarioAngles 3.04 3.10 (by linarith) (by linarith) (by linarith) (by linarith)
      (by simp [seamScenarioAngles]) (by simp [seamScenarioAngles])
      (by simp [seamScenarioAngles]) (by simp [seamScenarioAngles]),
    abs_of_pos hp]
  refine ⟨rfl, ?_, ?_, le_rfl⟩
  · rw [sub_self, abs_zero]; norm_num
  · linarith

/-- Witness for C13: the pair `[pi, -pi]` with cap `5` and tolerance `0.01`. -/
theorem circular_mean_seam_witness :
    |directional_statistics_circular_mean
        { atan2f := fun y x => Complex.arg ⟨x, y⟩, cosf := Real.cos, sinf := Real.sin,
          sqrtf := Real.sqrt, asinf := Real.arcsin, M_PI := Real.pi }
        (fun i => if i = 0 then Real.pi else -Real.pi) 2 5 0.01| = Real.pi ∧
    abs (|directional_statistics_circular_mean
        { atan2f := fun y x => Complex.arg ⟨x, y⟩, cosf := Real.cos, sinf := Real.sin,
          sqrtf := Real.sqrt, asinf := Real.arcsin, M_PI := Real.pi }
        (fun i => if i = 0 then 0.9 * Real.pi else -(0.9 * Real.pi)) 2
        5 0.01| - Real.pi) < 0.001 ∧
    3.10 < |directional_statistics_circular_mean
        { atan2f := fun y x => Complex.arg ⟨x, y⟩, cosf := Real.cos, sinf := Real.sin,
          sqrtf := Real.sqrt, asinf := Real.arcsin, M_PI := Real.pi }
        seamScenarioAngles 4 5 0.01| ∧
    |directional_statistics_circular_mean
        { atan2f := fun y x => Complex.arg ⟨x, y⟩, cosf := Real.cos, sinf := Real.sin,
          sqrtf := Real.sqrt, asinf := Real.arcsin, M_PI := Real.pi }
        seamScenarioAngles 4 5 0.01| ≤ Real.pi :=
  circular_mean_seam (fun i => if i = 0 then Real.pi else -Real.pi) Real.pi
    (by linarith [Real.pi_pos]) le_rfl (by simp) (by simp) 5 0.01

/-! ## Theorems: beacon registry -/

theorem mac_compare_eq_one (a b : bt_addr) :
    bt_addr_mac_compare (some a) (some b) = 1 ↔ a = b := by
  unfold bt_addr_mac_compare
  by_cases h : a = b <;> simp [h]

theorem put_scan_cons {K : Type} (db : beacon_database K) (mac : bt_addr) (i : Nat)
    (rest : List Nat) :
    beacon_database_put_scan db mac (i :: rest)
      = if mac = (db.beacons i).mac_little_endian then some i
        else beacon_database_put_scan db mac rest := by
  simp only [beacon_database_put_scan, mac_compare_eq_one]

theorem get_scan_cons {K : Type} (db : beacon_database K) (mac : bt_addr) (i : Nat)
    (rest : List Nat) :
    beacon_database_get_scan db mac (i :: rest)
      = if mac = (db.beacons i).mac_little_endian then some (db.beacons i)
        else beacon_database_get_scan db mac rest := by
  simp only [beacon_database_get_scan, mac_compare_eq_one]

theorem get_scan_eq_put_scan {K : Type} (db : beacon_database K) (mac : bt_addr)
    (l : List Nat) :
    beacon_database_get_scan db mac l
      = (beacon_database_put_scan db mac l).map db.beacons := by
  induction l with
  | nil => rfl
  | cons i rest ih =>
    rw [get_scan_cons, put_scan_cons]
    by_cases h : mac = (db.beacons i).mac_little_endian
    · rw [if_pos h, if_pos h]; rfl
    · rw [if_neg h, if_neg h]; exact ih

theorem put_scan_append {K : Type} (db : beacon_database K) (mac : bt_addr)
    (l1 l2 : List Nat) :
    beacon_database_put_scan db mac (l1 ++ l2)
      = match beacon_database_put_scan db mac l1 with
        | some i => some i
        | none => beacon_database_put_scan db mac l2 := by
  induction l1 with
  | nil => rfl
  | cons i rest ih =>
    rw [List.cons_append, put_scan_cons, put_scan_cons]
    by_cases h : mac = (db.beacons i).mac_little_endian
    · rw [if_pos h, if_pos h]
    · rw [if_neg h, if_neg h]; exact ih

theorem put_scan_singleton {K : Type} (db : beacon_database K) (mac : bt_addr) (n : Nat) :
    beacon_database_put_scan db mac [n]
      = if mac = (db.beacons n).mac_little_endian then some n else none := by
  rw [put_scan_cons]
  rfl

theorem put_scan_range_none {K : Type} (db : beacon_database K) (mac : bt_addr) (n : Nat) :
    beacon_database_put_scan db mac (List.range n) = none ↔
      ∀ i, i < n → (db.beacons i).mac_little_endian ≠ mac := by
  induction n with
  | zero => simp [beacon_database_put_scan]
  | succ n ih =>
    rw [List.range_succ, put_scan_append, put_scan_singleton]
    constructor
    · intro h i hi
      cases hs : beacon_database_put_scan db mac (List.range n) with
      | some k => rw [hs] at h; cases h
      | none =>
        rw [hs] at h
        simp only at h
        by_cases hn : mac = (db.beacons n).mac_little_endian
        · rw [if_pos hn] at h; cases h
        · rcases Nat.lt_succ_iff_lt_or_eq.mp hi with hlt | heq
          · exact ih.mp hs i hlt
          · subst heq; exact fun e => hn e.symm
    · intro h
      rw [ih.mpr (fun i hi => h i (Nat.lt_succ_of_lt hi))]
      simp only
      rw [if_neg (fun e => h n (Nat.lt_succ_self n) e.symm)]

theorem put_scan_range_some {K : Type} (db : beacon_database K) (mac : bt_addr) (n : Nat) :
    ∀ i, beacon_database_put_scan db mac (List.range n) = some i ↔
      i < n ∧ (db.beacons i).mac_little_endian = mac ∧
        ∀ j, j < i → (db.beacons j).mac_little_endian ≠ mac := by
  induction n with
  | zero => intro i; simp [beacon_database_put_scan]
  | succ n ih =>
    intro i
    rw [List.range_succ, put_scan_append, put_scan_singleton]
    cases hs : beacon_database_put_scan db mac (List.range n) with
    | some k =>
      simp only
      obtain ⟨hk1, hk2, hk3⟩ := (ih k).mp hs
      constructor
      · intro h
        have hki : k = i := Option.some.inj h
        subst hki
        exact ⟨Nat.lt_succ_of_lt hk1, hk2, hk3⟩
      · rintro ⟨_, hi2, hi3⟩
        rcases Nat.lt_trichotomy i k with hlt | heq | hgt
        · exact absurd hi2 (hk3 i hlt)
        · rw [heq]
        · exact absurd hk2 (hi3 k hgt)
    | none =>
      simp only
      have hnone := (put_scan_range_none db mac n).mp hs
      constructor
      · intro h
        by_cases hn : mac = (db.beacons n).mac_little_endian
        · rw [if_pos hn] at h
          have hni : n = i := Option.some.inj h
          subst hni
          exact ⟨Nat.lt_succ_self n, hn.symm, hnone⟩
        · rw [if_neg hn] at h; cases h
      · rintro ⟨hi1, hi2, _⟩
        rcases Nat.lt_succ_iff_lt_or_eq.mp hi1 with hlt | heq
        · exact absurd hi2 (hnone i hlt)
        · subst heq
          rw [if_pos hi2.symm]

theorem get_eq_put_scan {K : Type} (db : beacon_database K) (mac : bt_addr) :
    beacon_database_get (some db) (some mac)
      = match beacon_database_put_scan db mac (List.range db.count.toNat) with
        | some i => Except.ok (db.beacons i)
        | none => Except.error (-2) := by
  simp only [beacon_database_get, get_scan_eq_put_scan]
  cases beacon_database_put_scan db mac (List.range db.count.toNat) <;> rfl

theorem get_first_match {K : Type} (db : beacon_database K) (mac : bt_addr) (i : Nat)
    (hi : i < db.count.toNat) (hm : (db.beacons i).mac_little_endian = mac)
    (hfirst : ∀ j, j < i → (db.beacons j).mac_little_endian ≠ mac) :
    beacon_database_get (some db) (some mac) = Except.ok (db.beacons i) := by
  rw [get_eq_put_scan, (put_scan_range_some db mac db.count.toNat i).mpr ⟨hi, hm, hfirst⟩]

theorem get_no_match {K : Type} (db : beacon_database K) (mac : bt_addr)
    (h : ∀ i, i < db.count.toNat → (db.beacons i).mac_little_endian ≠ mac) :
    beacon_database_get (some db) (some mac) = Except.error (-2) := by
  rw [get_eq_put_scan, (put_scan_range_none db mac db.count.toNat).mpr h]

theorem put_overwrite {K : Type} (db : beacon_database K) (b : beacon K) (i : Nat)
    (hi : i < db.count.toNat)
    (hm : (db.beacons i).mac_little_endian = b.mac_little_endian)
    (hfirst : ∀ j, j < i → (db.beacons j).mac_little_endian ≠ b.mac_little_endian) :
    beacon_database_put db (some b)
      = (0, { beacons := fun j => if j = i then b else db.beacons j, count := db.count }) := by
  simp only [beacon_database_put,
    (put_scan_range_some db b.mac_little_endian db.count.toNat i).mpr ⟨hi, hm, hfirst⟩]

theorem put_no_space {K : Type} (db : beacon_database K) (b : beacon K)
    (h : ∀ i, i < db.count.toNat → (db.beacons i).mac_little_endian ≠ b.mac_little_endian)
    (hfull : db.count ≥ BEACON_DATABASE_CAPACITY) :
    beacon_database_put db (some b) = (-28, db) := by
  simp only [beacon_database_put,
    (put_scan_range_none db b.mac_little_endian db.count.toNat).mpr h, if_pos hfull]

theorem put_append {K : Type} (db : beacon_database K) (b : beacon K)
    (h : ∀ i, i < db.count.toNat → (db.beacons i).mac_little_endian ≠ b.mac_little_endian)
    (hroom : ¬ db.count ≥ BEACON_DATABASE_CAPACITY) :
    beacon_database_put db (some b)
      = (0, { beacons := fun j => if j = db.count.toNat then b else db.beacons j,
              count := db.count + 1 }) := by
  simp only [beacon_database_put,
    (put_scan_range_none db b.mac_little_endian db.count.toNat).mpr h, if_neg hroom]

theorem first_match_exists {K : Type} (db : beacon_database K) (mac : bt_addr) (n : Nat)
    (h : ∃ i, i < n ∧ (db.beacons i).mac_little_endian = mac) :
    ∃ i, i < n ∧ (db.beacons i).mac_little_endian = mac ∧
      ∀ j, j < i → (db.beacons j).mac_little_endian ≠ mac := by
  cases hs : beacon_database_put_scan db mac (List.range n) with
  | some i => exact ⟨i, (put_scan_range_some db mac n i).mp hs⟩
  | none =>
    obtain ⟨i, hi, hm⟩ := h
    exact absurd hm ((put_scan_range_none db mac n).mp hs i hi)

theorem put_cases {K : Type} (db : beacon_database K) (b : beacon K) :
    (∃ i, i < db.count.toNat ∧ (db.beacons i).mac_little_endian = b.mac_little_endian ∧
      (∀ j, j < i → (db.beacons j).mac_little_endian ≠ b.mac_little_endian) ∧
      beacon_database_put db (some b)
        = (0, { beacons := fun j => if j = i then b else db.beacons j, count := db.count })) ∨
    ((∀ i, i < db.count.toNat → (db.beacons i).mac_little_endian ≠ b.mac_little_endian) ∧
      db.count ≥ BEACON_DATABASE_CAPACITY ∧ beacon_database_put db (some b) = (-28, db)) ∨
    ((∀ i, i < db.count.toNat → (db.beacons i).mac_little_endian ≠ b.mac_little_endian) ∧
      ¬ db.count ≥ BEACON_DATABASE_CAPACITY ∧
      beacon_database_put db (some b)
        = (0, { beacons := fun j => if j = db.count.toNat then b else db.beacons j,
                count := db.count + 1 })) := by
  by_cases hex : ∃ i, i < db.count.toNat ∧
      (db.beacons i).mac_little_endian = b.mac_little_endian
  · obtain ⟨i, hi, hm, hfirst⟩ := first_match_exists db _ _ hex
    exact Or.inl ⟨i, hi, hm, hfirst, put_overwrite db b i hi hm hfirst⟩
  · have hno : ∀ i, i < db.count.toNat →
        (db.beacons i).mac_little_endian ≠ b.mac_little_endian :=
      fun i hi hm => hex ⟨i, hi, hm⟩
    by_cases hfull : db.count ≥ BEACON_DATABASE_CAPACITY
    · exact Or.inr (Or.inl ⟨hno, hfull, put_no_space db b hno hfull⟩)
    · exact Or.inr (Or.inr ⟨hno, hfull, put_append db b hno hfull⟩)

theorem put_preserves_inv {K : Type} (db : beacon_database K) (beacon : Option (beacon K))
    (h : RegistryInv db) : RegistryInv (beacon_database_put db beacon).2 := by
  cases beacon with
  | none => exact h
  | some b =>
    obtain ⟨h0, h16, hd⟩ := h
    rcases put_cases db b with ⟨i0, hi0, hm, _, e⟩ | ⟨_, _, e⟩ | ⟨hno, hroom, e⟩
    · rw [e]
      refine ⟨h0, h16, ?_⟩
      intro i j hi hj hij
      have hmac : ∀ k : Nat, ((if k = i0 then b else db.beacons k)).mac_little_endian
          = (db.beacons k).mac_little_endian := by
        intro k
        by_cases hk : k = i0
        · rw [if_pos hk, hk, hm]
        · rw [if_neg hk]
      simp only [hmac]
      exact hd i j hi hj hij
    · rw [e]; exact ⟨h0, h16, hd⟩
    · rw [e]
      have hlt : db.count < BEACON_DATABASE_CAPACITY := not_le.mp hroom
      refine ⟨by simp only; omega, by simp only; omega, ?_⟩
      intro i j hi hj hij
      simp only at hi hj ⊢
      have hin : i ≤ db.count.toNat := by omega
      have hjn : j ≤ db.count.toNat := by omega
      by_cases hi0 : i = db.count.toNat
      · have hj0 : j ≠ db.count.toNat := fun e => hij (hi0.trans e.symm)
        rw [if_pos hi0, if_neg hj0]
        exact fun e => hno j (by omega) e.symm
      · rw [if_neg hi0]
        by_cases hj0 : j = db.count.toNat
        · rw [if_pos hj0]
          exact hno i (by omega)
        · rw [if_neg hj0]
          exact hd i j (by omega) (by omega) hij

theorem init_inv {K : Type} (db0 : beacon_database K) :
    RegistryInv (beacon_database_init db0).2 := by
  refine ⟨le_refl 0, by simp [beacon_database_init, BEACON_DATABASE_CAPACITY], ?_⟩
  intro i j hi
  simp only [beacon_database_init] at hi
  omega

theorem runPuts_inv {K : Type} (puts : List (Option (beacon K))) :
    ∀ db : beacon_database K, RegistryInv db → RegistryInv (runPuts db puts) := by
  induction puts with
  | nil => intro db h; exact h
  | cons b rest ih =>
    intro db h
    exact ih _ (put_preserves_inv db b h)

/-- C15: after any sequence of `beacon_database_put` calls (with `NULL` or
non-`NULL` beacons) on a database initialised by `beacon_database_init`,
`0 <= count <= 16` and the little-endian MACs in the slots below `count` are
pairwise distinct. -/
theorem registry_macs_distinct {K : Type} (db0 : beacon_database K)
    (puts : List (Option (beacon K))) :
    0 ≤ (runPuts (beacon_database_init db0).2 puts).count ∧
    (runPuts (beacon_database_init db0).2 puts).count ≤ 16 ∧
    ∀ i j : Nat, (i : Int) < (runPuts (beacon_database_init db0).2 puts).count →
      (j : Int) < (runPuts (beacon_database_init db0).2 puts).count → i ≠ j →
      ((runPuts (beacon_database_init db0).2 puts).beacons i).mac_little_endian
        ≠ ((runPuts (beacon_database_init db0).2 puts).beacons j).mac_little_endian :=
  runPuts_inv puts _ (init_inv db0)

theorem put_scan_update_other {K : Type} (db : beacon_database K) (b : beacon K)
    (mac : bt_addr) (hm : mac ≠ b.mac_little_endian) (i0 n n1 : Nat) (c1 : Int)
    (hn : n ≤ n1) (hnew : ∀ j, n ≤ j → j < n1 → j = i0)
    (hold : i0 < n → (db.beacons i0).mac_little_endian ≠ mac) :
    beacon_database_put_scan
        { beacons := fun j => if j = i0 then b else db.beacons j, count := c1 } mac
        (List.range n1)
      = beacon_database_put_scan db mac (List.range n) := by
  have key : ∀ j, j < n1 →
      (((if j = i0 then b else db.beacons j)).mac_little_endian = mac ↔
        (j < n ∧ (db.beacons j).mac_little_endian = mac)) := by
    intro j hj
    by_cases hj0 : j = i0
    · rw [if_pos hj0]
      constructor
      · intro e; exact absurd e.symm hm
      · rintro ⟨hjn, e⟩; rw [hj0] at hjn e; exact absurd e (hold hjn)
    · rw [if_neg hj0]
      have hjn : j < n := by
        by_contra hge
        exact hj0 (hnew j (not_lt.mp hge) hj)
      exact ⟨fun e => ⟨hjn, e⟩, fun e => e.2⟩
  cases hs : beacon_database_put_scan db mac (List.range n) with
  | none =>
    have hno := (put_scan_range_none db mac n).mp hs
    refine (put_scan_range_none _ mac n1).mpr ?_
    intro j hj e
    have := (key j hj).mp e
    exact hno j this.1 this.2
  | some i =>
    obtain ⟨hi, hmi, hfirst⟩ := (put_scan_range_some db mac n i).mp hs
    refine (put_scan_range_some _ mac n1 i).mpr ⟨by omega, ?_, ?_⟩
    · exact (key i (by omega)).mpr ⟨hi, hmi⟩
    · intro j hj e
      have := (key j (by omega)).mp e
      exact hfirst j hj this.2

theorem get_update_other {K : Type} (db : beacon_database K) (b : beacon K)
    (mac : bt_addr) (hm : mac ≠ b.mac_little_endian) (i0 : Nat) (c1 : Int)
    (hn : db.count.toNat ≤ c1.toNat)
    (hnew : ∀ j, db.count.toNat ≤ j → j < c1.toNat → j = i0)
    (hold : i0 < db.count.toNat → (db.beacons i0).mac_little_endian = b.mac_little_endian) :
    beacon_database_get
        (some { beacons := fun j => if j = i0 then b else db.beacons j, count := c1 })
        (some mac)
      = beacon_database_get (some db) (some mac) := by
  rw [get_eq_put_scan, get_eq_put_scan]
  simp only
  rw [put_scan_update_other db b mac hm i0 db.count.toNat c1.toNat c1 hn hnew
    (fun h e => hm (e.symm.trans (hold h)))]
  cases hs : beacon_database_put_scan db mac (List.range db.count.toNat) with
  | none => rfl
  | some i =>
    obtain ⟨hi, hmi, _⟩ := (put_scan_range_some db mac _ i).mp hs
    have hne : i ≠ i0 := by
      intro e
      rw [e] at hi hmi
      exact hm (hmi.symm.trans (hold hi))
    simp only [if_neg hne]

theorem put_get_general {K : Type} (db : beacon_database K) (b : beacon K)
    (h0 : 0 ≤ db.count) (hok : (beacon_database_put db (some b)).1 = 0) :
    beacon_database_get (some (beacon_database_put db (some b)).2)
        (some b.mac_little_endian) = Except.ok b ∧
    (∀ mac, mac ≠ b.mac_little_endian →
      beacon_database_get (some (beacon_database_put db (some b)).2) (some mac)
        = beacon_database_get (some db) (some mac)) ∧
    ((∃ i : Nat, (i : Int) < db.count ∧
        (db.beacons i).mac_little_endian = b.mac_little_endian) →
      (beacon_database_put db (some b)).2.count = db.count) ∧
    ((¬ ∃ i : Nat, (i : Int) < db.count ∧
        (db.beacons i).mac_little_endian = b.mac_little_endian) →
      (beacon_database_put db (some b)).2.count = db.count + 1) := by
  rcases put_cases db b with ⟨i0, hi0, hm, hfirst, e⟩ | ⟨_, _, e⟩ | ⟨hno, hroom, e⟩
  · rw [e]
    refine ⟨?_, ?_, fun _ => rfl, ?_⟩
    · have := get_first_match
        { beacons := fun j => if j = i0 then b else db.beacons j, count := db.count }
        b.mac_little_endian i0 hi0 (by simp) (by
          intro j hj
          have hne : j ≠ i0 := by omega
          simp only [if_neg hne]
          exact hfirst j hj)
      simpa using this
    · intro mac hmac
      exact get_update_other db b mac hmac i0 db.count (le_refl _)
        (fun j h1 h2 => absurd h2 (not_lt.mpr h1)) (fun _ => hm)
    · intro hex
      exact absurd ⟨i0, by omega, hm⟩ hex
  · rw [e] at hok
    simp at hok
  · rw [e]
    have hsucc : (db.count + 1).toNat = db.count.toNat + 1 := by omega
    refine ⟨?_, ?_, ?_, fun _ => rfl⟩
    · have := get_first_match
        { beacons := fun j => if j = db.count.toNat then b else db.beacons j,
          count := db.count + 1 }
        b.mac_little_endian db.count.toNat (by simp only; omega) (by simp) (by
          intro j hj
          have hne : j ≠ db.count.toNat := by omega
          simp only [if_neg hne]
          exact hno j hj)
      simpa using this
    · intro mac hmac
      exact get_update_other db b mac hmac db.count.toNat (db.count + 1) (by omega)
        (fun j h1 h2 => by omega) (fun h => absurd h (lt_irrefl _))
    · rintro ⟨i, hi, hmi⟩
      exact absurd hmi (hno i (by omega))

/-- C16: on a registry reached from `beacon_database_init` by
`beacon_database_put` calls, after a `beacon_database_put` of `b` that returns `0`,
`beacon_database_get` with the little-endian MAC of `b` returns `b`,
`beacon_database_get` with any other MAC returns what it returned before, and
`count` is unchanged if a slot below `count` held that MAC and larger by one
otherwise. -/
theorem put_then_get {K : Type} (db0 db : beacon_database K)
    (puts : List (Option (beacon K))) (b : beacon K)
    (hdb : db = runPuts (beacon_database_init db0).2 puts)
    (hok : (beacon_database_put db (some b)).1 = 0) :
    beacon_database_get (some (beacon_database_put db (some b)).2)
        (some b.mac_little_endian) = Except.ok b ∧
    (∀ mac, mac ≠ b.mac_little_endian →
      beacon_database_get (some (beacon_database_put db (some b)).2) (some mac)
        = beacon_database_get (some db) (some mac)) ∧
    ((∃ i : Nat, (i : Int) < db.count ∧
        (db.beacons i).mac_little_endian = b.mac_little_endian) →
      (beacon_database_put db (some b)).2.count = db.count) ∧
    ((¬ ∃ i : Nat, (i : Int) < db.count ∧
        (db.beacons i).mac_little_endian = b.mac_little_endian) →
      (beacon_database_put db (some b)).2.count = db.count + 1) :=
  put_get_general db b (by rw [hdb]; exact (runPuts_inv puts _ (init_inv db0)).1) hok

/-- Witness for C16 (its Scenario A): after initialising, putting MAC
`EB:DC:FD:CD:66:F6` at `(10, 0, 0)` and putting the same MAC at `(11, 0, 0)`,
`beacon_database_get` returns the beacon at `(11, 0, 0)` and `count = 1`. -/
theorem put_then_get_witness :
    beacon_database_get
        (some (beacon_database_put
          (runPuts (beacon_database_init (staleDatabase : beacon_database ℚ)).2
            [some (identityBeacon macA 10 0 0)])
          (some (identityBeacon macA 11 0 0))).2)
        (some macA) = Except.ok (identityBeacon macA 11 0 0) ∧
    (beacon_database_put
        (runPuts (beacon_database_init (staleDatabase : beacon_database ℚ)).2
          [some (identityBeacon macA 10 0 0)])
        (some (identityBeacon macA 11 0 0))).2.count = 1 :=
  ⟨(put_then_get staleDatabase _ [some (identityBeacon macA 10 0 0)]
      (identityBeacon macA 11 0 0) rfl (by decide)).1, by decide⟩

/-- C17: on a registry with `count = 16`, `beacon_database_put` of a beacon whose
little-endian MAC is in none of the 16 slots returns `-ENOSPC` (-28) and
leaves the registry as it was; if some slot holds the MAC, it returns `0` and
the registry differs only in the first such slot, which now holds the
beacon. -/
theorem put_at_capacity {K : Type} (db : beacon_database K) (b : beacon K)
    (hfull : db.count = 16) :
    ((∀ i : Nat, i < 16 → (db.beacons i).mac_little_endian ≠ b.mac_little_endian) →
      beacon_database_put db (some b) = (-28, db)) ∧
    ((∃ i : Nat, i < 16 ∧ (db.beacons i).mac_little_endian = b.mac_little_endian) →
      ∃ i : Nat, i < 16 ∧ (db.beacons i).mac_little_endian = b.mac_little_endian ∧
        (∀ j, j < i → (db.beacons j).mac_little_endian ≠ b.mac_little_endian) ∧
        beacon_database_put db (some b)
          = (0, { beacons := fun j => if j = i then b else db.beacons j, count := 16 })) := by
  have hn : db.count.toNat = 16 := by rw [hfull]; rfl
  constructor
  · intro hno
    exact put_no_space db b (by rw [hn]; exact hno)
      (by rw [hfull]; simp [BEACON_DATABASE_CAPACITY])
  · intro hex
    obtain ⟨i, hi, hm, hfirst⟩ := first_match_exists db b.mac_little_endian 16 hex
    refine ⟨i, hi, hm, hfirst, ?_⟩
    rw [put_overwrite db b i (by rw [hn]; exact hi) hm hfirst, hfull]

/-- Witness for C17: the registry `fullDatabase` holding the 16 beacons with
MACs `(i, 0, 0, 0, 0, 0)`, and a beacon with MAC `macA`. -/
theorem put_at_capacity_witness :
    ((∀ i : Nat, i < 16 →
        ((fullDatabase : beacon_database ℚ).beacons i).mac_little_endian
          ≠ (identityBeacon macA (1 : ℚ) 2 3).mac_little_endian) →
      beacon_database_put (fullDatabase : beacon_database ℚ)
        (some (identityBeacon macA 1 2 3)) = (-28, fullDatabase)) ∧
    ((∃ i : Nat, i < 16 ∧
        ((fullDatabase : beacon_database ℚ).beacons i).mac_little_endian
          = (identityBeacon macA (1 : ℚ) 2 3).mac_little_endian) →
      ∃ i : Nat, i < 16 ∧
        ((fullDatabase : beacon_database ℚ).beacons i).mac_little_endian
          = (identityBeacon macA (1 : ℚ) 2 3).mac_little_endian ∧
        (∀ j, j < i → ((fullDatabase : beacon_database ℚ).beacons j).mac_little_endian
          ≠ (identityBeacon macA (1 : ℚ) 2 3).mac_little_endian) ∧
        beacon_database_put (fullDatabase : beacon_database ℚ)
            (some (identityBeacon macA 1 2 3))
          = (0, { beacons := fun j =>
                    if j = i then identityBeacon macA 1 2 3
                    else (fullDatabase : beacon_database ℚ).beacons j,
                  count := 16 })) :=
  put_at_capacity fullDatabase (identityBeacon macA 1 2 3) (by decide)

/-- C18: `beacon_database_get` on a non-`NULL` database and MAC returns `-ENOENT` (-2)
exactly when no slot below `count` holds that little-endian MAC; when some
slot does, it returns success with the content of the first such slot, whose
MAC is the one asked for.  (The database is passed by value: the source never
writes through `beacon_db`.) -/
theorem get_not_found_iff {K : Type} (db : beacon_database K) (mac : bt_addr) :
    (beacon_database_get (some db) (some mac) = Except.error (-2) ↔
      ∀ i : Nat, (i : Int) < db.count → (db.beacons i).mac_little_endian ≠ mac) ∧
    ((∃ i : Nat, (i : Int) < db.count ∧ (db.beacons i).mac_little_endian = mac) →
      ∃ i : Nat, (i : Int) < db.count ∧ (db.beacons i).mac_little_endian = mac ∧
        (∀ j, j < i → (db.beacons j).mac_little_endian ≠ mac) ∧
        beacon_database_get (some db) (some mac) = Except.ok (db.beacons i)) := by
  constructor
  · constructor
    · intro h i hi
      rw [get_eq_put_scan] at h
      cases hs : beacon_database_put_scan db mac (List.range db.count.toNat) with
      | some k => rw [hs] at h; cases h
      | none => exact (put_scan_range_none db mac _).mp hs i (by omega)
    · intro h
      exact get_no_match db mac (fun i hi => h i (by omega))
  · rintro ⟨i, hi, hm⟩
    obtain ⟨k, hk, hmk, hfirst⟩ := first_match_exists db mac db.count.toNat
      ⟨i, by omega, hm⟩
    exact ⟨k, by omega, hmk, hfirst, get_first_match db mac k hk hmk hfirst⟩

/-! ## Theorems: drift compensation and interferometry -/

theorem sameSamples_refl {K : Type} (d : iq_data K) : SameSamples d d :=
  ⟨rfl, rfl, rfl, rfl, rfl, rfl, rfl⟩

theorem sameSamples_trans {K : Type} {a b c : iq_data K} (h1 : SameSamples a b)
    (h2 : SameSamples b c) : SameSamples a c :=
  ⟨h2.1.trans h1.1, h2.2.1.trans h1.2.1, h2.2.2.1.trans h1.2.2.1,
    h2.2.2.2.1.trans h1.2.2.2.1, h2.2.2.2.2.1.trans h1.2.2.2.2.1,
    h2.2.2.2.2.2.1.trans h1.2.2.2.2.2.1, h2.2.2.2.2.2.2.trans h1.2.2.2.2.2.2⟩

theorem constant_reference_phases {K : Type} [LinearOrderedField K] (m : libm K)
    (d : iq_data K) (c : K) (hini : d.initialized = true)
    (hnr : d.reference_sample_count ≤ 8)
    (hc : ∀ i, i < d.reference_sample_count →
      m.atan2f (d.reference_q i : K) (d.reference_i i : K) = c) :
    ∃ d1, calculate_reference_phases m d = some d1 ∧ SameSamples d d1 ∧
      (∀ j, j < d.reference_sample_count → d1.reference_phases j = c) := by
  unfold calculate_reference_phases
  rw [if_neg (by rw [hini]; simp)]
  obtain ⟨d1, e1, hs, hp⟩ := foldlM_option_indexed (calculate_reference_phases_step m)
    (List.range d.reference_sample_count)
    (fun k s => SameSamples d s ∧ (∀ j, j < k → s.reference_phases j = c))
    d ⟨sameSamples_refl d, fun j hj => absurd hj (Nat.not_lt_zero j)⟩
    (by
      intro k hk s hs
      obtain ⟨hs1, hs2⟩ := hs
      have hkn : k < d.reference_sample_count := by simpa using hk
      have hget : (List.range d.reference_sample_count).get ⟨k, hk⟩ = k := by simp
      rw [hget]
      refine ⟨_, calculate_reference_phases_step_eq m s k (by omega), hs1, ?_⟩
      intro j hj
      by_cases hjk : j = k
      · subst hjk
        simp only [if_true]
        rw [hs1.2.2.2.1, hs1.2.2.2.2.1]
        exact hc j hkn
      · simp only [hjk, if_false]
        exact hs2 j (by omega))
  exact ⟨d1, e1, hs, by simpa using hp⟩

theorem constant_unwrap {K : Type} [LinearOrderedField K] (m : libm K)
    (hpi : 0 ≤ m.M_PI) (d1 : iq_data K) (c : K) (hini : d1.initialized = true)
    (hnr : d1.reference_sample_count ≤ 8)
    (hph : ∀ j, j < d1.reference_sample_count → d1.reference_phases j = c) :
    ∃ d2, unwrap_reference_phases m d1 = some d2 ∧ SameSamples d1 d2 ∧
      (∀ j, j < d1.reference_sample_count → d2.reference_phases_unwrapped j = c) := by
  have hn1 : ¬ (c - c > m.M_PI) := by simp [hpi]
  have hn2 : ¬ (c - c < -m.M_PI) := by simp [hpi]
  unfold unwrap_reference_phases
  rw [if_neg (by rw [hini]; simp)]
  by_cases h0 : d1.reference_sample_count = 0
  · rw [if_pos h0]
    exact ⟨d1, rfl, sameSamples_refl d1, fun j hj => absurd hj (by omega)⟩
  · rw [if_neg h0]
    simp only [aget_lt 8 _ 0 (by omega), aset_lt 8 _ 0 _ (by omega),
      Option.bind_eq_bind, Option.some_bind]
    obtain ⟨d2, e2, hs, hp, hu⟩ := foldlM_option_indexed (unwrap_reference_phases_step m)
      (List.range' 1 (d1.reference_sample_count - 1))
      (fun k s => SameSamples d1 s ∧
        (∀ j, j < d1.reference_sample_count → s.reference_phases j = c) ∧
        (∀ j, j < k + 1 → s.reference_phases_unwrapped j = c))
      { d1 with reference_phases_unwrapped := fun j =>
          if j = 0 then d1.reference_phases 0 else d1.reference_phases_unwrapped j }
      ⟨⟨rfl, rfl, rfl, rfl, rfl, rfl, rfl⟩, hph, by
        intro j hj
        have : j = 0 := by omega
        subst this
        simp [hph 0 (by omega)]⟩
      (by
        intro k hk s hs
        obtain ⟨hs1, hs2, hs3⟩ := hs
        have hk7 : k < d1.reference_sample_count - 1 := by simpa using hk
        have hget : (List.range' 1 (d1.reference_sample_count - 1)).get ⟨k, hk⟩ = k + 1 := by
          simp [List.getElem_range']
          omega
        rw [hget]
        refine ⟨_, unwrap_reference_phases_step_eq m s (k + 1) (by omega), hs1, hs2, ?_⟩
        intro j hj
        by_cases hjk : j = k + 1
        · subst hjk
          simp only [if_true, hs2 (k + 1) (by omega), Nat.add_sub_cancel, hs3 k (by omega),
            hn1, hn2, if_false]
        · simp only [hjk, if_false]
          exact hs3 j (by omega))
    refine ⟨d2, e2, hs, ?_⟩
    intro j hj
    refine hu j ?_
    simp only [List.length_range']
    omega

theorem constant_drift_sums {K : Type} [LinearOrderedField K] (d2 : iq_data K) (c : K)
    (n : Nat) (hn : n ≤ 8) (hu : ∀ j, j < n → d2.reference_phases_unwrapped j = c) :
    ∃ sums, (List.range n).foldlM (drift_sums_step d2) (0, 0, 0, 0) = some sums ∧
      (n : K) * sums.2.2.1 - sums.1 * sums.2.1 = 0 := by
  obtain ⟨sums, es, h1, h2⟩ := foldlM_option_indexed (drift_sums_step d2) (List.range n)
    (fun k (acc : K × K × K × K) => acc.2.1 = (k : K) * c ∧ acc.2.2.1 = c * acc.1)
    (0, 0, 0, 0) ⟨by simp, by simp⟩
    (by
      intro k hk acc hacc
      have hkn : k < n := by simpa using hk
      have hget : (List.range n).get ⟨k, hk⟩ = k := by simp
      rw [hget]
      refine ⟨_, drift_sums_step_eq d2 acc k (by omega), ?_, ?_⟩
      · simp only [hacc.1, hu k hkn]
        push_cast
        ring
      · simp only [hacc.2, hu k hkn]
        ring)
  refine ⟨sums, es, ?_⟩
  rw [h1, h2, List.length_range]
  ring

theorem constant_phase_zero_drift {K : Type} [LinearOrderedField K] (m : libm K)
    (hpi : 0 ≤ m.M_PI) (d : iq_data K) (c : K) (hini : d.initialized = true)
    (hnr : d.reference_sample_count ≤ 8)
    (hc : ∀ i, i < d.reference_sample_count →
      m.atan2f (d.reference_q i : K) (d.reference_i i : K) = c) :
    ∃ d3, estimate_linear_phase_drift_rate m d = some d3 ∧ SameSamples d d3 ∧
      d3.linear_phase_drift_rate = 0 := by
  unfold estimate_linear_phase_drift_rate
  rw [if_neg (by rw [hini]; simp)]
  by_cases h0 : d.reference_sample_count = 0
  · rw [if_pos h0]
    exact ⟨_, rfl, ⟨rfl, rfl, rfl, rfl, rfl, rfl, rfl⟩, rfl⟩
  · rw [if_neg h0]
    obtain ⟨d1, e1, s1, hph⟩ := constant_reference_phases m d c hini hnr hc
    obtain ⟨d2, e2, s2, hun⟩ := constant_unwrap m hpi d1 c (s1.1.trans hini)
      (by rw [s1.2.1]; exact hnr) (by rw [s1.2.1]; exact hph)
    have s12 := sameSamples_trans s1 s2
    simp only [e1, e2, Option.bind_eq_bind, Option.some_bind]
    by_cases h1 : d2.reference_sample_count = 1
    · rw [if_pos h1]
      exact ⟨_, rfl, s12, rfl⟩
    · rw [if_neg h1]
      have hn : d2.reference_sample_count ≤ 8 := by rw [s12.2.1]; exact hnr
      have hn2 : 2 ≤ d2.reference_sample_count := by
        have := s12.2.1
        omega
      obtain ⟨sums, es, hpos⟩ := drift_sums_defined (K := K) d2 d2.reference_sample_count hn
      obtain ⟨sums1, es1, hz⟩ := constant_drift_sums d2 c d2.reference_sample_count hn
        (by rw [s2.2.1]; exact hun)
      have hsame : sums = sums1 := Option.some.inj (es.symm.trans es1)
      subst hsame
      have hne := ne_of_gt (hpos hn2)
      have hone : ((IQ_REFERENCE_SPACING : Nat) : K) ≠ 0 := by simp [IQ_REFERENCE_SPACING]
      simp only [es, Option.some_bind, fdiv_ne _ _ hne, fdiv_ne _ _ hone, Option.pure_def]
      refine ⟨_, rfl, s12, ?_⟩
      simp only [hz, zero_div]

theorem zero_rate_compensation {K : Type} [LinearOrderedField K] (m : libm K)
    (hcos : m.cosf 0 = 1) (hsin : m.sinf 0 = 0) (d3 : iq_data K)
    (hini : d3.initialized = true) (hnm : d3.measurement_sample_count ≤ 37)
    (hrate : d3.linear_phase_drift_rate = 0) :
    ∃ d4, compensate_measurement_samples m d3 = some d4 ∧ SameSamples d3 d4 ∧
      (∀ i, i < d3.measurement_sample_count →
        d4.measurement_i_compensated i = (d3.measurement_i i : K) ∧
        d4.measurement_q_compensated i = (d3.measurement_q i : K)) := by
  unfold compensate_measurement_samples
  rw [if_neg (by rw [hini]; simp)]
  obtain ⟨d4, e4, hs, hp⟩ := foldlM_option_indexed
    (compensate_measurement_samples_step m
      (-d3.linear_phase_drift_rate * (IQ_MEASUREMENT_SPACING : K)))
    (List.range d3.measurement_sample_count)
    (fun k s => SameSamples d3 s ∧ (∀ j, j < k →
      s.measurement_i_compensated j = (d3.measurement_i j : K) ∧
      s.measurement_q_compensated j = (d3.measurement_q j : K)))
    d3 ⟨sameSamples_refl d3, fun j hj => absurd hj (Nat.not_lt_zero j)⟩
    (by
      intro k hk s hs
      obtain ⟨hs1, hs2⟩ := hs
      have hkn : k < d3.measurement_sample_count := by simpa using hk
      have hget : (List.range d3.measurement_sample_count).get ⟨k, hk⟩ = k := by simp
      rw [hget]
      refine ⟨_, compensate_measurement_samples_step_eq m _ s k (by omega), hs1, ?_⟩
      intro j hj
      by_cases hjk : j = k
      · subst hjk
        simp only [if_true, hrate, neg_zero, zero_mul, hcos, hsin, mul_one, mul_zero,
          sub_zero, zero_add, hs1.2.2.2.2.2.1, hs1.2.2.2.2.2.2, and_self]
      · simp only [hjk, if_false]
        exact hs2 j (by omega))
  exact ⟨d4, e4, hs, by simpa using hp⟩

/-- C19: over the reals, for an initialised IQ data structure (at most 8
reference and 37 measurement samples) whose reference samples all have the same
phase `c`, `estimate_linear_phase_drift_rate` returns with drift rate 0, and
`compensate_measurement_samples` then returns with every compensated
measurement sample equal to the measurement sample itself. -/
theorem zero_drift_identity (d : iq_data ℝ) (c : ℝ) (hini : d.initialized = true)
    (hnr : d.reference_sample_count ≤ 8) (hnm : d.measurement_sample_count ≤ 37)
    (hc : ∀ i, i < d.reference_sample_count →
      Complex.arg ⟨(d.reference_i i : ℝ), (d.reference_q i : ℝ)⟩ = c) :
    ∃ d3 d4,
      estimate_linear_phase_drift_rate
        { atan2f := fun y x => Complex.arg ⟨x, y⟩, cosf := Real.cos, sinf := Real.sin,
          sqrtf := Real.sqrt, asinf := Real.arcsin, M_PI := Real.pi } d = some d3 ∧
      d3.linear_phase_drift_rate = 0 ∧
      compensate_measurement_samples
        { atan2f := fun y x => Complex.arg ⟨x, y⟩, cosf := Real.cos, sinf := Real.sin,
          sqrtf := Real.sqrt, asinf := Real.arcsin, M_PI := Real.pi } d3 = some d4 ∧
      (∀ i, i < d.measurement_sample_count →
        d4.measurement_i_compensated i = (d.measurement_i i : ℝ) ∧
        d4.measurement_q_compensated i = (d.measurement_q i : ℝ)) := by
  obtain ⟨d3, e3, s3, hrate⟩ := constant_phase_zero_drift
    { atan2f := fun y x => Complex.arg ⟨x, y⟩, cosf := Real.cos, sinf := Real.sin,
      sqrtf := Real.sqrt, asinf := Real.arcsin, M_PI := Real.pi }
    Real.pi_pos.le d c hini hnr hc
  obtain ⟨d4, e4, _, h4⟩ := zero_rate_compensation
    { atan2f := fun y x => Complex.arg ⟨x, y⟩, cosf := Real.cos, sinf := Real.sin,
      sqrtf := Real.sqrt, asinf := Real.arcsin, M_PI := Real.pi }
    Real.cos_zero Real.sin_zero d3 (s3.1.trans hini) (by rw [s3.2.2.1]; exact hnm) hrate
  refine ⟨d3, d4, e3, hrate, e4, ?_⟩
  intro i hi
  have := h4 i (by rw [s3.2.2.1]; exact hi)
  rw [s3.2.2.2.2.2.1, s3.2.2.2.2.2.2] at this
  exact this

/-- Witness for C19: the structure `constantPhaseData`, whose 8 reference
samples `(1, 0)` all have phase 0. -/
theorem zero_drift_identity_witness :
    ∃ d3 d4,
      estimate_linear_phase_drift_rate
        { atan2f := fun y x => Complex.arg ⟨x, y⟩, cosf := Real.cos, sinf := Real.sin,
          sqrtf := Real.sqrt, asinf := Real.arcsin, M_PI := Real.pi }
        (constantPhaseData : iq_data ℝ) = some d3 ∧
      d3.linear_phase_drift_rate = 0 ∧
      compensate_measurement_samples
        { atan2f := fun y x => Complex.arg ⟨x, y⟩, cosf := Real.cos, sinf := Real.sin,
          sqrtf := Real.sqrt, asinf := Real.arcsin, M_PI := Real.pi } d3 = some d4 ∧
      (∀ i, i < (constantPhaseData : iq_data ℝ).measurement_sample_count →
        d4.measurement_i_compensated i
          = (((constantPhaseData : iq_data ℝ).measurement_i i : Int) : ℝ) ∧
        d4.measurement_q_compensated i
          = (((constantPhaseData : iq_data ℝ).measurement_q i : Int) : ℝ)) :=
  zero_drift_identity constantPhaseData 0 rfl (by simp [constantPhaseData])
    (by simp [constantPhaseData])
    (by
      intro i _
      have hz : (⟨(((constantPhaseData : iq_data ℝ).reference_i i : Int) : ℝ),
          (((constantPhaseData : iq_data ℝ).reference_q i : Int) : ℝ)⟩ : ℂ) = 1 := by
        apply Complex.ext <;> simp [constantPhaseData, blankIqData]
      rw [hz, Complex.arg_one])

theorem iq_data_aod_interferometry_step_delta {K : Type} [LinearOrderedField K] (m : libm K)
    (d : iq_data K) (d_orth_rad : K) (acc : interferometry_deltas K)
    (pair : Nat × Nat × Nat) :
    iq_data_aod_interferometry_step m d d_orth_rad acc pair
      = (if pair.1 ≥ d.measurement_sample_count ∨ pair.2.1 ≥ d.measurement_sample_count then
          some acc
        else do
          let i1 ← aget 37 d.measurement_i_compensated pair.1
          let q1 ← aget 37 d.measurement_q_compensated pair.1
          let i2 ← aget 37 d.measurement_i_compensated pair.2.1
          let q2 ← aget 37 d.measurement_q_compensated pair.2.1
          let delta := interferometry_delta m i1 q1 i2 q2
          let delta :=
            if delta > d_orth_rad then d_orth_rad
            else if delta < -d_orth_rad then -d_orth_rad
            else delta
          match pair.2.2 with
          | 0 => do
            let h ← aset 32 acc.horizontal_deltas acc.horizontal_count delta
            pure { acc with horizontal_deltas := h,
                            horizontal_count := acc.horizontal_count + 1 }
          | 1 => do
            let h ← aset 32 acc.horizontal_deltas acc.horizontal_count (-delta)
            pure { acc with horizontal_deltas := h,
                            horizontal_count := acc.horizontal_count + 1 }
          | 2 => do
            let v ← aset 32 acc.vertical_deltas acc.vertical_count delta
            pure { acc with vertical_deltas := v, vertical_count := acc.vertical_count + 1 }
          | 3 => do
            let v ← aset 32 acc.vertical_deltas acc.vertical_count (-delta)
            pure { acc with vertical_deltas := v, vertical_count := acc.vertical_count + 1 }
          | _ => pure acc) := rfl

theorem sample_ne_zero (i q : ℝ) (h : i ≠ 0 ∨ q ≠ 0) : (⟨i, q⟩ : ℂ) ≠ 0 := by
  intro hz
  have h1 := congrArg Complex.re hz
  have h2 := congrArg Complex.im hz
  simp only [Complex.zero_re, Complex.zero_im] at h1 h2
  rcases h with h | h
  · exact h h1
  · exact h h2

/-- C20 (amended): in exact real arithmetic, with `atan2` the principal
argument (no signed zero), for two non-zero samples `(i1, q1)` and `(i2, q2)`
the delta `atan2(q1*i2 - i1*q2, i1*i2 + q1*q2)` of the interferometry step lies
in `(-pi, pi]` and differs from `atan2(q1, i1) - atan2(q2, i2)` by an integer
multiple of `2 pi`. -/
theorem interferometry_delta_phase_difference (i1 q1 i2 q2 : ℝ)
    (h1 : i1 ≠ 0 ∨ q1 ≠ 0) (h2 : i2 ≠ 0 ∨ q2 ≠ 0) :
    -Real.pi < interferometry_delta
        { atan2f := fun y x => Complex.arg ⟨x, y⟩, cosf := Real.cos, sinf := Real.sin,
          sqrtf := Real.sqrt, asinf := Real.arcsin, M_PI := Real.pi } i1 q1 i2 q2 ∧
    interferometry_delta
        { atan2f := fun y x => Complex.arg ⟨x, y⟩, cosf := Real.cos, sinf := Real.sin,
          sqrtf := Real.sqrt, asinf := Real.arcsin, M_PI := Real.pi } i1 q1 i2 q2 ≤ Real.pi ∧
    ∃ k : ℤ, interferometry_delta
        { atan2f := fun y x => Complex.arg ⟨x, y⟩, cosf := Real.cos, sinf := Real.sin,
          sqrtf := Real.sqrt, asinf := Real.arcsin, M_PI := Real.pi } i1 q1 i2 q2
        - (Complex.arg ⟨i1, q1⟩ - Complex.arg ⟨i2, q2⟩) = 2 * Real.pi * k := by
  have hd : interferometry_delta
        { atan2f := fun y x => Complex.arg ⟨x, y⟩, cosf := Real.cos, sinf := Real.sin,
          sqrtf := Real.sqrt, asinf := Real.arcsin, M_PI := Real.pi } i1 q1 i2 q2
      = Complex.arg ((⟨i1, q1⟩ : ℂ) * (starRingEnd ℂ) (⟨i2, q2⟩ : ℂ)) := by
    unfold interferometry_delta
    simp only
    congr 1
    apply Complex.ext <;> simp
    ring
  rw [hd]
  refine ⟨Complex.neg_pi_lt_arg _, Complex.arg_le_pi _, ?_⟩
  have hz1 := sample_ne_zero i1 q1 h1
  have hz2 : (starRingEnd ℂ) (⟨i2, q2⟩ : ℂ) ≠ 0 := by
    intro hz
    exact sample_ne_zero i2 q2 h2 ((map_eq_zero (starRingEnd ℂ)).mp hz)
  have ha : ((Complex.arg ((⟨i1, q1⟩ : ℂ) * (starRingEnd ℂ) (⟨i2, q2⟩ : ℂ)) : ℝ) : Real.Angle)
      = ((Complex.arg ⟨i1, q1⟩ - Complex.arg ⟨i2, q2⟩ : ℝ) : Real.Angle) := by
    rw [Complex.arg_mul_coe_angle hz1 hz2, Complex.arg_conj_coe_angle,
      Real.Angle.coe_sub, sub_eq_add_neg]
  exact Real.Angle.angle_eq_iff_two_pi_dvd_sub.mp ha

/-- Witness for C20 (amended): the samples `(1, 0)` and `(0, 1)`. -/
theorem interferometry_delta_phase_difference_witness :
    -Real.pi < interferometry_delta
        { atan2f := fun y x => Complex.arg ⟨x, y⟩, cosf := Real.cos, sinf := Real.sin,
          sqrtf := Real.sqrt, asinf := Real.arcsin, M_PI := Real.pi } 1 0 0 1 ∧
    interferometry_delta
        { atan2f := fun y x => Complex.arg ⟨x, y⟩, cosf := Real.cos, sinf := Real.sin,
          sqrtf := Real.sqrt, asinf := Real.arcsin, M_PI := Real.pi } 1 0 0 1 ≤ Real.pi ∧
    ∃ k : ℤ, interferometry_delta
        { atan2f := fun y x => Complex.arg ⟨x, y⟩, cosf := Real.cos, sinf := Real.sin,
          sqrtf := Real.sqrt, asinf := Real.arcsin, M_PI := Real.pi } 1 0 0 1
        - (Complex.arg ⟨1, 0⟩ - Complex.arg ⟨0, 1⟩) = 2 * Real.pi * k :=
  interferometry_delta_phase_difference 1 0 0 1 (Or.inl one_ne_zero) (Or.inr one_ne_zero)

/-! ## Theorems: antenna pair table -/

theorem pairs_adjacent_block_0 {K : Type} [LinearOrderedField K] :
    ∀ p ∈ (measurement_pairs.drop 0).take 8, p.2.1 = p.1 + 1 ∧ p.2.1 ≤ 36 ∧
      AdjacentInDirection (slot_antenna_position p.1 : K × K) (slot_antenna_position p.2.1)
        p.2.2 := by
  intro p hp
  simp only [measurement_pairs, List.drop_succ_cons, List.drop_zero, List.take_succ_cons,
    List.take_zero, List.mem_cons, List.mem_singleton, List.not_mem_nil, or_false] at hp
  rcases hp with rfl | rfl | rfl | rfl | rfl | rfl | rfl | rfl
  all_goals
    norm_num [AdjacentInDirection, slot_antenna_position, antenna_switching_sequence,
      antenna_positions_xy, antenna_spacing_orthogonal]

theorem pairs_adjacent_block_1 {K : Type} [LinearOrderedField K] :
    ∀ p ∈ (measurement_pairs.drop 8).take 8, p.2.1 = p.1 + 1 ∧ p.2.1 ≤ 36 ∧
      AdjacentInDirection (slot_antenna_position p.1 : K × K) (slot_antenna_position p.2.1)
        p.2.2 := by
  intro p hp
  simp only [measurement_pairs, List.drop_succ_cons, List.drop_zero, List.take_succ_cons,
    List.take_zero, List.mem_cons, List.mem_singleton, List.not_mem_nil, or_false] at hp
  rcases hp with rfl | rfl | rfl | rfl | rfl | rfl | rfl | rfl
  all_goals
    norm_num [AdjacentInDirection, slot_antenna_position, antenna_switching_sequence,
      antenna_positions_xy, antenna_spacing_orthogonal]

theorem pairs_adjacent_block_2 {K : Type} [LinearOrderedField K] :
    ∀ p ∈ (measurement_pairs.drop 16).take 8, p.2.1 = p.1 + 1 ∧ p.2.1 ≤ 36 ∧
      AdjacentInDirection (slot_antenna_position p.1 : K × K) (slot_antenna_position p.2.1)
        p.2.2 := by
  intro p hp
  simp only [measurement_pairs, List.drop_succ_cons, List.drop_zero, List.take_succ_cons,
    List.take_zero, List.mem_cons, List.mem_singleton, List.not_mem_nil, or_false] at hp
  rcases hp with rfl | rfl | rfl | rfl | rfl | rfl | rfl | rfl
  all_goals
    norm_num [AdjacentInDirection, slot_antenna_position, antenna_switching_sequence,
      antenna_positions_xy, antenna_spacing_orthogonal]

theorem pairs_adjacent_block_3 {K : Type} [LinearOrderedField K] :
    ∀ p ∈ (measurement_pairs.drop 24).take 8, p.2.1 = p.1 + 1 ∧ p.2.1 ≤ 36 ∧
      AdjacentInDirection (slot_antenna_position p.1 : K × K) (slot_antenna_position p.2.1)
        p.2.2 := by
  intro p hp
  simp only [measurement_pairs, List.drop_succ_cons, List.drop_zero, List.take_succ_cons,
    List.take_zero, List.mem_cons, List.mem_singleton, List.not_mem_nil, or_false] at hp
  rcases hp with rfl | rfl | rfl | rfl | rfl | rfl | rfl | rfl
  all_goals
    norm_num [AdjacentInDirection, slot_antenna_position, antenna_switching_sequence,
      antenna_positions_xy, antenna_spacing_orthogonal]

theorem pairs_complete_low {K : Type} [LinearOrderedField K] (i : Nat) (h1 : 0 ≤ i) (h2 : i < 12)
    (h : OrthogonallyAdjacent (slot_antenna_position i : K × K)
      (slot_antenna_position (i + 1))) :
    ∃ direction, (i, i + 1, direction) ∈ measurement_pairs := by
  interval_cases i
  all_goals
    first
      | exact ⟨0, by decide⟩
      | exact ⟨1, by decide⟩
      | exact ⟨2, by decide⟩
      | exact ⟨3, by decide⟩
      | (exfalso
         norm_num [OrthogonallyAdjacent, slot_antenna_position, antenna_switching_sequence,
           antenna_positions_xy, antenna_spacing_orthogonal] at h)

theorem pairs_complete_mid {K : Type} [LinearOrderedField K] (i : Nat) (h1 : 12 ≤ i) (h2 : i < 24)
    (h : OrthogonallyAdjacent (slot_antenna_position i : K × K)
      (slot_antenna_position (i + 1))) :
    ∃ direction, (i, i + 1, direction) ∈ measurement_pairs := by
  interval_cases i
  all_goals
    first
      | exact ⟨0, by decide⟩
      | exact ⟨1, by decide⟩
      | exact ⟨2, by decide⟩
      | exact ⟨3, by decide⟩
      | (exfalso
         norm_num [OrthogonallyAdjacent, slot_antenna_position, antenna_switching_sequence,
           antenna_positions_xy, antenna_spacing_orthogonal] at h)

theorem pairs_complete_high {K : Type} [LinearOrderedField K] (i : Nat) (h1 : 24 ≤ i) (h2 : i < 36)
    (h : OrthogonallyAdjacent (slot_antenna_position i : K × K)
      (slot_antenna_position (i + 1))) :
    ∃ direction, (i, i + 1, direction) ∈ measurement_pairs := by
  interval_cases i
  all_goals
    first
      | exact ⟨0, by decide⟩
      | exact ⟨1, by decide⟩
      | exact ⟨2, by decide⟩
      | exact ⟨3, by decide⟩
      | (exfalso
         norm_num [OrthogonallyAdjacent, slot_antenna_position, antenna_switching_sequence,
           antenna_positions_xy, antenna_spacing_orthogonal] at h)

/-- C21: every entry `(i, j, direction)` of `measurement_pairs` has `j = i + 1 <= 36`,
and the antenna sampled in slot `j` lies one `antenna_spacing_orthogonal`
(37.5 mm) from the antenna sampled in slot `i` in the encoded direction
(`AdjacentInDirection`: 0 = `x` larger and same `y`, 1 = `x` smaller, 2 = `y`
larger and same `x`, 3 = `y` smaller).  The table has 32 entries, 14 with
direction 0 or 1 and 18 with direction 2 or 3, and it holds every pair of
consecutive slots below 37 whose antennas are orthogonally adjacent. -/
theorem measurement_pairs_orthogonally_adjacent {K : Type} [LinearOrderedField K] :
    measurement_pairs.length = 32 ∧
    (measurement_pairs.filter (fun p => decide (p.2.2 = 0 ∨ p.2.2 = 1))).length = 14 ∧
    (measurement_pairs.filter (fun p => decide (p.2.2 = 2 ∨ p.2.2 = 3))).length = 18 ∧
    (∀ p ∈ measurement_pairs, p.2.1 = p.1 + 1 ∧ p.2.1 ≤ 36 ∧
      AdjacentInDirection (slot_antenna_position p.1 : K × K) (slot_antenna_position p.2.1)
        p.2.2) ∧
    (∀ i : Nat, i < 36 →
      OrthogonallyAdjacent (slot_antenna_position i : K × K) (slot_antenna_position (i + 1)) →
      ∃ direction, (i, i + 1, direction) ∈ measurement_pairs) := by
  refine ⟨rfl, by decide, by decide, ?_, ?_⟩
  · intro p hp
    have hsplit : measurement_pairs
        = (measurement_pairs.drop 0).take 8 ++ ((measurement_pairs.drop 8).take 8 ++
          ((measurement_pairs.drop 16).take 8 ++ (measurement_pairs.drop 24).take 8)) := by
      decide
    rw [hsplit] at hp
    rcases List.mem_append.mp hp with h | h
    · exact pairs_adjacent_block_0 p h
    · rcases List.mem_append.mp h with h | h
      · exact pairs_adjacent_block_1 p h
      · rcases List.mem_append.mp h with h | h
        · exact pairs_adjacent_block_2 p h
        · exact pairs_adjacent_block_3 p h
  · intro i hi h
    rcases Nat.lt_or_ge i 12 with h12 | h12
    · exact pairs_complete_low i (Nat.zero_le i) h12 h
    · rcases Nat.lt_or_ge i 24 with h24 | h24
      · exact pairs_complete_mid i h12 h24 h
      · exact pairs_complete_high i h24 hi h

/-! ## Theorems: frame split and sign fix -/

theorem iq_data_init_copies {K : Type} (d : iq_data K) (raw : iq_raw_samples) :
    ∃ d1, iq_data_init d raw = some d1 ∧ d1.initialized = true ∧
      d1.reference_sample_count = min raw.sample_count 8 ∧
      d1.measurement_sample_count = min raw.sample_count 45 - min raw.sample_count 8 ∧
      (d1.report_timestamp = raw.report_timestamp ∧ d1.channel_index = raw.channel_index ∧
        d1.beacon_mac = raw.beacon_mac) ∧
      (∀ i, i < min raw.sample_count 8 →
        d1.reference_i i = raw.i i ∧ d1.reference_q i = raw.q i) ∧
      (∀ i, i < min raw.sample_count 45 - min raw.sample_count 8 →
        d1.measurement_i i = raw.i (min raw.sample_count 8 + i) ∧
        d1.measurement_q i = raw.q (min raw.sample_count 8 + i)) := by
  unfold iq_data_init
  simp only [IQ_REFERENCE_MAX, IQ_MEASUREMENT_MAX]
  have hsc : (if raw.sample_count > 8 + 37 then 8 + 37 else raw.sample_count)
      = min raw.sample_count 45 := by
    split <;> omega
  have hrc : (if min raw.sample_count 45 ≥ 8 then 8 else min raw.sample_count 45)
      = min raw.sample_count 8 := by
    split <;> omega
  rw [hsc, hrc]
  generalize hnr : min raw.sample_count 8 = nr
  generalize hnm : min raw.sample_count 45 - nr = nm
  have hnr8 : nr ≤ 8 := by omega
  have hsum : nr + nm ≤ 45 := by omega
  have hnm37 : nm ≤ 37 := by omega
  obtain ⟨d2, h2, hp2⟩ := foldlM_option_indexed (iq_data_init_reference_step raw)
    (List.range nr)
    (fun k (x : iq_data K) =>
      (x.reference_sample_count = nr ∧ x.measurement_sample_count = nm ∧
        x.report_timestamp = raw.report_timestamp ∧ x.channel_index = raw.channel_index ∧
        x.beacon_mac = raw.beacon_mac) ∧
      (∀ j, j < k → x.reference_i j = raw.i j ∧ x.reference_q j = raw.q j))
    { d with report_timestamp := raw.report_timestamp, channel_index := raw.channel_index,
             beacon_mac := raw.beacon_mac, reference_sample_count := nr,
             measurement_sample_count := nm }
    ⟨⟨rfl, rfl, rfl, rfl, rfl⟩, fun j hj => absurd hj (Nat.not_lt_zero j)⟩
    (by
      intro k hk s hs
      have hkn : k < nr := by simpa using hk
      have hget : (List.range nr).get ⟨k, hk⟩ = k := by simp
      rw [hget]
      refine ⟨_, iq_data_init_reference_step_eq raw s k (by omega), hs.1, ?_⟩
      intro j hj
      by_cases hjk : j = k
      · subst hjk; simp
      · simp only [hjk, if_false]
        exact hs.2 j (by omega))
  rw [List.length_range] at hp2
  obtain ⟨d3, h3, hp3⟩ := foldlM_option_indexed (iq_data_init_measurement_step raw)
    (List.range nm)
    (fun k (x : iq_data K) =>
      (x.reference_sample_count = nr ∧ x.measurement_sample_count = nm ∧
        x.report_timestamp = raw.report_timestamp ∧ x.channel_index = raw.channel_index ∧
        x.beacon_mac = raw.beacon_mac) ∧
      (∀ j, j < nr → x.reference_i j = raw.i j ∧ x.reference_q j = raw.q j) ∧
      (∀ j, j < k → x.measurement_i j = raw.i (nr + j) ∧ x.measurement_q j = raw.q (nr + j)))
    d2 ⟨hp2.1, hp2.2, fun j hj => absurd hj (Nat.not_lt_zero j)⟩
    (by
      intro k hk s hs
      have hkn : k < nm := by simpa using hk
      have hget : (List.range nm).get ⟨k, hk⟩ = k := by simp
      rw [hget]
      refine ⟨_, iq_data_init_measurement_step_eq raw s k (by omega)
        (by have := hs.1.1; omega), hs.1, hs.2.1, ?_⟩
      intro j hj
      by_cases hjk : j = k
      · subst hjk
        simp only [if_true, hs.1.1, Nat.add_comm]
        exact ⟨trivial, trivial⟩
      · simp only [hjk, if_false]
        exact hs.2.2 j (by omega))
  rw [List.length_range] at hp3
  refine ⟨{ d3 with initialized := true }, ?_, rfl, hp3.1.1, hp3.1.2.1,
    ⟨hp3.1.2.2.1, hp3.1.2.2.2.1, hp3.1.2.2.2.2⟩, hp3.2.1, hp3.2.2⟩
  simp only [h2, Option.bind_eq_bind, Option.some_bind, hp2.1.2.1, h3]
  rfl

/-- C22: for every raw frame with sample count `n` (and any prior content of
the structure), `iq_data_init` returns with `initialized` set,
`reference_sample_count = min(n, 8)`,
`measurement_sample_count = min(n, 45) - min(n, 8) <= 37`, raw sample `i` in
reference slot `i` for `i < n_ref`, raw sample `n_ref + i` in measurement slot
`i` for `i < n_msr` (so the reference block followed by the measurement block
is the first `min(n, 45)` raw samples in order), and timestamp, channel index
and MAC copied. -/
theorem iq_data_init_splits_samples {K : Type} (d : iq_data K) (raw : iq_raw_samples) :
    ∃ d1, iq_data_init d raw = some d1 ∧ d1.initialized = true ∧
      d1.reference_sample_count = min raw.sample_count 8 ∧
      d1.measurement_sample_count = min raw.sample_count 45 - d1.reference_sample_count ∧
      d1.measurement_sample_count ≤ 37 ∧
      (∀ i, i < d1.reference_sample_count →
        d1.reference_i i = raw.i i ∧ d1.reference_q i = raw.q i) ∧
      (∀ i, i < d1.measurement_sample_count →
        d1.measurement_i i = raw.i (d1.reference_sample_count + i) ∧
        d1.measurement_q i = raw.q (d1.reference_sample_count + i)) ∧
      (∀ k, k < min raw.sample_count 45 →
        (if k < d1.reference_sample_count then (d1.reference_i k, d1.reference_q k)
         else (d1.measurement_i (k - d1.reference_sample_count),
               d1.measurement_q (k - d1.reference_sample_count)))
          = (raw.i k, raw.q k)) ∧
      d1.report_timestamp = raw.report_timestamp ∧ d1.channel_index = raw.channel_index ∧
      d1.beacon_mac = raw.beacon_mac := by
  obtain ⟨d1, e1, hini, hnr, hnm, ⟨hts, hch, hmac⟩, href, hmsr⟩ := iq_data_init_copies d raw
  refine ⟨d1, e1, hini, hnr, by rw [hnm, hnr], by rw [hnm]; omega,
    by rw [hnr]; exact href, by rw [hnm, hnr]; exact hmsr, ?_, hts, hch, hmac⟩
  intro k hk
  by_cases hkr : k < d1.reference_sample_count
  · rw [if_pos hkr]
    have := href k (by rw [← hnr]; exact hkr)
    rw [this.1, this.2]
  · rw [if_neg hkr]
    have := hmsr (k - d1.reference_sample_count) (by rw [← hnr]; omega)
    rw [this.1, this.2, ← hnr]
    have hk2 : d1.reference_sample_count + (k - d1.reference_sample_count) = k := by omega
    rw [hk2]

theorem odd_indices_eq (n : Nat) :
    (List.range n).filter (fun i => decide (i % 2 = 1))
      = (List.range (n / 2)).map (fun k => 2 * k + 1) := by
  induction n with
  | zero => rfl
  | succ n ih =>
    rw [List.range_succ, List.filter_append, ih]
    by_cases hodd : n % 2 = 1
    · have h2 : (n + 1) / 2 = n / 2 + 1 := by omega
      have hn : 2 * (n / 2) + 1 = n := by omega
      rw [h2, List.range_succ, List.map_append]
      simp [hodd, hn]
    · have h2 : (n + 1) / 2 = n / 2 := by omega
      rw [h2]
      simp [hodd]

theorem negate_int8_range (v : Int) (h : -128 ≤ v ∧ v ≤ 127) :
    -128 ≤ negate_int8 v ∧ negate_int8 v ≤ 127 := by
  unfold negate_int8
  split <;> omega

theorem negate_int8_twice (v : Int) (h : v ≠ -128) (h127 : v ≤ 127) :
    negate_int8 (negate_int8 v) = v := by
  unfold negate_int8
  rw [if_neg h, if_neg (by omega)]
  omega

theorem temp_fix_general {K : Type} (d : iq_data K) (hini : d.initialized = true)
    (hnr : d.reference_sample_count ≤ 8) :
    ∃ d1, iq_data_temp_fix_ref_samples d = some d1 ∧
      d1 = { d with
        reference_i := fun j =>
          if j % 2 = 1 ∧ j < d.reference_sample_count then negate_int8 (d.reference_i j)
          else d.reference_i j,
        reference_q := fun j =>
          if j % 2 = 1 ∧ j < d.reference_sample_count then negate_int8 (d.reference_q j)
          else d.reference_q j } := by
  unfold iq_data_temp_fix_ref_samples
  rw [if_neg (by rw [hini]; simp), odd_indices_eq]
  obtain ⟨d1, e1, hp⟩ := foldlM_option_indexed iq_data_temp_fix_ref_samples_step
    ((List.range (d.reference_sample_count / 2)).map (fun k => 2 * k + 1))
    (fun k (s : iq_data K) => s = { d with
        reference_i := fun j =>
          if j % 2 = 1 ∧ j < 2 * k then negate_int8 (d.reference_i j) else d.reference_i j,
        reference_q := fun j =>
          if j % 2 = 1 ∧ j < 2 * k then negate_int8 (d.reference_q j) else d.reference_q j })
    d (by simp)
    (by
      intro k hk s hs
      have hkn : k < d.reference_sample_count / 2 := by simpa using hk
      have hget : ((List.range (d.reference_sample_count / 2)).map
          (fun k => 2 * k + 1)).get ⟨k, hk⟩ = 2 * k + 1 := by simp
      rw [hget]
      refine ⟨_, iq_data_temp_fix_ref_samples_step_eq s (2 * k + 1) (by omega), ?_⟩
      subst hs
      simp only
      congr 1
      · funext j
        by_cases hj : j = 2 * k + 1
        · subst hj
          have h1 : (2 * k + 1) % 2 = 1 ∧ 2 * k + 1 < 2 * (k + 1) := by omega
          have h2 : ¬ ((2 * k + 1) % 2 = 1 ∧ 2 * k + 1 < 2 * k) := by omega
          simp only [if_true, if_pos h1, if_neg h2]
        · by_cases hc : j % 2 = 1 ∧ j < 2 * k
          · have hc1 : j % 2 = 1 ∧ j < 2 * (k + 1) := by omega
            simp only [if_neg hj, if_pos hc, if_pos hc1]
          · have hc1 : ¬ (j % 2 = 1 ∧ j < 2 * (k + 1)) := by omega
            simp only [if_neg hj, if_neg hc, if_neg hc1]
      · funext j
        by_cases hj : j = 2 * k + 1
        · subst hj
          have h1 : (2 * k + 1) % 2 = 1 ∧ 2 * k + 1 < 2 * (k + 1) := by omega
          have h2 : ¬ ((2 * k + 1) % 2 = 1 ∧ 2 * k + 1 < 2 * k) := by omega
          simp only [if_true, if_pos h1, if_neg h2]
        · by_cases hc : j % 2 = 1 ∧ j < 2 * k
          · have hc1 : j % 2 = 1 ∧ j < 2 * (k + 1) := by omega
            simp only [if_neg hj, if_pos hc, if_pos hc1]
          · have hc1 : ¬ (j % 2 = 1 ∧ j < 2 * (k + 1)) := by omega
            simp only [if_neg hj, if_neg hc, if_neg hc1])
  refine ⟨d1, e1, ?_⟩
  rw [hp]
  simp only [List.length_map, List.length_range]
  congr 1
  · funext j
    by_cases hc : j % 2 = 1 ∧ j < d.reference_sample_count
    · have hc1 : j % 2 = 1 ∧ j < 2 * (d.reference_sample_count / 2) := by omega
      simp only [if_pos hc, if_pos hc1]
    · have hc1 : ¬ (j % 2 = 1 ∧ j < 2 * (d.reference_sample_count / 2)) := by omega
      simp only [if_neg hc, if_neg hc1]
  · funext j
    by_cases hc : j % 2 = 1 ∧ j < d.reference_sample_count
    · have hc1 : j % 2 = 1 ∧ j < 2 * (d.reference_sample_count / 2) := by omega
      simp only [if_pos hc, if_pos hc1]
    · have hc1 : ¬ (j % 2 = 1 ∧ j < 2 * (d.reference_sample_count / 2)) := by omega
      simp only [if_neg hc, if_neg hc1]

/-- C23: on an initialised structure with at most 8 reference samples, each a
signed 8-bit value, `iq_data_temp_fix_ref_samples` returns with `I_ref[i]` and
`Q_ref[i]` negated at every odd `i < n_ref` (`-128` becoming `127`), with every
other reference sample, every measurement sample and both counts unchanged,
and with every reference value still in `[-128, 127]`; a second application
returns with every reference value that was not `-128` restored. -/
theorem temp_fix_negates_odd_reference_samples {K : Type} (d : iq_data K)
    (hini : d.initialized = true) (hnr : d.reference_sample_count ≤ 8)
    (hvalid : ∀ i, (-128 ≤ d.reference_i i ∧ d.reference_i i ≤ 127) ∧
      (-128 ≤ d.reference_q i ∧ d.reference_q i ≤ 127)) :
    ∃ d1 d2, iq_data_temp_fix_ref_samples d = some d1 ∧
      iq_data_temp_fix_ref_samples d1 = some d2 ∧
      (∀ i, i < d.reference_sample_count → i % 2 = 1 →
        d1.reference_i i = (if d.reference_i i = -128 then 127 else -d.reference_i i) ∧
        d1.reference_q i = (if d.reference_q i = -128 then 127 else -d.reference_q i)) ∧
      (∀ i, i % 2 = 0 ∨ d.reference_sample_count ≤ i →
        d1.reference_i i = d.reference_i i ∧ d1.reference_q i = d.reference_q i) ∧
      (d1.measurement_i = d.measurement_i ∧ d1.measurement_q = d.measurement_q ∧
        d1.reference_sample_count = d.reference_sample_count ∧
        d1.measurement_sample_count = d.measurement_sample_count) ∧
      (∀ i, (-128 ≤ d1.reference_i i ∧ d1.reference_i i ≤ 127) ∧
        (-128 ≤ d1.reference_q i ∧ d1.reference_q i ≤ 127)) ∧
      (∀ i, (d.reference_i i ≠ -128 → d2.reference_i i = d.reference_i i) ∧
        (d.reference_q i ≠ -128 → d2.reference_q i = d.reference_q i)) := by
  obtain ⟨d1, e1, h1⟩ := temp_fix_general d hini hnr
  have hini1 : d1.initialized = true := by rw [h1]; exact hini
  have hnr1 : d1.reference_sample_count = d.reference_sample_count := by rw [h1]
  obtain ⟨d2, e2, h2⟩ := temp_fix_general d1 hini1 (by rw [hnr1]; exact hnr)
  have hi1 : ∀ j, d1.reference_i j
      = if j % 2 = 1 ∧ j < d.reference_sample_count then negate_int8 (d.reference_i j)
        else d.reference_i j := by
    intro j; rw [h1]
  have hq1 : ∀ j, d1.reference_q j
      = if j % 2 = 1 ∧ j < d.reference_sample_count then negate_int8 (d.reference_q j)
        else d.reference_q j := by
    intro j; rw [h1]
  have hi2 : ∀ j, d2.reference_i j
      = if j % 2 = 1 ∧ j < d.reference_sample_count then negate_int8 (d1.reference_i j)
        else d1.reference_i j := by
    intro j; rw [h2, hnr1]
  have hq2 : ∀ j, d2.reference_q j
      = if j % 2 = 1 ∧ j < d.reference_sample_count then negate_int8 (d1.reference_q j)
        else d1.reference_q j := by
    intro j; rw [h2, hnr1]
  refine ⟨d1, d2, e1, e2, ?_, ?_, ?_, ?_, ?_⟩
  · intro i hi hodd
    have hc : i % 2 = 1 ∧ i < d.reference_sample_count := ⟨hodd, hi⟩
    have a := hi1 i
    have b := hq1 i
    rw [if_pos hc] at a b
    rw [a, b]
    exact ⟨rfl, rfl⟩
  · intro i hi
    have hc : ¬ (i % 2 = 1 ∧ i < d.reference_sample_count) := by omega
    have a := hi1 i
    have b := hq1 i
    rw [if_neg hc] at a b
    exact ⟨a, b⟩
  · rw [h1]
    exact ⟨rfl, rfl, rfl, rfl⟩
  · intro i
    have a := hi1 i
    have b := hq1 i
    by_cases hc : i % 2 = 1 ∧ i < d.reference_sample_count
    · rw [if_pos hc] at a b
      rw [a, b]
      exact ⟨negate_int8_range _ (hvalid i).1, negate_int8_range _ (hvalid i).2⟩
    · rw [if_neg hc] at a b
      rw [a, b]
      exact hvalid i
  · intro i
    have a := hi1 i
    have b := hq1 i
    have a2 := hi2 i
    have b2 := hq2 i
    by_cases hc : i % 2 = 1 ∧ i < d.reference_sample_count
    · rw [if_pos hc] at a b a2 b2
      rw [a2, b2, a, b]
      exact ⟨fun h => negate_int8_twice _ h (hvalid i).1.2,
        fun h => negate_int8_twice _ h (hvalid i).2.2⟩
    · rw [if_neg hc] at a b a2 b2
      rw [a2, b2, a, b]
      exact ⟨fun _ => rfl, fun _ => rfl⟩

/-- Witness for C23: the structure `constantPhaseData` (8 reference samples
`(1, 0)`). -/
theorem temp_fix_negates_odd_reference_samples_witness :
    ∃ d1 d2, iq_data_temp_fix_ref_samples (constantPhaseData : iq_data ℚ) = some d1 ∧
      iq_data_temp_fix_ref_samples d1 = some d2 ∧
      (∀ i, i < (constantPhaseData : iq_data ℚ).reference_sample_count → i % 2 = 1 →
        d1.reference_i i
          = (if (constantPhaseData : iq_data ℚ).reference_i i = -128 then 127
             else -(constantPhaseData : iq_data ℚ).reference_i i) ∧
        d1.reference_q i
          = (if (constantPhaseData : iq_data ℚ).reference_q i = -128 then 127
             else -(constantPhaseData : iq_data ℚ).reference_q i)) ∧
      (∀ i, i % 2 = 0 ∨ (constantPhaseData : iq_data ℚ).reference_sample_count ≤ i →
        d1.reference_i i = (constantPhaseData : iq_data ℚ).reference_i i ∧
        d1.reference_q i = (constantPhaseData : iq_data ℚ).reference_q i) ∧
      (d1.measurement_i = (constantPhaseData : iq_data ℚ).measurement_i ∧
        d1.measurement_q = (constantPhaseData : iq_data ℚ).measurement_q ∧
        d1.reference_sample_count = (constantPhaseData : iq_data ℚ).reference_sample_count ∧
        d1.measurement_sample_count
          = (constantPhaseData : iq_data ℚ).measurement_sample_count) ∧
      (∀ i, (-128 ≤ d1.reference_i i ∧ d1.reference_i i ≤ 127) ∧
        (-128 ≤ d1.reference_q i ∧ d1.reference_q i ≤ 127)) ∧
      (∀ i, ((constantPhaseData : iq_data ℚ).reference_i i ≠ -128 →
          d2.reference_i i = (constantPhaseData : iq_data ℚ).reference_i i) ∧
        ((constantPhaseData : iq_data ℚ).reference_q i ≠ -128 →
          d2.reference_q i = (constantPhaseData : iq_data ℚ).reference_q i)) :=
  temp_fix_negates_odd_reference_samples constantPhaseData rfl
    (by simp [constantPhaseData])
    (by intro i; simp [constantPhaseData, blankIqData])

/-! ## Theorems: beacon orientation -/

theorem orientation_basis_dots (yaw pitch roll : ℝ) :
    dot3 (orientation_basis Real.cos Real.sin yaw pitch roll).1
      (orientation_basis Real.cos Real.sin yaw pitch roll).1 = 1 ∧
    dot3 (orientation_basis Real.cos Real.sin yaw pitch roll).2.1
      (orientation_basis Real.cos Real.sin yaw pitch roll).2.1 = 1 ∧
    dot3 (orientation_basis Real.cos Real.sin yaw pitch roll).2.2
      (orientation_basis Real.cos Real.sin yaw pitch roll).2.2 = 1 ∧
    dot3 (orientation_basis Real.cos Real.sin yaw pitch roll).1
      (orientation_basis Real.cos Real.sin yaw pitch roll).2.1 = 0 ∧
    dot3 (orientation_basis Real.cos Real.sin yaw pitch roll).1
      (orientation_basis Real.cos Real.sin yaw pitch roll).2.2 = 0 ∧
    dot3 (orientation_basis Real.cos Real.sin yaw pitch roll).2.1
      (orientation_basis Real.cos Real.sin yaw pitch roll).2.2 = 0 := by
  have A := Real.sin_sq_add_cos_sq yaw
  have B := Real.sin_sq_add_cos_sq pitch
  have G := Real.sin_sq_add_cos_sq roll
  simp only [dot3, orientation_basis]
  refine ⟨?_, ?_, ?_, ?_, ?_, ?_⟩
  · linear_combination Real.cos pitch ^ 2 * A + B
  · linear_combination (Real.sin pitch ^ 2 * Real.sin roll ^ 2 + Real.cos roll ^ 2) * A
      + Real.sin roll ^ 2 * B + G
  · linear_combination (Real.sin pitch ^ 2 * Real.cos roll ^ 2 + Real.sin roll ^ 2) * A
      + Real.cos roll ^ 2 * B + G
  · linear_combination (Real.cos pitch * Real.sin pitch * Real.sin roll) * A
  · linear_combination (Real.cos pitch * Real.sin pitch * Real.cos roll) * A
  · linear_combination
      (Real.sin pitch ^ 2 * Real.sin roll * Real.cos roll - Real.cos roll * Real.sin roll) * A
      + Real.sin roll * Real.cos roll * B

theorem orthonormal_basis_preserves_dot (b : beacon ℝ) (x y z : ℝ)
    (hii : dot3 (b.i_x, b.i_y, b.i_z) (b.i_x, b.i_y, b.i_z) = 1)
    (hjj : dot3 (b.j_x, b.j_y, b.j_z) (b.j_x, b.j_y, b.j_z) = 1)
    (hkk : dot3 (b.k_x, b.k_y, b.k_z) (b.k_x, b.k_y, b.k_z) = 1)
    (hij : dot3 (b.i_x, b.i_y, b.i_z) (b.j_x, b.j_y, b.j_z) = 0)
    (hik : dot3 (b.i_x, b.i_y, b.i_z) (b.k_x, b.k_y, b.k_z) = 0)
    (hjk : dot3 (b.j_x, b.j_y, b.j_z) (b.k_x, b.k_y, b.k_z) = 0) :
    norm3 Real.sqrt (beacon_get_global_direction_cosines b x y z)
      = norm3 Real.sqrt (x, y, z) := by
  simp only [dot3] at hii hjj hkk hij hik hjk
  simp only [norm3, beacon_get_global_direction_cosines]
  congr 1
  linear_combination x ^ 2 * hii + y ^ 2 * hjj + z ^ 2 * hkk + 2 * x * y * hij
    + 2 * x * z * hik + 2 * y * z * hjk

/-- C24: for all real Yaw, Pitch and Roll the basis vectors `i`, `j`, `k` of the
documented formulas (`orientation_basis`) have length 1 and mutual dot
products 0, and a beacon whose orientation was set from them by
`beacon_set_global_orientation` maps every local direction triple to a global
triple of the same length. -/
theorem orientation_basis_orthonormal (yaw pitch roll : ℝ) :
    norm3 Real.sqrt (orientation_basis Real.cos Real.sin yaw pitch roll).1 = 1 ∧
    norm3 Real.sqrt (orientation_basis Real.cos Real.sin yaw pitch roll).2.1 = 1 ∧
    norm3 Real.sqrt (orientation_basis Real.cos Real.sin yaw pitch roll).2.2 = 1 ∧
    dot3 (orientation_basis Real.cos Real.sin yaw pitch roll).1
      (orientation_basis Real.cos Real.sin yaw pitch roll).2.1 = 0 ∧
    dot3 (orientation_basis Real.cos Real.sin yaw pitch roll).1
      (orientation_basis Real.cos Real.sin yaw pitch roll).2.2 = 0 ∧
    dot3 (orientation_basis Real.cos Real.sin yaw pitch roll).2.1
      (orientation_basis Real.cos Real.sin yaw pitch roll).2.2 = 0 ∧
    (∀ (b : beacon ℝ) (x y z : ℝ),
      (beacon_set_global_orientation
        { atan2f := fun y x => Complex.arg ⟨x, y⟩, cosf := Real.cos, sinf := Real.sin,
          sqrtf := Real.sqrt, asinf := Real.arcsin, M_PI := Real.pi }
        b yaw pitch roll).1 = 0 →
      norm3 Real.sqrt (beacon_get_global_direction_cosines
        (beacon_set_global_orientation
          { atan2f := fun y x => Complex.arg ⟨x, y⟩, cosf := Real.cos, sinf := Real.sin,
            sqrtf := Real.sqrt, asinf := Real.arcsin, M_PI := Real.pi }
          b yaw pitch roll).2 x y z)
        = norm3 Real.sqrt (x, y, z)) := by
  obtain ⟨hii, hjj, hkk, hij, hik, hjk⟩ := orientation_basis_dots yaw pitch roll
  have hn : ∀ v : ℝ × ℝ × ℝ, dot3 v v = 1 → norm3 Real.sqrt v = 1 := by
    intro v hv
    simp only [dot3] at hv
    simp only [norm3, hv, Real.sqrt_one]
  refine ⟨hn _ hii, hn _ hjj, hn _ hkk, hij, hik, hjk, ?_⟩
  intro b x y z hok
  unfold beacon_set_global_orientation at hok ⊢
  split at hok
  · simp at hok
  · rename_i hrange
    rw [if_neg hrange]
    exact orthonormal_basis_preserves_dot _ x y z hii hjj hkk hij hik hjk

/-- C25: with Yaw = Pitch = Roll = 0, `beacon_set_global_orientation` succeeds and
stores `i = (1, 0, 0)`, `j = (0, 1, 0)`, `k = (0, 0, 1)`, and
`beacon_get_global_direction_cosines` on the resulting beacon returns every
local direction triple unchanged. -/
theorem identity_orientation (b : beacon ℝ) :
    orientation_basis Real.cos Real.sin 0 0 0 = ((1, 0, 0), (0, 1, 0), (0, 0, 1)) ∧
    beacon_set_global_orientation
        { atan2f := fun y x => Complex.arg ⟨x, y⟩, cosf := Real.cos, sinf := Real.sin,
          sqrtf := Real.sqrt, asinf := Real.arcsin, M_PI := Real.pi } b 0 0 0
      = (0, { b with i_x := 1, i_y := 0, i_z := 0, j_x := 0, j_y := 1, j_z := 0,
                     k_x := 0, k_y := 0, k_z := 1 }) ∧
    (∀ x y z : ℝ,
      beacon_get_global_direction_cosines
        (beacon_set_global_orientation
          { atan2f := fun y x => Complex.arg ⟨x, y⟩, cosf := Real.cos, sinf := Real.sin,
            sqrtf := Real.sqrt, asinf := Real.arcsin, M_PI := Real.pi } b 0 0 0).2 x y z
        = (x, y, z)) := by
  have hb : orientation_basis Real.cos Real.sin 0 0 0
      = (((1 : ℝ), (0 : ℝ), (0 : ℝ)), ((0 : ℝ), (1 : ℝ), (0 : ℝ)),
          ((0 : ℝ), (0 : ℝ), (1 : ℝ))) := by
    simp [orientation_basis]
  have hset : beacon_set_global_orientation
        { atan2f := fun y x => Complex.arg ⟨x, y⟩, cosf := Real.cos, sinf := Real.sin,
          sqrtf := Real.sqrt, asinf := Real.arcsin, M_PI := Real.pi } b 0 0 0
      = (0, { b with i_x := 1, i_y := 0, i_z := 0, j_x := 0, j_y := 1, j_z := 0,
                     k_x := 0, k_y := 0, k_z := 1 }) := by
    have hp := Real.pi_pos
    unfold beacon_set_global_orientation
    rw [if_neg (by
      simp only [not_or, not_lt, gt_iff_lt]
      refine ⟨?_, ?_, ?_, ?_, ?_, ?_⟩ <;> linarith)]
    simp only [hb]
  refine ⟨hb, hset, ?_⟩
  intro x y z
  rw [hset]
  simp [beacon_get_global_direction_cosines]

/-! ## Theorems: work queue slots -/

theorem queueContents_ends {α : Type} (q : iq_data_work_queue α) (h : QueueInv q)
    (hc : 0 < q.count) :
    (queueContents q).head? = some (q.buffer q.head) ∧
    (queueContents q).getLast? = some (q.buffer ((q.tail + 1) % 8)) := by
  obtain ⟨h1, h2, h3, h4, h5, h6, h7⟩ := h
  obtain ⟨n, hn⟩ : ∃ n : Nat, q.count.toNat = n + 1 := ⟨q.count.toNat - 1, by omega⟩
  have hidx0 : (q.head - ((0 : Nat) : Int)) % 8 = q.head := by omega
  have hidxn : (q.head - ((n : Nat) : Int)) % 8 = (q.tail + 1) % 8 := by omega
  unfold queueContents
  rw [hn]
  constructor
  · rw [range_succ_map]
    simp only [List.head?_cons, hidx0]
  · rw [List.range_succ, List.map_append]
    simp only [List.map_cons, List.map_nil, List.getLast?_append, List.getLast?_singleton,
      hidxn]
    rfl

/-- C27 fails on the code: after `iq_data_work_queue_init` and one submit of
the frame `7`, `count = 1`, `tail = 0` and `head = 1`; slot `head` holds the
frame, slot `tail` still holds its content from before the initialisation.
In every state reached from an initialised queue by submits and extraction
steps with `count > 0`, the newest frame is in slot `head` and the oldest in
slot `(tail + 1) mod 8`. -/
theorem oldest_frame_is_one_past_tail :
    ((iq_data_work_queue_submit (iq_data_work_queue_init blankQueue true true) (some 7)).1.count
        = 1 ∧
      (iq_data_work_queue_submit (iq_data_work_queue_init blankQueue true true) (some 7)).1.tail
        = 0 ∧
      (iq_data_work_queue_submit (iq_data_work_queue_init blankQueue true true) (some 7)).1.head
        = 1 ∧
      queueContents
        (iq_data_work_queue_submit (iq_data_work_queue_init blankQueue true true) (some 7)).1
        = [7] ∧
      (iq_data_work_queue_submit (iq_data_work_queue_init blankQueue true true) (some 7)).1.buffer
        (iq_data_work_queue_submit (iq_data_work_queue_init blankQueue true true)
          (some 7)).1.head = 7 ∧
      (iq_data_work_queue_submit (iq_data_work_queue_init blankQueue true true) (some 7)).1.buffer
        (iq_data_work_queue_submit (iq_data_work_queue_init blankQueue true true)
          (some 7)).1.tail = 0) ∧
    (∀ (q0 : iq_data_work_queue Nat) (ops : List (QueueOp Nat)),
      0 < (runQueueOps ops (iq_data_work_queue_init q0 true true)).2.count →
      (queueContents (runQueueOps ops (iq_data_work_queue_init q0 true true)).2).head?
        = some ((runQueueOps ops (iq_data_work_queue_init q0 true true)).2.buffer
            (runQueueOps ops (iq_data_work_queue_init q0 true true)).2.head) ∧
      (queueContents (runQueueOps ops (iq_data_work_queue_init q0 true true)).2).getLast?
        = some ((runQueueOps ops (iq_data_work_queue_init q0 true true)).2.buffer
            (((runQueueOps ops (iq_data_work_queue_init q0 true true)).2.tail + 1) % 8))) := by
  refine ⟨by decide, ?_⟩
  intro q0 ops hc
  exact queueContents_ends _ (queueInv_run ops _ (queueInv_init q0)) hc

/-! ## Theorems: intrinsic and extrinsic mean -/

theorem wrapOnce_trig (x : ℝ) :
    Real.cos (wrapOnce Real.pi x) = Real.cos x ∧
    Real.sin (wrapOnce Real.pi x) = Real.sin x := by
  unfold wrapOnce
  by_cases h1 : x > Real.pi
  · simp only [h1, if_true]
    by_cases h2 : x - 2 * Real.pi < -Real.pi
    · simp only [h2, if_true, sub_add_cancel, and_self]
    · simp only [h2, if_false, Real.cos_sub_two_pi, Real.sin_sub_two_pi, and_self]
  · simp only [h1, if_false]
    by_cases h2 : x < -Real.pi
    · simp only [h2, if_true, Real.cos_add_two_pi, Real.sin_add_two_pi, and_self]
    · simp only [h2, if_false, and_self]

theorem extrinsic_sums_eq_list_sums (angles : Nat → ℝ) (n : Nat) :
    (List.range n).foldl
        (fun (acc : ℝ × ℝ) i => (acc.1 + Real.cos (angles i), acc.2 + Real.sin (angles i)))
        (0, 0)
      = (((List.range n).map (fun i => Real.cos (angles i))).sum,
          ((List.range n).map (fun i => Real.sin (angles i))).sum) := by
  induction n with
  | zero => simp
  | succ k ih =>
    rw [List.range_succ, List.foldl_append, ih]
    simp only [List.foldl_cons, List.foldl_nil, List.map_append, List.sum_append,
      List.map_cons, List.map_nil, List.sum_cons, List.sum_nil, add_zero]

theorem epsilon_sums_rotated (angles : Nat → ℝ) (n : Nat) (mu : ℝ) :
    (List.range n).foldl
        (fun (acc : ℝ × ℝ) i =>
          (acc.1 + Real.cos (wrapOnce Real.pi (angles i - mu)),
            acc.2 + Real.sin (wrapOnce Real.pi (angles i - mu))))
        (0, 0)
      = (Real.cos mu * ((List.range n).map (fun i => Real.cos (angles i))).sum
          + Real.sin mu * ((List.range n).map (fun i => Real.sin (angles i))).sum,
         Real.cos mu * ((List.range n).map (fun i => Real.sin (angles i))).sum
          - Real.sin mu * ((List.range n).map (fun i => Real.cos (angles i))).sum) := by
  induction n with
  | zero => simp
  | succ k ih =>
    rw [List.range_succ, List.foldl_append, ih]
    simp only [List.foldl_cons, List.foldl_nil, List.map_append, List.sum_append,
      List.map_cons, List.map_nil, List.sum_cons, List.sum_nil, add_zero,
      (wrapOnce_trig _).1, (wrapOnce_trig _).2, Real.cos_sub, Real.sin_sub]
    refine Prod.ext ?_ ?_ <;> simp only <;> ring

theorem epsilon_sums_at_arg (C S : ℝ) :
    Real.cos (Complex.arg ⟨C, S⟩) * C + Real.sin (Complex.arg ⟨C, S⟩) * S
      = Complex.abs ⟨C, S⟩ ∧
    Real.cos (Complex.arg ⟨C, S⟩) * S - Real.sin (Complex.arg ⟨C, S⟩) * C = 0 := by
  have hc := Complex.abs_mul_cos_arg (⟨C, S⟩ : ℂ)
  have hs := Complex.abs_mul_sin_arg (⟨C, S⟩ : ℂ)
  have h1 := Real.sin_sq_add_cos_sq (Complex.arg ⟨C, S⟩)
  simp only at hc hs
  constructor
  · linear_combination (-Real.cos (Complex.arg ⟨C, S⟩)) * hc
      + (-Real.sin (Complex.arg ⟨C, S⟩)) * hs + Complex.abs ⟨C, S⟩ * h1
  · linear_combination (-Real.cos (Complex.arg ⟨C, S⟩)) * hs
      + Real.sin (Complex.arg ⟨C, S⟩) * hc

theorem mean_is_extrinsic_of_real_libm (m : libm ℝ)
    (hat : ∀ y x, m.atan2f y x = Complex.arg ⟨x, y⟩)
    (hcos : ∀ x, m.cosf x = Real.cos x) (hsin : ∀ x, m.sinf x = Real.sin x)
    (hpi : m.M_PI = Real.pi)
    (angles : Nat → ℝ) (n : Nat) (hn : 2 ≤ n) (max_intrinsic_iterations : Int)
    (tolerance : ℝ) :
    directional_statistics_circular_mean m angles (n : Int) max_intrinsic_iterations tolerance
      = Complex.arg ⟨((List.range n).map (fun i => Real.cos (angles i))).sum,
          ((List.range n).map (fun i => Real.sin (angles i))).sum⟩ ∧
    (circular_mean_epsilon_sums m angles n
        (Complex.arg ⟨((List.range n).map (fun i => Real.cos (angles i))).sum,
          ((List.range n).map (fun i => Real.sin (angles i))).sum⟩)).2 = 0 ∧
    m.atan2f
        (circular_mean_epsilon_sums m angles n
          (Complex.arg ⟨((List.range n).map (fun i => Real.cos (angles i))).sum,
            ((List.range n).map (fun i => Real.sin (angles i))).sum⟩)).2
        (circular_mean_epsilon_sums m angles n
          (Complex.arg ⟨((List.range n).map (fun i => Real.cos (angles i))).sum,
            ((List.range n).map (fun i => Real.sin (angles i))).sum⟩)).1 = 0 := by
  have hext : (List.range n).foldl
        (fun (acc : ℝ × ℝ) i => (acc.1 + m.cosf (angles i), acc.2 + m.sinf (angles i)))
        (0, 0)
      = (((List.range n).map (fun i => Real.cos (angles i))).sum,
          ((List.range n).map (fun i => Real.sin (angles i))).sum) := by
    simp only [hcos, hsin]
    exact extrinsic_sums_eq_list_sums angles n
  generalize hC : ((List.range n).map (fun i => Real.cos (angles i))).sum = C at hext ⊢
  generalize hS : ((List.range n).map (fun i => Real.sin (angles i))).sum = S at hext ⊢
  have heps : circular_mean_epsilon_sums m angles n (Complex.arg ⟨C, S⟩)
      = (Complex.abs ⟨C, S⟩, 0) := by
    rw [circular_mean_epsilon_sums_eq]
    simp only [hcos, hsin, hpi]
    rw [epsilon_sums_rotated, hC, hS, (epsilon_sums_at_arg C S).1, (epsilon_sums_at_arg C S).2]
  have hzero : Complex.arg ⟨Complex.abs ⟨C, S⟩, 0⟩ = 0 := by
    have hz : (⟨Complex.abs ⟨C, S⟩, 0⟩ : ℂ) = ((Complex.abs ⟨C, S⟩ : ℝ) : ℂ) := by
      apply Complex.ext <;> simp
    rw [hz, Complex.arg_ofReal_of_nonneg (AbsoluteValue.nonneg _ _)]
  refine ⟨?_, by rw [heps], by rw [heps, hat, hzero]⟩
  unfold directional_statistics_circular_mean
  simp only
  rw [if_neg (by omega), Int.toNat_natCast, hext]
  simp only
  rw [hat]
  by_cases hK : max_intrinsic_iterations < 1
  · rw [if_pos hK]
  · rw [if_neg hK]
    obtain ⟨its, hits⟩ : ∃ its : Nat, max_intrinsic_iterations.toNat = its + 1 :=
      ⟨max_intrinsic_iterations.toNat - 1, by omega⟩
    rw [hits, circular_mean_intrinsic_loop_succ, heps]
    simp only
    rw [abs_zero, if_pos (clamped_tolerance_pos tolerance), hat, hzero, add_zero, hpi,
      wrapOnce_of_mem _ _ (Complex.neg_pi_lt_arg _).le (Complex.arg_le_pi _)]

/-- C28: over the reals, for at least two angles, every iteration cap and every
tolerance, `directional_statistics_circular_mean` returns
`atan2(sum of sin(phi_i), sum of cos(phi_i))`, which is also the result of
`directional_statistics_circular_mean_extrinsic`: at the extrinsic mean the sum of
`sin(epsilon_i)` is 0 and the correction `atan2` of the two epsilon sums is 0. -/
theorem circular_mean_equals_extrinsic (angles : Nat → ℝ) (n : Nat) (hn : 2 ≤ n)
    (max_intrinsic_iterations : Int) (tolerance : ℝ) :
    directional_statistics_circular_mean
        { atan2f := fun y x => Complex.arg ⟨x, y⟩, cosf := Real.cos, sinf := Real.sin,
          sqrtf := Real.sqrt, asinf := Real.arcsin, M_PI := Real.pi }
        angles (n : Int) max_intrinsic_iterations tolerance
      = Complex.arg ⟨((List.range n).map (fun i => Real.cos (angles i))).sum,
          ((List.range n).map (fun i => Real.sin (angles i))).sum⟩ ∧
    directional_statistics_circular_mean
        { atan2f := fun y x => Complex.arg ⟨x, y⟩, cosf := Real.cos, sinf := Real.sin,
          sqrtf := Real.sqrt, asinf := Real.arcsin, M_PI := Real.pi }
        angles (n : Int) max_intrinsic_iterations tolerance
      = directional_statistics_circular_mean_extrinsic
        { atan2f := fun y x => Complex.arg ⟨x, y⟩, cosf := Real.cos, sinf := Real.sin,
          sqrtf := Real.sqrt, asinf := Real.arcsin, M_PI := Real.pi }
        angles (n : Int) ∧
    (circular_mean_epsilon_sums
        { atan2f := fun y x => Complex.arg ⟨x, y⟩, cosf := Real.cos, sinf := Real.sin,
          sqrtf := Real.sqrt, asinf := Real.arcsin, M_PI := Real.pi }
        angles n
        (Complex.arg ⟨((List.range n).map (fun i => Real.cos (angles i))).sum,
          ((List.range n).map (fun i => Real.sin (angles i))).sum⟩)).2 = 0 ∧
    Complex.arg
        ⟨(circular_mean_epsilon_sums
          { atan2f := fun y x => Complex.arg ⟨x, y⟩, cosf := Real.cos, sinf := Real.sin,
            sqrtf := Real.sqrt, asinf := Real.arcsin, M_PI := Real.pi }
          angles n
          (Complex.arg ⟨((List.range n).map (fun i => Real.cos (angles i))).sum,
            ((List.range n).map (fun i => Real.sin (angles i))).sum⟩)).1,
         (circular_mean_epsilon_sums
          { atan2f := fun y x => Complex.arg ⟨x, y⟩, cosf := Real.cos, sinf := Real.sin,
            sqrtf := Real.sqrt, asinf := Real.arcsin, M_PI := Real.pi }
          angles n
          (Complex.arg ⟨((List.range n).map (fun i => Real.cos (angles i))).sum,
            ((List.range n).map (fun i => Real.sin (angles i))).sum⟩)).2⟩ = 0 := by
  obtain ⟨h1, h2, h3⟩ := mean_is_extrinsic_of_real_libm
    { atan2f := fun y x => Complex.arg ⟨x, y⟩, cosf := Real.cos, sinf := Real.sin,
      sqrtf := Real.sqrt, asinf := Real.arcsin, M_PI := Real.pi }
    (fun _ _ => rfl) (fun _ => rfl) (fun _ => rfl) rfl angles n hn
    max_intrinsic_iterations tolerance
  obtain ⟨h0, _, _⟩ := mean_is_extrinsic_of_real_libm
    { atan2f := fun y x => Complex.arg ⟨x, y⟩, cosf := Real.cos, sinf := Real.sin,
      sqrtf := Real.sqrt, asinf := Real.arcsin, M_PI := Real.pi }
    (fun _ _ => rfl) (fun _ => rfl) (fun _ => rfl) rfl angles n hn 0 0
  refine ⟨h1, ?_, h2, h3⟩
  rw [h1]
  unfold directional_statistics_circular_mean_extrinsic
  rw [h0]

/-- Witness for C28: the seam scenario angles `[3.04, -3.04, 3.10, -3.10]`
with cap 5 and tolerance 0.01. -/
theorem circular_mean_equals_extrinsic_witness :
    directional_statistics_circular_mean
        { atan2f := fun y x => Complex.arg ⟨x, y⟩, cosf := Real.cos, sinf := Real.sin,
          sqrtf := Real.sqrt, asinf := Real.arcsin, M_PI := Real.pi }
        seamScenarioAngles ((4 : Nat) : Int) 5 0.01
      = directional_statistics_circular_mean_extrinsic
        { atan2f := fun y x => Complex.arg ⟨x, y⟩, cosf := Real.cos, sinf := Real.sin,
          sqrtf := Real.sqrt, asinf := Real.arcsin, M_PI := Real.pi }
        seamScenarioAngles ((4 : Nat) : Int) :=
  (circular_mean_equals_extrinsic seamScenarioAngles 4 (by decide) 5 0.01).2.1

/-! ## Theorems: intersecting lines -/

theorem intersecting_lines_parameters (P1 D1 P2 D2 : ℝ × ℝ × ℝ) (s t : ℝ)
    (hu1 : dot3 D1 D1 = 1) (hu2 : dot3 D2 D2 = 1)
    (hden : 1 - dot3 D1 D2 * dot3 D1 D2 ≠ 0)
    (hX : linePoint P1 D1 s = linePoint P2 D2 t) :
    skew_lines_parameters P1 D1 P2 D2 = (s, t) := by
  simp only [linePoint, Prod.mk.injEq] at hX
  obtain ⟨hx, hy, hz⟩ := hX
  simp only [dot3] at hu1 hu2 hden
  have ex : P2.1 - P1.1 = s * D1.1 - t * D2.1 := by linarith
  have ey : P2.2.1 - P1.2.1 = s * D1.2.1 - t * D2.2.1 := by linarith
  have ez : P2.2.2 - P1.2.2 = s * D1.2.2 - t * D2.2.2 := by linarith
  simp only [skew_lines_parameters, ex, ey, ez]
  refine Prod.ext ?_ ?_
  · simp only
    rw [div_eq_iff hden]
    linear_combination s * hu1
      + t * (D1.1 * D2.1 + D1.2.1 * D2.2.1 + D1.2.2 * D2.2.2) * hu2
  · simp only
    rw [div_eq_iff hden]
    linear_combination s * (D1.1 * D2.1 + D1.2.1 * D2.2.1 + D1.2.2 * D2.2.2) * hu1
      + t * hu2

theorem intersecting_lines_position (P1 D1 P2 D2 X : ℝ × ℝ × ℝ) (s t : ℝ)
    (hu1 : dot3 D1 D1 = 1) (hu2 : dot3 D2 D2 = 1)
    (hden : 1 - dot3 D1 D2 * dot3 D1 D2 ≠ 0)
    (hX1 : X = linePoint P1 D1 s) (hX2 : X = linePoint P2 D2 t) :
    skew_lines_position Real.sqrt P1 D1 P2 D2
      = { x := X.1, y := X.2.1, z := X.2.2, error_radius := 0 } := by
  have hp := intersecting_lines_parameters P1 D1 P2 D2 s t hu1 hu2 hden (hX1.symm.trans hX2)
  have hQ1 : (skew_lines_closest_points P1 D1 P2 D2).1 = X := by
    rw [hX1]
    simp only [skew_lines_closest_points, hp, linePoint]
  have hQ2 : (skew_lines_closest_points P1 D1 P2 D2).2 = X := by
    rw [hX2]
    simp only [skew_lines_closest_points, hp, linePoint]
  simp only [skew_lines_position, hQ1, hQ2, sub_self, mul_zero, add_zero, Real.sqrt_zero,
    zero_div, add_self_div_two]

/-- C29: over the reals, for registered beacons whose global directions `D1`,
`D2` are unit vectors with `|1 - (D1.D2)^2| >= 0.001`: whenever the two lines
meet at a point `X = P1 + s D1 = P2 + t D2` (any real `s`, `t`), the solver
returns `0` and records `X` with `error_radius = 0` at `history_next`; and when
both MACs are the same, it returns `0` and records the beacon position with
`error_radius = 0`. -/
theorem intersecting_lines_record_intersection (l : locator ℝ) (db : beacon_database ℝ)
    (mac1 mac2 : Option bt_addr) (b1 b2 : beacon ℝ) (x1 y1 z1 x2 y2 z2 : ℝ)
    (D1 D2 : ℝ × ℝ × ℝ)
    (hdb : l.beacon_db = some db)
    (h1 : beacon_database_get (some db) mac1 = Except.ok b1)
    (h2 : beacon_database_get (some db) mac2 = Except.ok b2)
    (hD1 : beacon_get_global_direction_cosines b1 x1 y1 z1 = D1)
    (hD2 : beacon_get_global_direction_cosines b2 x2 y2 z2 = D2)
    (hu1 : dot3 D1 D1 = 1) (hu2 : dot3 D2 D2 = 1)
    (hpar : 0.001 ≤ |1 - dot3 D1 D2 * dot3 D1 D2|) :
    (∀ (X : ℝ × ℝ × ℝ) (s t : ℝ),
      X = linePoint (b1.x, b1.y, b1.z) D1 s → X = linePoint (b2.x, b2.y, b2.z) D2 t →
      (locator_estimate_position_from_skew_lines Real.sqrt l mac1 x1 y1 z1
          mac2 x2 y2 z2).1 = 0 ∧
      (locator_estimate_position_from_skew_lines Real.sqrt l mac1 x1 y1 z1
          mac2 x2 y2 z2).2.position_history l.history_next
        = { x := X.1, y := X.2.1, z := X.2.2, error_radius := 0 }) ∧
    (mac1 = mac2 →
      (locator_estimate_position_from_skew_lines Real.sqrt l mac1 x1 y1 z1
          mac2 x2 y2 z2).1 = 0 ∧
      (locator_estimate_position_from_skew_lines Real.sqrt l mac1 x1 y1 z1
          mac2 x2 y2 z2).2.position_history l.history_next
        = { x := b1.x, y := b1.y, z := b1.z, error_radius := 0 }) := by
  have hden : 1 - dot3 D1 D2 * dot3 D1 D2 ≠ 0 := by
    intro h0
    rw [h0, abs_zero] at hpar
    norm_num at hpar
  have hnot : ¬ |skew_lines_denominator D1 D2| < 0.001 := by
    rw [skew_lines_denominator_eq]
    exact not_lt.mpr hpar
  have main : ∀ (X : ℝ × ℝ × ℝ) (s t : ℝ),
      X = linePoint (b1.x, b1.y, b1.z) D1 s → X = linePoint (b2.x, b2.y, b2.z) D2 t →
      (locator_estimate_position_from_skew_lines Real.sqrt l mac1 x1 y1 z1
          mac2 x2 y2 z2).1 = 0 ∧
      (locator_estimate_position_from_skew_lines Real.sqrt l mac1 x1 y1 z1
          mac2 x2 y2 z2).2.position_history l.history_next
        = { x := X.1, y := X.2.1, z := X.2.2, error_radius := 0 } := by
    intro X s t hX1 hX2
    rw [estimate_eval Real.sqrt l db mac1 mac2 b1 b2 x1 y1 z1 x2 y2 z2 hdb h1 h2, hD1, hD2,
      if_neg hnot]
    refine ⟨rfl, ?_⟩
    simp only [if_true]
    exact intersecting_lines_position _ D1 _ D2 X s t hu1 hu2 hden hX1 hX2
  refine ⟨main, ?_⟩
  intro hmac
  have hb : b1 = b2 := by
    rw [hmac, h2] at h1
    exact (Except.ok.inj h1).symm
  exact main (b1.x, b1.y, b1.z) 0 0 (by simp [linePoint]) (by rw [hb]; simp [linePoint])

/-- Witness for C29: beacon A at the origin looking along `x`, beacon B at
`(10, 0, 0)` looking along `y`; the lines meet at `(10, 0, 0)`, which is
recorded with `error_radius = 0`. -/
theorem intersecting_lines_record_intersection_witness :
    (locator_estimate_position_from_skew_lines Real.sqrt
      (freshLocator (twoBeaconDatabase (identityBeacon macA (0 : ℝ) 0 0)
        (identityBeacon macB 10 0 0)))
      (some macA) 1 0 0 (some macB) 0 1 0).2.position_history 0
      = { x := 10, y := 0, z := 0, error_radius := 0 } :=
  ((intersecting_lines_record_intersection
    (freshLocator (twoBeaconDatabase (identityBeacon macA (0 : ℝ) 0 0)
      (identityBeacon macB 10 0 0)))
    (twoBeaconDatabase (identityBeacon macA (0 : ℝ) 0 0) (identityBeacon macB 10 0 0))
    (some macA) (some macB) (identityBeacon macA 0 0 0) (identityBeacon macB 10 0 0)
    1 0 0 0 1 0 (1, 0, 0) (0, 1, 0) rfl
    (get_two_first 0 0 0 10 0 0) (get_two_second 0 0 0 10 0 0)
    (identity_global macA 0 0 0 1 0 0) (identity_global macB 10 0 0 0 1 0)
    (by norm_num [dot3]) (by norm_num [dot3]) (by norm_num [dot3])).1
    (10, 0, 0) 10 0 (by simp [linePoint, identityBeacon])
    (by simp [linePoint, identityBeacon])).2

/-! ## Theorems: fix pairing -/

theorem foldlM_option_preserved {σ β γ : Type} (Q : σ → γ) (f : σ → β → Option σ)
    (hf : ∀ s b s1, f s b = some s1 → Q s1 = Q s) :
    ∀ (l : List β) (s s1 : σ), l.foldlM f s = some s1 → Q s1 = Q s := by
  intro l
  induction l with
  | nil =>
    intro s s1 h
    simp only [List.foldlM_nil, Option.pure_def, Option.some.injEq] at h
    rw [h]
  | cons b l ih =>
    intro s s1 h
    rw [List.foldlM_cons] at h
    cases hb : f s b with
    | none => rw [hb] at h; simp at h
    | some s2 =>
      rw [hb] at h
      exact (ih s2 s1 h).trans (hf s b s2 hb)

theorem temp_fix_header {K : Type} (d d1 : iq_data K)
    (h : iq_data_temp_fix_ref_samples d = some d1) : iq_data_header d1 = iq_data_header d := by
  unfold iq_data_temp_fix_ref_samples at h
  split at h
  · rw [Option.some.inj h]
  · refine foldlM_option_preserved iq_data_header iq_data_temp_fix_ref_samples_step ?_ _ _ _ h
    intro s b s1 hs
    simp only [iq_data_temp_fix_ref_samples_step, Option.bind_eq_bind, Option.bind_eq_some,
      Option.pure_def, Option.some.injEq] at hs
    obtain ⟨_, _, _, _, _, _, _, _, rfl⟩ := hs
    rfl

theorem calculate_reference_phases_header {K : Type} [Field K] (m : libm K)
    (d d1 : iq_data K) (h : calculate_reference_phases m d = some d1) :
    iq_data_header d1 = iq_data_header d := by
  unfold calculate_reference_phases at h
  split at h
  · rw [Option.some.inj h]
  · refine foldlM_option_preserved iq_data_header (calculate_reference_phases_step m) ?_ _ _ _ h
    intro s b s1 hs
    simp only [calculate_reference_phases_step, Option.bind_eq_bind, Option.bind_eq_some,
      Option.pure_def, Option.some.injEq] at hs
    obtain ⟨_, _, _, _, _, _, rfl⟩ := hs
    rfl

theorem unwrap_reference_phases_header {K : Type} [LinearOrderedField K] (m : libm K)
    (d d1 : iq_data K) (h : unwrap_reference_phases m d = some d1) :
    iq_data_header d1 = iq_data_header d := by
  unfold unwrap_reference_phases at h
  split at h
  · rw [Option.some.inj h]
  · split at h
    · rw [Option.some.inj h]
    · simp only [Option.bind_eq_bind, Option.bind_eq_some] at h
      obtain ⟨p0, _, w, _, hfold⟩ := h
      have := foldlM_option_preserved iq_data_header (unwrap_reference_phases_step m) (by
        intro s b s1 hs
        simp only [unwrap_reference_phases_step, Option.bind_eq_bind, Option.bind_eq_some,
          Option.pure_def, Option.some.injEq] at hs
        obtain ⟨_, _, _, _, _, _, rfl⟩ := hs
        rfl) _ _ _ hfold
      rw [this]
      rfl

theorem estimate_linear_phase_drift_rate_header {K : Type} [LinearOrderedField K]
    (m : libm K) (d d1 : iq_data K) (h : estimate_linear_phase_drift_rate m d = some d1) :
    iq_data_header d1 = iq_data_header d := by
  unfold estimate_linear_phase_drift_rate at h
  split at h
  · rw [Option.some.inj h]
  · split at h
    · rw [← Option.some.inj h]
      rfl
    · simp only [Option.bind_eq_bind, Option.bind_eq_some] at h
      obtain ⟨a, ha, b, hb, hrest⟩ := h
      have e1 := calculate_reference_phases_header m d a ha
      have e2 := unwrap_reference_phases_header m a b hb
      split at hrest
      · simp only [Option.pure_def, Option.some.injEq] at hrest
        rw [← hrest, ← e1, ← e2]
        rfl
      · simp only [Option.bind_eq_bind, Option.bind_eq_some, Option.pure_def,
          Option.some.injEq] at hrest
        obtain ⟨_, _, _, _, _, _, rfl⟩ := hrest
        rw [← e1, ← e2]
        rfl

theorem compensate_measurement_samples_header {K : Type} [Field K] (m : libm K)
    (d d1 : iq_data K) (h : compensate_measurement_samples m d = some d1) :
    iq_data_header d1 = iq_data_header d := by
  unfold compensate_measurement_samples at h
  split at h
  · rw [Option.some.inj h]
  · refine foldlM_option_preserved iq_data_header
      (compensate_measurement_samples_step m _) ?_ _ _ _ h
    intro s b s1 hs
    simp only [compensate_measurement_samples_step, Option.bind_eq_bind, Option.bind_eq_some,
      Option.pure_def, Option.some.injEq] at hs
    obtain ⟨_, _, _, _, _, _, _, _, rfl⟩ := hs
    rfl

theorem iq_data_aod_interferometry_header {K : Type} [LinearOrderedField K] (m : libm K)
    (deltas0 : Nat → K) (d d1 : iq_data K)
    (h : iq_data_aod_interferometry m deltas0 d = some d1) :
    iq_data_header d1 = iq_data_header d := by
  unfold iq_data_aod_interferometry at h
  split at h
  · rw [Option.some.inj h]
  · split at h
    · rw [← Option.some.inj h]
      rfl
    · simp only [Option.bind_eq_bind] at h
      cases hacc : measurement_pairs.foldlM
          (iq_data_aod_interferometry_step m d
            (ble_channel_get_wavenumber d.channel_index * antenna_spacing_orthogonal))
          { horizontal_deltas := deltas0, horizontal_count := 0,
            vertical_deltas := deltas0, vertical_count := 0 } with
      | none => rw [hacc] at h; simp at h
      | some acc =>
        rw [hacc] at h
        simp only [Option.some_bind] at h
        by_cases hh : acc.horizontal_count > 0 <;> by_cases hv : acc.vertical_count > 0
        · simp only [hh, hv, if_true, Option.bind_eq_some, Option.pure_def,
            Option.some_bind, Option.some.injEq] at h
          obtain ⟨_, _, _, _, rfl⟩ := h
          rfl
        · simp only [hh, hv, if_true, if_false, Option.bind_eq_some, Option.pure_def,
            Option.some_bind, Option.some.injEq] at h
          obtain ⟨_, _, rfl⟩ := h
          rfl
        · simp only [hh, hv, if_true, if_false, Option.bind_eq_some, Option.pure_def,
            Option.some_bind, Option.some.injEq] at h
          obtain ⟨_, _, rfl⟩ := h
          rfl
        · simp only [hh, hv, if_false, Option.pure_def, Option.some_bind,
            Option.some.injEq] at h
          rw [← h]
          rfl

theorem pipeline_header {K : Type} [LinearOrderedField K] (m : libm K) (d : iq_data K)
    (deltas0 : Nat → K) (raw : iq_raw_samples) (r : iq_data K)
    (h : iq_data_process_pipeline m d deltas0 raw = some r) :
    r.beacon_mac = raw.beacon_mac ∧ r.channel_index = raw.channel_index ∧
      r.report_timestamp = raw.report_timestamp := by
  unfold iq_data_process_pipeline at h
  simp only [Option.bind_eq_bind, Option.bind_eq_some] at h
  obtain ⟨d1, h1, d2, h2, d3, h3, d4, h4, h5⟩ := h
  obtain ⟨d1a, e1, _, _, _, ⟨hts, hch, hmac⟩, _, _⟩ := iq_data_init_copies d raw
  have hd : d1a = d1 := Option.some.inj (e1.symm.trans h1)
  subst hd
  have e := (iq_data_aod_interferometry_header m deltas0 d4 r h5).trans
    ((compensate_measurement_samples_header m d3 d4 h4).trans
      ((estimate_linear_phase_drift_rate_header m d2 d3 h3).trans
        (temp_fix_header d1a d2 h2)))
  simp only [iq_data_header, Prod.mk.injEq] at e
  exact ⟨e.2.2.trans hmac, e.2.1.trans hch, e.1.trans hts⟩

theorem pair_first {K : Type} [LinearOrderedField K] (sqrtf : K → K) (st : process_state K)
    (iq : iq_data K) (h : st.first_iteration = true) :
    iq_data_process_pair sqrtf st iq
      = (none, { st with previous_iq_data := iq, first_iteration := false }) := by
  simp only [iq_data_process_pair, h, if_true]

theorem pair_same {K : Type} [LinearOrderedField K] (sqrtf : K → K) (st : process_state K)
    (iq : iq_data K) (h : st.first_iteration = false)
    (hmac : iq.beacon_mac = st.previous_iq_data.beacon_mac) :
    iq_data_process_pair sqrtf st iq = (none, st) := by
  have hc : bt_addr_mac_compare (some iq.beacon_mac) (some st.previous_iq_data.beacon_mac)
      = 1 := (mac_compare_eq_one _ _).mpr hmac
  simp [iq_data_process_pair, h, hc]

theorem pair_new {K : Type} [LinearOrderedField K] (sqrtf : K → K) (st : process_state K)
    (iq : iq_data K) (h : st.first_iteration = false)
    (hmac : iq.beacon_mac ≠ st.previous_iq_data.beacon_mac) :
    iq_data_process_pair sqrtf st iq
      = (some { mac_1 := some st.previous_iq_data.beacon_mac,
                x_1 := st.previous_iq_data.local_direction_cosine_x,
                y_1 := st.previous_iq_data.local_direction_cosine_y,
                z_1 := st.previous_iq_data.local_direction_cosine_z,
                mac_2 := some iq.beacon_mac,
                x_2 := iq.local_direction_cosine_x,
                y_2 := iq.local_direction_cosine_y,
                z_2 := iq.local_direction_cosine_z },
         { st with
            g_locator := (estimate_call.run sqrtf st.g_locator
              { mac_1 := some st.previous_iq_data.beacon_mac,
                x_1 := st.previous_iq_data.local_direction_cosine_x,
                y_1 := st.previous_iq_data.local_direction_cosine_y,
                z_1 := st.previous_iq_data.local_direction_cosine_z,
                mac_2 := some iq.beacon_mac,
                x_2 := iq.local_direction_cosine_x,
                y_2 := iq.local_direction_cosine_y,
                z_2 := iq.local_direction_cosine_z }).2,
            previous_iq_data := iq }) := by
  have hc : ¬ bt_addr_mac_compare (some iq.beacon_mac)
      (some st.previous_iq_data.beacon_mac) = 1 :=
    fun e => hmac ((mac_compare_eq_one _ _).mp e)
  simp only [iq_data_process_pair, h, hc, if_false, Bool.false_eq_true]

theorem pair_after {K : Type} [LinearOrderedField K] (sqrtf : K → K) (st : process_state K)
    (iq : iq_data K) :
    (iq_data_process_pair sqrtf st iq).2.first_iteration = false ∧
    (iq_data_process_pair sqrtf st iq).2.previous_iq_data.beacon_mac = iq.beacon_mac ∧
    (∀ c, (iq_data_process_pair sqrtf st iq).1 = some c → c.mac_1 ≠ c.mac_2) := by
  cases hfi : st.first_iteration with
  | true =>
    rw [pair_first sqrtf st iq hfi]
    exact ⟨rfl, rfl, fun c hc => (Option.noConfusion hc)⟩
  | false =>
    by_cases hmac : iq.beacon_mac = st.previous_iq_data.beacon_mac
    · rw [pair_same sqrtf st iq hfi hmac]
      exact ⟨hfi, hmac.symm, fun c hc => (Option.noConfusion hc)⟩
    · rw [pair_new sqrtf st iq hfi hmac]
      refine ⟨hfi, rfl, ?_⟩
      intro c hc
      simp only [Option.some.injEq] at hc
      rw [← hc]
      simp only [ne_eq, Option.some.injEq]
      exact fun e => hmac e.symm

theorem pair_updates {K : Type} [LinearOrderedField K] (sqrtf : K → K)
    (st : process_state K) (iq : iq_data K)
    (h : st.first_iteration = true ∨ iq.beacon_mac ≠ st.previous_iq_data.beacon_mac) :
    (iq_data_process_pair sqrtf st iq).2.previous_iq_data = iq ∧
    (iq_data_process_pair sqrtf st iq).2.first_iteration = false := by
  cases hfi : st.first_iteration with
  | true =>
    rw [pair_first sqrtf st iq hfi]
    exact ⟨rfl, rfl⟩
  | false =>
    rcases h with h | h
    · rw [hfi] at h; cases h
    · rw [pair_new sqrtf st iq hfi h]
      exact ⟨rfl, hfi⟩

/-! ## Theorems: dispatch of the processor work -/

theorem submit_target {α : Type} (q : iq_data_work_queue α) (f : α) :
    (iq_data_work_queue_submit q (some f)).1.target_work_queue = q.target_work_queue := by
  unfold iq_data_work_queue_submit
  simp only
  split <;> rfl

theorem step_target {α : Type} (q : iq_data_work_queue α) :
    (iq_data_work_queue_handler_step q).2.2.target_work_queue = q.target_work_queue := by
  unfold iq_data_work_queue_handler_step
  simp only
  split <;> rfl

theorem run_target {α : Type} (ops : List (QueueOp α)) :
    ∀ q : iq_data_work_queue α,
      (runQueueOps ops q).2.target_work_queue = q.target_work_queue := by
  induction ops with
  | nil => intro q; rfl
  | cons op ops ih =>
    intro q
    show (runQueueOps ops (QueueOp.apply q op).2).2.target_work_queue = _
    rw [ih]
    cases op with
    | submit f => exact submit_target q f
    | pop => exact step_target q

theorem init_target {α : Type} (q : iq_data_work_queue α) :
    (iq_data_work_queue_init q true true).target_work_queue = true := by
  simp [iq_data_work_queue_init]

/-- The dispatch request of a submit on a queue with a target work queue:
requested exactly when the count was zero. -/
theorem submit_start_iff {α : Type} (q : iq_data_work_queue α) (f : α)
    (h : QueueInv q) (ht : q.target_work_queue = true) :
    (iq_data_work_queue_submit q (some f)).2 = true ↔ q.count = 0 := by
  obtain ⟨h1, h2, -⟩ := h
  unfold iq_data_work_queue_submit
  simp only [IQ_DATA_WORK_QUEUE_CAPACITY]
  by_cases hc : q.count = 8
  · simp only [hc, if_true, Bool.and_eq_true, decide_eq_true_eq]
    constructor
    · intro hh; omega
    · intro hh; omega
  · simp only [hc, if_false, Bool.and_eq_true, decide_eq_true_eq, ht, and_true]
    constructor
    · intro hh; omega
    · intro hh; omega

theorem submit_count_pos {α : Type} (q : iq_data_work_queue α) (f : α)
    (h : QueueInv q) : 0 < (iq_data_work_queue_submit q (some f)).1.count := by
  obtain ⟨h1, h2, -⟩ := h
  unfold iq_data_work_queue_submit
  simp only [IQ_DATA_WORK_QUEUE_CAPACITY]
  by_cases hc : q.count = 8
  · simp only [hc, if_true]; omega
  · simp only [hc, if_false]; omega

/-- C38: on every queue state reached from `iq_data_work_queue_init` by submits
and extraction steps, `iq_data_work_queue_submit` of a frame requests a
dispatch of the processor work if and only if `count` was 0 before the
submit. -/
theorem submit_dispatches_iff_empty {α : Type} (q0 : iq_data_work_queue α)
    (ops : List (QueueOp α)) (f : α) :
    (iq_data_work_queue_submit (runQueueOps ops (iq_data_work_queue_init q0 true true)).2
        (some f)).2 = true
      ↔ (runQueueOps ops (iq_data_work_queue_init q0 true true)).2.count = 0 :=
  submit_start_iff _ f (queueInv_run ops _ (queueInv_init q0))
    (by rw [run_target, init_target])

theorem dispatchInv_initial {α : Type} (q : iq_data_work_queue α) :
    DispatchInv (initialDispatchState q) := by
  refine ⟨queueInv_init q, init_target q, ?_⟩
  intro h
  simp [initialDispatchState, iq_data_work_queue_init] at h

theorem dispatchInv_step {α : Type} (s : dispatch_state α) (e : dispatch_event α)
    (h : DispatchInv s) : DispatchInv (dispatch_step s e) := by
  obtain ⟨hq, ht, hs⟩ := h
  cases e with
  | submit f =>
    refine ⟨queueInv_submit _ f hq, by rw [← ht]; exact submit_target _ f, ?_⟩
    intro _
    show (s.pending || (iq_data_work_queue_submit s.queue (some f)).2) = true ∨
      s.phase = handler_phase.draining ∨ s.phase = handler_phase.checking
    by_cases hc : s.queue.count = 0
    · left
      rw [(submit_start_iff s.queue f hq ht).mpr hc, Bool.or_true]
    · have hpos : 0 < s.queue.count := by
        obtain ⟨h1, -⟩ := hq
        omega
      rcases hs hpos with hp | hp
      · left; rw [hp, Bool.true_or]
      · right; exact hp
  | handler_entry =>
    unfold dispatch_step
    by_cases hc : s.pending = true ∧ s.phase = handler_phase.idle
    · rw [if_pos hc]
      exact ⟨hq, ht, fun _ => Or.inr (Or.inl rfl)⟩
    · rw [if_neg hc]
      exact ⟨hq, ht, hs⟩
  | handler_step =>
    unfold dispatch_step
    by_cases hc : s.phase = handler_phase.draining
    · rw [if_pos hc]
      refine ⟨queueInv_step _ hq, by rw [← ht]; exact step_target _, ?_⟩
      intro _
      right
      show (if (iq_data_work_queue_handler_step s.queue).2.1 = true
          then handler_phase.checking else handler_phase.draining) = handler_phase.draining ∨
        (if (iq_data_work_queue_handler_step s.queue).2.1 = true
          then handler_phase.checking else handler_phase.draining) = handler_phase.checking
      by_cases hx : (iq_data_work_queue_handler_step s.queue).2.1 = true
      · right; rw [if_pos hx]
      · left; rw [if_neg hx]
    · rw [if_neg hc]
      exact ⟨hq, ht, hs⟩
  | handler_check =>
    unfold dispatch_step
    by_cases hc : s.phase = handler_phase.checking
    · rw [if_pos hc]
      refine ⟨hq, ht, ?_⟩
      intro hpos
      left
      show (s.pending || iq_data_work_queue_handler_check s.queue) = true
      have : iq_data_work_queue_handler_check s.queue = true := by
        unfold iq_data_work_queue_handler_check
        simp only [ht, Bool.and_true, decide_eq_true_eq]
        exact hpos
      rw [this, Bool.or_true]
    · rw [if_neg hc]
      exact ⟨hq, ht, hs⟩

theorem dispatchInv_run {α : Type} (events : List (dispatch_event α)) :
    ∀ s : dispatch_state α, DispatchInv s → DispatchInv (runDispatch events s) := by
  induction events with
  | nil => intro s h; exact h
  | cons e es ih =>
    intro s h
    exact ih _ (dispatchInv_step s e h)

/-- C39: in every state reached from `iq_data_work_queue_init` by interleaving
submits with the steps of the drain handler (entry from the pending work
item, locked extraction steps, final check with re-dispatch), a queue with
`count > 0` has a dispatch of the processor work pending, or the handler is
running and has not yet performed its final check. -/
theorem frame_held_implies_processing_scheduled {α : Type} (q0 : iq_data_work_queue α)
    (events : List (dispatch_event α))
    (h : 0 < (runDispatch events (initialDispatchState q0)).queue.count) :
    (runDispatch events (initialDispatchState q0)).pending = true ∨
    (runDispatch events (initialDispatchState q0)).phase = handler_phase.draining ∨
    (runDispatch events (initialDispatchState q0)).phase = handler_phase.checking :=
  (dispatchInv_run events _ (dispatchInv_initial q0)).2.2 h

/-- Witness for C39: a frame is submitted, the handler is entered and extracts
it, a second frame is submitted before the final check, and the check
re-dispatches: `count = 1` with the dispatch pending and the handler idle. -/
theorem frame_held_implies_processing_scheduled_witness :
    0 < (runDispatch
          [dispatch_event.submit 7, dispatch_event.handler_entry,
           dispatch_event.handler_step, dispatch_event.submit 8,
           dispatch_event.handler_check]
          (initialDispatchState blankQueue)).queue.count ∧
    (runDispatch
          [dispatch_event.submit 7, dispatch_event.handler_entry,
           dispatch_event.handler_step, dispatch_event.submit 8,
           dispatch_event.handler_check]
          (initialDispatchState blankQueue)).phase = handler_phase.idle ∧
    ((runDispatch
          [dispatch_event.submit 7, dispatch_event.handler_entry,
           dispatch_event.handler_step, dispatch_event.submit 8,
           dispatch_event.handler_check]
          (initialDispatchState blankQueue)).pending = true ∨
      (runDispatch
          [dispatch_event.submit 7, dispatch_event.handler_entry,
           dispatch_event.handler_step, dispatch_event.submit 8,
           dispatch_event.handler_check]
          (initialDispatchState blankQueue)).phase = handler_phase.draining ∨
      (runDispatch
          [dispatch_event.submit 7, dispatch_event.handler_entry,
           dispatch_event.handler_step, dispatch_event.submit 8,
           dispatch_event.handler_check]
          (initialDispatchState blankQueue)).phase = handler_phase.checking) :=
  ⟨by decide, by decide,
    frame_held_implies_processing_scheduled blankQueue _ (by decide)⟩

/-! ## Theorems: channel wavenumber table -/

theorem wavenumber_block_0 (c : Nat) (h0 : 0 ≤ c) (h : c < 10) :
    |(ble_channel_wavenumbers.getD c 0 : ℝ)
        - 2 * Real.pi * (ble_channel_frequencies.getD c 0 : ℝ) / 299792.458|
      ≤ 5 / 10 ^ 7 := by
  have h1 := Real.pi_gt_d6
  have h2 := Real.pi_lt_d6
  interval_cases c <;>
    simp only [ble_channel_wavenumbers, ble_channel_frequencies, List.getD_cons_zero,
      List.getD_cons_succ] <;>
    rw [abs_le] <;> constructor <;> norm_num <;> linarith

theorem wavenumber_block_1 (c : Nat) (h0 : 10 ≤ c) (h : c < 20) :
    |(ble_channel_wavenumbers.getD c 0 : ℝ)
        - 2 * Real.pi * (ble_channel_frequencies.getD c 0 : ℝ) / 299792.458|
      ≤ 5 / 10 ^ 7 := by
  have h1 := Real.pi_gt_d6
  have h2 := Real.pi_lt_d6
  interval_cases c <;>
    simp only [ble_channel_wavenumbers, ble_channel_frequencies, List.getD_cons_zero,
      List.getD_cons_succ] <;>
    rw [abs_le] <;> constructor <;> norm_num <;> linarith

theorem wavenumber_block_2 (c : Nat) (h0 : 20 ≤ c) (h : c < 30) :
    |(ble_channel_wavenumbers.getD c 0 : ℝ)
        - 2 * Real.pi * (ble_channel_frequencies.getD c 0 : ℝ) / 299792.458|
      ≤ 5 / 10 ^ 7 := by
  have h1 := Real.pi_gt_d6
  have h2 := Real.pi_lt_d6
  interval_cases c <;>
    simp only [ble_channel_wavenumbers, ble_channel_frequencies, List.getD_cons_zero,
      List.getD_cons_succ] <;>
    rw [abs_le] <;> constructor <;> norm_num <;> linarith

theorem wavenumber_block_3 (c : Nat) (h0 : 30 ≤ c) (h : c < 40) :
    |(ble_channel_wavenumbers.getD c 0 : ℝ)
        - 2 * Real.pi * (ble_channel_frequencies.getD c 0 : ℝ) / 299792.458|
      ≤ 5 / 10 ^ 7 := by
  have h1 := Real.pi_gt_d6
  have h2 := Real.pi_lt_d6
  interval_cases c <;>
    simp only [ble_channel_wavenumbers, ble_channel_frequencies, List.getD_cons_zero,
      List.getD_cons_succ] <;>
    rw [abs_le] <;> constructor <;> norm_num <;> linarith

/-- C40: for every channel index `c` in `0..39`, `ble_channel_wavenumbers[c]` is
within `5 * 10^-7` of `2 pi f / 299792.458` with `f = ble_channel_frequencies[c]`
in MHz, that is of `2 pi / lambda_c` with
`lambda_c = 299792458 / (f * 10^6) * 1000` millimetres: the table holds the
wavenumbers rounded to six decimals. -/
theorem wavenumbers_match_frequencies (c : Nat) (h : c < 40) :
    |(ble_channel_wavenumbers.getD c 0 : ℝ)
        - 2 * Real.pi * (ble_channel_frequencies.getD c 0 : ℝ) / 299792.458|
      ≤ 5 / 10 ^ 7 ∧
    2 * Real.pi * (ble_channel_frequencies.getD c 0 : ℝ) / 299792.458
      = 2 * Real.pi /
          (299792458 / ((ble_channel_frequencies.getD c 0 : ℝ) * 10 ^ 6) * 1000) := by
  constructor
  · by_cases h10 : c < 10
    · exact wavenumber_block_0 c (Nat.zero_le c) h10
    · by_cases h20 : c < 20
      · exact wavenumber_block_1 c (by omega) h20
      · by_cases h30 : c < 30
        · exact wavenumber_block_2 c (by omega) h30
        · exact wavenumber_block_3 c (by omega) h
  · have hf : (ble_channel_frequencies.getD c 0 : ℝ) ≠ 0 := by
      have : 0 < ble_channel_frequencies.getD c 0 := by
        interval_cases c <;> decide
      exact_mod_cast (Nat.pos_iff_ne_zero.mp this)
    field_simp
    ring

/-- Witness for C40: channel index 18 (2442 MHz, table entry 0.051181). -/
theorem wavenumbers_match_frequencies_witness :
    |(ble_channel_wavenumbers.getD 18 0 : ℝ)
        - 2 * Real.pi * (ble_channel_frequencies.getD 18 0 : ℝ) / 299792.458|
      ≤ 5 / 10 ^ 7 :=
  (wavenumbers_match_frequencies 18 (by decide)).1

/-! ## Theorems: least-squares drift rate -/

/-- The sums of the regression loop in closed form. -/
theorem drift_sums_closed {K : Type} [LinearOrderedField K] (d : iq_data K) (n : Nat)
    (h8 : n ≤ 8) :
    (List.range n).foldlM (drift_sums_step d) (0, 0, 0, 0)
      = some (∑ x in Finset.range n, (x : K),
          ∑ x in Finset.range n, d.reference_phases_unwrapped x,
          ∑ x in Finset.range n, (x : K) * d.reference_phases_unwrapped x,
          ∑ x in Finset.range n, ((x * x : Nat) : K)) := by
  induction n with
  | zero => simp
  | succ n ih =>
    rw [List.range_succ, List.foldlM_append, ih (by omega)]
    simp only [Option.bind_eq_bind, Option.some_bind, List.foldlM_cons, List.foldlM_nil,
      drift_sums_step_eq d _ n (by omega), Finset.sum_range_succ, Option.pure_def]

/-- The denominator of the slope is positive for 2 to 8 samples. -/
theorem drift_denominator_pos {K : Type} [LinearOrderedField K] (n : Nat) (h2 : 2 ≤ n)
    (h8 : n ≤ 8) :
    0 < (n : K) * (∑ x in Finset.range n, ((x * x : Nat) : K))
      - (∑ x in Finset.range n, (x : K)) * (∑ x in Finset.range n, (x : K)) := by
  interval_cases n <;> simp only [Finset.sum_range_succ, Finset.sum_range_zero] <;> norm_num

/-- The three branches of `estimate_linear_phase_drift_rate` on an initialised
structure with at most 8 reference samples. -/
theorem estimate_drift_structure {K : Type} [LinearOrderedField K] (m : libm K)
    (d : iq_data K) (hini : d.initialized = true) (hn8 : d.reference_sample_count ≤ 8) :
    (d.reference_sample_count = 0 →
      estimate_linear_phase_drift_rate m d = some { d with linear_phase_drift_rate := 0 }) ∧
    (1 ≤ d.reference_sample_count →
      ∃ d2, (calculate_reference_phases m d).bind (unwrap_reference_phases m) = some d2 ∧
        d2.reference_sample_count = d.reference_sample_count ∧
        (d.reference_sample_count = 1 →
          estimate_linear_phase_drift_rate m d
            = some { d2 with linear_phase_drift_rate := 0 }) ∧
        (2 ≤ d.reference_sample_count →
          estimate_linear_phase_drift_rate m d
            = some { d2 with linear_phase_drift_rate :=
                (((d.reference_sample_count : K)
                    * (∑ x in Finset.range d.reference_sample_count,
                        (x : K) * d2.reference_phases_unwrapped x)
                  - (∑ x in Finset.range d.reference_sample_count, (x : K))
                    * (∑ x in Finset.range d.reference_sample_count,
                        d2.reference_phases_unwrapped x))
                  / ((d.reference_sample_count : K)
                      * (∑ x in Finset.range d.reference_sample_count, ((x * x : Nat) : K))
                    - (∑ x in Finset.range d.reference_sample_count, (x : K))
                      * (∑ x in Finset.range d.reference_sample_count, (x : K))))
                / ((IQ_REFERENCE_SPACING : Nat) : K) })) := by
  have hi : ¬ d.initialized = false := by rw [hini]; simp
  constructor
  · intro h0
    unfold estimate_linear_phase_drift_rate
    rw [if_neg hi, if_pos h0]
  · intro h1
    have h0 : ¬ d.reference_sample_count = 0 := by omega
    obtain ⟨d1, e1, c1⟩ := calculate_reference_phases_counts m d true
      d.reference_sample_count d.measurement_sample_count ⟨hini, rfl, rfl⟩ hn8
    obtain ⟨d2, e2, c2⟩ := unwrap_reference_phases_counts m d1 true
      d.reference_sample_count d.measurement_sample_count c1 hn8
    refine ⟨d2, by rw [e1]; exact e2, c2.2.1, ?_, ?_⟩
    · intro hone
      unfold estimate_linear_phase_drift_rate
      rw [if_neg hi, if_neg h0]
      simp only [e1, e2, Option.bind_eq_bind, Option.some_bind]
      rw [if_pos (by rw [c2.2.1]; exact hone)]
      rfl
    · intro h2
      unfold estimate_linear_phase_drift_rate
      rw [if_neg hi, if_neg h0]
      simp only [e1, e2, Option.bind_eq_bind, Option.some_bind]
      rw [if_neg (by rw [c2.2.1]; omega)]
      have hne := ne_of_gt (drift_denominator_pos (K := K) d.reference_sample_count h2 hn8)
      have hone : ((IQ_REFERENCE_SPACING : Nat) : K) ≠ 0 := by
        simp [IQ_REFERENCE_SPACING]
      rw [c2.2.1, drift_sums_closed d2 _ hn8]
      simp only [Option.some_bind, fdiv_ne _ _ hne, fdiv_ne _ _ hone]
      rfl

/-- C34: on an initialised structure with at most 8 reference samples
`estimate_linear_phase_drift_rate` returns (no division by zero): with no
reference sample it sets the drift rate to 0 at once, with one it sets it to 0
after computing and unwrapping the phase, and with `n = 2..8` the divisor
`n * sum(x^2) - (sum x)^2` over `x = 0..n-1` is strictly positive and the
drift rate is the quotient, divided by the reference spacing. -/
theorem drift_rate_division_guarded {K : Type} [LinearOrderedField K] (m : libm K)
    (d : iq_data K) (hini : d.initialized = true) (hn8 : d.reference_sample_count ≤ 8) :
    (∃ d1, estimate_linear_phase_drift_rate m d = some d1) ∧
    (d.reference_sample_count = 0 →
      estimate_linear_phase_drift_rate m d = some { d with linear_phase_drift_rate := 0 }) ∧
    (d.reference_sample_count = 1 →
      ∃ d2, (calculate_reference_phases m d).bind (unwrap_reference_phases m) = some d2 ∧
        estimate_linear_phase_drift_rate m d
          = some { d2 with linear_phase_drift_rate := 0 }) ∧
    (2 ≤ d.reference_sample_count →
      0 < (d.reference_sample_count : K)
            * (∑ x in Finset.range d.reference_sample_count, ((x * x : Nat) : K))
          - (∑ x in Finset.range d.reference_sample_count, (x : K))
            * (∑ x in Finset.range d.reference_sample_count, (x : K)) ∧
      ∃ d2, (calculate_reference_phases m d).bind (unwrap_reference_phases m) = some d2 ∧
        estimate_linear_phase_drift_rate m d
          = some { d2 with linear_phase_drift_rate :=
              (((d.reference_sample_count : K)
                  * (∑ x in Finset.range d.reference_sample_count,
                      (x : K) * d2.reference_phases_unwrapped x)
                - (∑ x in Finset.range d.reference_sample_count, (x : K))
                  * (∑ x in Finset.range d.reference_sample_count,
                      d2.reference_phases_unwrapped x))
                / ((d.reference_sample_count : K)
                    * (∑ x in Finset.range d.reference_sample_count, ((x * x : Nat) : K))
                  - (∑ x in Finset.range d.reference_sample_count, (x : K))
                    * (∑ x in Finset.range d.reference_sample_count, (x : K))))
              / ((IQ_REFERENCE_SPACING : Nat) : K) }) := by
  obtain ⟨s0, s1⟩ := estimate_drift_structure m d hini hn8
  refine ⟨?_, s0, ?_, ?_⟩
  · exact (estimate_linear_phase_drift_rate_counts m d true d.reference_sample_count
      d.measurement_sample_count ⟨hini, rfl, rfl⟩ hn8).imp fun _ h => h.1
  · intro h1
    obtain ⟨d2, e2, _, k1, _⟩ := s1 (by omega)
    exact ⟨d2, e2, k1 h1⟩
  · intro h2
    obtain ⟨d2, e2, _, _, k2⟩ := s1 (by omega)
    exact ⟨drift_denominator_pos _ h2 hn8, d2, e2, k2 h2⟩

/-- Witness for C34: the structure `constantPhaseData` (8 reference samples). -/
theorem drift_rate_division_guarded_witness :
    ∃ d1, estimate_linear_phase_drift_rate constantLibm
      (constantPhaseData : iq_data ℚ) = some d1 :=
  (drift_rate_division_guarded constantLibm constantPhaseData rfl (by decide)).1

/-- The slope of exactly linear phases. -/
theorem linear_slope {K : Type} [LinearOrderedField K] (n : Nat) (h2 : 2 ≤ n) (h8 : n ≤ 8)
    (y : Nat → K) (a b : K) (hlin : ∀ x, x < n → y x = a + b * (x : K)) :
    ((n : K) * (∑ x in Finset.range n, (x : K) * y x)
        - (∑ x in Finset.range n, (x : K)) * (∑ x in Finset.range n, y x))
      / ((n : K) * (∑ x in Finset.range n, ((x * x : Nat) : K))
        - (∑ x in Finset.range n, (x : K)) * (∑ x in Finset.range n, (x : K))) = b := by
  have hne := ne_of_gt (drift_denominator_pos (K := K) n h2 h8)
  have hy : ∑ x in Finset.range n, y x
      = (n : K) * a + b * ∑ x in Finset.range n, (x : K) := by
    rw [Finset.sum_congr rfl (fun x hx => hlin x (Finset.mem_range.mp hx)),
      Finset.sum_add_distrib, Finset.sum_const, Finset.card_range, ← Finset.mul_sum,
      nsmul_eq_mul]
  have hxy : ∑ x in Finset.range n, (x : K) * y x
      = a * (∑ x in Finset.range n, (x : K))
        + b * ∑ x in Finset.range n, ((x * x : Nat) : K) := by
    rw [Finset.mul_sum, Finset.mul_sum, ← Finset.sum_add_distrib]
    refine Finset.sum_congr rfl (fun x hx => ?_)
    rw [hlin x (Finset.mem_range.mp hx)]
    push_cast
    ring
  rw [div_eq_iff hne, hy, hxy]
  ring

/-- C33: for every reference count `n = 2..8`, if the unwrapped reference
phases that `estimate_linear_phase_drift_rate` computes (by
`calculate_reference_phases` and `unwrap_reference_phases`) are `a + b * x` at
every index `x < n`, it returns with drift rate `b`, in exact arithmetic over
any ordered field. -/
theorem linear_phases_drift_rate {K : Type} [LinearOrderedField K] (m : libm K)
    (d : iq_data K) (hini : d.initialized = true) (h2 : 2 ≤ d.reference_sample_count)
    (h8 : d.reference_sample_count ≤ 8) (a b : K) (d2 : iq_data K)
    (hd2 : (calculate_reference_phases m d).bind (unwrap_reference_phases m) = some d2)
    (hlin : ∀ x, x < d.reference_sample_count →
      d2.reference_phases_unwrapped x = a + b * (x : K)) :
    ∃ d1, estimate_linear_phase_drift_rate m d = some d1 ∧
      d1.linear_phase_drift_rate = b ∧
      d1.reference_phases_unwrapped = d2.reference_phases_unwrapped := by
  obtain ⟨_, s1⟩ := estimate_drift_structure m d hini h8
  obtain ⟨d2', e2, _, _, k2⟩ := s1 (by omega)
  rw [hd2, Option.some.injEq] at e2
  subst e2
  refine ⟨_, k2 h2, ?_, rfl⟩
  show _ / ((IQ_REFERENCE_SPACING : Nat) : K) = b
  rw [linear_slope d.reference_sample_count h2 h8 d2.reference_phases_unwrapped a b hlin]
  simp [IQ_REFERENCE_SPACING]

/-- The unwrapped phases of `rampData` under `linearLibm` are `0, 1, 2`. -/
theorem ramp_unwrapped :
    ∃ d2, (calculate_reference_phases linearLibm rampData).bind
        (unwrap_reference_phases linearLibm) = some d2 ∧
      ∀ x, x < rampData.reference_sample_count →
        d2.reference_phases_unwrapped x = 0 + 1 * (x : ℚ) := by
  refine ⟨_, rfl, ?_⟩
  intro x hx
  have hx3 : x < 3 := hx
  interval_cases x <;> norm_num [linearLibm, rampData]

/-- Witness for C33: three reference samples with phases `0, 1, 2` (`a = 0`,
`b = 1`). -/
theorem linear_phases_drift_rate_witness :
    ∃ d1, estimate_linear_phase_drift_rate linearLibm rampData = some d1 ∧
      d1.linear_phase_drift_rate = 1 := by
  obtain ⟨d2, hd2, hlin⟩ := ramp_unwrapped
  exact (linear_phases_drift_rate linearLibm rampData rfl (by decide) (by decide) 0 1 d2
    hd2 hlin).imp fun _ h => ⟨h.1, h.2.1⟩

/-! ## Theorems: drift compensation is a rotation -/

/-- The compensated samples in closed form: sample `i` is rotated by
`theta = -rate * 4 * i`. -/
theorem compensation_closed {K : Type} [LinearOrderedField K] (m : libm K) (d : iq_data K)
    (hini : d.initialized = true) (hnm : d.measurement_sample_count ≤ 37) :
    ∃ d1, compensate_measurement_samples m d = some d1 ∧ SameSamples d d1 ∧
      (∀ i, i < d.measurement_sample_count →
        d1.measurement_i_compensated i
          = (d.measurement_i i : K)
              * m.cosf (-d.linear_phase_drift_rate * (IQ_MEASUREMENT_SPACING : K) * (i : K))
            - (d.measurement_q i : K)
              * m.sinf (-d.linear_phase_drift_rate * (IQ_MEASUREMENT_SPACING : K) * (i : K)) ∧
        d1.measurement_q_compensated i
          = (d.measurement_i i : K)
              * m.sinf (-d.linear_phase_drift_rate * (IQ_MEASUREMENT_SPACING : K) * (i : K))
            + (d.measurement_q i : K)
              * m.cosf (-d.linear_phase_drift_rate * (IQ_MEASUREMENT_SPACING : K) * (i : K))) := by
  unfold compensate_measurement_samples
  rw [if_neg (by rw [hini]; simp)]
  obtain ⟨d1, e1, hs, hp⟩ := foldlM_option_indexed
    (compensate_measurement_samples_step m
      (-d.linear_phase_drift_rate * (IQ_MEASUREMENT_SPACING : K)))
    (List.range d.measurement_sample_count)
    (fun k s => SameSamples d s ∧ (∀ j, j < k →
      s.measurement_i_compensated j
        = (d.measurement_i j : K)
            * m.cosf (-d.linear_phase_drift_rate * (IQ_MEASUREMENT_SPACING : K) * (j : K))
          - (d.measurement_q j : K)
            * m.sinf (-d.linear_phase_drift_rate * (IQ_MEASUREMENT_SPACING : K) * (j : K)) ∧
      s.measurement_q_compensated j
        = (d.measurement_i j : K)
            * m.sinf (-d.linear_phase_drift_rate * (IQ_MEASUREMENT_SPACING : K) * (j : K))
          + (d.measurement_q j : K)
            * m.cosf (-d.linear_phase_drift_rate * (IQ_MEASUREMENT_SPACING : K) * (j : K))))
    d ⟨sameSamples_refl d, fun j hj => absurd hj (Nat.not_lt_zero j)⟩
    (by
      intro k hk s hs
      obtain ⟨hs1, hs2⟩ := hs
      have hkn : k < d.measurement_sample_count := by simpa using hk
      have hget : (List.range d.measurement_sample_count).get ⟨k, hk⟩ = k := by simp
      rw [hget]
      refine ⟨_, compensate_measurement_samples_step_eq m _ s k (by omega), hs1, ?_⟩
      intro j hj
      by_cases hjk : j = k
      · subst hjk
        simp only [if_true, hs1.2.2.2.2.2.1, hs1.2.2.2.2.2.2, and_self]
      · simp only [hjk, if_false]
        exact hs2 j (by omega))
  exact ⟨d1, e1, hs, by simpa using hp⟩

/-- Magnitude and first sample under a library with `cos^2 + sin^2 = 1`,
`cos 0 = 1` and `sin 0 = 0`. -/
theorem compensation_rotation {K : Type} [LinearOrderedField K] (m : libm K)
    (hpyth : ∀ t, m.cosf t ^ 2 + m.sinf t ^ 2 = 1) (hcos : m.cosf 0 = 1)
    (hsin : m.sinf 0 = 0) (d : iq_data K)
    (hini : d.initialized = true) (hnm : d.measurement_sample_count ≤ 37) :
    ∃ d1, compensate_measurement_samples m d = some d1 ∧
      (∀ i, i < d.measurement_sample_count →
        d1.measurement_i_compensated i ^ 2 + d1.measurement_q_compensated i ^ 2
          = (d.measurement_i i : K) ^ 2 + (d.measurement_q i : K) ^ 2) ∧
      (0 < d.measurement_sample_count →
        d1.measurement_i_compensated 0 = (d.measurement_i 0 : K) ∧
        d1.measurement_q_compensated 0 = (d.measurement_q 0 : K)) := by
  obtain ⟨d1, e1, _, h1⟩ := compensation_closed m d hini hnm
  refine ⟨d1, e1, ?_, ?_⟩
  · intro i hi
    obtain ⟨a, b⟩ := h1 i hi
    rw [a, b]
    have := hpyth (-d.linear_phase_drift_rate * (IQ_MEASUREMENT_SPACING : K) * (i : K))
    linear_combination
      ((d.measurement_i i : K) ^ 2 + (d.measurement_q i : K) ^ 2) * this
  · intro h0
    obtain ⟨a, b⟩ := h1 0 h0
    rw [a, b]
    simp only [Nat.cast_zero, mul_zero, hcos, hsin, mul_one, sub_zero, zero_add, and_self]

/-- C36: over the reals, for every initialised IQ data structure with at most
37 measurement samples (whatever its drift rate), `compensate_measurement_samples`
returns, every compensated sample `i < n_msr` has the squared magnitude of the
measurement sample (`Ic^2 + Qc^2 = I^2 + Q^2` for the compensated `Ic`,
`Qc`), and compensated sample 0 is measurement sample 0. -/
theorem compensation_preserves_magnitude (d : iq_data ℝ) (hini : d.initialized = true)
    (hnm : d.measurement_sample_count ≤ 37) :
    ∃ d1,
      compensate_measurement_samples
        { atan2f := fun y x => Complex.arg ⟨x, y⟩, cosf := Real.cos, sinf := Real.sin,
          sqrtf := Real.sqrt, asinf := Real.arcsin, M_PI := Real.pi } d = some d1 ∧
      (∀ i, i < d.measurement_sample_count →
        d1.measurement_i_compensated i ^ 2 + d1.measurement_q_compensated i ^ 2
          = (d.measurement_i i : ℝ) ^ 2 + (d.measurement_q i : ℝ) ^ 2) ∧
      (0 < d.measurement_sample_count →
        d1.measurement_i_compensated 0 = (d.measurement_i 0 : ℝ) ∧
        d1.measurement_q_compensated 0 = (d.measurement_q 0 : ℝ)) :=
  compensation_rotation
    { atan2f := fun y x => Complex.arg ⟨x, y⟩, cosf := Real.cos, sinf := Real.sin,
      sqrtf := Real.sqrt, asinf := Real.arcsin, M_PI := Real.pi }
    (fun t => Real.cos_sq_add_sin_sq t) Real.cos_zero Real.sin_zero d hini hnm

/-- Witness for C36: the structure `constantPhaseData` (3 measurement samples)
with drift rate `1/10`. -/
theorem compensation_preserves_magnitude_witness :
    ∃ d1,
      compensate_measurement_samples
        { atan2f := fun y x => Complex.arg ⟨x, y⟩, cosf := Real.cos, sinf := Real.sin,
          sqrtf := Real.sqrt, asinf := Real.arcsin, M_PI := Real.pi }
        { (constantPhaseData : iq_data ℝ) with linear_phase_drift_rate := 1 / 10 }
        = some d1 ∧
      (∀ i, i < 3 →
        d1.measurement_i_compensated i ^ 2 + d1.measurement_q_compensated i ^ 2
          = (((constantPhaseData : iq_data ℝ).measurement_i i : Int) : ℝ) ^ 2
            + (((constantPhaseData : iq_data ℝ).measurement_q i : Int) : ℝ) ^ 2) ∧
      (0 < 3 →
        d1.measurement_i_compensated 0 = -1 ∧ d1.measurement_q_compensated 0 = 0) := by
  obtain ⟨d1, e1, h1, h0⟩ := compensation_preserves_magnitude
    { (constantPhaseData : iq_data ℝ) with linear_phase_drift_rate := 1 / 10 } rfl
    (by show 3 ≤ 37; decide)
  refine ⟨d1, e1, h1, fun _ => ?_⟩
  have := h0 (by show 0 < 3; decide)
  simpa [constantPhaseData, blankIqData] using this

/-! ## Theorems: the interferometry divisor -/

theorem wavenumber_pos_low {K : Type} [LinearOrderedField K] (c : Nat) (h : c < 20) :
    0 < (ble_channel_get_wavenumber c : K) := by
  unfold ble_channel_get_wavenumber
  rw [if_pos (by omega)]
  interval_cases c <;>
    simp only [ble_channel_wavenumbers, List.getD_cons_zero, List.getD_cons_succ] <;>
    norm_num

theorem wavenumber_pos_high {K : Type} [LinearOrderedField K] (c : Nat) (h0 : 20 ≤ c)
    (h : c < 40) : 0 < (ble_channel_get_wavenumber c : K) := by
  unfold ble_channel_get_wavenumber
  rw [if_pos h]
  interval_cases c <;>
    simp only [ble_channel_wavenumbers, List.getD_cons_zero, List.getD_cons_succ] <;>
    norm_num

/-- The wavenumber of a valid channel index is positive. -/
theorem wavenumber_pos {K : Type} [LinearOrderedField K] (c : Nat) (h : c < 40) :
    0 < (ble_channel_get_wavenumber c : K) := by
  by_cases h20 : c < 20
  · exact wavenumber_pos_low c h20
  · exact wavenumber_pos_high c (by omega) h

/-- The wavenumber of an index past the table is the sentinel 0. -/
theorem wavenumber_out_of_range {K : Type} [Field K] (c : Nat) (h : 40 ≤ c) :
    (ble_channel_get_wavenumber c : K) = 0 := by
  unfold ble_channel_get_wavenumber
  rw [if_neg (by omega)]

/-- The divisor `D = wavenumber * 37.5` is positive exactly for the valid
channel indices, and zero otherwise. -/
theorem divisor_pos_iff {K : Type} [LinearOrderedField K] (c : Nat) :
    (c < 40 → 0 < (ble_channel_get_wavenumber c : K) * antenna_spacing_orthogonal) ∧
    (40 ≤ c → (ble_channel_get_wavenumber c : K) * antenna_spacing_orthogonal = 0) := by
  constructor
  · intro h
    exact mul_pos (wavenumber_pos c h) (by unfold antenna_spacing_orthogonal; norm_num)
  · intro h
    rw [wavenumber_out_of_range c h, zero_mul]

/-- One step of the pair loop is defined while both counters are below 32; it
raises one counter by one when both indices are in range and the direction is
`0..3`. -/
theorem interferometry_step_defined {K : Type} [LinearOrderedField K] (m : libm K)
    (d : iq_data K) (D : K) (acc : interferometry_deltas K) (a b dir : Nat)
    (hnm : d.measurement_sample_count ≤ 37)
    (hh : acc.horizontal_count < 32) (hv : acc.vertical_count < 32) :
    ∃ acc1, iq_data_aod_interferometry_step m d D acc (a, b, dir) = some acc1 ∧
      acc.horizontal_count ≤ acc1.horizontal_count ∧
      acc.vertical_count ≤ acc1.vertical_count ∧
      acc1.horizontal_count + acc1.vertical_count
        ≤ acc.horizontal_count + acc.vertical_count + 1 ∧
      (a < d.measurement_sample_count → b < d.measurement_sample_count →
        ((dir = 0 ∨ dir = 1) → acc1.horizontal_count = acc.horizontal_count + 1) ∧
        ((dir = 2 ∨ dir = 3) → acc1.vertical_count = acc.vertical_count + 1)) := by
  by_cases hskip : d.measurement_sample_count ≤ a ∨ d.measurement_sample_count ≤ b
  · rw [interferometry_step_skip m d D acc a b dir hskip]
    refine ⟨acc, rfl, le_refl _, le_refl _, by omega, ?_⟩
    intro ha hb
    omega
  · have ha : a < d.measurement_sample_count := by omega
    have hb : b < d.measurement_sample_count := by omega
    have hc : ¬ (a ≥ d.measurement_sample_count ∨ b ≥ d.measurement_sample_count) := by
      omega
    unfold iq_data_aod_interferometry_step
    simp only [hc, if_false, aget_lt 37 _ a (by omega), aget_lt 37 _ b (by omega),
      Option.bind_eq_bind, Option.some_bind]
    rcases dir with _ | _ | _ | _ | n
    · simp only [aset_lt 32 _ _ _ hh, Option.some_bind, Option.pure_def]
      refine ⟨_, rfl, ?_, ?_, ?_, ?_⟩
      all_goals simp
      all_goals omega
    · simp only [aset_lt 32 _ _ _ hh, Option.some_bind, Option.pure_def]
      refine ⟨_, rfl, ?_, ?_, ?_, ?_⟩
      all_goals simp
      all_goals omega
    · simp only [aset_lt 32 _ _ _ hv, Option.some_bind, Option.pure_def]
      refine ⟨_, rfl, ?_, ?_, ?_, ?_⟩
      all_goals simp
      all_goals omega
    · simp only [aset_lt 32 _ _ _ hv, Option.some_bind, Option.pure_def]
      refine ⟨_, rfl, ?_, ?_, ?_, ?_⟩
      all_goals simp
      all_goals omega
    · refine ⟨acc, rfl, le_refl _, le_refl _, by omega, ?_⟩
      intro _ _
      constructor <;> intro h <;> omega

/-- The pair loop runs to its end for at most 37 measurement samples, and
with at least 3 of them both delta arrays receive an entry (pairs `{0, 1, 3}`
and `{1, 2, 0}`). -/
theorem interferometry_loop_defined {K : Type} [LinearOrderedField K] (m : libm K)
    (d : iq_data K) (D : K) (deltas0 : Nat → K)
    (hnm : d.measurement_sample_count ≤ 37) :
    ∃ acc, measurement_pairs.foldlM (iq_data_aod_interferometry_step m d D)
        { horizontal_deltas := deltas0, horizontal_count := 0,
          vertical_deltas := deltas0, vertical_count := 0 } = some acc ∧
      (3 ≤ d.measurement_sample_count →
        0 < acc.horizontal_count ∧ 0 < acc.vertical_count) := by
  obtain ⟨acc, e, hsum, hpos⟩ := foldlM_option_indexed
    (iq_data_aod_interferometry_step m d D) measurement_pairs
    (fun k acc => acc.horizontal_count + acc.vertical_count ≤ k ∧
      (3 ≤ d.measurement_sample_count →
        (1 ≤ k → 1 ≤ acc.vertical_count) ∧ (2 ≤ k → 1 ≤ acc.horizontal_count)))
    { horizontal_deltas := deltas0, horizontal_count := 0,
      vertical_deltas := deltas0, vertical_count := 0 }
    ⟨le_refl _, fun _ => ⟨fun h => absurd h (by decide), fun h => absurd h (by decide)⟩⟩
    (by
      intro k hk acc hacc
      obtain ⟨hs, hp⟩ := hacc
      have hk32 : k < 32 := hk
      obtain ⟨acc1, e1, m1, m2, m3, m4⟩ := interferometry_step_defined m d D acc
        (measurement_pairs.get ⟨k, hk⟩).1 (measurement_pairs.get ⟨k, hk⟩).2.1
        (measurement_pairs.get ⟨k, hk⟩).2.2 hnm (by omega) (by omega)
      refine ⟨acc1, e1, by omega, ?_⟩
      intro h3
      obtain ⟨p1, p2⟩ := hp h3
      constructor
      · intro hk1
        by_cases hk0 : k = 0
        · subst hk0
          have := (m4 (by show 0 < d.measurement_sample_count; omega)
            (by show 1 < d.measurement_sample_count; omega)).2 (Or.inr rfl)
          omega
        · have := p1 (by omega)
          omega
      · intro hk2
        by_cases hk1 : k = 1
        · subst hk1
          have := (m4 (by show 1 < d.measurement_sample_count; omega)
            (by show 2 < d.measurement_sample_count; omega)).1 (Or.inl rfl)
          omega
        · have := p2 (by omega)
          omega)
  refine ⟨acc, e, ?_⟩
  intro h3
  obtain ⟨p1, p2⟩ := hpos h3
  have hl : measurement_pairs.length = 32 := rfl
  rw [hl] at p1 p2
  exact ⟨p2 (by norm_num), p1 (by norm_num)⟩

/-- The one-sided clamps applied to a direction cosine. -/
theorem clamp_unit_range {K : Type} [LinearOrderedField K] (c : K) :
    -1 ≤ (if (if c > 1 then 1 else c) < -1 then -1 else (if c > 1 then 1 else c)) ∧
    (if (if c > 1 then 1 else c) < -1 then -1 else (if c > 1 then 1 else c)) ≤ 1 := by
  by_cases h1 : c > 1
  · simp only [h1, if_true]
    norm_num
  · simp only [h1, if_false]
    by_cases h2 : c < -1
    · simp only [h2, if_true]
      norm_num
    · simp only [h2, if_false]
      exact ⟨not_lt.mp h2, not_lt.mp h1⟩

/-- The interferometry step on at least 3 (and at most 37) measurement
samples: undefined for a zero divisor `D`, and otherwise it returns with
`cx` and `cy` in `[-1, 1]`, `cz = sqrtf(max(0, 1 - cx^2 - cy^2))`,
azimuth `atan2f(cx, cz)` and elevation `asinf(cy)`. -/
theorem interferometry_long {K : Type} [LinearOrderedField K] (m : libm K)
    (deltas0 : Nat → K) (d : iq_data K) (hini : d.initialized = true)
    (h3 : 3 ≤ d.measurement_sample_count) (h37 : d.measurement_sample_count ≤ 37) :
    ((ble_channel_get_wavenumber d.channel_index : K) * antenna_spacing_orthogonal = 0 →
      iq_data_aod_interferometry m deltas0 d = none) ∧
    ((ble_channel_get_wavenumber d.channel_index : K) * antenna_spacing_orthogonal ≠ 0 →
      ∃ cx cy : K, (-1 ≤ cx ∧ cx ≤ 1) ∧ (-1 ≤ cy ∧ cy ≤ 1) ∧
        iq_data_aod_interferometry m deltas0 d
          = some { d with
              local_direction_cosine_x := cx,
              local_direction_cosine_y := cy,
              local_direction_cosine_z :=
                m.sqrtf (if 1 - (cx * cx + cy * cy) < 0 then 0 else 1 - (cx * cx + cy * cy)),
              aod_azimuth := m.atan2f cx
                (m.sqrtf (if 1 - (cx * cx + cy * cy) < 0 then 0
                  else 1 - (cx * cx + cy * cy))),
              aod_elevation := m.asinf cy }) := by
  obtain ⟨acc, e, hpos⟩ := interferometry_loop_defined m d
    ((ble_channel_get_wavenumber d.channel_index : K) * antenna_spacing_orthogonal)
    deltas0 h37
  obtain ⟨ph, pv⟩ := hpos h3
  have hi : ¬ d.initialized = false := by rw [hini]; simp
  have hm : ¬ d.measurement_sample_count < 3 := by omega
  constructor
  · intro hD
    unfold iq_data_aod_interferometry
    rw [if_neg hi, if_neg hm]
    have hz : ∀ a : K, fdiv a
        ((ble_channel_get_wavenumber d.channel_index : K) * antenna_spacing_orthogonal)
          = none := by
      intro a
      unfold fdiv
      rw [if_pos hD]
    simp only [e, Option.bind_eq_bind, Option.some_bind, gt_iff_lt, ph, pv, if_true, hz,
      Option.none_bind]
  · intro hD
    unfold iq_data_aod_interferometry
    rw [if_neg hi, if_neg hm]
    simp only [e, Option.bind_eq_bind, Option.some_bind, gt_iff_lt, ph, pv, if_true,
      fdiv_ne _ _ hD, Option.pure_def]
    exact ⟨_, _, clamp_unit_range _, clamp_unit_range _, rfl⟩

/-- The stages before the interferometry step always run to their end; they
leave the sample counts of `iq_data_init` and the channel index of the frame. -/
theorem pipeline_before_interferometry {K : Type} [LinearOrderedField K] (m : libm K)
    (d : iq_data K) (deltas0 : Nat → K) (raw : iq_raw_samples) :
    ∃ d4,
      (((iq_data_init d raw).bind iq_data_temp_fix_ref_samples).bind
        (estimate_linear_phase_drift_rate m)).bind (compensate_measurement_samples m)
          = some d4 ∧
      HasCounts d4 true (min raw.sample_count 8)
        (min raw.sample_count 45 - min raw.sample_count 8) ∧
      d4.channel_index = raw.channel_index ∧
      iq_data_process_pipeline m d deltas0 raw = iq_data_aod_interferometry m deltas0 d4 := by
  obtain ⟨d1, e1, hini, hnr, hnm, ⟨_, hch, _⟩, _⟩ := iq_data_init_copies d raw
  have c1 : HasCounts d1 true (min raw.sample_count 8)
      (min raw.sample_count 45 - min raw.sample_count 8) := ⟨hini, hnr, hnm⟩
  have hr8 : min raw.sample_count 8 ≤ 8 := by omega
  have hm37 : min raw.sample_count 45 - min raw.sample_count 8 ≤ 37 := by omega
  obtain ⟨d2, e2, c2⟩ := iq_data_temp_fix_ref_samples_counts d1 true _ _ c1 hr8
  obtain ⟨d3, e3, c3⟩ := estimate_linear_phase_drift_rate_counts m d2 true _ _ c2 hr8
  obtain ⟨d4, e4, c4⟩ := compensate_measurement_samples_counts m d3 true _ _ c3 hm37
  have k2 : d2.channel_index = d1.channel_index :=
    congrArg (fun h => h.2.1) (temp_fix_header d1 d2 e2)
  have k3 : d3.channel_index = d2.channel_index :=
    congrArg (fun h => h.2.1) (estimate_linear_phase_drift_rate_header m d2 d3 e3)
  have k4 : d4.channel_index = d3.channel_index :=
    congrArg (fun h => h.2.1) (compensate_measurement_samples_header m d3 d4 e4)
  refine ⟨d4, ?_, c4, by rw [k4, k3, k2, hch], ?_⟩
  · simp only [e1, e2, e3, e4, Option.bind_eq_bind, Option.some_bind]
  · unfold iq_data_process_pipeline
    simp only [e1, e2, e3, e4, Option.bind_eq_bind, Option.some_bind]

/-- The claim of C31 fails on the code: the frame `outOfRangeFrame` (channel
index 40, 8 reference and 3 measurement samples) passes `iq_data_init`, the
sign fix, the drift estimate and the compensation, and reaches the
interferometry step with 3 measurement samples and the divisor
`D = ble_channel_get_wavenumber(40) * 37.5 = 0`; the divisions by `D` have no
value. -/
theorem divisor_zero_on_channel_40 :
    (∃ d4 : iq_data ℚ,
      (((iq_data_init blankIqData outOfRangeFrame).bind iq_data_temp_fix_ref_samples).bind
        (estimate_linear_phase_drift_rate constantLibm)).bind
          (compensate_measurement_samples constantLibm) = some d4 ∧
      d4.initialized = true ∧ d4.measurement_sample_count = 3 ∧
      (ble_channel_get_wavenumber d4.channel_index : ℚ) * antenna_spacing_orthogonal = 0) ∧
    iq_data_process_pipeline constantLibm blankIqData (fun _ => 0) outOfRangeFrame
      = none := by
  obtain ⟨d4, e4, c4, hch, hp⟩ := pipeline_before_interferometry constantLibm
    blankIqData (fun _ => 0) outOfRangeFrame
  have hD : (ble_channel_get_wavenumber d4.channel_index : ℚ) * antenna_spacing_orthogonal
      = 0 := by
    rw [hch]
    exact (divisor_pos_iff 40).2 (le_refl 40)
  have hnm : d4.measurement_sample_count = 3 := c4.2.2
  refine ⟨⟨d4, e4, c4.1, hnm, hD⟩, ?_⟩
  rw [hp]
  exact (interferometry_long constantLibm (fun _ => 0) d4 c4.1 (by omega) (by omega)).1 hD

/-- C31 (amended): for every raw IQ frame with a valid channel index
(`0..39`), whatever its samples and the math library, the divisor
`D = ble_channel_get_wavenumber(channel_index) * 37.5` is strictly positive and
the pipeline runs to its end: the divisions `-h / D` and `-v / D` are defined.
For a channel index of 40 or more `D` is zero. -/
theorem divisor_positive_on_valid_channel {K : Type} [LinearOrderedField K] (m : libm K)
    (d : iq_data K) (deltas0 : Nat → K) (raw : iq_raw_samples)
    (hc : raw.channel_index < 40) :
    0 < (ble_channel_get_wavenumber raw.channel_index : K) * antenna_spacing_orthogonal ∧
    (∃ r, iq_data_process_pipeline m d deltas0 raw = some r) ∧
    ∀ c : Nat, 40 ≤ c →
      (ble_channel_get_wavenumber c : K) * antenna_spacing_orthogonal = 0 := by
  refine ⟨(divisor_pos_iff raw.channel_index).1 hc, ?_, fun c => (divisor_pos_iff c).2⟩
  obtain ⟨d4, _, c4, hch, hp⟩ := pipeline_before_interferometry m d deltas0 raw
  rw [hp]
  by_cases h3 : d4.measurement_sample_count < 3
  · exact ⟨_, iq_data_aod_interferometry_short m deltas0 d4 _ _ c4
      (by rw [← c4.2.2]; exact h3)⟩
  · have h37 : d4.measurement_sample_count ≤ 37 := by
      rw [c4.2.2]; omega
    have hD : (ble_channel_get_wavenumber d4.channel_index : K) * antenna_spacing_orthogonal
        ≠ 0 := by
      rw [hch]
      exact ne_of_gt ((divisor_pos_iff raw.channel_index).1 hc)
    obtain ⟨cx, cy, _, _, e⟩ :=
      (interferometry_long m deltas0 d4 c4.1 (by omega) h37).2 hD
    exact ⟨_, e⟩

/-- Witness for C31 (amended): the frame `alternatingFrame` on channel 18. -/
theorem divisor_positive_on_valid_channel_witness :
    0 < (ble_channel_get_wavenumber alternatingFrame.channel_index : ℚ)
          * antenna_spacing_orthogonal ∧
    ∃ r, iq_data_process_pipeline constantLibm blankIqData (fun _ => 0) alternatingFrame
      = some r :=
  ⟨(divisor_positive_on_valid_channel constantLibm blankIqData (fun _ => 0)
      alternatingFrame (by decide)).1,
   (divisor_positive_on_valid_channel constantLibm blankIqData (fun _ => 0)
      alternatingFrame (by decide)).2.1⟩

/-! ## Theorems: ranges of the direction cosines and angles -/

/-- The clamped radicand of `direction_cosine_z` has a square root in
`[0, 1]`. -/
theorem sqrt_clamped_range (cx cy : ℝ) :
    0 ≤ Real.sqrt (if 1 - (cx * cx + cy * cy) < 0 then 0 else 1 - (cx * cx + cy * cy)) ∧
    Real.sqrt (if 1 - (cx * cx + cy * cy) < 0 then 0 else 1 - (cx * cx + cy * cy)) ≤ 1 := by
  refine ⟨Real.sqrt_nonneg _, ?_⟩
  rw [Real.sqrt_le_iff]
  refine ⟨by norm_num, ?_⟩
  by_cases h : 1 - (cx * cx + cy * cy) < 0
  · rw [if_pos h]; norm_num
  · rw [if_neg h]
    nlinarith [mul_self_nonneg cx, mul_self_nonneg cy]

/-- The principal argument of a point with non-negative real part lies in
`[-pi/2, pi/2]`. -/
theorem arg_right_half_plane (x y : ℝ) (hx : 0 ≤ x) :
    -(Real.pi / 2) ≤ Complex.arg ⟨x, y⟩ ∧ Complex.arg ⟨x, y⟩ ≤ Real.pi / 2 :=
  abs_le.mp ((Complex.abs_arg_le_pi_div_two_iff (z := ⟨x, y⟩)).mpr hx)

/-- Ranges of the interferometry results under the real math library. -/
theorem interferometry_ranges (m : libm ℝ)
    (hat : ∀ y x, m.atan2f y x = Complex.arg ⟨x, y⟩)
    (hsq : ∀ x, m.sqrtf x = Real.sqrt x) (has : ∀ x, m.asinf x = Real.arcsin x)
    (deltas0 : Nat → ℝ) (d : iq_data ℝ) (hini : d.initialized = true)
    (h37 : d.measurement_sample_count ≤ 37) (hc : d.channel_index < 40) :
    ∃ r, iq_data_aod_interferometry m deltas0 d = some r ∧
      (-1 ≤ r.local_direction_cosine_x ∧ r.local_direction_cosine_x ≤ 1) ∧
      (-1 ≤ r.local_direction_cosine_y ∧ r.local_direction_cosine_y ≤ 1) ∧
      (0 ≤ r.local_direction_cosine_z ∧ r.local_direction_cosine_z ≤ 1) ∧
      r.aod_azimuth
        = Complex.arg ⟨r.local_direction_cosine_z, r.local_direction_cosine_x⟩ ∧
      (-(Real.pi / 2) ≤ r.aod_azimuth ∧ r.aod_azimuth ≤ Real.pi / 2) ∧
      r.aod_elevation = Real.arcsin r.local_direction_cosine_y ∧
      (-(Real.pi / 2) ≤ r.aod_elevation ∧ r.aod_elevation ≤ Real.pi / 2) := by
  by_cases h3 : d.measurement_sample_count < 3
  · refine ⟨_, iq_data_aod_interferometry_short m deltas0 d _ _ ⟨hini, rfl, rfl⟩ h3, ?_⟩
    have harg : Complex.arg ⟨1, 0⟩ = 0 := by
      have : (⟨1, 0⟩ : ℂ) = 1 := rfl
      rw [this, Complex.arg_one]
    have hpi := Real.pi_pos
    refine ⟨by norm_num, by norm_num, by norm_num, harg.symm, ?_, Real.arcsin_zero.symm, ?_⟩
    · constructor <;> simp only <;> linarith
    · constructor <;> simp only <;> linarith
  · have hD : (ble_channel_get_wavenumber d.channel_index : ℝ) * antenna_spacing_orthogonal
        ≠ 0 := ne_of_gt ((divisor_pos_iff d.channel_index).1 hc)
    obtain ⟨cx, cy, hx, hy, e⟩ :=
      (interferometry_long m deltas0 d hini (by omega) h37).2 hD
    refine ⟨_, e, hx, hy, ?_, ?_, ?_, has cy, ?_⟩
    · show 0 ≤ m.sqrtf _ ∧ m.sqrtf _ ≤ 1
      rw [hsq]
      exact sqrt_clamped_range cx cy
    · show m.atan2f cx (m.sqrtf _) = Complex.arg ⟨m.sqrtf _, cx⟩
      rw [hat]
    · show -(Real.pi / 2) ≤ m.atan2f cx (m.sqrtf _) ∧ m.atan2f cx (m.sqrtf _) ≤ Real.pi / 2
      rw [hat, hsq]
      exact arg_right_half_plane _ cx (Real.sqrt_nonneg _)
    · show -(Real.pi / 2) ≤ m.asinf cy ∧ m.asinf cy ≤ Real.pi / 2
      rw [has]
      exact ⟨Real.neg_pi_div_two_le_arcsin cy, Real.arcsin_le_pi_div_two cy⟩

/-- C37 (amended): for every raw IQ frame with a valid channel index (`0..39`)
the pipeline runs to its end and the interferometry step leaves `cx` and `cy`
in `[-1, 1]` and `cz` in `[0, 1]`, and with the exact (real) `atan2` and `asin`
the azimuth `atan2(cx, cz)` is in `[-pi/2, pi/2]` and the elevation `asin(cy)`
in `[-pi/2, pi/2]`. -/
theorem direction_cosines_and_angles_in_range (d : iq_data ℝ) (deltas0 : Nat → ℝ)
    (raw : iq_raw_samples) (hc : raw.channel_index < 40) :
    ∃ r,
      iq_data_process_pipeline
        { atan2f := fun y x => Complex.arg ⟨x, y⟩, cosf := Real.cos, sinf := Real.sin,
          sqrtf := Real.sqrt, asinf := Real.arcsin, M_PI := Real.pi }
        d deltas0 raw = some r ∧
      (-1 ≤ r.local_direction_cosine_x ∧ r.local_direction_cosine_x ≤ 1) ∧
      (-1 ≤ r.local_direction_cosine_y ∧ r.local_direction_cosine_y ≤ 1) ∧
      (0 ≤ r.local_direction_cosine_z ∧ r.local_direction_cosine_z ≤ 1) ∧
      r.aod_azimuth
        = Complex.arg ⟨r.local_direction_cosine_z, r.local_direction_cosine_x⟩ ∧
      (-(Real.pi / 2) ≤ r.aod_azimuth ∧ r.aod_azimuth ≤ Real.pi / 2) ∧
      r.aod_elevation = Real.arcsin r.local_direction_cosine_y ∧
      (-(Real.pi / 2) ≤ r.aod_elevation ∧ r.aod_elevation ≤ Real.pi / 2) := by
  obtain ⟨d4, _, c4, hch, hp⟩ := pipeline_before_interferometry
    { atan2f := fun y x => Complex.arg ⟨x, y⟩, cosf := Real.cos, sinf := Real.sin,
      sqrtf := Real.sqrt, asinf := Real.arcsin, M_PI := Real.pi }
    d deltas0 raw
  rw [hp]
  exact interferometry_ranges _ (fun _ _ => rfl) (fun _ => rfl) (fun _ => rfl) deltas0 d4
    c4.1 (by rw [c4.2.2]; omega) (by rw [hch]; exact hc)

/-- Witness for C37 (amended): the frame `alternatingFrame` on channel 18. -/
theorem direction_cosines_and_angles_in_range_witness :
    ∃ r,
      iq_data_process_pipeline
        { atan2f := fun y x => Complex.arg ⟨x, y⟩, cosf := Real.cos, sinf := Real.sin,
          sqrtf := Real.sqrt, asinf := Real.arcsin, M_PI := Real.pi }
        blankIqData (fun _ => 0) alternatingFrame = some r ∧
      (-1 ≤ r.local_direction_cosine_x ∧ r.local_direction_cosine_x ≤ 1) ∧
      (-1 ≤ r.local_direction_cosine_y ∧ r.local_direction_cosine_y ≤ 1) ∧
      (0 ≤ r.local_direction_cosine_z ∧ r.local_direction_cosine_z ≤ 1) ∧
      r.aod_azimuth
        = Complex.arg ⟨r.local_direction_cosine_z, r.local_direction_cosine_x⟩ ∧
      (-(Real.pi / 2) ≤ r.aod_azimuth ∧ r.aod_azimuth ≤ Real.pi / 2) ∧
      r.aod_elevation = Real.arcsin r.local_direction_cosine_y ∧
      (-(Real.pi / 2) ≤ r.aod_elevation ∧ r.aod_elevation ≤ Real.pi / 2) :=
  direction_cosines_and_angles_in_range blankIqData (fun _ => 0) alternatingFrame
    (by decide)

/-! ## Theorems: pair encodings -/

/-- The pair-loop step on a horizontal pair with both indices in range. -/
theorem interferometry_step_horizontal {K : Type} [LinearOrderedField K] (m : libm K)
    (d : iq_data K) (D : K) (acc : interferometry_deltas K) (a b : Nat)
    (hnm : d.measurement_sample_count ≤ 37) (ha : a < d.measurement_sample_count)
    (hb : b < d.measurement_sample_count) (hh : acc.horizontal_count < 32) :
    iq_data_aod_interferometry_step m d D acc (a, b, 0)
      = some { acc with
          horizontal_deltas := fun j =>
            if j = acc.horizontal_count then
              (if interferometry_delta m (d.measurement_i_compensated a)
                    (d.measurement_q_compensated a) (d.measurement_i_compensated b)
                    (d.measurement_q_compensated b) > D then D
                else if interferometry_delta m (d.measurement_i_compensated a)
                    (d.measurement_q_compensated a) (d.measurement_i_compensated b)
                    (d.measurement_q_compensated b) < -D then -D
                else interferometry_delta m (d.measurement_i_compensated a)
                    (d.measurement_q_compensated a) (d.measurement_i_compensated b)
                    (d.measurement_q_compensated b))
            else acc.horizontal_deltas j,
          horizontal_count := acc.horizontal_count + 1 } ∧
    iq_data_aod_interferometry_step m d D acc (a, b, 1)
      = some { acc with
          horizontal_deltas := fun j =>
            if j = acc.horizontal_count then
              -(if interferometry_delta m (d.measurement_i_compensated a)
                    (d.measurement_q_compensated a) (d.measurement_i_compensated b)
                    (d.measurement_q_compensated b) > D then D
                else if interferometry_delta m (d.measurement_i_compensated a)
                    (d.measurement_q_compensated a) (d.measurement_i_compensated b)
                    (d.measurement_q_compensated b) < -D then -D
                else interferometry_delta m (d.measurement_i_compensated a)
                    (d.measurement_q_compensated a) (d.measurement_i_compensated b)
                    (d.measurement_q_compensated b))
            else acc.horizontal_deltas j,
          horizontal_count := acc.horizontal_count + 1 } := by
  have hc : ¬ (a ≥ d.measurement_sample_count ∨ b ≥ d.measurement_sample_count) := by
    omega
  constructor
  · rw [iq_data_aod_interferometry_step_delta]
    simp only [hc, if_false, aget_lt 37 _ a (by omega), aget_lt 37 _ b (by omega),
      aset_lt 32 _ _ _ hh, Option.bind_eq_bind, Option.some_bind, Option.pure_def]
  · rw [iq_data_aod_interferometry_step_delta]
    simp only [hc, if_false, aget_lt 37 _ a (by omega), aget_lt 37 _ b (by omega),
      aset_lt 32 _ _ _ hh, Option.bind_eq_bind, Option.some_bind, Option.pure_def]

/-- The pair-loop step on a vertical pair with both indices in range. -/
theorem interferometry_step_vertical {K : Type} [LinearOrderedField K] (m : libm K)
    (d : iq_data K) (D : K) (acc : interferometry_deltas K) (a b : Nat)
    (hnm : d.measurement_sample_count ≤ 37) (ha : a < d.measurement_sample_count)
    (hb : b < d.measurement_sample_count) (hv : acc.vertical_count < 32) :
    iq_data_aod_interferometry_step m d D acc (a, b, 2)
      = some { acc with
          vertical_deltas := fun j =>
            if j = acc.vertical_count then
              (if interferometry_delta m (d.measurement_i_compensated a)
                    (d.measurement_q_compensated a) (d.measurement_i_compensated b)
                    (d.measurement_q_compensated b) > D then D
                else if interferometry_delta m (d.measurement_i_compensated a)
                    (d.measurement_q_compensated a) (d.measurement_i_compensated b)
                    (d.measurement_q_compensated b) < -D then -D
                else interferometry_delta m (d.measurement_i_compensated a)
                    (d.measurement_q_compensated a) (d.measurement_i_compensated b)
                    (d.measurement_q_compensated b))
            else acc.vertical_deltas j,
          vertical_count := acc.vertical_count + 1 } ∧
    iq_data_aod_interferometry_step m d D acc (a, b, 3)
      = some { acc with
          vertical_deltas := fun j =>
            if j = acc.vertical_count then
              -(if interferometry_delta m (d.measurement_i_compensated a)
                    (d.measurement_q_compensated a) (d.measurement_i_compensated b)
                    (d.measurement_q_compensated b) > D then D
                else if interferometry_delta m (d.measurement_i_compensated a)
                    (d.measurement_q_compensated a) (d.measurement_i_compensated b)
                    (d.measurement_q_compensated b) < -D then -D
                else interferometry_delta m (d.measurement_i_compensated a)
                    (d.measurement_q_compensated a) (d.measurement_i_compensated b)
                    (d.measurement_q_compensated b))
            else acc.vertical_deltas j,
          vertical_count := acc.vertical_count + 1 } := by
  have hc : ¬ (a ≥ d.measurement_sample_count ∨ b ≥ d.measurement_sample_count) := by
    omega
  constructor
  · rw [iq_data_aod_interferometry_step_delta]
    simp only [hc, if_false, aget_lt 37 _ a (by omega), aget_lt 37 _ b (by omega),
      aset_lt 32 _ _ _ hv, Option.bind_eq_bind, Option.some_bind, Option.pure_def]
  · rw [iq_data_aod_interferometry_step_delta]
    simp only [hc, if_false, aget_lt 37 _ a (by omega), aget_lt 37 _ b (by omega),
      aset_lt 32 _ _ _ hv, Option.bind_eq_bind, Option.some_bind, Option.pure_def]

/-- The clamp to `[-D, D]` commutes with negation when `D` is not negative. -/
theorem clamp_neg {K : Type} [LinearOrderedField K] (D x : K) (hD : 0 ≤ D) :
    -(if -x > D then D else if -x < -D then -D else -x)
      = (if x > D then D else if x < -D then -D else x) := by
  by_cases h1 : x > D
  · have h2 : ¬ (-x > D) := by
      intro h; linarith
    have h3 : -x < -D := by linarith
    simp only [h1, h2, h3, if_true, if_false, neg_neg]
  · by_cases h4 : x < -D
    · have h5 : -x > D := by linarith
      simp only [h1, h4, h5, if_true, if_false]
    · have h6 : ¬ (-x > D) := by
        intro h; linarith
      have h7 : ¬ (-x < -D) := by
        intro h; linarith
      simp only [h1, h4, h6, h7, if_false, neg_neg]

/-- Swapping the two samples negates the delta, unless they are in exact
antiphase. -/
theorem interferometry_delta_swap (m : libm ℝ)
    (hat : ∀ y x, m.atan2f y x = Complex.arg ⟨x, y⟩) (i1 q1 i2 q2 : ℝ)
    (h : ¬ (q1 * i2 - i1 * q2 = 0 ∧ i1 * i2 + q1 * q2 < 0)) :
    interferometry_delta m i2 q2 i1 q1 = -interferometry_delta m i1 q1 i2 q2 := by
  unfold interferometry_delta
  simp only [hat]
  have hz : (⟨i2 * i1 + q2 * q1, q2 * i1 - i2 * q1⟩ : ℂ)
      = (starRingEnd ℂ) (⟨i1 * i2 + q1 * q2, q1 * i2 - i1 * q2⟩ : ℂ) := by
    apply Complex.ext
    · simp only [Complex.conj_re]; ring
    · simp only [Complex.conj_im]; ring
  rw [hz, Complex.arg_conj]
  have hne : ¬ Complex.arg (⟨i1 * i2 + q1 * q2, q1 * i2 - i1 * q2⟩ : ℂ) = Real.pi := by
    rw [Complex.arg_eq_pi_iff]
    intro hh
    exact h ⟨hh.2, hh.1⟩
  rw [if_neg hne]

/-- The two encodings of a pair give the same step, under a library whose
`atan2f` is the principal argument. -/
theorem pair_encodings_of_real (m : libm ℝ)
    (hat : ∀ y x, m.atan2f y x = Complex.arg ⟨x, y⟩) (d : iq_data ℝ) (D : ℝ)
    (acc : interferometry_deltas ℝ) (a b : Nat) (hD : 0 ≤ D)
    (hnm : d.measurement_sample_count ≤ 37) (ha : a < d.measurement_sample_count)
    (hb : b < d.measurement_sample_count)
    (hh : acc.horizontal_count < 32) (hv : acc.vertical_count < 32)
    (hanti : ¬ (d.measurement_q_compensated a * d.measurement_i_compensated b
          - d.measurement_i_compensated a * d.measurement_q_compensated b = 0 ∧
        d.measurement_i_compensated a * d.measurement_i_compensated b
          + d.measurement_q_compensated a * d.measurement_q_compensated b < 0)) :
    iq_data_aod_interferometry_step m d D acc (a, b, 0)
      = iq_data_aod_interferometry_step m d D acc (b, a, 1) ∧
    iq_data_aod_interferometry_step m d D acc (a, b, 2)
      = iq_data_aod_interferometry_step m d D acc (b, a, 3) := by
  have hswap := interferometry_delta_swap m hat _ _ _ _ hanti
  constructor
  · rw [(interferometry_step_horizontal m d D acc a b hnm ha hb hh).1,
      (interferometry_step_horizontal m d D acc b a hnm hb ha hh).2, hswap, clamp_neg _ _ hD]
  · rw [(interferometry_step_vertical m d D acc a b hnm ha hb hv).1,
      (interferometry_step_vertical m d D acc b a hnm hb ha hv).2, hswap, clamp_neg _ _ hD]

/-! ## Theorems: phase unwrapping -/

/-- The reference phases in closed form. -/
theorem reference_phases_closed {K : Type} [LinearOrderedField K] (m : libm K)
    (d : iq_data K) (hini : d.initialized = true) (hnr : d.reference_sample_count ≤ 8) :
    ∃ d1, calculate_reference_phases m d = some d1 ∧ SameSamples d d1 ∧
      (∀ j, j < d.reference_sample_count →
        d1.reference_phases j = m.atan2f (d.reference_q j : K) (d.reference_i j : K)) := by
  unfold calculate_reference_phases
  rw [if_neg (by rw [hini]; simp)]
  obtain ⟨d1, e1, hs, hp⟩ := foldlM_option_indexed (calculate_reference_phases_step m)
    (List.range d.reference_sample_count)
    (fun k s => SameSamples d s ∧ (∀ j, j < k →
      s.reference_phases j = m.atan2f (d.reference_q j : K) (d.reference_i j : K)))
    d ⟨sameSamples_refl d, fun j hj => absurd hj (Nat.not_lt_zero j)⟩
    (by
      intro k hk s hs
      obtain ⟨hs1, hs2⟩ := hs
      have hkn : k < d.reference_sample_count := by simpa using hk
      have hget : (List.range d.reference_sample_count).get ⟨k, hk⟩ = k := by simp
      rw [hget]
      refine ⟨_, calculate_reference_phases_step_eq m s k (by omega), hs1, ?_⟩
      intro j hj
      by_cases hjk : j = k
      · subst hjk
        simp only [if_true]
        rw [hs1.2.2.2.1, hs1.2.2.2.2.1]
      · simp only [hjk, if_false]
        exact hs2 j (by omega))
  exact ⟨d1, e1, hs, by simpa using hp⟩

/-- The recurrence that `unwrap_reference_phases` computes: each unwrapped
phase is the raw phase shifted by at most one turn, according to its
difference from the previous unwrapped phase. -/
theorem unwrap_recurrence {K : Type} [LinearOrderedField K] (m : libm K)
    (d1 : iq_data K) (hini : d1.initialized = true)
    (hnr : d1.reference_sample_count ≤ 8) :
    ∃ d2, unwrap_reference_phases m d1 = some d2 ∧ SameSamples d1 d2 ∧
      d2.reference_phases = d1.reference_phases ∧
      (0 < d1.reference_sample_count →
        d2.reference_phases_unwrapped 0 = d1.reference_phases 0) ∧
      (∀ i, 1 ≤ i → i < d1.reference_sample_count →
        d2.reference_phases_unwrapped i
          = (if d1.reference_phases i - d2.reference_phases_unwrapped (i - 1) > m.M_PI then
              d1.reference_phases i - 2 * m.M_PI
            else if d1.reference_phases i - d2.reference_phases_unwrapped (i - 1)
                < -m.M_PI then
              d1.reference_phases i + 2 * m.M_PI
            else d1.reference_phases i)) := by
  unfold unwrap_reference_phases
  rw [if_neg (by rw [hini]; simp)]
  by_cases h0 : d1.reference_sample_count = 0
  · rw [if_pos h0]
    exact ⟨d1, rfl, sameSamples_refl d1, rfl, fun h => absurd h (by omega),
      fun i _ hi => absurd hi (by omega)⟩
  · rw [if_neg h0]
    simp only [aget_lt 8 _ 0 (by omega), aset_lt 8 _ 0 _ (by omega),
      Option.bind_eq_bind, Option.some_bind]
    obtain ⟨d2, e2, hs, hp, hu0, hu⟩ := foldlM_option_indexed (unwrap_reference_phases_step m)
      (List.range' 1 (d1.reference_sample_count - 1))
      (fun k s => SameSamples d1 s ∧ s.reference_phases = d1.reference_phases ∧
        s.reference_phases_unwrapped 0 = d1.reference_phases 0 ∧
        (∀ i, 1 ≤ i → i < k + 1 →
          s.reference_phases_unwrapped i
            = (if d1.reference_phases i - s.reference_phases_unwrapped (i - 1) > m.M_PI then
                d1.reference_phases i - 2 * m.M_PI
              else if d1.reference_phases i - s.reference_phases_unwrapped (i - 1)
                  < -m.M_PI then
                d1.reference_phases i + 2 * m.M_PI
              else d1.reference_phases i)))
      { d1 with reference_phases_unwrapped := fun j =>
          if j = 0 then d1.reference_phases 0 else d1.reference_phases_unwrapped j }
      ⟨⟨rfl, rfl, rfl, rfl, rfl, rfl, rfl⟩, rfl, by simp, fun i h1 h2 => absurd h2 (by omega)⟩
      (by
        intro k hk s hs
        obtain ⟨hs1, hs2, hs3, hs4⟩ := hs
        have hk7 : k < d1.reference_sample_count - 1 := by simpa using hk
        have hget : (List.range' 1 (d1.reference_sample_count - 1)).get ⟨k, hk⟩ = k + 1 := by
          simp [List.getElem_range']
          omega
        rw [hget]
        refine ⟨_, unwrap_reference_phases_step_eq m s (k + 1) (by omega), hs1, hs2, ?_, ?_⟩
        · have h0k : ¬ (0 = k + 1) := by omega
          simp only [h0k, if_false]
          exact hs3
        · intro i h1 h2
          have hpred : ¬ (i - 1 = k + 1) := by omega
          by_cases hik : i = k + 1
          · subst hik
            simp only [if_true, hpred, if_false, hs2]
          · simp only [hik, hpred, if_false]
            exact hs4 i h1 (by omega))
    refine ⟨d2, e2, hs, hp, fun _ => hu0, ?_⟩
    intro i h1 h2
    refine hu i h1 ?_
    simp only [List.length_range']
    omega

/-- The unwrapped phases of `quarterTurnData` under a library whose `atan2f`
is the principal argument. -/
theorem quarter_turn_unwrapped (m : libm ℝ)
    (hat : ∀ y x, m.atan2f y x = Complex.arg ⟨x, y⟩) (hpi : m.M_PI = Real.pi) :
    ∃ d1 d2, calculate_reference_phases m quarterTurnData = some d1 ∧
      unwrap_reference_phases m d1 = some d2 ∧
      (∀ i, i < 8 → -Real.pi < d1.reference_phases i ∧ d1.reference_phases i ≤ Real.pi) ∧
      d2.reference_phases_unwrapped 5 = -(5 * Real.pi / 2) ∧
      d2.reference_phases_unwrapped 6 = -Real.pi := by
  have hpos := Real.pi_pos
  have a0 : Complex.arg ⟨((1 : Int) : ℝ), ((0 : Int) : ℝ)⟩ = 0 := by
    have : (⟨((1 : Int) : ℝ), ((0 : Int) : ℝ)⟩ : ℂ) = 1 := by
      apply Complex.ext <;> simp
    rw [this, Complex.arg_one]
  have a1 : Complex.arg ⟨((0 : Int) : ℝ), ((-1 : Int) : ℝ)⟩ = -(Real.pi / 2) := by
    have : (⟨((0 : Int) : ℝ), ((-1 : Int) : ℝ)⟩ : ℂ) = -Complex.I := by
      apply Complex.ext <;> simp
    rw [this, Complex.arg_neg_I]
  have a2 : Complex.arg ⟨((-1 : Int) : ℝ), ((0 : Int) : ℝ)⟩ = Real.pi := by
    have : (⟨((-1 : Int) : ℝ), ((0 : Int) : ℝ)⟩ : ℂ) = -1 := by
      apply Complex.ext <;> simp
    rw [this, Complex.arg_neg_one]
  have a3 : Complex.arg ⟨((0 : Int) : ℝ), ((1 : Int) : ℝ)⟩ = Real.pi / 2 := by
    have : (⟨((0 : Int) : ℝ), ((1 : Int) : ℝ)⟩ : ℂ) = Complex.I := by
      apply Complex.ext <;> simp
    rw [this, Complex.arg_I]
  obtain ⟨d1, e1, s1, hp⟩ := reference_phases_closed m quarterTurnData rfl
    (by show 8 ≤ 8; decide)
  have n8 : d1.reference_sample_count = 8 := s1.2.1
  obtain ⟨d2, e2, _, _, hu0, hrec⟩ := unwrap_recurrence m d1 s1.1 (by rw [n8])
  have p0 : d1.reference_phases 0 = 0 :=
    (hp 0 (by show 0 < 8; decide)).trans ((hat _ _).trans a0)
  have p1 : d1.reference_phases 1 = -(Real.pi / 2) :=
    (hp 1 (by show 1 < 8; decide)).trans ((hat _ _).trans a1)
  have p2 : d1.reference_phases 2 = Real.pi :=
    (hp 2 (by show 2 < 8; decide)).trans ((hat _ _).trans a2)
  have p3 : d1.reference_phases 3 = Real.pi / 2 :=
    (hp 3 (by show 3 < 8; decide)).trans ((hat _ _).trans a3)
  have p4 : d1.reference_phases 4 = 0 :=
    (hp 4 (by show 4 < 8; decide)).trans ((hat _ _).trans a0)
  have p5 : d1.reference_phases 5 = -(Real.pi / 2) :=
    (hp 5 (by show 5 < 8; decide)).trans ((hat _ _).trans a1)
  have p6 : d1.reference_phases 6 = Real.pi :=
    (hp 6 (by show 6 < 8; decide)).trans ((hat _ _).trans a2)
  have u0 : d2.reference_phases_unwrapped 0 = 0 := (hu0 (by rw [n8]; decide)).trans p0
  have u1 : d2.reference_phases_unwrapped 1 = -(Real.pi / 2) := by
    have h := hrec 1 (by decide) (by rw [n8]; decide)
    simp only [show (1 - 1 : Nat) = 0 from rfl, p1, u0, hpi] at h
    split_ifs at h with c1 c2 <;> first | (exfalso; linarith) | linarith
  have u2 : d2.reference_phases_unwrapped 2 = -Real.pi := by
    have h := hrec 2 (by decide) (by rw [n8]; decide)
    simp only [show (2 - 1 : Nat) = 1 from rfl, p2, u1, hpi] at h
    split_ifs at h with c1 c2 <;> first | (exfalso; linarith) | linarith
  have u3 : d2.reference_phases_unwrapped 3 = -(3 * Real.pi / 2) := by
    have h := hrec 3 (by decide) (by rw [n8]; decide)
    simp only [show (3 - 1 : Nat) = 2 from rfl, p3, u2, hpi] at h
    split_ifs at h with c1 c2 <;> first | (exfalso; linarith) | linarith
  have u4 : d2.reference_phases_unwrapped 4 = -(2 * Real.pi) := by
    have h := hrec 4 (by decide) (by rw [n8]; decide)
    simp only [show (4 - 1 : Nat) = 3 from rfl, p4, u3, hpi] at h
    split_ifs at h with c1 c2 <;> first | (exfalso; linarith) | linarith
  have u5 : d2.reference_phases_unwrapped 5 = -(5 * Real.pi / 2) := by
    have h := hrec 5 (by decide) (by rw [n8]; decide)
    simp only [show (5 - 1 : Nat) = 4 from rfl, p5, u4, hpi] at h
    split_ifs at h with c1 c2 <;> first | (exfalso; linarith) | linarith
  have u6 : d2.reference_phases_unwrapped 6 = -Real.pi := by
    have h := hrec 6 (by decide) (by rw [n8]; decide)
    simp only [show (6 - 1 : Nat) = 5 from rfl, p6, u5, hpi] at h
    split_ifs at h with c1 c2 <;> first | (exfalso; linarith) | linarith
  refine ⟨d1, d2, e1, e2, ?_, u5, u6⟩
  intro i hi
  rw [hp i hi, hat]
  exact ⟨Complex.neg_pi_lt_arg _, Complex.arg_le_pi _⟩

/-- C32 fails on the code: the 8 reference samples of `quarterTurnData` turn
clockwise by a quarter of a circle per sample, so their phases, all principal
values in `(-pi, pi]`, are `0, -pi/2, pi, pi/2, 0, -pi/2, pi, pi/2`;
`unwrap_reference_phases` gives `unwrapped[5] = -5 pi / 2` and
`unwrapped[6] = -pi`, a step of `3 pi / 2 > pi`.  The raw phase is shifted by
one turn at most, whatever the turns already accumulated. -/
theorem unwrap_leaves_residual_wrap :
    ∃ d1 d2,
      calculate_reference_phases
        { atan2f := fun y x => Complex.arg ⟨x, y⟩, cosf := Real.cos, sinf := Real.sin,
          sqrtf := Real.sqrt, asinf := Real.arcsin, M_PI := Real.pi }
        quarterTurnData = some d1 ∧
      unwrap_reference_phases
        { atan2f := fun y x => Complex.arg ⟨x, y⟩, cosf := Real.cos, sinf := Real.sin,
          sqrtf := Real.sqrt, asinf := Real.arcsin, M_PI := Real.pi } d1 = some d2 ∧
      (∀ i, i < 8 → -Real.pi < d1.reference_phases i ∧ d1.reference_phases i ≤ Real.pi) ∧
      d2.reference_phases_unwrapped 5 = -(5 * Real.pi / 2) ∧
      d2.reference_phases_unwrapped 6 = -Real.pi ∧
      ¬ (|d2.reference_phases_unwrapped 6 - d2.reference_phases_unwrapped 5| ≤ Real.pi) := by
  obtain ⟨d1, d2, e1, e2, hr, u5, u6⟩ := quarter_turn_unwrapped
    { atan2f := fun y x => Complex.arg ⟨x, y⟩, cosf := Real.cos, sinf := Real.sin,
      sqrtf := Real.sqrt, asinf := Real.arcsin, M_PI := Real.pi }
    (fun _ _ => rfl) rfl
  refine ⟨d1, d2, e1, e2, hr, u5, u6, ?_⟩
  rw [u5, u6, not_le]
  have hpos := Real.pi_pos
  have : -Real.pi - -(5 * Real.pi / 2) = 3 * Real.pi / 2 := by ring
  rw [this, abs_of_pos (by linarith)]
  linarith

/-! ## Theorems: fix pairing over every frame -/

theorem result_of_pipeline {K : Type} [LinearOrderedField K] (m : libm K)
    (f : process_frame K) (r : iq_data K)
    (h : iq_data_process_pipeline m f.iq_data f.deltas f.iq_raw_samples = some r) :
    iq_data_process_result m f = r := by
  simp only [iq_data_process_result, h]

theorem result_mac {K : Type} [LinearOrderedField K] (m : libm K) (f : process_frame K) :
    (iq_data_process_result m f).beacon_mac = f.iq_raw_samples.beacon_mac := by
  cases h : iq_data_process_pipeline m f.iq_data f.deltas f.iq_raw_samples with
  | none => simp only [iq_data_process_result, h]
  | some r =>
    rw [result_of_pipeline m f r h]
    exact (pipeline_header m _ _ _ r h).1

theorem runProcess_cons {K : Type} [LinearOrderedField K] (m : libm K)
    (f : process_frame K) (fs : List (process_frame K)) (st : process_state K) :
    runProcess m (f :: fs) st
      = ((iq_data_process m st f).1 :: (runProcess m fs (iq_data_process m st f).2).1,
          (runProcess m fs (iq_data_process m st f).2).2) := rfl

/-- After a run: no call pairs two equal MACs, and after a non-empty run the
first-iteration flag is cleared and the held structure carries the MAC of the
last frame. -/
theorem runProcess_held {K : Type} [LinearOrderedField K] (m : libm K)
    (fs : List (process_frame K)) :
    ∀ st : process_state K,
      (∀ c, some c ∈ (runProcess m fs st).1 → c.mac_1 ≠ c.mac_2) ∧
      (∀ p, fs.getLast? = some p →
        (runProcess m fs st).2.first_iteration = false ∧
        (runProcess m fs st).2.previous_iq_data.beacon_mac
          = p.iq_raw_samples.beacon_mac) := by
  induction fs with
  | nil =>
    intro st
    exact ⟨fun c hc => (List.not_mem_nil _ hc).elim, fun p hp => (Option.noConfusion hp)⟩
  | cons f fs ih =>
    intro st
    obtain ⟨hfi, hmac, hcall⟩ := pair_after m.sqrtf st (iq_data_process_result m f)
    obtain ⟨hc1, hlast⟩ := ih (iq_data_process m st f).2
    rw [runProcess_cons]
    refine ⟨?_, ?_⟩
    · intro c hc
      rcases List.mem_cons.mp hc with h | h
      · exact hcall c h.symm
      · exact hc1 c h
    · intro p hp
      cases fs with
      | nil =>
        simp only [List.getLast?_singleton, Option.some.injEq] at hp
        rw [← hp]
        exact ⟨hfi, hmac.trans (result_mac m f)⟩
      | cons g gs =>
        rw [List.getLast?_cons_cons] at hp
        exact hlast p hp

/-- C26: from the state before the first call (`first_iteration` set), for
every sequence of frames `fs` followed by a frame `f`, whatever the frames hold
(a frame whose pipeline divides by zero included), `iq_data_process` calls the
solver for `f` exactly when `f` is not the first frame and its MAC differs from
the MAC of the held structure `previous_iq_data`, which is the MAC of the frame
processed last; the call pairs the held MAC with the MAC of `f`; no call
anywhere in the run has two equal MACs; a frame with the MAC of the held
structure leaves the whole state, the held structure included, unchanged; and
the first frame and every frame with another MAC become the held structure. -/
theorem solver_invoked_iff_new_mac {K : Type} [LinearOrderedField K] (m : libm K)
    (st0 : process_state K) (h0 : st0.first_iteration = true)
    (fs : List (process_frame K)) (f : process_frame K) :
    ((iq_data_process m (runProcess m fs st0).2 f).1.isSome = true ↔
      ∃ p, fs.getLast? = some p ∧
        f.iq_raw_samples.beacon_mac ≠ p.iq_raw_samples.beacon_mac) ∧
    (∀ p, fs.getLast? = some p →
      (runProcess m fs st0).2.previous_iq_data.beacon_mac = p.iq_raw_samples.beacon_mac) ∧
    (∀ c, (iq_data_process m (runProcess m fs st0).2 f).1 = some c →
      c.mac_1 = some (runProcess m fs st0).2.previous_iq_data.beacon_mac ∧
      c.mac_2 = some f.iq_raw_samples.beacon_mac ∧ c.mac_1 ≠ c.mac_2) ∧
    (∀ c, some c ∈ (runProcess m (fs ++ [f]) st0).1 → c.mac_1 ≠ c.mac_2) ∧
    (∀ p, fs.getLast? = some p →
      f.iq_raw_samples.beacon_mac = p.iq_raw_samples.beacon_mac →
      (iq_data_process m (runProcess m fs st0).2 f).2 = (runProcess m fs st0).2) ∧
    ((fs = [] ∨ ∃ p, fs.getLast? = some p ∧
        f.iq_raw_samples.beacon_mac ≠ p.iq_raw_samples.beacon_mac) →
      (iq_data_process m (runProcess m fs st0).2 f).2.previous_iq_data
        = iq_data_process_result m f ∧
      (iq_data_process m (runProcess m fs st0).2 f).2.first_iteration = false) := by
  obtain ⟨_, hlast⟩ := runProcess_held m fs st0
  have hrm := result_mac m f
  have hcases : fs = [] ∨ ∃ p, fs.getLast? = some p := by
    cases hq : fs.getLast? with
    | none => left; exact List.getLast?_eq_none_iff.mp hq
    | some p => right; exact ⟨p, rfl⟩
  refine ⟨?_, fun p hp => (hlast p hp).2, ?_, (runProcess_held m (fs ++ [f]) st0).1, ?_, ?_⟩
  · rcases hcases with hnil | ⟨p, hp⟩
    · subst hnil
      have e : iq_data_process m (runProcess m [] st0).2 f
          = (none, { st0 with previous_iq_data := iq_data_process_result m f,
                              first_iteration := false }) :=
        pair_first m.sqrtf st0 _ h0
      rw [e]
      simp
    · obtain ⟨hfi, hpm⟩ := hlast p hp
      by_cases hmac : f.iq_raw_samples.beacon_mac = p.iq_raw_samples.beacon_mac
      · have e : iq_data_process m (runProcess m fs st0).2 f = (none, (runProcess m fs st0).2) :=
          pair_same m.sqrtf _ _ hfi (by rw [hrm, hpm]; exact hmac)
        rw [e]
        constructor
        · intro h; cases h
        · rintro ⟨q, hq, hne⟩
          rw [hp, Option.some.injEq] at hq
          rw [← hq] at hne
          exact absurd hmac hne
      · have hne : (iq_data_process_result m f).beacon_mac
            ≠ (runProcess m fs st0).2.previous_iq_data.beacon_mac := by
          rw [hrm, hpm]; exact hmac
        have e := pair_new m.sqrtf (runProcess m fs st0).2 (iq_data_process_result m f) hfi hne
        unfold iq_data_process
        rw [e]
        simp only [Option.isSome_some, true_iff]
        exact ⟨p, hp, hmac⟩
  · intro c hcall
    unfold iq_data_process at hcall
    cases hfi : (runProcess m fs st0).2.first_iteration with
    | true => rw [pair_first m.sqrtf _ _ hfi] at hcall; cases hcall
    | false =>
      by_cases hmac : (iq_data_process_result m f).beacon_mac
          = (runProcess m fs st0).2.previous_iq_data.beacon_mac
      · rw [pair_same m.sqrtf _ _ hfi hmac] at hcall; cases hcall
      · rw [pair_new m.sqrtf _ _ hfi hmac] at hcall
        simp only [Option.some.injEq] at hcall
        rw [← hcall]
        refine ⟨rfl, by rw [← hrm], ?_⟩
        simp only [ne_eq, Option.some.injEq]
        exact fun e => hmac e.symm
  · intro p hp hmac
    obtain ⟨hfi, hpm⟩ := hlast p hp
    show (iq_data_process_pair m.sqrtf _ _).2 = _
    rw [pair_same m.sqrtf _ _ hfi (by rw [hrm, hpm]; exact hmac)]
  · intro h
    refine pair_updates m.sqrtf _ _ ?_
    rcases h with hnil | ⟨p, hp, hne⟩
    · subst hnil
      left
      exact h0
    · right
      rw [hrm, (hlast p hp).2]
      exact hne

/-- Witness for C26: the frame `outOfRangeFrame` (channel index 40, MAC
`macA`; its pipeline divides by zero) followed by `shortFrameB` (MAC `macB`),
from `initialProcessState`: the solver is called for the second frame. -/
theorem solver_invoked_iff_new_mac_witness :
    ((iq_data_process constantLibm
        (runProcess constantLibm [frameCall outOfRangeFrame] initialProcessState).2
        (frameCall shortFrameB)).1.isSome = true ↔
      ∃ p, [(frameCall outOfRangeFrame : process_frame ℚ)].getLast? = some p ∧
        (frameCall shortFrameB : process_frame ℚ).iq_raw_samples.beacon_mac
          ≠ p.iq_raw_samples.beacon_mac) ∧
    ∃ p, [(frameCall outOfRangeFrame : process_frame ℚ)].getLast? = some p ∧
      (frameCall shortFrameB : process_frame ℚ).iq_raw_samples.beacon_mac
        ≠ p.iq_raw_samples.beacon_mac :=
  ⟨(solver_invoked_iff_new_mac constantLibm initialProcessState rfl
      [frameCall outOfRangeFrame] (frameCall shortFrameB)).1,
   ⟨frameCall outOfRangeFrame, rfl, by decide⟩⟩

theorem int_log_two_eq {K : Type} [LinearOrderedField K] [FloorRing K] (x : K) (e : Int)
    (h1 : (2 : K) ^ e ≤ x) (h2 : x < (2 : K) ^ (e + 1)) : Int.log 2 x = e := by
  have hx : 0 < x := lt_of_lt_of_le (zpow_pos (by norm_num) e) h1
  have a : e ≤ Int.log 2 x :=
    (Int.zpow_le_iff_le_log (b := 2) (by norm_num) hx (x := e)).mp (by exact_mod_cast h1)
  have b : Int.log 2 x < e + 1 :=
    (Int.lt_zpow_iff_log_lt (b := 2) (by norm_num) hx (x := e + 1)).mp (by exact_mod_cast h2)
  omega

/-- The rounding of a value whose binade `[2^e, 2^(e+1))` and nearest multiple
`n` of the unit in the last place are known. -/
theorem binary32_round_eq {K : Type} [LinearOrderedField K] [FloorRing K] (x : K)
    (e n : Int) (h1 : (2 : K) ^ e ≤ |x|) (h2 : |x| < (2 : K) ^ (e + 1))
    (h3 : (n : K) - 1 / 2 < x / (2 : K) ^ (e - 23))
    (h4 : x / (2 : K) ^ (e - 23) < (n : K) + 1 / 2) :
    binary32_round x = (n : K) * (2 : K) ^ (e - 23) := by
  have hx : x ≠ 0 := by
    intro h
    rw [h, abs_zero] at h1
    exact absurd h1 (not_le.mpr (zpow_pos (by norm_num) e))
  have hlog := int_log_two_eq |x| e h1 h2
  unfold binary32_round
  rw [if_neg hx]
  simp only [hlog]
  by_cases hn : (n : K) ≤ x / (2 : K) ^ (e - 23)
  · have hf : ⌊x / (2 : K) ^ (e - 23)⌋ = n := by
      rw [Int.floor_eq_iff]
      exact ⟨hn, by linarith⟩
    rw [hf, if_pos (by linarith)]
  · have hn1 : x / (2 : K) ^ (e - 23) < (n : K) := not_le.mp hn
    have hf : ⌊x / (2 : K) ^ (e - 23)⌋ = n - 1 := by
      rw [Int.floor_eq_iff]
      push_cast
      exact ⟨by linarith, by linarith⟩
    rw [hf]
    push_cast
    rw [if_neg (by linarith), if_pos (by linarith)]
    ring_nf

theorem binary32_round_zero {K : Type} [LinearOrderedField K] [FloorRing K] :
    binary32_round (0 : K) = 0 := by
  unfold binary32_round
  rw [if_pos rfl]

/-- The claim of C6 fails on the code.  For the global directions
`D1 = (u, 0, 0)` and `D2 = (c, 0, 0)` with the binary32 values
`u = 0x1.fffadep-1 = 16776559 / 2^24` and `c = 0x1.ffc394p-1 = 8384741 / 2^23`,
the code computes `D1_dot_D2 = 16768825 / 2^24`, its square rounded to
`8380219 / 2^23`, and `denominator = 8389 / 2^23 = 0.00100004673...`, which
is not below `0.001f = 8589935 / 2^33`: it does not return
`-LOCATOR_ERROR_PARALLEL_LINES`.  Yet `|1 - (D1.D2)^2| = 0.00099999892... < 0.001`. -/
theorem parallel_test_rounds_above_threshold :
    parallel_lines_test_binary32 (16776559 / 16777216 : ℚ) 0 0 (8384741 / 8388608) 0 0
      = false ∧
    |1 - (dot3 ((16776559 / 16777216 : ℚ), 0, 0) (8384741 / 8388608, 0, 0)) ^ 2| < 0.001 := by
  have r1 : binary32_round ((16776559 / 16777216 : ℚ) * (8384741 / 8388608))
      = 16768825 / 16777216 := by
    rw [binary32_round_eq _ (-1) 16768825 (by rw [abs_of_pos (by norm_num)]; norm_num)
      (by rw [abs_of_pos (by norm_num)]; norm_num) (by norm_num) (by norm_num)]
    norm_num
  have r2 : binary32_round ((16768825 / 16777216 : ℚ)) = 16768825 / 16777216 := by
    rw [binary32_round_eq _ (-1) 16768825 (by rw [abs_of_pos (by norm_num)]; norm_num)
      (by rw [abs_of_pos (by norm_num)]; norm_num) (by norm_num) (by norm_num)]
    norm_num
  have r3 : binary32_round ((16768825 / 16777216 : ℚ) * (16768825 / 16777216))
      = 8380219 / 8388608 := by
    rw [binary32_round_eq _ (-1) 16760438 (by rw [abs_of_pos (by norm_num)]; norm_num)
      (by rw [abs_of_pos (by norm_num)]; norm_num) (by norm_num) (by norm_num)]
    norm_num
  have r4 : binary32_round ((1 : ℚ) - 8380219 / 8388608) = 8389 / 8388608 := by
    rw [binary32_round_eq _ (-10) 8590336 (by rw [abs_of_pos (by norm_num)]; norm_num)
      (by rw [abs_of_pos (by norm_num)]; norm_num) (by norm_num) (by norm_num)]
    norm_num
  have r5 : binary32_round (0.001 : ℚ) = 8589935 / 8589934592 := by
    rw [binary32_round_eq _ (-10) 8589935 (by rw [abs_of_pos (by norm_num)]; norm_num)
      (by rw [abs_of_pos (by norm_num)]; norm_num) (by norm_num) (by norm_num)]
    norm_num
  constructor
  · unfold parallel_lines_test_binary32
    simp only [mul_zero, binary32_round_zero, add_zero, r1, r2, r3, r4, r5]
    rw [abs_of_pos (by norm_num)]
    simp only [decide_eq_false_iff_not, not_lt]
    norm_num
  · unfold dot3
    rw [abs_of_pos (by norm_num)]
    norm_num

theorem binary32_round_one {K : Type} [LinearOrderedField K] [FloorRing K] :
    binary32_round (1 : K) = 1 := by
  rw [binary32_round_eq (1 : K) 0 8388608 (by rw [abs_one]; norm_num)
    (by rw [abs_one]; norm_num) (by norm_num) (by norm_num)]
  norm_num

/-- The binary32 value nearest to `pi` is `0x1.921fb6p+1 = 13176795 / 2^22`,
and it is above `pi`. -/
theorem binary32_round_pi :
    binary32_round Real.pi = 13176795 / 4194304 ∧ Real.pi < 13176795 / 4194304 := by
  have h1 := Real.pi_gt_d20
  have h2 := Real.pi_lt_d20
  have hpos := Real.pi_pos
  constructor
  · rw [binary32_round_eq Real.pi 1 13176795
      (by rw [abs_of_pos hpos]; norm_num; linarith)
      (by rw [abs_of_pos hpos]; norm_num; linarith)
      (by norm_num; linarith) (by norm_num; linarith)]
    norm_num
  · linarith

/-- The claim of C20 fails on the code.  For the compensated samples
`(I1, Q1) = (1, +0)` and `(I2, Q2) = (-1, +0)` the real part is `-1` and the
imaginary part is `(+0)(-1) - (1)(+0) = (-0) - (+0) = -0`, and `atan2f(-0, -1)`
is `-pi` rounded to binary32, `-13176795 / 2^22 = -3.14159274...`, which is
below `-pi`: the delta is not in `(-pi, pi]`. -/
theorem delta_of_antiphase_samples_is_minus_pi :
    binary32_value
        (interferometry_delta_binary32 (atan2f_binary32 (fun y x => Complex.arg ⟨x, y⟩))
          { negative := false, magnitude := 1 } { negative := false, magnitude := 0 }
          { negative := true, magnitude := 1 } { negative := false, magnitude := 0 })
      = -(13176795 / 4194304) ∧
    ¬ (-Real.pi < binary32_value
        (interferometry_delta_binary32 (atan2f_binary32 (fun y x => Complex.arg ⟨x, y⟩))
          { negative := false, magnitude := 1 } { negative := false, magnitude := 0 }
          { negative := true, magnitude := 1 } { negative := false, magnitude := 0 })) := by
  have harg : Complex.arg ⟨-1, 0⟩ = Real.pi := by
    have : (⟨-1, 0⟩ : ℂ) = -1 := by apply Complex.ext <;> simp
    rw [this, Complex.arg_neg_one]
  have hval : binary32_value
        (interferometry_delta_binary32 (atan2f_binary32 (fun y x => Complex.arg ⟨x, y⟩))
          { negative := false, magnitude := 1 } { negative := false, magnitude := 0 }
          { negative := true, magnitude := 1 } { negative := false, magnitude := 0 })
      = -(13176795 / 4194304) := by
    simp only [interferometry_delta_binary32, binary32_mul, binary32_add, binary32_sub,
      atan2f_binary32, binary32_value, mul_one, mul_zero, zero_mul, one_mul,
      binary32_round_zero, binary32_round_one, Bool.xor_false, Bool.xor_true, Bool.not_false,
      Bool.not_true, Bool.false_xor, Bool.true_xor, add_zero, sub_zero, if_true, if_false,
      zero_lt_one, one_ne_zero, false_and, and_false, Bool.false_eq_true, Bool.true_eq_false,
      harg, binary32_round_pi.1, zero_ne_one]
  refine ⟨hval, ?_⟩
  rw [hval, not_lt]
  have := binary32_round_pi.2
  linarith

/-! ## Theorems: angles in binary32 -/

/-- The interferometry step on the measurement samples of `alternatingFrame`,
for a library whose `atan2f(0, -1)` is any value `P` above the clamp bound. -/
theorem alternating_interferometry_angles {K : Type} [LinearOrderedField K] (m : libm K)
    (P : K) (hatm : m.atan2f 0 (-1) = P)
    (hpi : (0.051181 : K) * 37.5 < P) (deltas0 : Nat → K) (dD : iq_data K)
    (hD : AlternatingMeasurement dD)
    (hi : dD.measurement_i_compensated 0 = -1 ∧ dD.measurement_i_compensated 1 = 1 ∧
        dD.measurement_i_compensated 2 = -1)
    (hq : dD.measurement_q_compensated 0 = 0 ∧ dD.measurement_q_compensated 1 = 0 ∧
        dD.measurement_q_compensated 2 = 0) :
    ∃ r, iq_data_aod_interferometry m deltas0 dD = some r ∧
      r.local_direction_cosine_x = -1 ∧ r.local_direction_cosine_y = 1 ∧
      r.local_direction_cosine_z = m.sqrtf 0 ∧
      r.aod_azimuth = m.atan2f (-1) (m.sqrtf 0) ∧ r.aod_elevation = m.asinf 1 := by
  have hDpos : (0 : K) < 0.051181 * 37.5 := by norm_num
  have hDne : (0.051181 : K) * 37.5 ≠ 0 := ne_of_gt hDpos
  have hloop : measurement_pairs.foldlM
      (iq_data_aod_interferometry_step m dD ((0.051181 : K) * 37.5))
      { horizontal_deltas := deltas0, horizontal_count := 0,
        vertical_deltas := deltas0, vertical_count := 0 }
      = some
        { horizontal_deltas := fun j => if j = 0 then (0.051181 : K) * 37.5 else deltas0 j,
          horizontal_count := 1,
          vertical_deltas := fun j => if j = 0 then -((0.051181 : K) * 37.5) else deltas0 j,
          vertical_count := 1 } := by
    have h01 : iq_data_aod_interferometry_step m dD ((0.051181 : K) * 37.5)
        { horizontal_deltas := deltas0, horizontal_count := 0,
          vertical_deltas := deltas0, vertical_count := 0 } (0, 1, 3)
        = some { horizontal_deltas := deltas0, horizontal_count := 0,
                 vertical_deltas := fun j =>
                   if j = 0 then -((0.051181 : K) * 37.5) else deltas0 j,
                 vertical_count := 1 } := by
      unfold iq_data_aod_interferometry_step
      simp only [hD.1.2.2]
      rw [if_neg (by decide)]
      simp only [aget_lt 37 _ 0 (by norm_num), aget_lt 37 _ 1 (by norm_num), hi.1, hi.2.1,
        hq.1, hq.2.1, Option.bind_eq_bind, Option.some_bind]
      have e1 : (0 : K) * 1 - -1 * 0 = 0 := by ring
      have e2 : (-1 : K) * 1 + 0 * 0 = -1 := by ring
      simp only [e1, e2, hatm, if_pos hpi, aset_lt 32 _ 0 _ (by norm_num), Option.some_bind,
        Option.pure_def, Nat.zero_add]
    have h12 : iq_data_aod_interferometry_step m dD ((0.051181 : K) * 37.5)
        { horizontal_deltas := deltas0, horizontal_count := 0,
          vertical_deltas := fun j =>
            if j = 0 then -((0.051181 : K) * 37.5) else deltas0 j,
          vertical_count := 1 } (1, 2, 0)
        = some { horizontal_deltas := fun j =>
                   if j = 0 then (0.051181 : K) * 37.5 else deltas0 j,
                 horizontal_count := 1,
                 vertical_deltas := fun j =>
                   if j = 0 then -((0.051181 : K) * 37.5) else deltas0 j,
                 vertical_count := 1 } := by
      unfold iq_data_aod_interferometry_step
      simp only [hD.1.2.2]
      rw [if_neg (by decide)]
      simp only [aget_lt 37 _ 1 (by norm_num), aget_lt 37 _ 2 (by norm_num), hi.2.1, hi.2.2,
        hq.2.1, hq.2.2, Option.bind_eq_bind, Option.some_bind]
      have e1 : (0 : K) * -1 - 1 * 0 = 0 := by ring
      have e2 : (1 : K) * -1 + 0 * 0 = -1 := by ring
      simp only [e1, e2, hatm, if_pos hpi, aset_lt 32 _ 0 _ (by norm_num), Option.some_bind,
        Option.pure_def, Nat.zero_add]
    have hsplit : measurement_pairs = (0, 1, 3) :: (1, 2, 0) :: measurement_pairs.drop 2 := rfl
    rw [hsplit, List.foldlM_cons, h01]
    simp only [Option.bind_eq_bind, Option.some_bind]
    rw [List.foldlM_cons, h12]
    simp only [Option.bind_eq_bind, Option.some_bind]
    apply interferometry_skip_all
    rw [hD.1.2.2]
    decide
  unfold iq_data_aod_interferometry
  rw [if_neg (by rw [hD.1.1]; simp), if_neg (by rw [hD.1.2.2]; decide)]
  simp only [hD.2.1, wavenumber_18, antenna_spacing_orthogonal, hloop, Option.bind_eq_bind,
    Option.some_bind]
  have hm1 : directional_statistics_circular_mean m
      (fun j => if j = 0 then (0.051181 : K) * 37.5 else deltas0 j) ((1 : Nat) : Int) 5 0.01
      = 0.051181 * 37.5 := by
    simp [directional_statistics_circular_mean]
  have hm2 : directional_statistics_circular_mean m
      (fun j => if j = 0 then -((0.051181 : K) * 37.5) else deltas0 j) ((1 : Nat) : Int) 5 0.01
      = -(0.051181 * 37.5) := by
    simp [directional_statistics_circular_mean]
  have hx : -((0.051181 : K) * 37.5) / (0.051181 * 37.5) = -1 := by
    rw [neg_div, div_self hDne]
  have hy : - -((0.051181 : K) * 37.5) / (0.051181 * 37.5) = 1 := by
    rw [neg_neg, div_self hDne]
  simp only [show (1 : Nat) > 0 by decide, if_true, hm1, hm2, fdiv_ne _ _ hDne, hx, hy,
    Option.some_bind, Option.pure_def]
  have hc1 : ¬ ((-1 : K) > 1) := by norm_num
  have hc2 : ¬ ((-1 : K) < -1) := by norm_num
  have hc3 : ¬ ((1 : K) > 1) := by norm_num
  have hc4 : ¬ ((1 : K) < -1) := by norm_num
  have hz : (1 : K) - (-1 * -1 + 1 * 1) < 0 := by norm_num
  simp only [hc1, hc2, hc3, hc4, hz, if_true, if_false]
  exact ⟨_, rfl, rfl, rfl, rfl, rfl, rfl⟩

/-- The binary32 value nearest to `pi / 2` is `0x1.921fb6p+0 = 13176795 / 2^23`,
and it is above `pi / 2`. -/
theorem binary32_round_half_pi :
    binary32_round (Real.pi / 2) = 13176795 / 8388608 ∧
      Real.pi / 2 < 13176795 / 8388608 := by
  have h1 := Real.pi_gt_d20
  have h2 := Real.pi_lt_d20
  have hpos := Real.pi_pos
  constructor
  · rw [binary32_round_eq (Real.pi / 2) 0 13176795
      (by rw [abs_of_pos (by linarith)]; norm_num; linarith)
      (by rw [abs_of_pos (by linarith)]; norm_num; linarith)
      (by norm_num; linarith) (by norm_num; linarith)]
    norm_num
  · linarith

/-- The frame `alternatingFrame` through the pipeline, for a library whose
`atan2f(0, -1)` is any value `P` above the clamp bound of channel 18. -/
theorem alternating_angles {K : Type} [LinearOrderedField K] (m : libm K) (P : K)
    (hat : m.atan2f 0 1 = 0) (hpos : 0 < m.M_PI) (hatm : m.atan2f 0 (-1) = P)
    (hP : (0.051181 : K) * 37.5 < P) (hcos : m.cosf 0 = 1) (hsin : m.sinf 0 = 0)
    (d : iq_data K) (deltas0 : Nat → K) :
    ∃ r, iq_data_process_pipeline m d deltas0 alternatingFrame = some r ∧
      r.channel_index = 18 ∧ r.local_direction_cosine_y = 1 ∧
      r.aod_elevation = m.asinf 1 := by
  obtain ⟨dA, eA, cA, hch, hri, hrq, hmi, hmq⟩ := alternating_init d
  have hA : AlternatingMeasurement dA := ⟨cA, hch, hmi, hmq⟩
  obtain ⟨dB, eB, hB, hri1, hrq1⟩ := alternating_fix dA hA hri hrq
  obtain ⟨dC, eC, hC, hrate⟩ := alternating_drift m hat hpos dB hB hri1 hrq1
  obtain ⟨dD, eD, hD, hci, hcq⟩ := alternating_compensate m hcos hsin dC hC hrate
  obtain ⟨r, eR, _, hy, _, _, hel⟩ := alternating_interferometry_angles m P hatm hP deltas0
    dD hD hci hcq
  have hchr : r.channel_index = 18 := by
    have h2 : r.channel_index = dD.channel_index :=
      congrArg (fun h => h.2.1) (iq_data_aod_interferometry_header m deltas0 dD r eR)
    rw [h2, hD.2.1]
  refine ⟨r, ?_, hchr, hy, hel⟩
  unfold iq_data_process_pipeline
  simp only [eA, eB, eC, eD, eR, Option.bind_eq_bind, Option.some_bind]

/-- The claim of C37 fails on the code.  With `atan2f`, `cosf`, `sinf`, `sqrtf`
and `asinf` the real functions rounded to binary32 and `M_PI` the `double`
constant, the frame `alternatingFrame` (channel index 18, 3 measurement
samples) runs through the pipeline to `cy = 1` and to the elevation
`asinf(1) = 0x1.921fb6p+0 = 13176795 / 2^23 = 1.57079637...`, the binary32 value
nearest to `pi / 2`, which is above `pi / 2`: the elevation is not in
`[-pi/2, pi/2]`. -/
theorem elevation_above_half_pi :
    ∃ r,
      iq_data_process_pipeline
        { atan2f := fun y x => binary32_round (Complex.arg ⟨x, y⟩),
          cosf := fun t => binary32_round (Real.cos t),
          sinf := fun t => binary32_round (Real.sin t),
          sqrtf := fun t => binary32_round (Real.sqrt t),
          asinf := fun t => binary32_round (Real.arcsin t),
          M_PI := 884279719003555 / 281474976710656 }
        blankIqData (fun _ => 0) alternatingFrame = some r ∧
      r.channel_index = 18 ∧
      r.local_direction_cosine_y = 1 ∧
      r.aod_elevation = 13176795 / 8388608 ∧
      ¬ (r.aod_elevation ≤ Real.pi / 2) := by
  have harg1 : Complex.arg ⟨1, 0⟩ = 0 := by
    have : (⟨1, 0⟩ : ℂ) = 1 := rfl
    rw [this, Complex.arg_one]
  have hargm1 : Complex.arg ⟨-1, 0⟩ = Real.pi := by
    have : (⟨-1, 0⟩ : ℂ) = -1 := by apply Complex.ext <;> simp
    rw [this, Complex.arg_neg_one]
  have hat : binary32_round (Complex.arg ⟨1, 0⟩) = 0 := by
    rw [harg1, binary32_round_zero]
  have hatm : binary32_round (Complex.arg ⟨-1, 0⟩) = 13176795 / 4194304 := by
    rw [hargm1, binary32_round_pi.1]
  have hcos : binary32_round (Real.cos 0) = 1 := by
    rw [Real.cos_zero, binary32_round_one]
  have hsin : binary32_round (Real.sin 0) = 0 := by
    rw [Real.sin_zero, binary32_round_zero]
  have hasin : binary32_round (Real.arcsin 1) = 13176795 / 8388608 := by
    rw [Real.arcsin_one, binary32_round_half_pi.1]
  obtain ⟨r, e, hch, hy, hel⟩ := alternating_angles
    { atan2f := fun y x => binary32_round (Complex.arg ⟨x, y⟩),
      cosf := fun t => binary32_round (Real.cos t),
      sinf := fun t => binary32_round (Real.sin t),
      sqrtf := fun t => binary32_round (Real.sqrt t),
      asinf := fun t => binary32_round (Real.arcsin t),
      M_PI := 884279719003555 / 281474976710656 }
    (13176795 / 4194304) hat (by norm_num) hatm (by norm_num) hcos hsin blankIqData
    (fun _ => 0)
  refine ⟨r, e, hch, hy, hel.trans hasin, ?_⟩
  rw [hel.trans hasin, not_le]
  exact binary32_round_half_pi.2

/-! ## Theorems: pair encodings in antiphase -/

end Datbac
